import Mathlib

/-!
# Lightspark fast ABC interpreter: `ABCVm::executeFunctionFast`

A shallow embedding of `src/scripting/abc_fast_interpreter.cpp`.

* The method body's `code` array is a list of bytes; `instructionPointer` is a
  byte offset into it, `data` is the offset of the operand record of the
  opcode being executed (`code+instructionPointer` after the opcode byte).
* `ASObject*` values are addresses (`Nat`, `0` is the null pointer) into the
  object table of the `SystemState`; every object carries its type tag, its
  reference count and its primitive payload.
* C++ exceptions are the `throw` outcome of the state monad `M`; the state at
  the throw is kept, so that what the caller's handler sees can be stated.
* `assert` is modelled as enabled (the only build in which `code_len` exists):
  a failed `assert` ends the run with `ASError.AssertFailure`.
* Helper primitives that live outside this file of the repository
  (`abc_opcodes.cpp`, `abc.h`, `asobject.h`) are fields of `Env`, except for
  the few that are modelled from the specification; each of those says so.
  A helper reaches the call context and the objects, never the local variable
  `instructionPointer`; the helpers that invoke a function also reach the code
  array of the running method, which a nested run of that method shares.
* Dereferencing an address that names no object is undefined behaviour in the
  source; here such an address fails every `is<T>` test and reference-count
  updates on it are ignored. A store outside the code array leaves it
  unchanged. `instructionPointer` is an unbounded natural number (the
  `uint32_t` of the source does not wrap for code shorter than 2^32 bytes).
* `PROF_ACCOUNT_TIME`, `PROF_IGNORE_TIME`, `LOG` and `LOG_CALL` have no effect
  on the state and are left out, as are the logging-only helpers `pushByte`,
  `pushShort`, `pushTrue`, `pushFalse`, `pop`, `dup`, `swap`, `coerce_a`.
-/

namespace Lightspark

/-! ## Values -/

/-- Modelled from the spec: the discriminated object-type tag of a Value
(§3 Value; `swftypes.h` is not among the sources). -/
inductive SWFOBJECT_TYPE where
  | T_OBJECT
  | T_INTEGER
  | T_NUMBER
  | T_FUNCTION
  | T_UNDEFINED
  | T_NULL
  | T_STRING
  | T_BOOLEAN
  | T_ARRAY
  | T_CLASS
  | T_QNAME
  | T_NAMESPACE
  | T_UINTEGER
  | T_VECTOR
  deriving DecidableEq, Repr

open SWFOBJECT_TYPE

/-- Modelled from the spec: the runtime value cell (§3 Value; `asobject.h` is
not among the sources): the tag, the mutable reference count, and the
primitive payload. `val` is `Integer::val`, `UInteger::val` or `Boolean::val`
(0 or 1); a Number holds `ival` (a 64-bit signed integer) when `isfloat` is
false and `dval` (the 64 bits of an IEEE-754 double) when it is true. -/
structure ASObject where
  type : SWFOBJECT_TYPE
  ref_count : Int
  val : Int
  ival : Int
  dval : Nat
  isfloat : Bool
  deriving DecidableEq, Repr

/-- Modelled from the spec: the error constants named by `convert_o`
(`errorconstants.h` is not among the sources). -/
inductive ErrorConstant where
  | kConvertNullToObjectError
  | kConvertUndefinedToObjectError
  deriving DecidableEq, Repr

/-- The failures of §7. `Thrown n` stands for any error raised inside a
helper primitive. `UndefinedBehaviour` is not an error of the language: it
marks the evaluation of a C++ expression whose behaviour is undefined
(`INT64_MIN % -1`, a trap of the division instruction on the usual targets),
after which the run does not continue. -/
inductive ASError where
  | ParseException
  | TypeError (errorID : ErrorConstant)
  | AssertionException
  | AssertFailure
  | StackOverflow
  | StackUnderflow
  | Thrown (n : Nat)
  | UndefinedBehaviour
  deriving DecidableEq, Repr

/-- Modelled from the spec: the part of the system state the interpreter
reaches (`swf.h` of this revision is not among the sources): the object table
(address `p > 0` names `objects[p-1]`) and the Null and Undefined singletons. -/
structure SystemState where
  objects : List ASObject
  nullRef : Nat
  undefinedRef : Nat
  deriving DecidableEq, Repr

/-- The `call_context` of one invocation (§3 CallContext). `stack` is the
operand stack, top first. `parent_scope_stack` is `none` when the captured
scope is null. `context` is the address of the enclosing ABC context. -/
structure call_context where
  stack : List Nat
  max_stack : Nat
  locals : List Nat
  scope_stack : List Nat
  curr_scope_stack : Nat
  parent_scope_stack : Option (List Nat)
  exec_pos : Nat
  argarrayposition : Int
  context : Nat
  deriving DecidableEq, Repr

/-- What a helper that is handed the `call_context` can reach. -/
structure World where
  context : call_context
  sys : SystemState
  deriving DecidableEq, Repr

/-- What a helper that invokes a function can reach (§4.6: `call`,
`callproperty`, `callsuper`, `callstatic`, `construct`, `constructprop`,
`constructsuper` and their void siblings recursively invoke the interpreter):
besides the context and the system state, the code array of the running
method, which is the shared `mi->body->code`. A nested run of the same method
rewrites its coerce and getlex instructions in that array. -/
structure Machine where
  context : call_context
  sys : SystemState
  code : List Nat
  deriving DecidableEq, Repr

/-- The state of `executeFunctionFast`: the method body's mutable `code`,
the local variable `instructionPointer`, the call context and the system
state. -/
structure VMState where
  code : List Nat
  instructionPointer : Nat
  context : call_context
  sys : SystemState
  deriving DecidableEq, Repr

/-! ## The state-and-exception monad -/

/-- Outcome of a computation over a state `σ`: a value, or a thrown error,
each with the state reached. -/
inductive Res (σ α : Type) where
  | ok (a : α) (s : σ)
  | throw (e : ASError) (s : σ)
  deriving DecidableEq, Repr

/-- Computations over a state `σ` that may throw. -/
def M (σ α : Type) : Type := σ → Res σ α

/-- Return a value without touching the state. -/
def M.pure {σ α : Type} (a : α) : M σ α := fun s => Res.ok a s

/-- Sequencing: a throw ends the computation with the state at the throw. -/
def M.bind {σ α β : Type} (m : M σ α) (f : α → M σ β) : M σ β :=
  fun s => match m s with
    | Res.ok a s1 => f a s1
    | Res.throw e s1 => Res.throw e s1

instance instMonadM {σ : Type} : Monad (M σ) where
  pure := M.pure
  bind := M.bind

/-- A C++ `throw` (also `throwError<T>(id)`). -/
def throwErr {σ α : Type} (e : ASError) : M σ α := fun s => Res.throw e s

/-- Run a helper that only reaches the system state. -/
def onSys {α : Type} (m : M SystemState α) : M VMState α :=
  fun s => match m s.sys with
    | Res.ok a h => Res.ok a { s with sys := h }
    | Res.throw e h => Res.throw e { s with sys := h }

/-- Run a helper that is handed the `call_context` and invokes no function. -/
def onCtx {α : Type} (m : M World α) : M VMState α :=
  fun s => match m { context := s.context, sys := s.sys } with
    | Res.ok a w => Res.ok a { s with context := w.context, sys := w.sys }
    | Res.throw e w => Res.throw e { s with context := w.context, sys := w.sys }

/-- Run a helper that invokes a function: the loop goes on with the code
array the call leaves. -/
def onCall {α : Type} (m : M Machine α) : M VMState α :=
  fun s => match m { context := s.context, sys := s.sys, code := s.code } with
    | Res.ok a w => Res.ok a { s with code := w.code, context := w.context, sys := w.sys }
    | Res.throw e w => Res.throw e { s with code := w.code, context := w.context, sys := w.sys }

/-! ## Objects and reference counts -/

/-- The object an address names, if any. -/
def SystemState.deref (h : SystemState) (p : Nat) : Option ASObject :=
  if p = 0 then none else h.objects[p - 1]?

/-- The type tag test behind `getObjectType()` and `is<T>()`. -/
def SystemState.hasType (h : SystemState) (p : Nat) (t : SWFOBJECT_TYPE) : Bool :=
  match h.deref p with
  | some o => decide (o.type = t)
  | none => false

/-- Add `d` to the reference count of the object at `p`. -/
def SystemState.addRef (h : SystemState) (p : Nat) (d : Int) : SystemState :=
  match h.deref p with
  | some o => { h with objects := h.objects.set (p - 1) { o with ref_count := o.ref_count + d } }
  | none => h

/-- Modelled from the spec: `incRef` (§3 Value: a mutable reference count). -/
def incRef (p : Nat) : M SystemState Unit := fun h => Res.ok () (h.addRef p 1)

/-- Modelled from the spec: `decRef`. Only the count is modelled; the object
stays in the table when the count reaches zero. -/
def decRef (p : Nat) : M SystemState Unit := fun h => Res.ok () (h.addRef p (-1))

/-- Allocate a fresh object holding one reference and return its address. -/
def alloc (o : ASObject) : M SystemState Nat :=
  fun h => Res.ok (h.objects.length + 1) { h with objects := h.objects ++ [o] }

/-- Reduce an integer to the signed 32-bit range (conversion to `int32_t`). -/
def toInt32 (x : Int) : Int :=
  let r := x % 4294967296
  if r < 2147483648 then r else r - 4294967296

/-- Reduce an integer to the unsigned 32-bit range (conversion to `uint32_t`). -/
def toUInt32 (x : Int) : Int := x % 4294967296

/-- Reduce an integer to the signed 64-bit range (conversion to `int64_t`). -/
def toInt64 (x : Int) : Int :=
  let r := x % 18446744073709551616
  if r < 9223372036854775808 then r else r - 18446744073709551616

/-- Modelled from the spec: `abstract_i`, boxing a native `int32_t` as an
Integer (§2 boxing factories; no interning is modelled). -/
def abstract_i (i : Int) : M SystemState Nat :=
  alloc { type := T_INTEGER, ref_count := 1, val := toInt32 i, ival := 0, dval := 0, isfloat := false }

/-- Modelled from the spec: `abstract_ui`, boxing a native `uint32_t` as a
UInteger. -/
def abstract_ui (i : Int) : M SystemState Nat :=
  alloc { type := T_UINTEGER, ref_count := 1, val := toUInt32 i, ival := 0, dval := 0, isfloat := false }

/-- Modelled from the spec: `abstract_d`, boxing a double (given by its 64
bits) as a Number with is-float set. -/
def abstract_d (d : Nat) : M SystemState Nat :=
  alloc { type := T_NUMBER, ref_count := 1, val := 0, ival := 0, dval := d, isfloat := true }

/-- Modelled from the spec: `abstract_di`, boxing an `int64_t` as an integral
Number (is-float false), §4.1. -/
def abstract_di (i : Int) : M SystemState Nat :=
  alloc { type := T_NUMBER, ref_count := 1, val := 0, ival := toInt64 i, dval := 0, isfloat := false }

/-- Modelled from the spec: `abstract_b`, boxing a boolean. -/
def abstract_b (b : Bool) : M SystemState Nat :=
  alloc { type := T_BOOLEAN, ref_count := 1, val := if b then 1 else 0, ival := 0, dval := 0, isfloat := false }

/-- The bits of `Number::NaN`, the quiet NaN of IEEE-754 doubles. -/
def Number.NaN : Nat := 0x7ff8000000000000

/-- A 64-bit pattern is a NaN: exponent all ones, mantissa non-zero. -/
def isNaNBits (d : Nat) : Bool :=
  decide ((d / 4503599627370496) % 2048 = 2047) && decide (d % 4503599627370496 ≠ 0)

/-- Modelled from the spec: `getNullRef`, the Null singleton with one more
reference (§3 Ownership: every stack entry is counted). -/
def getNullRef : M SystemState Nat := fun h => Res.ok h.nullRef (h.addRef h.nullRef 1)

/-- Modelled from the spec: `getUndefinedRef`, the Undefined singleton with
one more reference. -/
def getUndefinedRef : M SystemState Nat :=
  fun h => Res.ok h.undefinedRef (h.addRef h.undefinedRef 1)

/-- Modelled from the spec: `pushNull()` yields the Null value. -/
def pushNull : M SystemState Nat := getNullRef

/-- Modelled from the spec: `pushUndefined()` yields the Undefined value. -/
def pushUndefined : M SystemState Nat := getUndefinedRef

/-- Modelled from the spec: `pushNaN()` yields a Number holding NaN. -/
def pushNaN : M SystemState Nat := abstract_d Number.NaN

/-- The integral test of the fast paths:
`v->is<Integer>() || v->is<UInteger>() || (v->is<Number>() && !v->as<Number>()->isfloat)`. -/
def isIntegral (h : SystemState) (p : Nat) : Bool :=
  match h.deref p with
  | some o => decide (o.type = T_INTEGER) || decide (o.type = T_UINTEGER)
      || (decide (o.type = T_NUMBER) && !o.isfloat)
  | none => false

/-- The test `v->is<Number>() && !v->as<Number>()->isfloat`. -/
def isIntNumber (h : SystemState) (p : Nat) : Bool :=
  match h.deref p with
  | some o => decide (o.type = T_NUMBER) && !o.isfloat
  | none => false

/-! ## The operand stack -/

/-- Modelled from the spec: `runtime_stack_push` (`abc.h` is not among the
sources); the depth is bounded by `max_stack` (§3, §7 StackOverflow). -/
def runtime_stack_push (v : Nat) : M VMState Unit :=
  fun s =>
    if s.context.stack.length < s.context.max_stack then
      Res.ok () { s with context := { s.context with stack := v :: s.context.stack } }
    else Res.throw ASError.StackOverflow s

/-- Modelled from the spec: `runtime_stack_pop`; popping an empty stack
throws (§7 StackUnderflow). -/
def runtime_stack_pop : M VMState Nat :=
  fun s => match s.context.stack with
    | [] => Res.throw ASError.StackUnderflow s
    | v :: rest => Res.ok v { s with context := { s.context with stack := rest } }

/-- Modelled from the spec: `runtime_stack_peek`; the top entry without
popping it, the null pointer when the stack is empty (the callers test the
result for null and pop "to force the exception"). -/
def runtime_stack_peek : M VMState Nat :=
  fun s => match s.context.stack with
    | [] => Res.ok 0 s
    | v :: _ => Res.ok v s

/-! ## Reading and writing the code array -/

/-- The byte at offset `i` (`code[i]` as `uint8_t`). -/
def byteAt (code : List Nat) (i : Nat) : Nat := code.getD i 0 % 256

/-- The little-endian `uint32_t` at byte offset `off`. -/
def readU32 (code : List Nat) (off : Nat) : Nat :=
  byteAt code off + 256 * byteAt code (off + 1) + 65536 * byteAt code (off + 2)
    + 16777216 * byteAt code (off + 3)

/-- The little-endian 64-bit word at byte offset `off` (a double's bits or a
pointer). -/
def readU64 (code : List Nat) (off : Nat) : Nat :=
  readU32 code off + 4294967296 * readU32 code (off + 4)

/-- Store the 64-bit word `v` little-endian at byte offset `off`. -/
def writeU64 (code : List Nat) (off : Nat) (v : Nat) : List Nat :=
  ((((((((code.set off (v % 256)).set (off + 1) (v / 256 % 256)).set (off + 2)
    (v / 65536 % 256)).set (off + 3) (v / 16777216 % 256)).set (off + 4)
    (v / 4294967296 % 256)).set (off + 5) (v / 1099511627776 % 256)).set (off + 6)
    (v / 281474976710656 % 256)).set (off + 7) (v / 72057594037927936 % 256))

/-- The operand `data->uints[k]`. -/
def uints (data k : Nat) : M VMState Nat :=
  fun s => Res.ok (readU32 s.code (data + 4 * k)) s

/-- The operand `data->ints[k]`. -/
def ints (data k : Nat) : M VMState Int :=
  fun s => Res.ok (toInt32 (readU32 s.code (data + 4 * k))) s

/-- The operands `data->doubles[0]`, `data->objs[0]`, `data->names[0]`,
`data->types[0]`: one 64-bit word. -/
def word64 (data : Nat) : M VMState Nat :=
  fun s => Res.ok (readU64 s.code data) s

/-- `instructionPointer+=n`. -/
def advance (n : Nat) : M VMState Unit :=
  fun s => Res.ok () { s with instructionPointer := s.instructionPointer + n }

/-- `instructionPointer=dest`. -/
def setIP (dest : Nat) : M VMState Unit :=
  fun s => Res.ok () { s with instructionPointer := dest }

/-- The current `instructionPointer`. -/
def getIP : M VMState Nat := fun s => Res.ok s.instructionPointer s

/-- `assert(dest < code_len)`. -/
def assertInCode (dest : Nat) : M VMState Unit :=
  fun s => if dest < s.code.length then Res.ok () s else Res.throw ASError.AssertFailure s

/-- `assert_and_throw(cond)`. -/
def assert_and_throw (cond : Bool) : M VMState Unit :=
  fun s => if cond then Res.ok () s else Res.throw ASError.AssertionException s

/-- Read the call context. -/
def getContext : M VMState call_context := fun s => Res.ok s.context s

/-- Read the system state. -/
def getSys : M VMState SystemState := fun s => Res.ok s.sys s

/-- Assign `context->locals[i]`. -/
def setLocalSlot (i v : Nat) : M VMState Unit :=
  fun s => Res.ok () { s with context := { s.context with locals := s.context.locals.set i v } }

/-- The conditional-branch tail shared by the `if*` opcodes:
`if(cond) { assert(dest < code_len); instructionPointer=dest; }`. -/
def branchIf (cond : Bool) (dest : Nat) : M VMState Unit :=
  if cond then do
    assertInCode dest
    setIP dest
  else pure ()

/-! ## Helper primitives defined outside the interpreter's source file -/

/-- The helper primitives the dispatch loop calls and whose code is in other
files of the repository (`abc_opcodes.cpp`, `abc.cpp`, `asobject.cpp`), taken
as parameters. A helper that is handed the `call_context` is a computation on
`World`, or on `Machine` when it invokes a function; one that is handed only
values is a computation on `SystemState`.
Doubles are passed as their 64 bits. The two lookups `getTypeFromMultiname`
and `getVariableAndTargetByMultiname` resolve a name against the application
domain and are reads of the state. -/
structure Env where
  _throw : M World Unit
  getSuper : Nat → M World Unit
  setSuper : Nat → M World Unit
  dxns : Nat → M World Unit
  dxnslate : Nat → M World Unit
  ifNLT : Nat → Nat → M SystemState Bool
  ifNLE : Nat → Nat → M SystemState Bool
  ifNGT : Nat → Nat → M SystemState Bool
  ifNGE : Nat → Nat → M SystemState Bool
  ifTrue : Nat → M SystemState Bool
  ifFalse : Nat → M SystemState Bool
  ifEq : Nat → Nat → M SystemState Bool
  ifNE : Nat → Nat → M SystemState Bool
  isLess : Nat → Nat → M SystemState Bool
  ifLE : Nat → Nat → M SystemState Bool
  ifGT : Nat → Nat → M SystemState Bool
  ifGE : Nat → Nat → M SystemState Bool
  ifStrictEq : Nat → Nat → M SystemState Bool
  ifStrictNE : Nat → Nat → M SystemState Bool
  toUInt : Nat → M SystemState Int
  toInt : Nat → M SystemState Int
  pushWith : M World Unit
  popScope : M World Unit
  pushScope : M World Unit
  nextName : Nat → Nat → M SystemState Nat
  nextValue : Nat → Nat → M SystemState Nat
  pushString : Nat → M World Nat
  pushInt : Int → M World Unit
  pushUInt : Nat → M World Unit
  pushDouble : Nat → M World Unit
  pushNamespace : Nat → M World Nat
  hasNext2 : Nat → Nat → M World Bool
  loadIntN : Nat → M World Unit
  loadFloat : M World Unit
  loadDouble : M World Unit
  storeIntN : Nat → M World Unit
  storeFloat : M World Unit
  storeDouble : M World Unit
  newFunction : Nat → M World Nat
  call : Nat → M Machine Unit
  construct : Nat → M Machine Unit
  callStatic : Nat → Nat → Bool → M Machine Unit
  callSuper : Nat → Nat → Bool → M Machine Unit
  callProperty : Nat → Nat → Bool → M Machine Unit
  constructSuper : Nat → M Machine Unit
  constructProp : Nat → Nat → M Machine Unit
  constructGenericType : Nat → M World Unit
  newObject : Nat → M World Unit
  newArray : Nat → M World Unit
  newActivation : M World Nat
  newClass : Nat → M World Unit
  getDescendants : Nat → M World Unit
  newCatch : Nat → M World Nat
  getMultiname : Nat → M World Nat
  getMultinameNoContext : Nat → Nat → M SystemState Nat
  resetNameIfObject : Nat → M SystemState Unit
  findPropStrict : Nat → M World Nat
  findProperty : Nat → M World Nat
  getLex : Nat → M World Unit
  setProperty : Nat → Nat → Nat → M SystemState Unit
  getProperty : Nat → Nat → M SystemState Nat
  initProperty : Nat → Nat → Nat → M SystemState Unit
  deleteProperty : Nat → Nat → M SystemState Bool
  getSlot : Nat → Nat → M SystemState Nat
  setSlot : Nat → Nat → Nat → M SystemState Unit
  getGlobalScope : M World Nat
  Global_getSlot : Nat → Nat → M SystemState Nat
  Global_setSlot : Nat → Nat → Nat → M SystemState Unit
  getScopeObject : Nat → M World Nat
  setSlotNoCoerce : Nat → Nat → Nat → M SystemState Unit
  convert_s : Nat → M SystemState Nat
  esc_xelem : Nat → M SystemState Nat
  esc_xattr : Nat → M SystemState Nat
  convert_i : Nat → M SystemState Int
  convert_u : Nat → M SystemState Int
  convert_di : Nat → M SystemState Int
  convert_d : Nat → M SystemState Nat
  convert_b : Nat → M SystemState Bool
  checkfilter : Nat → M SystemState Nat
  getTypeFromMultiname : Nat → World → Nat
  Type_coerce : Nat → Nat → M SystemState Nat
  coerce_s : Nat → M SystemState Nat
  asType : Nat → Nat → Nat → M SystemState Nat
  asTypelate : Nat → Nat → M SystemState Nat
  negate_i : Nat → M SystemState Int
  negate : Nat → M SystemState Nat
  increment_i : Nat → M SystemState Int
  increment : Nat → M SystemState Nat
  decrement_i : Nat → M SystemState Int
  decrement_di : Nat → M SystemState Int
  decrement : Nat → M SystemState Nat
  incLocal : Nat → M World Unit
  decLocal : Nat → M World Unit
  incLocal_i : Nat → M World Unit
  decLocal_i : Nat → M World Unit
  typeOf : Nat → M SystemState Nat
  _not : Nat → M SystemState Bool
  bitNot : Nat → M SystemState Int
  add : Nat → Nat → M SystemState Nat
  subtract : Nat → Nat → M SystemState Nat
  multiply : Nat → Nat → M SystemState Nat
  divide : Nat → Nat → M SystemState Nat
  modulo : Nat → Nat → M SystemState Nat
  lShift : Nat → Nat → M SystemState Int
  rShift : Nat → Nat → M SystemState Int
  urShift : Nat → Nat → M SystemState Int
  bitAnd : Nat → Nat → M SystemState Int
  bitOr : Nat → Nat → M SystemState Int
  bitXor : Nat → Nat → M SystemState Int
  equals : Nat → Nat → M SystemState Bool
  strictEquals : Nat → Nat → M SystemState Bool
  lessThan : Nat → Nat → M SystemState Bool
  lessEquals : Nat → Nat → M SystemState Bool
  greaterThan : Nat → Nat → M SystemState Bool
  greaterEquals : Nat → Nat → M SystemState Bool
  instanceOf : Nat → Nat → M SystemState Bool
  isType : Nat → Nat → Nat → M SystemState Bool
  isTypelate : Nat → Nat → M SystemState Bool
  in_ : Nat → Nat → M SystemState Bool
  subtract_i : Nat → Nat → M SystemState Int
  multiply_i : Nat → Nat → M SystemState Int
  getVariableAndTargetByMultiname : Nat → World → Nat

/-! ## Conversions of the value model used inline by the loop -/

/-- Modelled from the spec: `ASObject::toInt64()` on an integral value (§3,
§4.1): the value of an Integer or UInteger, the `ival` of an integral Number.
The loop calls it only after the integral test. -/
def toInt64Value (h : SystemState) (p : Nat) : Int :=
  match h.deref p with
  | some o => if o.type = T_NUMBER then o.ival else o.val
  | none => 0

/-- Modelled from the spec: `ASObject::toInt()` on an integral value: ToInt32
of its 64-bit value (§4.1). The loop calls it inline only after the integral
test. -/
def toIntValue (h : SystemState) (p : Nat) : Int := toInt32 (toInt64Value h p)

/-- Modelled from the spec: `ASObject::toUInt()`, ToUInt32 (§4.1): on an
integral value its value reduced modulo 2^32; every other value goes through
the coercion kernel `env.toUInt`. -/
def toUInt (env : Env) (p : Nat) : M SystemState Int :=
  fun h => if isIntegral h p then Res.ok (toUInt32 (toInt64Value h p)) h
    else match env.toUInt p h with
      | Res.ok u h1 => Res.ok (toUInt32 u) h1
      | Res.throw e h1 => Res.throw e h1

/-- Modelled from the spec: `ASObject::toInt()`, ToInt32 (§4.1), as called by
the integer-typed helpers: on an integral value its value reduced to the
signed 32-bit range; every other value goes through the coercion kernel
`env.toInt`. -/
def toInt (env : Env) (p : Nat) : M SystemState Int :=
  fun h => if isIntegral h p then Res.ok (toIntValue h p) h
    else match env.toInt p h with
      | Res.ok i h1 => Res.ok (toInt32 i) h1
      | Res.throw e h1 => Res.throw e h1

/-- Modelled from the spec: `add_i(val2, val1)` (`abc_opcodes.cpp` is not
among the sources). §8: for 32-bit `a`, `b` the result of `add_i` on boxed
`a`, `b` is `(a + b) mod 2^32`; the operands are converted with ToInt32 and
released (§5: a consumed value is decremented). -/
def add_i (env : Env) (val2 val1 : Nat) : M SystemState Int := do
  let num2 ← toInt env val2
  let num1 ← toInt env val1
  decRef val1
  decRef val2
  pure (toInt32 (num1 + num2))

/-- Modelled from the spec: the relational primitive behind `ifLT`
(§4.1, §4.4 "Condition semantics follow §4.1"): on two integral values the
comparison of their values; every other pair goes through the coercion
kernel `env.isLess`. -/
def isLess (env : Env) (a b : Nat) : M SystemState Bool :=
  fun h => if isIntegral h a && isIntegral h b
    then Res.ok (decide (toInt64Value h a < toInt64Value h b)) h
    else env.isLess a b h

/-- Modelled from the spec: `ifLT(obj2, obj1)` (`abc_opcodes.cpp` is not
among the sources). §8 scenario 2: the branch of `iflt` is taken when the
value pushed first (`obj1`, popped second) is less than the value pushed
second (`obj2`, popped first); both operands are released. -/
def ifLT (env : Env) (obj2 obj1 : Nat) : M SystemState Bool := do
  let ret ← isLess env obj1 obj2
  decRef obj2
  decRef obj1
  pure ret

/-- Conversion to `int8_t` of an unsigned value. -/
def toInt8 (x : Int) : Int :=
  let r := x % 256
  if r < 128 then r else r - 256

/-- Conversion to `int16_t` of an unsigned value. -/
def toInt16 (x : Int) : Int :=
  let r := x % 65536
  if r < 32768 then r else r - 65536

/-- What the body of a `case` does to the loop: `break` (go on with the next
opcode) or `return`. -/
inductive LoopCtl where
  | next
  | ret (v : Nat)
  deriving DecidableEq, Repr

/-! ## The bodies of the `case` blocks

`data` is the offset of the operand record, fixed at the loop head. -/

open LoopCtl

/-- Cases 0x04 getsuper, 0x05 setsuper, 0x06 dxns, 0x53
constructgenerictype, 0x55 newobject, 0x56 newarray, 0x58 newclass, 0x59
getdescendants: `f(context,data->uints[0]); instructionPointer+=4;`. -/
def op_ctx_u32 (f : Nat → M World Unit) (data : Nat) : M VMState LoopCtl := do
  let t ← uints data 0
  onCtx (f t)
  advance 4
  pure next

/-- Cases 0x41 call, 0x42 construct, 0x49 constructsuper, of the same shape:
`f(context,data->uints[0]); instructionPointer+=4;`, where `f` invokes a
function. -/
def op_call_u32 (f : Nat → M Machine Unit) (data : Nat) : M VMState LoopCtl := do
  let t ← uints data 0
  onCall (f t)
  advance 4
  pure next

/-- Case 0x07 dxnslate. -/
def op_dxnslate (env : Env) : M VMState LoopCtl := do
  let v ← runtime_stack_pop
  onCtx (env.dxnslate v)
  pure next

/-- Case 0x08 kill. -/
def op_kill (data : Nat) : M VMState LoopCtl := do
  let t ← uints data 0
  advance 4
  let context ← getContext
  assert_and_throw (decide (context.locals.getD t 0 ≠ 0))
  onSys (decRef (context.locals.getD t 0))
  let u ← onSys getUndefinedRef
  setLocalSlot t u
  pure next

/-- Cases 0x0c..0x0f and 0x13..0x1a, the two-operand conditional branches:
`v1` is popped first, `v2` second, and the condition is `cmp(v1, v2)`. -/
def op_if2 (cmp : Nat → Nat → M SystemState Bool) (data : Nat) : M VMState LoopCtl := do
  let dest ← uints data 0
  advance 4
  let v1 ← runtime_stack_pop
  let v2 ← runtime_stack_pop
  let cond ← onSys (cmp v1 v2)
  branchIf cond dest
  pure next

/-- Case 0x10 jump. -/
def op_jump (data : Nat) : M VMState LoopCtl := do
  let dest ← uints data 0
  advance 4
  assertInCode dest
  setIP dest
  pure next

/-- Cases 0x11 iftrue and 0x12 iffalse. -/
def op_if1 (cmp : Nat → M SystemState Bool) (data : Nat) : M VMState LoopCtl := do
  let dest ← uints data 0
  advance 4
  let v1 ← runtime_stack_pop
  let cond ← onSys (cmp v1)
  branchIf cond dest
  pure next

/-- Case 0x1b lookupswitch. -/
def op_lookupswitch (env : Env) (data : Nat) : M VMState LoopCtl := do
  let defaultdest ← uints data 0
  let count ← uints data 1
  let index_obj ← runtime_stack_pop
  let sys ← getSys
  assert_and_throw (sys.hasType index_obj T_INTEGER)
  let index ← onSys (toUInt env index_obj)
  onSys (decRef index_obj)
  let dest ← if index ≤ count then uints data (2 + index.toNat) else pure defaultdest
  assertInCode dest
  setIP dest
  pure next

/-- Cases 0x1c pushwith, 0x1d popscope, 0x30 pushscope, 0x03 throw and the
alchemy loads and stores: `f(context);`. -/
def op_ctx (f : M World Unit) : M VMState LoopCtl := do
  onCtx f
  pure next

/-- Cases 0x1e nextname and 0x23 nextvalue, 0x87 astypelate. -/
def op_pop2_push (f : Nat → Nat → M SystemState Nat) : M VMState LoopCtl := do
  let v1 ← runtime_stack_pop
  let v2 ← runtime_stack_pop
  let r ← onSys (f v1 v2)
  runtime_stack_push r
  pure next

/-- Cases 0x20 pushnull, 0x21 pushundefined, 0x28 pushnan:
`context->runtime_stack_push(f());`. -/
def op_push_const (f : M SystemState Nat) : M VMState LoopCtl := do
  let r ← onSys f
  runtime_stack_push r
  pure next

/-- Case 0x24 pushbyte: the operand is one signed byte. `pushByte(t)` only
logs. -/
def op_pushbyte : M VMState LoopCtl := do
  let ip ← getIP
  let t ← (fun s => Res.ok (toInt8 (byteAt s.code ip)) s : M VMState Int)
  advance 1
  let r ← onSys (abstract_i t)
  runtime_stack_push r
  pure next

/-- Case 0x25 pushshort: the operand is a full `uint32_t`, boxed through
`abstract_i`. `pushShort(t)` only logs. -/
def op_pushshort (data : Nat) : M VMState LoopCtl := do
  let t ← uints data 0
  advance 4
  let r ← onSys (abstract_i t)
  runtime_stack_push r
  pure next

/-- Cases 0x26 pushtrue and 0x27 pushfalse. -/
def op_pushbool (b : Bool) : M VMState LoopCtl := do
  let r ← onSys (abstract_b b)
  runtime_stack_push r
  pure next

/-- Case 0x29 pop. `pop()` only logs. -/
def op_pop : M VMState LoopCtl := do
  let o ← runtime_stack_pop
  if o ≠ 0 then onSys (decRef o) else pure ()
  pure next

/-- Case 0x2a dup. `dup()` only logs. -/
def op_dup : M VMState LoopCtl := do
  let o ← runtime_stack_peek
  onSys (incRef o)
  runtime_stack_push o
  pure next

/-- Case 0x2b swap. `swap()` only logs. -/
def op_swap : M VMState LoopCtl := do
  let v1 ← runtime_stack_pop
  let v2 ← runtime_stack_pop
  runtime_stack_push v1
  runtime_stack_push v2
  pure next

/-- Cases 0x2c pushstring, 0x31 pushnamespace, 0x40 newfunction, 0x5a newcatch:
`context->runtime_stack_push(f(context,data->uints[0]));
instructionPointer+=4;`. -/
def op_push_ctx_u32 (f : Nat → M World Nat) (data : Nat) : M VMState LoopCtl := do
  let t ← uints data 0
  let r ← onCtx (f t)
  runtime_stack_push r
  advance 4
  pure next

/-- Case 0x2d pushint. -/
def op_pushint (env : Env) (data : Nat) : M VMState LoopCtl := do
  let t ← ints data 0
  advance 4
  onCtx (env.pushInt t)
  let i ← onSys (abstract_i t)
  runtime_stack_push i
  pure next

/-- Case 0x2e pushuint. -/
def op_pushuint (env : Env) (data : Nat) : M VMState LoopCtl := do
  let t ← uints data 0
  advance 4
  onCtx (env.pushUInt t)
  let i ← onSys (abstract_ui t)
  runtime_stack_push i
  pure next

/-- Case 0x2f pushdouble. -/
def op_pushdouble (env : Env) (data : Nat) : M VMState LoopCtl := do
  let t ← word64 data
  advance 8
  onCtx (env.pushDouble t)
  let d ← onSys (abstract_d t)
  runtime_stack_push d
  pure next

/-- Case 0x32 hasnext2. -/
def op_hasnext2 (env : Env) (data : Nat) : M VMState LoopCtl := do
  let t ← uints data 0
  let t2 ← uints data 1
  advance 8
  let ret ← onCtx (env.hasNext2 t t2)
  let r ← onSys (abstract_b ret)
  runtime_stack_push r
  pure next

/-- Case 0x44 callstatic: the two operands are read and the call is made;
the instruction pointer is not advanced past them. -/
def op_callstatic (env : Env) (data : Nat) : M VMState LoopCtl := do
  let t ← uints data 0
  let t2 ← uints data 1
  onCall (env.callStatic t t2 true)
  pure next

/-- Cases 0x45 callsuper, 0x46 callproperty, 0x4c callproplex, 0x4e
callsupervoid, 0x4f callpropvoid: `f(context,t,t2,&called_mi,keepReturn);
instructionPointer+=8;`. -/
def op_call2 (f : Nat → Nat → Bool → M Machine Unit) (keepReturn : Bool) (data : Nat) :
    M VMState LoopCtl := do
  let t ← uints data 0
  let t2 ← uints data 1
  onCall (f t t2 keepReturn)
  advance 8
  pure next

/-- Case 0x47 returnvoid: `return NULL;`. -/
def op_returnvoid : M VMState LoopCtl := pure (ret 0)

/-- Case 0x48 returnvalue. -/
def op_returnvalue : M VMState LoopCtl := do
  let r ← runtime_stack_pop
  pure (ret r)

/-- Case 0x4a constructprop. -/
def op_constructprop (env : Env) (data : Nat) : M VMState LoopCtl := do
  let t ← uints data 0
  let t2 ← uints data 1
  advance 8
  onCall (env.constructProp t t2)
  pure next

/-- Cases 0x50 sxi1, 0x51 sxi8, 0x52 sxi16: `narrow` is what the case
computes from `arg1->toUInt()`. -/
def op_sxi (env : Env) (narrow : Int → Int) : M VMState LoopCtl := do
  let arg1 ← runtime_stack_pop
  let u ← onSys (toUInt env arg1)
  onSys (decRef arg1)
  let r ← onSys (abstract_i (narrow u))
  runtime_stack_push r
  pure next

/-- Case 0x57 newactivation. -/
def op_newactivation (env : Env) : M VMState LoopCtl := do
  let r ← onCtx env.newActivation
  runtime_stack_push r
  pure next

/-- Cases 0x5d findpropstrict and 0x5e findproperty. -/
def op_findprop (env : Env) (f : Nat → M World Nat) (data : Nat) : M VMState LoopCtl := do
  let t ← uints data 0
  advance 4
  let name ← onCtx (env.getMultiname t)
  let r ← onCtx (f name)
  runtime_stack_push r
  onSys (env.resetNameIfObject name)
  pure next

/-- Case 0x5f finddef: not implemented, pushes Null. -/
def op_finddef (env : Env) (data : Nat) : M VMState LoopCtl := do
  let t ← uints data 0
  advance 4
  let name ← onCtx (env.getMultiname t)
  let r ← onSys getNullRef
  runtime_stack_push r
  onSys (env.resetNameIfObject name)
  pure next

/-- Cases 0x60 getlex, 0x92 inclocal, 0x94 declocal, 0xc2 inclocal_i, 0xc3
declocal_i: `t=data->uints[0]; instructionPointer+=4; f(context,t);`. -/
def op_u32_ctx (f : Nat → M World Unit) (data : Nat) : M VMState LoopCtl := do
  let t ← uints data 0
  advance 4
  onCtx (f t)
  pure next

/-- Case 0x61 setproperty. -/
def op_setproperty (env : Env) (data : Nat) : M VMState LoopCtl := do
  let t ← uints data 0
  advance 4
  let value ← runtime_stack_pop
  let name ← onCtx (env.getMultiname t)
  let obj ← runtime_stack_pop
  onSys (env.setProperty value obj name)
  onSys (env.resetNameIfObject name)
  pure next

/-- The common part of getlocal and getlocal_n once the index is known. -/
def getLocalAt (i : Nat) : M VMState LoopCtl := do
  let context ← getContext
  if context.locals.getD i 0 = 0 then do
    let u ← onSys getUndefinedRef
    runtime_stack_push u
    pure next
  else do
    onSys (incRef (context.locals.getD i 0))
    runtime_stack_push (context.locals.getD i 0)
    pure next

/-- Case 0x62 getlocal. -/
def op_getlocal (data : Nat) : M VMState LoopCtl := do
  let i ← uints data 0
  advance 4
  getLocalAt i

/-- The guarded store shared by setlocal and setlocal_n:
`if ((int)i != context->argarrayposition || obj->is<Array>())`. -/
def setLocalGuarded (i obj : Nat) : M VMState Unit := do
  let context ← getContext
  let sys ← getSys
  if toInt32 i ≠ context.argarrayposition ∨ sys.hasType obj T_ARRAY = true then do
    if context.locals.getD i 0 ≠ 0 then onSys (decRef (context.locals.getD i 0)) else pure ()
    setLocalSlot i obj
  else pure ()

/-- Case 0x63 setlocal. -/
def op_setlocal (data : Nat) : M VMState LoopCtl := do
  let i ← uints data 0
  advance 4
  let obj ← runtime_stack_pop
  assert_and_throw (decide (obj ≠ 0))
  setLocalGuarded i obj
  pure next

/-- Case 0x64 getglobalscope: no operand. -/
def op_getglobalscope (env : Env) : M VMState LoopCtl := do
  let r ← onCtx env.getGlobalScope
  runtime_stack_push r
  pure next

/-- Case 0x65 getscopeobject. -/
def op_getscopeobject (env : Env) (data : Nat) : M VMState LoopCtl := do
  let t ← uints data 0
  advance 4
  let r ← onCtx (env.getScopeObject t)
  runtime_stack_push r
  pure next

/-- Case 0x66 getproperty. -/
def op_getproperty (env : Env) (data : Nat) : M VMState LoopCtl := do
  let t ← uints data 0
  advance 4
  let name ← onCtx (env.getMultiname t)
  let obj ← runtime_stack_pop
  let r ← onSys (env.getProperty obj name)
  onSys (env.resetNameIfObject name)
  runtime_stack_push r
  pure next

/-- Case 0x68 initproperty. -/
def op_initproperty (env : Env) (data : Nat) : M VMState LoopCtl := do
  let t ← uints data 0
  advance 4
  let value ← runtime_stack_pop
  let name ← onCtx (env.getMultiname t)
  let obj ← runtime_stack_pop
  onSys (env.initProperty obj value name)
  onSys (env.resetNameIfObject name)
  pure next

/-- Case 0x6a deleteproperty. -/
def op_deleteproperty (env : Env) (data : Nat) : M VMState LoopCtl := do
  let t ← uints data 0
  advance 4
  let name ← onCtx (env.getMultiname t)
  let obj ← runtime_stack_pop
  let r ← onSys (env.deleteProperty obj name)
  onSys (env.resetNameIfObject name)
  let b ← onSys (abstract_b r)
  runtime_stack_push b
  pure next

/-- Case 0x6c getslot. -/
def op_getslot (env : Env) (data : Nat) : M VMState LoopCtl := do
  let t ← uints data 0
  advance 4
  let obj ← runtime_stack_pop
  let r ← onSys (env.getSlot obj t)
  runtime_stack_push r
  pure next

/-- Case 0x6d setslot. -/
def op_setslot (env : Env) (data : Nat) : M VMState LoopCtl := do
  let t ← uints data 0
  advance 4
  let v1 ← runtime_stack_pop
  let v2 ← runtime_stack_pop
  onSys (env.setSlot v1 v2 t)
  pure next

/-- Case 0x6e getglobalslot. -/
def op_getglobalslot (env : Env) (data : Nat) : M VMState LoopCtl := do
  let t ← uints data 0
  advance 4
  let globalscope ← onCtx env.getGlobalScope
  let r ← onSys (env.Global_getSlot globalscope t)
  runtime_stack_push r
  pure next

/-- Case 0x6f setglobalslot. -/
def op_setglobalslot (env : Env) (data : Nat) : M VMState LoopCtl := do
  let t ← uints data 0
  advance 4
  let globalscope ← onCtx env.getGlobalScope
  let obj ← runtime_stack_pop
  onSys (env.Global_setSlot globalscope t obj)
  pure next

/-- Cases 0x70 convert_s, 0x71 esc_xelem, 0x72 esc_xattr, 0x78 checkfilter,
0x95 typeof: `val=pop; push(f(val));`. -/
def op_pop_push (f : Nat → M SystemState Nat) : M VMState LoopCtl := do
  let val ← runtime_stack_pop
  let r ← onSys (f val)
  runtime_stack_push r
  pure next

/-- Case 0x73 convert_i. -/
def op_convert_i (env : Env) : M VMState LoopCtl := do
  let val ← runtime_stack_peek
  let sys ← getSys
  if val = 0 ∨ sys.hasType val T_INTEGER = false then do
    let _ ← runtime_stack_pop
    let i ← onSys (env.convert_i val)
    let r ← onSys (abstract_i i)
    runtime_stack_push r
    pure next
  else pure next

/-- Case 0x74 convert_u. -/
def op_convert_u (env : Env) : M VMState LoopCtl := do
  let val ← runtime_stack_peek
  let sys ← getSys
  if val = 0 ∨ sys.hasType val T_UINTEGER = false then do
    let _ ← runtime_stack_pop
    let i ← onSys (env.convert_u val)
    let r ← onSys (abstract_ui i)
    runtime_stack_push r
    pure next
  else pure next

/-- Case 0x75 convert_d. -/
def op_convert_d (env : Env) : M VMState LoopCtl := do
  let val ← runtime_stack_peek
  if val = 0 then do let _ ← runtime_stack_pop else pure ()
  let sys ← getSys
  if sys.hasType val T_INTEGER || sys.hasType val T_BOOLEAN || sys.hasType val T_UINTEGER then do
    let val ← runtime_stack_pop
    let i ← onSys (env.convert_di val)
    let r ← onSys (abstract_di i)
    runtime_stack_push r
    pure next
  else if sys.hasType val T_NUMBER then pure next
  else do
    let val ← runtime_stack_pop
    let d ← onSys (env.convert_d val)
    let r ← onSys (abstract_d d)
    runtime_stack_push r
    pure next

/-- Case 0x76 convert_b. -/
def op_convert_b (env : Env) : M VMState LoopCtl := do
  let val ← runtime_stack_peek
  let sys ← getSys
  if val = 0 ∨ sys.hasType val T_BOOLEAN = false then do
    let _ ← runtime_stack_pop
    let b ← onSys (env.convert_b val)
    let r ← onSys (abstract_b b)
    runtime_stack_push r
    pure next
  else pure next

/-- Case 0x77 convert_o. -/
def op_convert_o : M VMState LoopCtl := do
  let val ← runtime_stack_peek
  if val = 0 then do let _ ← runtime_stack_pop else pure ()
  let sys ← getSys
  if sys.hasType val T_NULL then do
    let _ ← runtime_stack_pop
    throwErr (ASError.TypeError ErrorConstant.kConvertNullToObjectError)
  else pure ()
  if sys.hasType val T_UNDEFINED then do
    let _ ← runtime_stack_pop
    throwErr (ASError.TypeError ErrorConstant.kConvertUndefinedToObjectError)
  else pure ()
  pure next

/-- The in-place rewrite of the instruction whose operand record is at
`data`: `rewriteableCode[instructionPointer-1]=opcode;` followed by the store
of the pointer-wide operand `rewritableData->types[0]` / `->objs[0]`. -/
def rewriteCode (data opcode operand : Nat) : M VMState Unit :=
  fun s => Res.ok () { s with code := writeU64 (s.code.set (data - 1) opcode) data operand }

/-- Case 0x80 coerce: resolves the type, rewrites itself to coerceearly, then
coerces the top of the stack. -/
def op_coerce (env : Env) (data : Nat) : M VMState LoopCtl := do
  let name ← word64 data
  let type ← (fun s => Res.ok (env.getTypeFromMultiname name
    { context := s.context, sys := s.sys }) s : M VMState Nat)
  rewriteCode data 0xfc type
  let o ← runtime_stack_pop
  let o ← onSys (env.Type_coerce type o)
  runtime_stack_push o
  advance 8
  pure next

/-- Case 0x85 coerce_s. -/
def op_coerce_s (env : Env) : M VMState LoopCtl := do
  let val ← runtime_stack_pop
  let sys ← getSys
  if sys.hasType val T_STRING then do
    runtime_stack_push val
    pure next
  else do
    let r ← onSys (env.coerce_s val)
    runtime_stack_push r
    pure next

/-- Case 0x86 astype. -/
def op_astype (env : Env) (data : Nat) : M VMState LoopCtl := do
  let t ← uints data 0
  advance 4
  let context ← getContext
  let name ← onSys (env.getMultinameNoContext context.context t)
  let v1 ← runtime_stack_pop
  let r ← onSys (env.asType context.context v1 name)
  runtime_stack_push r
  pure next

/-- Case 0x90 negate. -/
def op_negate (env : Env) : M VMState LoopCtl := do
  let val ← runtime_stack_pop
  let sys ← getSys
  if isIntegral sys val && decide (toInt64Value sys val ≠ 0)
      && decide (toInt64Value sys val = toIntValue sys val) then do
    let i ← onSys (env.negate_i val)
    let r ← onSys (abstract_di i)
    runtime_stack_push r
    pure next
  else do
    let d ← onSys (env.negate val)
    let r ← onSys (abstract_d d)
    runtime_stack_push r
    pure next

/-- Case 0x91 increment: the integer path is taken for an Integer or an
integral Number. -/
def op_increment (env : Env) : M VMState LoopCtl := do
  let val ← runtime_stack_pop
  let sys ← getSys
  if sys.hasType val T_INTEGER || isIntNumber sys val then do
    let i ← onSys (env.increment_i val)
    let r ← onSys (abstract_di i)
    runtime_stack_push r
    pure next
  else do
    let d ← onSys (env.increment val)
    let r ← onSys (abstract_d d)
    runtime_stack_push r
    pure next

/-- Case 0x93 decrement. -/
def op_decrement (env : Env) : M VMState LoopCtl := do
  let val ← runtime_stack_pop
  let sys ← getSys
  if isIntegral sys val then do
    let i ← onSys (env.decrement_di val)
    let r ← onSys (abstract_di i)
    runtime_stack_push r
    pure next
  else do
    let d ← onSys (env.decrement val)
    let r ← onSys (abstract_d d)
    runtime_stack_push r
    pure next

/-- Case 0x96 not. -/
def op_not (env : Env) : M VMState LoopCtl := do
  let val ← runtime_stack_pop
  let b ← onSys (env._not val)
  let r ← onSys (abstract_b b)
  runtime_stack_push r
  pure next

/-- Cases 0x97 bitnot, 0xc0 increment_i, 0xc1 decrement_i, 0xc4 negate_i:
`val=pop; push(abstract_i(f(val)));`. -/
def op_unary_i (f : Nat → M SystemState Int) : M VMState LoopCtl := do
  let val ← runtime_stack_pop
  let i ← onSys (f val)
  let r ← onSys (abstract_i i)
  runtime_stack_push r
  pure next

/-- Case 0xa0 add: `v2` is popped first, `v1` second; `ret=add(v2, v1)`. -/
def op_add (env : Env) : M VMState LoopCtl := do
  let v2 ← runtime_stack_pop
  let v1 ← runtime_stack_pop
  let r ← onSys (env.add v2 v1)
  runtime_stack_push r
  pure next

/-- What the integer path of an arithmetic case computes from `num1` and
`num2`: an `int64_t` value, the NaN double (the `num2 == 0` branch of modulo),
or nothing defined, when the C++ expression has undefined behaviour. -/
inductive IntResult where
  | value (i : Int)
  | nan
  | undefined
  deriving DecidableEq, Repr

/-- Cases 0xa1 subtract, 0xa2 multiply, 0xa4 modulo: `v2` is popped first,
`v1` second. When both are integral, both are released and `intOp num1 num2`
is computed on their 64-bit values and boxed (as `abstract_di`, or as the NaN
double), unless the expression is undefined, where the run ends; otherwise the
double primitive `dblOp` is called. -/
def op_arith (intOp : Int → Int → IntResult) (dblOp : Nat → Nat → M SystemState Nat) :
    M VMState LoopCtl := do
  let v2 ← runtime_stack_pop
  let v1 ← runtime_stack_pop
  let sys ← getSys
  if isIntegral sys v1 && isIntegral sys v2 then do
    let num1 := toInt64Value sys v1
    let num2 := toInt64Value sys v2
    onSys (decRef v1)
    onSys (decRef v2)
    let r ← match intOp num1 num2 with
      | IntResult.value i => onSys (abstract_di i)
      | IntResult.nan => onSys (abstract_d Number.NaN)
      | IntResult.undefined => throwErr ASError.UndefinedBehaviour
    runtime_stack_push r
    pure next
  else do
    let d ← onSys (dblOp v1 v2)
    let r ← onSys (abstract_d d)
    runtime_stack_push r
    pure next

/-- The integer path of subtract: `num1-num2` (boxing reduces the result to
64 bits). -/
def subtractI (num1 num2 : Int) : IntResult := IntResult.value (num1 - num2)

/-- The integer path of multiply: `num1*num2` (boxing reduces the result to
64 bits). -/
def multiplyI (num1 num2 : Int) : IntResult := IntResult.value (num1 * num2)

/-- The integer path of modulo: NaN when `num2 == 0`, else `num1%num2`, the
C++ remainder of the division truncated towards zero. For
`num1 == INT64_MIN` and `num2 == -1` the quotient is not representable and
the expression `num1%num2` is undefined; the case has no guard for it. -/
def moduloI (num1 num2 : Int) : IntResult :=
  if num2 = 0 then IntResult.nan
  else if num1 = -9223372036854775808 ∧ num2 = -1 then IntResult.undefined
  else IntResult.value (Int.tmod num1 num2)

/-- Case 0xa3 divide. -/
def op_divide (env : Env) : M VMState LoopCtl := do
  let v2 ← runtime_stack_pop
  let v1 ← runtime_stack_pop
  let d ← onSys (env.divide v2 v1)
  let r ← onSys (abstract_d d)
  runtime_stack_push r
  pure next

/-- Cases 0xa5..0xaa, the shifts and the bitwise operators: `v1` is popped
first, `v2` second; `push(abstract_i(f(v1, v2)))`. -/
def op_binary_i (f : Nat → Nat → M SystemState Int) : M VMState LoopCtl := do
  let v1 ← runtime_stack_pop
  let v2 ← runtime_stack_pop
  let i ← onSys (f v1 v2)
  let r ← onSys (abstract_i i)
  runtime_stack_push r
  pure next

/-- Cases 0xab..0xb0, the comparisons: `v2` is popped first, `v1` second;
`push(abstract_b(f(v1, v2)))`. Also 0xb1 instanceof (`type` popped first,
`value` second, `instanceOf(value, type)`). -/
def op_compare (f : Nat → Nat → M SystemState Bool) : M VMState LoopCtl := do
  let v2 ← runtime_stack_pop
  let v1 ← runtime_stack_pop
  let b ← onSys (f v1 v2)
  let r ← onSys (abstract_b b)
  runtime_stack_push r
  pure next

/-- Cases 0xb3 istypelate and 0xb4 in: `v1` is popped first, `v2` second;
`push(abstract_b(f(v1, v2)))`. -/
def op_binary_b (f : Nat → Nat → M SystemState Bool) : M VMState LoopCtl := do
  let v1 ← runtime_stack_pop
  let v2 ← runtime_stack_pop
  let b ← onSys (f v1 v2)
  let r ← onSys (abstract_b b)
  runtime_stack_push r
  pure next

/-- Case 0xb2 istype. -/
def op_istype (env : Env) (data : Nat) : M VMState LoopCtl := do
  let t ← uints data 0
  advance 4
  let context ← getContext
  let name ← onSys (env.getMultinameNoContext context.context t)
  let v1 ← runtime_stack_pop
  let b ← onSys (env.isType context.context v1 name)
  let r ← onSys (abstract_b b)
  runtime_stack_push r
  pure next

/-- Cases 0xc5 add_i, 0xc6 subtract_i, 0xc7 multiply_i: `v2` is popped first,
`v1` second; `push(abstract_i(f(v2, v1)))`. -/
def op_binary_ii (f : Nat → Nat → M SystemState Int) : M VMState LoopCtl := do
  let v2 ← runtime_stack_pop
  let v1 ← runtime_stack_pop
  let i ← onSys (f v2 v1)
  let r ← onSys (abstract_i i)
  runtime_stack_push r
  pure next

/-- Cases 0xd0..0xd3 getlocal_n: `i=opcode&3`. -/
def op_getlocal_n (opcode : Nat) : M VMState LoopCtl := getLocalAt (opcode % 4)

/-- Cases 0xd4..0xd7 setlocal_n: `i=opcode&3`; the popped value is not
checked for null. -/
def op_setlocal_n (opcode : Nat) : M VMState LoopCtl := do
  let obj ← runtime_stack_pop
  setLocalGuarded (opcode % 4) obj
  pure next

/-- Cases 0xf2 bkptline and 0xf3 timestamp: the operand is skipped. -/
def op_skip4 : M VMState LoopCtl := do
  advance 4
  pure next

/-- Case 0xfb setslot_no_coerce. -/
def op_setslot_no_coerce (env : Env) (data : Nat) : M VMState LoopCtl := do
  let t ← uints data 0
  advance 4
  let value ← runtime_stack_pop
  let obj ← runtime_stack_pop
  onSys (env.setSlotNoCoerce obj t value)
  onSys (decRef obj)
  pure next

/-- Case 0xfc coerceearly: the operand is the cached type. -/
def op_coerceearly (env : Env) (data : Nat) : M VMState LoopCtl := do
  let type ← word64 data
  let o ← runtime_stack_pop
  let o ← onSys (env.Type_coerce type o)
  runtime_stack_push o
  advance 8
  pure next

/-- Case 0xfd getscopeatindex. -/
def op_getscopeatindex (data : Nat) : M VMState LoopCtl := do
  let t ← uints data 0
  let context ← getContext
  let parentsize := match context.parent_scope_stack with
    | none => 0
    | some scope => scope.length
  let obj ← match context.parent_scope_stack with
    | some scope =>
      if t < parentsize then pure (scope.getD t 0)
      else do
        assert_and_throw (decide (t - parentsize < context.curr_scope_stack))
        pure (context.scope_stack.getD (t - parentsize) 0)
    | none => do
      assert_and_throw (decide (t - parentsize < context.curr_scope_stack))
      pure (context.scope_stack.getD (t - parentsize) 0)
  onSys (incRef obj)
  runtime_stack_push obj
  advance 4
  pure next

/-- Case 0xfe getlexonce: looks the name up in the application domain,
rewrites itself to pushearly and pushes the object. -/
def op_getlexonce (env : Env) (data : Nat) : M VMState LoopCtl := do
  let name ← word64 data
  let obj ← (fun s => Res.ok (env.getVariableAndTargetByMultiname name
    { context := s.context, sys := s.sys }) s : M VMState Nat)
  assert_and_throw (decide (obj ≠ 0))
  rewriteCode data 0xff obj
  onSys (incRef obj)
  runtime_stack_push obj
  advance 8
  pure next

/-- Case 0xff pushearly: the operand is the cached object. -/
def op_pushearly (data : Nat) : M VMState LoopCtl := do
  let o ← word64 data
  advance 8
  onSys (incRef o)
  runtime_stack_push o
  pure next

/-! ## The dispatch switch and the loop -/

/-- The `switch(opcode)` of `executeFunctionFast`; `data` is the offset of
the operand record. -/
def execOpcode (env : Env) (opcode data : Nat) : M VMState LoopCtl :=
  match opcode with
  | 0x01 => pure next
  | 0x02 => pure next
  | 0x03 => op_ctx env._throw
  | 0x04 => op_ctx_u32 env.getSuper data
  | 0x05 => op_ctx_u32 env.setSuper data
  | 0x06 => op_ctx_u32 env.dxns data
  | 0x07 => op_dxnslate env
  | 0x08 => op_kill data
  | 0x0c => op_if2 env.ifNLT data
  | 0x0d => op_if2 env.ifNLE data
  | 0x0e => op_if2 env.ifNGT data
  | 0x0f => op_if2 env.ifNGE data
  | 0x10 => op_jump data
  | 0x11 => op_if1 env.ifTrue data
  | 0x12 => op_if1 env.ifFalse data
  | 0x13 => op_if2 env.ifEq data
  | 0x14 => op_if2 env.ifNE data
  | 0x15 => op_if2 (ifLT env) data
  | 0x16 => op_if2 env.ifLE data
  | 0x17 => op_if2 env.ifGT data
  | 0x18 => op_if2 env.ifGE data
  | 0x19 => op_if2 env.ifStrictEq data
  | 0x1a => op_if2 env.ifStrictNE data
  | 0x1b => op_lookupswitch env data
  | 0x1c => op_ctx env.pushWith
  | 0x1d => op_ctx env.popScope
  | 0x1e => op_pop2_push env.nextName
  | 0x20 => op_push_const pushNull
  | 0x21 => op_push_const pushUndefined
  | 0x23 => op_pop2_push env.nextValue
  | 0x24 => op_pushbyte
  | 0x25 => op_pushshort data
  | 0x26 => op_pushbool true
  | 0x27 => op_pushbool false
  | 0x28 => op_push_const pushNaN
  | 0x29 => op_pop
  | 0x2a => op_dup
  | 0x2b => op_swap
  | 0x2c => op_push_ctx_u32 env.pushString data
  | 0x2d => op_pushint env data
  | 0x2e => op_pushuint env data
  | 0x2f => op_pushdouble env data
  | 0x30 => op_ctx env.pushScope
  | 0x31 => op_push_ctx_u32 env.pushNamespace data
  | 0x32 => op_hasnext2 env data
  | 0x35 => op_ctx (env.loadIntN 8)
  | 0x36 => op_ctx (env.loadIntN 16)
  | 0x37 => op_ctx (env.loadIntN 32)
  | 0x38 => op_ctx env.loadFloat
  | 0x39 => op_ctx env.loadDouble
  | 0x3a => op_ctx (env.storeIntN 8)
  | 0x3b => op_ctx (env.storeIntN 16)
  | 0x3c => op_ctx (env.storeIntN 32)
  | 0x3d => op_ctx env.storeFloat
  | 0x3e => op_ctx env.storeDouble
  | 0x40 => op_push_ctx_u32 env.newFunction data
  | 0x41 => op_call_u32 env.call data
  | 0x42 => op_call_u32 env.construct data
  | 0x44 => op_callstatic env data
  | 0x45 => op_call2 env.callSuper true data
  | 0x46 => op_call2 env.callProperty true data
  | 0x4c => op_call2 env.callProperty true data
  | 0x47 => op_returnvoid
  | 0x48 => op_returnvalue
  | 0x49 => op_call_u32 env.constructSuper data
  | 0x4a => op_constructprop env data
  | 0x4e => op_call2 env.callSuper false data
  | 0x4f => op_call2 env.callProperty false data
  | 0x50 => op_sxi env (fun u => u % 2)
  | 0x51 => op_sxi env toInt8
  | 0x52 => op_sxi env toInt16
  | 0x53 => op_ctx_u32 env.constructGenericType data
  | 0x55 => op_ctx_u32 env.newObject data
  | 0x56 => op_ctx_u32 env.newArray data
  | 0x57 => op_newactivation env
  | 0x58 => op_ctx_u32 env.newClass data
  | 0x59 => op_ctx_u32 env.getDescendants data
  | 0x5a => op_push_ctx_u32 env.newCatch data
  | 0x5d => op_findprop env env.findPropStrict data
  | 0x5e => op_findprop env env.findProperty data
  | 0x5f => op_finddef env data
  | 0x60 => op_u32_ctx env.getLex data
  | 0x61 => op_setproperty env data
  | 0x62 => op_getlocal data
  | 0x63 => op_setlocal data
  | 0x64 => op_getglobalscope env
  | 0x65 => op_getscopeobject env data
  | 0x66 => op_getproperty env data
  | 0x68 => op_initproperty env data
  | 0x6a => op_deleteproperty env data
  | 0x6c => op_getslot env data
  | 0x6d => op_setslot env data
  | 0x6e => op_getglobalslot env data
  | 0x6f => op_setglobalslot env data
  | 0x70 => op_pop_push env.convert_s
  | 0x71 => op_pop_push env.esc_xelem
  | 0x72 => op_pop_push env.esc_xattr
  | 0x73 => op_convert_i env
  | 0x74 => op_convert_u env
  | 0x75 => op_convert_d env
  | 0x76 => op_convert_b env
  | 0x77 => op_convert_o
  | 0x78 => op_pop_push env.checkfilter
  | 0x80 => op_coerce env data
  | 0x82 => pure next
  | 0x85 => op_coerce_s env
  | 0x86 => op_astype env data
  | 0x87 => op_pop2_push env.asTypelate
  | 0x90 => op_negate env
  | 0x91 => op_increment env
  | 0x92 => op_u32_ctx env.incLocal data
  | 0x93 => op_decrement env
  | 0x94 => op_u32_ctx env.decLocal data
  | 0x95 => op_pop_push env.typeOf
  | 0x96 => op_not env
  | 0x97 => op_unary_i env.bitNot
  | 0xa0 => op_add env
  | 0xa1 => op_arith subtractI (fun v1 v2 => env.subtract v2 v1)
  | 0xa2 => op_arith multiplyI (fun v1 v2 => env.multiply v2 v1)
  | 0xa3 => op_divide env
  | 0xa4 => op_arith moduloI (fun v1 v2 => env.modulo v1 v2)
  | 0xa5 => op_binary_i env.lShift
  | 0xa6 => op_binary_i env.rShift
  | 0xa7 => op_binary_i env.urShift
  | 0xa8 => op_binary_i env.bitAnd
  | 0xa9 => op_binary_i env.bitOr
  | 0xaa => op_binary_i env.bitXor
  | 0xab => op_compare env.equals
  | 0xac => op_compare env.strictEquals
  | 0xad => op_compare env.lessThan
  | 0xae => op_compare env.lessEquals
  | 0xaf => op_compare env.greaterThan
  | 0xb0 => op_compare env.greaterEquals
  | 0xb1 => op_compare env.instanceOf
  | 0xb2 => op_istype env data
  | 0xb3 => op_binary_b env.isTypelate
  | 0xb4 => op_binary_b env.in_
  | 0xc0 => op_unary_i env.increment_i
  | 0xc1 => op_unary_i env.decrement_i
  | 0xc2 => op_u32_ctx env.incLocal_i data
  | 0xc3 => op_u32_ctx env.decLocal_i data
  | 0xc4 => op_unary_i env.negate_i
  | 0xc5 => op_binary_ii (add_i env)
  | 0xc6 => op_binary_ii env.subtract_i
  | 0xc7 => op_binary_ii env.multiply_i
  | 0xd0 => op_getlocal_n opcode
  | 0xd1 => op_getlocal_n opcode
  | 0xd2 => op_getlocal_n opcode
  | 0xd3 => op_getlocal_n opcode
  | 0xd4 => op_setlocal_n opcode
  | 0xd5 => op_setlocal_n opcode
  | 0xd6 => op_setlocal_n opcode
  | 0xd7 => op_setlocal_n opcode
  | 0xf2 => op_skip4
  | 0xf3 => op_skip4
  | 0xfb => op_setslot_no_coerce env data
  | 0xfc => op_coerceearly env data
  | 0xfd => op_getscopeatindex data
  | 0xfe => op_getlexonce env data
  | 0xff => op_pushearly data
  | _ => throwErr ASError.ParseException

/-- The opcode bytes that have a `case` label in the switch. -/
def caseLabels : List Nat :=
  [0x01, 0x02, 0x03, 0x04, 0x05, 0x06, 0x07, 0x08, 0x0c, 0x0d, 0x0e, 0x0f,
   0x10, 0x11, 0x12, 0x13, 0x14, 0x15, 0x16, 0x17, 0x18, 0x19, 0x1a, 0x1b,
   0x1c, 0x1d, 0x1e, 0x20, 0x21, 0x23, 0x24, 0x25, 0x26, 0x27, 0x28, 0x29,
   0x2a, 0x2b, 0x2c, 0x2d, 0x2e, 0x2f, 0x30, 0x31, 0x32, 0x35, 0x36, 0x37,
   0x38, 0x39, 0x3a, 0x3b, 0x3c, 0x3d, 0x3e, 0x40, 0x41, 0x42, 0x44, 0x45,
   0x46, 0x4c, 0x47, 0x48, 0x49, 0x4a, 0x4e, 0x4f, 0x50, 0x51, 0x52, 0x53,
   0x55, 0x56, 0x57, 0x58, 0x59, 0x5a, 0x5d, 0x5e, 0x5f, 0x60, 0x61, 0x62,
   0x63, 0x64, 0x65, 0x66, 0x68, 0x6a, 0x6c, 0x6d, 0x6e, 0x6f, 0x70, 0x71,
   0x72, 0x73, 0x74, 0x75, 0x76, 0x77, 0x78, 0x80, 0x82, 0x85, 0x86, 0x87,
   0x90, 0x91, 0x92, 0x93, 0x94, 0x95, 0x96, 0x97, 0xa0, 0xa1, 0xa2, 0xa3,
   0xa4, 0xa5, 0xa6, 0xa7, 0xa8, 0xa9, 0xaa, 0xab, 0xac, 0xad, 0xae, 0xaf,
   0xb0, 0xb1, 0xb2, 0xb3, 0xb4, 0xc0, 0xc1, 0xc2, 0xc3, 0xc4, 0xc5, 0xc6,
   0xc7, 0xd0, 0xd1, 0xd2, 0xd3, 0xd4, 0xd5, 0xd6, 0xd7, 0xf2, 0xf3, 0xfb,
   0xfc, 0xfd, 0xfe, 0xff]

/-- One iteration of the `while(1)` loop: the bounds assertion, the opcode
fetch, `context->exec_pos = instructionPointer; instructionPointer++;`, and
the switch. -/
def step (env : Env) : M VMState LoopCtl :=
  fun s =>
    if s.instructionPointer < s.code.length then
      execOpcode env (byteAt s.code s.instructionPointer) (s.instructionPointer + 1)
        { s with
          context := { s.context with exec_pos := s.instructionPointer }
          instructionPointer := s.instructionPointer + 1 }
    else Res.throw ASError.AssertFailure s

/-- The loop, with a bound on the number of iterations: `none` when the
bound is reached before the method returns or throws. -/
def loop (env : Env) : Nat → VMState → Option (Res VMState Nat)
  | 0, _ => none
  | fuel + 1, s =>
    match step env s with
    | Res.ok LoopCtl.next s1 => loop env fuel s1
    | Res.ok (LoopCtl.ret v) s1 => some (Res.ok v s1)
    | Res.throw e s1 => some (Res.throw e s1)

/-- The entry point `ABCVm::executeFunctionFast`: runs the body `code` from
`context->exec_pos`; the result is the returned value (`0` is the NULL of
`returnvoid`) or the error, with the final state. -/
def executeFunctionFast (env : Env) (fuel : Nat) (code : List Nat) (context : call_context)
    (sys : SystemState) : Option (Res VMState Nat) :=
  loop env fuel
    { code := code, instructionPointer := context.exec_pos, context := context, sys := sys }

/-- An environment in which every helper primitive throws and the two name
lookups resolve to the null pointer; used to run the interpreter on concrete
bodies that reach no helper. -/
def Env.failing : Env where
  _throw := throwErr (ASError.Thrown 0)
  getSuper := fun _ => throwErr (ASError.Thrown 0)
  setSuper := fun _ => throwErr (ASError.Thrown 0)
  dxns := fun _ => throwErr (ASError.Thrown 0)
  dxnslate := fun _ => throwErr (ASError.Thrown 0)
  ifNLT := fun _ _ => throwErr (ASError.Thrown 0)
  ifNLE := fun _ _ => throwErr (ASError.Thrown 0)
  ifNGT := fun _ _ => throwErr (ASError.Thrown 0)
  ifNGE := fun _ _ => throwErr (ASError.Thrown 0)
  ifTrue := fun _ => throwErr (ASError.Thrown 0)
  ifFalse := fun _ => throwErr (ASError.Thrown 0)
  ifEq := fun _ _ => throwErr (ASError.Thrown 0)
  ifNE := fun _ _ => throwErr (ASError.Thrown 0)
  isLess := fun _ _ => throwErr (ASError.Thrown 0)
  ifLE := fun _ _ => throwErr (ASError.Thrown 0)
  ifGT := fun _ _ => throwErr (ASError.Thrown 0)
  ifGE := fun _ _ => throwErr (ASError.Thrown 0)
  ifStrictEq := fun _ _ => throwErr (ASError.Thrown 0)
  ifStrictNE := fun _ _ => throwErr (ASError.Thrown 0)
  toUInt := fun _ => throwErr (ASError.Thrown 0)
  toInt := fun _ => throwErr (ASError.Thrown 0)
  pushWith := throwErr (ASError.Thrown 0)
  popScope := throwErr (ASError.Thrown 0)
  pushScope := throwErr (ASError.Thrown 0)
  nextName := fun _ _ => throwErr (ASError.Thrown 0)
  nextValue := fun _ _ => throwErr (ASError.Thrown 0)
  pushString := fun _ => throwErr (ASError.Thrown 0)
  pushInt := fun _ => throwErr (ASError.Thrown 0)
  pushUInt := fun _ => throwErr (ASError.Thrown 0)
  pushDouble := fun _ => throwErr (ASError.Thrown 0)
  pushNamespace := fun _ => throwErr (ASError.Thrown 0)
  hasNext2 := fun _ _ => throwErr (ASError.Thrown 0)
  loadIntN := fun _ => throwErr (ASError.Thrown 0)
  loadFloat := throwErr (ASError.Thrown 0)
  loadDouble := throwErr (ASError.Thrown 0)
  storeIntN := fun _ => throwErr (ASError.Thrown 0)
  storeFloat := throwErr (ASError.Thrown 0)
  storeDouble := throwErr (ASError.Thrown 0)
  newFunction := fun _ => throwErr (ASError.Thrown 0)
  call := fun _ => throwErr (ASError.Thrown 0)
  construct := fun _ => throwErr (ASError.Thrown 0)
  callStatic := fun _ _ _ => throwErr (ASError.Thrown 0)
  callSuper := fun _ _ _ => throwErr (ASError.Thrown 0)
  callProperty := fun _ _ _ => throwErr (ASError.Thrown 0)
  constructSuper := fun _ => throwErr (ASError.Thrown 0)
  constructProp := fun _ _ => throwErr (ASError.Thrown 0)
  constructGenericType := fun _ => throwErr (ASError.Thrown 0)
  newObject := fun _ => throwErr (ASError.Thrown 0)
  newArray := fun _ => throwErr (ASError.Thrown 0)
  newActivation := throwErr (ASError.Thrown 0)
  newClass := fun _ => throwErr (ASError.Thrown 0)
  getDescendants := fun _ => throwErr (ASError.Thrown 0)
  newCatch := fun _ => throwErr (ASError.Thrown 0)
  getMultiname := fun _ => throwErr (ASError.Thrown 0)
  getMultinameNoContext := fun _ _ => throwErr (ASError.Thrown 0)
  resetNameIfObject := fun _ => throwErr (ASError.Thrown 0)
  findPropStrict := fun _ => throwErr (ASError.Thrown 0)
  findProperty := fun _ => throwErr (ASError.Thrown 0)
  getLex := fun _ => throwErr (ASError.Thrown 0)
  setProperty := fun _ _ _ => throwErr (ASError.Thrown 0)
  getProperty := fun _ _ => throwErr (ASError.Thrown 0)
  initProperty := fun _ _ _ => throwErr (ASError.Thrown 0)
  deleteProperty := fun _ _ => throwErr (ASError.Thrown 0)
  getSlot := fun _ _ => throwErr (ASError.Thrown 0)
  setSlot := fun _ _ _ => throwErr (ASError.Thrown 0)
  getGlobalScope := throwErr (ASError.Thrown 0)
  Global_getSlot := fun _ _ => throwErr (ASError.Thrown 0)
  Global_setSlot := fun _ _ _ => throwErr (ASError.Thrown 0)
  getScopeObject := fun _ => throwErr (ASError.Thrown 0)
  setSlotNoCoerce := fun _ _ _ => throwErr (ASError.Thrown 0)
  convert_s := fun _ => throwErr (ASError.Thrown 0)
  esc_xelem := fun _ => throwErr (ASError.Thrown 0)
  esc_xattr := fun _ => throwErr (ASError.Thrown 0)
  convert_i := fun _ => throwErr (ASError.Thrown 0)
  convert_u := fun _ => throwErr (ASError.Thrown 0)
  convert_di := fun _ => throwErr (ASError.Thrown 0)
  convert_d := fun _ => throwErr (ASError.Thrown 0)
  convert_b := fun _ => throwErr (ASError.Thrown 0)
  checkfilter := fun _ => throwErr (ASError.Thrown 0)
  getTypeFromMultiname := fun _ _ => 0
  Type_coerce := fun _ _ => throwErr (ASError.Thrown 0)
  coerce_s := fun _ => throwErr (ASError.Thrown 0)
  asType := fun _ _ _ => throwErr (ASError.Thrown 0)
  asTypelate := fun _ _ => throwErr (ASError.Thrown 0)
  negate_i := fun _ => throwErr (ASError.Thrown 0)
  negate := fun _ => throwErr (ASError.Thrown 0)
  increment_i := fun _ => throwErr (ASError.Thrown 0)
  increment := fun _ => throwErr (ASError.Thrown 0)
  decrement_i := fun _ => throwErr (ASError.Thrown 0)
  decrement_di := fun _ => throwErr (ASError.Thrown 0)
  decrement := fun _ => throwErr (ASError.Thrown 0)
  incLocal := fun _ => throwErr (ASError.Thrown 0)
  decLocal := fun _ => throwErr (ASError.Thrown 0)
  incLocal_i := fun _ => throwErr (ASError.Thrown 0)
  decLocal_i := fun _ => throwErr (ASError.Thrown 0)
  typeOf := fun _ => throwErr (ASError.Thrown 0)
  _not := fun _ => throwErr (ASError.Thrown 0)
  bitNot := fun _ => throwErr (ASError.Thrown 0)
  add := fun _ _ => throwErr (ASError.Thrown 0)
  subtract := fun _ _ => throwErr (ASError.Thrown 0)
  multiply := fun _ _ => throwErr (ASError.Thrown 0)
  divide := fun _ _ => throwErr (ASError.Thrown 0)
  modulo := fun _ _ => throwErr (ASError.Thrown 0)
  lShift := fun _ _ => throwErr (ASError.Thrown 0)
  rShift := fun _ _ => throwErr (ASError.Thrown 0)
  urShift := fun _ _ => throwErr (ASError.Thrown 0)
  bitAnd := fun _ _ => throwErr (ASError.Thrown 0)
  bitOr := fun _ _ => throwErr (ASError.Thrown 0)
  bitXor := fun _ _ => throwErr (ASError.Thrown 0)
  equals := fun _ _ => throwErr (ASError.Thrown 0)
  strictEquals := fun _ _ => throwErr (ASError.Thrown 0)
  lessThan := fun _ _ => throwErr (ASError.Thrown 0)
  lessEquals := fun _ _ => throwErr (ASError.Thrown 0)
  greaterThan := fun _ _ => throwErr (ASError.Thrown 0)
  greaterEquals := fun _ _ => throwErr (ASError.Thrown 0)
  instanceOf := fun _ _ => throwErr (ASError.Thrown 0)
  isType := fun _ _ _ => throwErr (ASError.Thrown 0)
  isTypelate := fun _ _ => throwErr (ASError.Thrown 0)
  in_ := fun _ _ => throwErr (ASError.Thrown 0)
  subtract_i := fun _ _ => throwErr (ASError.Thrown 0)
  multiply_i := fun _ _ => throwErr (ASError.Thrown 0)
  getVariableAndTargetByMultiname := fun _ _ => 0

/-- An environment like `Env.failing` in which `pushString` succeeds: string
`n` of the constant pool is the object at address `n`. -/
def Env.strings : Env := { Env.failing with pushString := fun n => M.pure n }

/-- The state carried by an outcome. -/
def Res.state {σ α : Type} : Res σ α → σ
  | Res.ok _ s => s
  | Res.throw _ s => s

/-- An Integer object holding `v` with one reference. -/
def exampleInteger (v : Int) : ASObject :=
  { type := T_INTEGER, ref_count := 1, val := v, ival := 0, dval := 0, isfloat := false }

/-- A small system state: Null at address 1, Undefined at 2, the Integers
7, 5, 0 and -7 at 3, 4, 5 and 6, a String at 7. -/
def exampleSys : SystemState :=
  { objects :=
      [{ type := T_NULL, ref_count := 1, val := 0, ival := 0, dval := 0, isfloat := false },
       { type := T_UNDEFINED, ref_count := 1, val := 0, ival := 0, dval := 0, isfloat := false },
       exampleInteger 7, exampleInteger 5, exampleInteger 0, exampleInteger (-7),
       { type := T_STRING, ref_count := 1, val := 0, ival := 0, dval := 0, isfloat := false }]
    nullRef := 1
    undefinedRef := 2 }

/-- A call context with the given operand stack, room for four entries, two
uninitialised locals and no scope. -/
def exampleContext (stack : List Nat) : call_context :=
  { stack := stack, max_stack := 4, locals := [0, 0], scope_stack := [], curr_scope_stack := 0,
    parent_scope_stack := none, exec_pos := 0, argarrayposition := -1, context := 0 }

/-- The interpreter state at the start of `code` with the given operand
stack, over `exampleSys`. -/
def exampleState (code stack : List Nat) : VMState :=
  { code := code, instructionPointer := 0, context := exampleContext stack, sys := exampleSys }

/-- The body `pushbyte 1; pushbyte 2; iflt L; pushstring iNo; returnvalue;
L: pushstring iYes; returnvalue`, with `L` at offset 15. -/
def ifltBody (iNo iYes : Nat) : List Nat :=
  [0x24, 1, 0x24, 2, 0x15, 15, 0, 0, 0, 0x2c, iNo, 0, 0, 0, 0x48, 0x2c, iYes, 0, 0, 0, 0x48]

/-- The body `pushbyte 9; lookupswitch default=Ldef count=2 [L0, L1, L2];
L0: pushbyte 0; returnvalue; L1: pushbyte 1; returnvalue; L2: pushbyte 2;
returnvalue; Ldef: pushbyte 42; returnvalue`, with `L0`, `L1`, `L2`, `Ldef`
at offsets 23, 26, 29, 32. -/
def lookupswitchBody : List Nat :=
  [0x24, 9, 0x1b, 32, 0, 0, 0, 2, 0, 0, 0, 23, 0, 0, 0, 26, 0, 0, 0, 29, 0, 0, 0,
   0x24, 0, 0x48, 0x24, 1, 0x48, 0x24, 2, 0x48, 0x24, 42, 0x48]

/-- An environment like `Env.failing` in which names resolve: the name at
address `n` resolves to the type, respectively the object, at address `n`,
and `coerce` returns its operand. -/
def Env.resolving : Env :=
  { Env.failing with
    getTypeFromMultiname := fun n _ => n
    Type_coerce := fun _ o => M.pure o
    getVariableAndTargetByMultiname := fun n _ => n }

/-- Statement about the instruction pointer: started with the instruction
pointer at `b + pre`, a computation that completes leaves it at `b + post`. -/
@[irreducible] def IPAt {α : Type} (b pre post : Nat) (m : M VMState α) : Prop :=
  ∀ s a s1, s.instructionPointer = b + pre → m s = Res.ok a s1 →
    s1.instructionPointer = b + post

/-- An environment like `Env.failing` in which the call helpers return
without touching the context and `getGlobalScope` yields the object at
address 3. -/
def Env.calls : Env :=
  { Env.failing with
    callStatic := fun _ _ _ => M.pure ()
    callSuper := fun _ _ _ => M.pure ()
    callProperty := fun _ _ _ => M.pure ()
    getGlobalScope := M.pure 3 }

/-- The state in which `setlocal_1` is about to store the Integer at address
3 into local 1, which is the argument-array slot. -/
def argArrayState : VMState :=
  { code := [0xd5, 0x47]
    instructionPointer := 0
    context := { exampleContext [3] with argarrayposition := 1 }
    sys := exampleSys }

/-- The state in which `kill 1` is about to run on a register file whose
slot 1 holds the Integer at address 3. -/
def killState : VMState :=
  { code := [0x08, 1, 0, 0, 0, 0x47]
    instructionPointer := 0
    context := { exampleContext [4] with locals := [0, 3] }
    sys := exampleSys }

/-- The state in which `getlocal_1` is about to read a register file whose
slot 1 holds the Integer at address 3. -/
def getlocalState : VMState :=
  { code := [0xd1, 0x47]
    instructionPointer := 0
    context := { exampleContext [] with locals := [0, 3] }
    sys := exampleSys }

/-- The size of the parent scope, 0 when there is none. -/
def parentSize (c : call_context) : Nat :=
  match c.parent_scope_stack with
  | none => 0
  | some scope => scope.length

/-- Entry `t` of the parent scope. -/
def parentEntry (c : call_context) (t : Nat) : Nat :=
  match c.parent_scope_stack with
  | none => 0
  | some scope => scope.getD t 0

/-- The state in which `getscopeatindex t` is about to run with a parent
scope holding the objects at addresses 3 and 4 and a current scope stack of
depth 1 holding the object at address 7. -/
def scopeState (t : Nat) : VMState :=
  { code := [0xfd, t, 0, 0, 0, 0x47]
    instructionPointer := 0
    context := { exampleContext [] with
      scope_stack := [7], curr_scope_stack := 1, parent_scope_stack := some [3, 4] }
    sys := exampleSys }

/-- The state `s` over the code array `c`. -/
def withCode (c : List Nat) (s : VMState) : VMState := { s with code := c }

/-- Apply `f` to the state of an outcome. -/
def Res.mapState {σ α : Type} (f : σ → σ) : Res σ α → Res σ α
  | Res.ok a s => Res.ok a (f s)
  | Res.throw e s => Res.throw e (f s)

/-- Statement that a helper that invokes a function neither reads nor writes
the code array of the running method: on any other code array it does the same
thing and leaves that array in place. It fails for a call that re-enters the
interpreter on the same method body and reaches a coerce or getlex there. -/
def callKeepsCode {α : Type} (m : M Machine α) : Prop :=
  ∀ w c, m { w with code := c } = Res.mapState (fun w1 => { w1 with code := c }) (m w)

/-- Statement that none of the helpers of `env` that invoke a function reads
or writes the code array of the running method. -/
def Env.keepsCode (env : Env) : Prop :=
  (∀ a, callKeepsCode (env.call a))
  ∧ (∀ a, callKeepsCode (env.construct a))
  ∧ (∀ a b c, callKeepsCode (env.callStatic a b c))
  ∧ (∀ a b c, callKeepsCode (env.callSuper a b c))
  ∧ (∀ a b c, callKeepsCode (env.callProperty a b c))
  ∧ (∀ a, callKeepsCode (env.constructSuper a))
  ∧ (∀ a b, callKeepsCode (env.constructProp a b))

/-- Statement that a computation neither writes the code array nor reads it
outside the bytes `lo ≤ i < hi` (and its length): it leaves the code as it
found it, and on any other code array of the same length that has the same
bytes in that window it does the same thing. -/
@[irreducible] def Frame {α : Type} (lo hi : Nat) (m : M VMState α) : Prop :=
  ∀ s c, c.length = s.code.length →
    (∀ i, lo ≤ i → i < hi → byteAt c i = byteAt s.code i) →
    (m s).state.code = s.code ∧ m (withCode c s) = Res.mapState (withCode c) (m s)

/-- The number of bytes of its operand record that the case of `opcode`
reads: 8 for two `uints` or one pointer-wide operand (for lookupswitch the two
fixed operands), 4 for one `uints` or `ints`, 1 for pushbyte, 0 otherwise. -/
def operandBytes (opcode : Nat) : Nat :=
  if opcode ∈ [0x1b, 0x2f, 0x32, 0x44, 0x45, 0x46, 0x4c, 0x4a, 0x4e, 0x4f,
                 0x80, 0xfc, 0xfe, 0xff] then 8
  else if opcode ∈ [0x04, 0x05, 0x06, 0x08, 0x0c, 0x0d, 0x0e, 0x0f, 0x10,
                      0x11, 0x12, 0x13, 0x14, 0x15, 0x16, 0x17, 0x18, 0x19,
                      0x1a, 0x25, 0x2c, 0x2d, 0x2e, 0x31, 0x40, 0x41, 0x42,
                      0x49, 0x53, 0x55, 0x56, 0x58, 0x59, 0x5a, 0x5d, 0x5e,
                      0x5f, 0x60, 0x61, 0x62, 0x63, 0x65, 0x66, 0x68, 0x6a,
                      0x6c, 0x6d, 0x6e, 0x6f, 0x86, 0x92, 0x94, 0xb2, 0xc2,
                      0xc3, 0xfb, 0xfd] then 4
  else if opcode = 0x24 then 1
  else 0

/-- The extent of the instruction at offset `p` of `code`: the opcode byte
and the operand bytes its case reads; for lookupswitch the record holds the
default target, the count and `count + 1` case targets. -/
def instrLen (code : List Nat) (p : Nat) : Nat :=
  if byteAt code p = 0x1b then 9 + 4 * (readU32 code (p + 5) + 1)
  else 1 + operandBytes (byteAt code p)

/-- The value or the error of an outcome, without the state. -/
def Res.result {σ α : Type} : Res σ α → Except ASError α
  | Res.ok a _ => Except.ok a
  | Res.throw e _ => Except.error e

/-- Two outcomes of the interpreter that agree on everything the caller can
observe: the returned value or the error, the code array, the call context
and the objects. The local variable `instructionPointer` is not compared. -/
def sameOutcome {α : Type} (r2 r1 : Res VMState α) : Prop :=
  r2.result = r1.result ∧ r2.state.code = r1.state.code
    ∧ r2.state.context = r1.state.context ∧ r2.state.sys = r1.state.sys

/-- The pointer that the rewriting instruction (coerce or getlexonce) at the
instruction pointer of `s` resolves its name to fits the 8-byte operand
record. -/
def resolvedFits (env : Env) (s : VMState) : Bool :=
  if byteAt s.code s.instructionPointer = 0x80 then
    decide (env.getTypeFromMultiname (readU64 s.code (s.instructionPointer + 1))
      { context := { s.context with exec_pos := s.instructionPointer }, sys := s.sys }
        < 18446744073709551616)
  else
    decide (env.getVariableAndTargetByMultiname (readU64 s.code (s.instructionPointer + 1))
      { context := { s.context with exec_pos := s.instructionPointer }, sys := s.sys }
        < 18446744073709551616)

/-- A run of at most `fuel` iterations from `s` ends and is well formed with
respect to self-rewriting: every coerce or getlexonce it executes has its
whole 9-byte instruction inside the code array, resolves to a pointer that
fits the operand record, and does not overlap the extent of an instruction at
another offset that the run executed earlier (`past`, with the extents
`(offset, length)` of the instructions executed before `s`). -/
def wellFormedRun (env : Env) : Nat → VMState → List (Nat × Nat) → Bool
  | 0, _, _ => false
  | fuel + 1, s, past =>
    (if byteAt s.code s.instructionPointer = 0x80 ∨ byteAt s.code s.instructionPointer = 0xfe then
      decide (s.instructionPointer + 9 ≤ s.code.length) && resolvedFits env s
        && past.all (fun q => decide (q.1 + q.2 ≤ s.instructionPointer
            ∨ s.instructionPointer + 9 ≤ q.1))
    else true)
    && match step env s with
      | Res.ok LoopCtl.next s1 =>
        wellFormedRun env fuel s1
          ((s.instructionPointer, instrLen s1.code s.instructionPointer) :: past)
      | _ => true

/-- The instructions a run of at most `fuel` iterations from `s` executes:
the offset of each with the opcode byte found there at that time. -/
def executed (env : Env) : Nat → VMState → List (Nat × Nat)
  | 0, _ => []
  | fuel + 1, s =>
    (s.instructionPointer, byteAt s.code s.instructionPointer) ::
      match step env s with
      | Res.ok LoopCtl.next s1 => executed env fuel s1
      | _ => []

/-- An environment like `Env.failing` in which names resolve: the type name
at address `n` resolves to the type at address `2 * n + 1`, the variable name
at address `n` to the object at address `n + 1`, and `coerce` returns its
operand. -/
def Env.caching : Env :=
  { Env.failing with
    getTypeFromMultiname := fun n _ => 2 * n + 1
    Type_coerce := fun _ o => M.pure o
    getVariableAndTargetByMultiname := fun n _ => n + 1 }

/-- The body `getlexonce 2; coerce 9; returnvalue`. -/
def rewriteBody : List Nat :=
  [0xfe, 2, 0, 0, 0, 0, 0, 0, 0, 0x80, 9, 0, 0, 0, 0, 0, 0, 0, 0x48]

/-- The body `pushbyte 1; lookupswitch default=Ldef count=0 [L0]; L0: pushbyte
5; coerce 9; returnvalue; Ldef: pushbyte 0; returnvalue`, with `L0` at offset
15, the coerce at offset 17 and `Ldef` at offset 27. -/
def branchBody : List Nat :=
  [0x24, 1, 0x1b, 27, 0, 0, 0, 0, 0, 0, 0, 15, 0, 0, 0,
   0x24, 5, 0x80, 9, 0, 0, 0, 0, 0, 0, 0, 0x48, 0x24, 0, 0x48]

/-- An Integer object holding 200 on the stack of `sxi8; sxi8; returnvalue`. -/
def sxiState : VMState :=
  { code := [0x51, 0x51, 0x48]
    instructionPointer := 0
    context := exampleContext [8]
    sys := { exampleSys with objects := exampleSys.objects ++ [exampleInteger 200] } }

/-- A UInteger object holding `v` with one reference. -/
def exampleUInteger (v : Int) : ASObject :=
  { type := T_UINTEGER, ref_count := 1, val := v, ival := 0, dval := 0, isfloat := false }

/-- The state in which `multiply` is about to run on two UInteger objects (at
addresses 8 and 9) that both hold 4294967295. -/
def mulState : VMState :=
  { code := [0xa2, 0x48]
    instructionPointer := 0
    context := exampleContext [9, 8]
    sys := { exampleSys with
      objects := exampleSys.objects ++ [exampleUInteger 4294967295, exampleUInteger 4294967295] } }

/-- The state in which `subtract` is about to run on the Integers 7 (pushed
first, address 3) and 5 (pushed second, address 4). -/
def subState : VMState :=
  { code := [0xa1, 0x48]
    instructionPointer := 0
    context := exampleContext [4, 3]
    sys := exampleSys }

/-- The state in which `getlocal_1` (0xD1) is about to run, and the state in
which `getlocal 1` (0x62) is, on the same context: slot 1 holds the Integer
at address 3. -/
def shortFormState (long : Bool) : VMState :=
  { code := if long then [0x62, 1, 0, 0, 0, 0x47] else [0xd1, 0x47]
    instructionPointer := 0
    context := { exampleContext [4] with locals := [0, 3] }
    sys := exampleSys }

/-- Statement that a case body, when it completes, goes on with the next
iteration of the loop: it does not return from the method. -/
@[irreducible] def OnlyNext (m : M VMState LoopCtl) : Prop :=
  ∀ s a s1, m s = Res.ok a s1 → a = next

/-- The state at which the last iteration of a run of at most `fuel`
iterations from `s` starts. -/
def lastState (env : Env) : Nat → VMState → VMState
  | 0, s => s
  | fuel + 1, s =>
    match step env s with
    | Res.ok LoopCtl.next s1 => lastState env fuel s1
    | _ => s

/-- Statement that a helper handed the call context leaves its `exec_pos`
field as it found it, whether it returns or throws. -/
def helperKeepsPos {α : Type} (m : M World α) : Prop :=
  ∀ w, (m w).state.context.exec_pos = w.context.exec_pos

/-- Statement that a helper that invokes a function leaves the `exec_pos`
field of the call context as it found it, whether it returns or throws. -/
def callKeepsPos {α : Type} (m : M Machine α) : Prop :=
  ∀ w, (m w).state.context.exec_pos = w.context.exec_pos

/-- Statement that none of the helpers of `env` that are handed the call
context assigns its `exec_pos` field. -/
def Env.keepsExecPos (env : Env) : Prop :=
  helperKeepsPos env._throw
  ∧ (∀ a, helperKeepsPos (env.getSuper a))
  ∧ (∀ a, helperKeepsPos (env.setSuper a))
  ∧ (∀ a, helperKeepsPos (env.dxns a))
  ∧ (∀ a, helperKeepsPos (env.dxnslate a))
  ∧ helperKeepsPos env.pushWith
  ∧ helperKeepsPos env.popScope
  ∧ helperKeepsPos env.pushScope
  ∧ (∀ a, helperKeepsPos (env.pushString a))
  ∧ (∀ a, helperKeepsPos (env.pushInt a))
  ∧ (∀ a, helperKeepsPos (env.pushUInt a))
  ∧ (∀ a, helperKeepsPos (env.pushDouble a))
  ∧ (∀ a, helperKeepsPos (env.pushNamespace a))
  ∧ (∀ a b, helperKeepsPos (env.hasNext2 a b))
  ∧ (∀ a, helperKeepsPos (env.loadIntN a))
  ∧ helperKeepsPos env.loadFloat
  ∧ helperKeepsPos env.loadDouble
  ∧ (∀ a, helperKeepsPos (env.storeIntN a))
  ∧ helperKeepsPos env.storeFloat
  ∧ helperKeepsPos env.storeDouble
  ∧ (∀ a, helperKeepsPos (env.newFunction a))
  ∧ (∀ a, callKeepsPos (env.call a))
  ∧ (∀ a, callKeepsPos (env.construct a))
  ∧ (∀ a b c, callKeepsPos (env.callStatic a b c))
  ∧ (∀ a b c, callKeepsPos (env.callSuper a b c))
  ∧ (∀ a b c, callKeepsPos (env.callProperty a b c))
  ∧ (∀ a, callKeepsPos (env.constructSuper a))
  ∧ (∀ a b, callKeepsPos (env.constructProp a b))
  ∧ (∀ a, helperKeepsPos (env.constructGenericType a))
  ∧ (∀ a, helperKeepsPos (env.newObject a))
  ∧ (∀ a, helperKeepsPos (env.newArray a))
  ∧ helperKeepsPos env.newActivation
  ∧ (∀ a, helperKeepsPos (env.newClass a))
  ∧ (∀ a, helperKeepsPos (env.getDescendants a))
  ∧ (∀ a, helperKeepsPos (env.newCatch a))
  ∧ (∀ a, helperKeepsPos (env.getMultiname a))
  ∧ (∀ a, helperKeepsPos (env.findPropStrict a))
  ∧ (∀ a, helperKeepsPos (env.findProperty a))
  ∧ (∀ a, helperKeepsPos (env.getLex a))
  ∧ helperKeepsPos env.getGlobalScope
  ∧ (∀ a, helperKeepsPos (env.getScopeObject a))
  ∧ (∀ a, helperKeepsPos (env.incLocal a))
  ∧ (∀ a, helperKeepsPos (env.decLocal a))
  ∧ (∀ a, helperKeepsPos (env.incLocal_i a))
  ∧ (∀ a, helperKeepsPos (env.decLocal_i a))

/-- Statement that a computation of the interpreter leaves `exec_pos` as it
found it, whether it completes or throws. -/
@[irreducible] def KeepsPos {α : Type} (m : M VMState α) : Prop :=
  ∀ s, (m s).state.context.exec_pos = s.context.exec_pos

/-- The state in which the case of the opcode at `instructionPointer` is
entered: the loop head has stored the opcode's offset in `exec_pos` and moved
`instructionPointer` past the opcode byte. -/
def enterCase (s : VMState) : VMState :=
  { code := s.code
    instructionPointer := s.instructionPointer + 1
    context := { s.context with exec_pos := s.instructionPointer }
    sys := s.sys }

/-- The state `nop; nop; pop` at its third opcode, offset 2, with an empty
operand stack and `exec_pos` still 0. -/
def underflowState : VMState :=
  { code := [0x02, 0x02, 0x29], instructionPointer := 2, context := exampleContext [],
    sys := exampleSys }

/-- An environment like `Env.failing` in which the type name at address `n`
resolves to the type at address `n` and coercing with the type at address `t`
returns the object at address `t`. -/
def Env.typed : Env :=
  { Env.failing with
    getTypeFromMultiname := fun n _ => n
    Type_coerce := fun t _ => M.pure t }

/-- The state in which coerce is about to run on the Integer at address 3,
with the operand bytes `9 0 0 0` followed by `hi 0 0 0`. -/
def coerceState (hi : Nat) : VMState :=
  exampleState [0x80, 9, 0, 0, 0, hi, 0, 0, 0, 0x48] [3]

/-- The state in which the conversion opcode `op` is about to run twice on the
value at address `v`, over `exampleSys`, whose address 3 holds the Integer 7
and whose address 7 holds a String. -/
def convertState (op v : Nat) : VMState :=
  { code := [op, op, 0x48]
    instructionPointer := 0
    context := exampleContext [v]
    sys := exampleSys }

/-- An environment like `Env.failing` in which `convert_i` returns 0. -/
def Env.converting : Env :=
  { Env.failing with convert_i := fun _ h => Res.ok 0 h }

/-- An environment like `Env.failing` in which the two negate primitives
return, with results that tell them apart: `negate_i` the negated 64-bit value
of its operand, `negate` the bits of the double -0. -/
def Env.negating : Env :=
  { Env.failing with
    negate_i := fun v h => Res.ok (-(toInt64Value h v)) h
    negate := fun _ h => Res.ok 0x8000000000000000 h }

/-- The state in which `negate` is about to run on the value at address `v`,
over `exampleSys` with the Integer 7 at address 3 and the Integer 0 at
address 5. -/
def negateState (v : Nat) : VMState :=
  { code := [0x90, 0x48]
    instructionPointer := 0
    context := exampleContext [v]
    sys := exampleSys }

/-- The state in which `lookupswitch default=L count=0 [L]; L: returnvoid` is
about to run with the value at address `v` as its index, over `exampleSys`
with the UInteger 0 at address 8 and the integral Number 0 at address 9. -/
def switchState (v : Nat) : VMState :=
  { code := [0x1b, 13, 0, 0, 0, 0, 0, 0, 0, 13, 0, 0, 0, 0x47]
    instructionPointer := 0
    context := exampleContext [v]
    sys := { exampleSys with
      objects := exampleSys.objects ++ [exampleUInteger 0,
        { type := T_NUMBER, ref_count := 1, val := 0, ival := 0, dval := 0, isfloat := false }] } }

/-- The state in which `modulo` is about to run on the integral Number
holding -9223372036854775808 (address 8, pushed first) and the Integer -1
(address 9, pushed second). -/
def minState : VMState :=
  { code := [0xa4, 0x48]
    instructionPointer := 0
    context := exampleContext [9, 8]
    sys := { exampleSys with
      objects := exampleSys.objects ++
        [{ type := T_NUMBER, ref_count := 1, val := 0, ival := -9223372036854775808, dval := 0,
           isfloat := false }, exampleInteger (-1)] } }

/-- An environment like `Env.failing` in which every type name resolves to the
type at address 0x47 and `coerce` returns its operand. -/
def Env.fixedType : Env :=
  { Env.failing with
    getTypeFromMultiname := fun _ _ => 0x47
    Type_coerce := fun _ o => M.pure o }

/-- The body `jump L1; L0: coerce <name>; returnvalue`, in which the eight
operand bytes of the coerce (offsets 6 to 13) are themselves the instructions
`L1: pushbyte 7; jump L0` followed by a zero byte: `L0` is offset 5, `L1` is
offset 6 and the returnvalue is at offset 14. -/
def overlapBody : List Nat :=
  [0x10, 6, 0, 0, 0, 0x80, 0x24, 7, 0x10, 5, 0, 0, 0, 0, 0x48]

/-- Modelled from the spec: `callProperty` of a method that calls itself (§4.6:
pop `argc` arguments, then the receiver, build a nested CallContext and
recursively invoke the interpreter). The target resolves to the method whose
code array is the one being run; the nested context has an empty stack, the
receiver in local 0 and the arguments in the locals after it; the nested run
is by `executeFunctionFast` over that same array, of at most 8 instructions,
with the helpers of `Env.caching`; the caller gets the result on its stack
when `keepReturn` is set. -/
def Env.recursive : Env :=
  { Env.caching with
    callProperty := fun _ argc keepReturn w =>
      match executeFunctionFast Env.caching 8 w.code
          { w.context with
            stack := []
            locals := w.context.stack.getD argc 0 :: (w.context.stack.take argc).reverse
            exec_pos := 0 } w.sys with
      | some (Res.ok v s1) =>
        Res.ok ()
          { context := { w.context with
              stack := (if keepReturn then [v] else []) ++ w.context.stack.drop (argc + 1) }
            sys := s1.sys
            code := s1.code }
      | some (Res.throw e s1) =>
        Res.throw e
          { context := { w.context with stack := w.context.stack.drop (argc + 1) }
            sys := s1.sys
            code := s1.code }
      | none => Res.throw (ASError.Thrown 0) w }

/-- The body of a method that calls itself: `getlocal_1; lookupswitch
default=Ldef count=0 [L0]; L0: getlocal_0; pushbyte 7; callpropvoid 0 argc=1;
returnvoid; Ldef: pushbyte 5; coerce 9; returnvalue`, with `L0` at offset 14,
the callpropvoid at offset 17, `Ldef` at offset 27 and the coerce at offset
29. -/
def recursiveBody : List Nat :=
  [0xd1, 0x1b, 27, 0, 0, 0, 0, 0, 0, 0, 14, 0, 0, 0,
   0xd0, 0x24, 7, 0x4f, 0, 0, 0, 0, 1, 0, 0, 0, 0x47,
   0x24, 5, 0x80, 9, 0, 0, 0, 0, 0, 0, 0, 0x48]

/-- The start of a call of `recursiveBody` with the object at address 3 as
receiver (local 0) and the Integer 0, at address 5, as argument (local 1). -/
def recursiveStart : VMState :=
  { code := recursiveBody
    instructionPointer := 0
    context := { exampleContext [] with locals := [3, 5] }
    sys := exampleSys }

/-- Modelled from the spec: `callProperty` of a method elsewhere that takes
`argc` arguments and returns the object at address 4 (§4.6: pop `argc`
arguments, then the receiver; the non-void return is pushed on the caller's
operand stack, the void variant discards it). -/
def Env.returning : Env :=
  { Env.failing with
    callProperty := fun _ argc keepReturn w =>
      Res.ok ()
        { w with context := { w.context with
            stack := (if keepReturn then [4] else []) ++ w.context.stack.drop (argc + 1) } } }
/-! ## Basic facts about the monad, the object table and the code array -/

@[simp] theorem M_pure_apply {σ α : Type} (a : α) (s : σ) :
    (pure a : M σ α) s = Res.ok a s := rfl

@[simp] theorem M_bind_apply {σ α β : Type} (m : M σ α) (f : α → M σ β) (s : σ) :
    (m >>= f) s = match m s with
      | Res.ok a s1 => f a s1
      | Res.throw e s1 => Res.throw e s1 := rfl

theorem addRef_length (h : SystemState) (p : Nat) (d : Int) :
    (h.addRef p d).objects.length = h.objects.length := by
  unfold SystemState.addRef
  split <;> simp

theorem deref_addRef (h : SystemState) (p q : Nat) (d : Int) :
    (h.addRef p d).deref q =
      if q = p then (h.deref q).map (fun o => { o with ref_count := o.ref_count + d })
      else h.deref q := by
  unfold SystemState.addRef
  cases hp : h.deref p with
  | none =>
    by_cases hq : q = p
    · subst hq; simp [hp]
    · simp [hq]
  | some o =>
    by_cases hq : q = p
    · subst hq
      simp only [SystemState.deref] at hp ⊢
      by_cases h0 : q = 0
      · simp [h0] at hp
      · simp only [h0, if_false] at hp ⊢
        have hlt : q - 1 < h.objects.length := by
          by_contra hc
          rw [List.getElem?_eq_none (by omega)] at hp
          cases hp
        simp [List.getElem?_set, hlt, hp]
    · simp only [SystemState.deref, hq, if_false]
      by_cases h0 : q = 0
      · simp [h0]
      · simp only [h0, if_false]
        have hne : p - 1 ≠ q - 1 := by
          intro hc
          have hp0 : p ≠ 0 := by
            intro hp0
            simp [SystemState.deref, hp0] at hp
          omega
        simp [List.getElem?_set, hne]

theorem deref_alloc_new (h : SystemState) (o : ASObject) :
    SystemState.deref { h with objects := h.objects ++ [o] } (h.objects.length + 1) = some o := by
  simp [SystemState.deref]

theorem deref_alloc_old (h : SystemState) (o o1 : ASObject) (p : Nat)
    (hp : h.deref p = some o1) :
    SystemState.deref { h with objects := h.objects ++ [o] } p = some o1 := by
  simp only [SystemState.deref] at hp ⊢
  by_cases h0 : p = 0
  · simp [h0] at hp
  · simp only [h0, if_false] at hp ⊢
    have hlt : p - 1 < h.objects.length := by
      by_contra hc
      rw [List.getElem?_eq_none (by omega)] at hp
      cases hp
    rw [List.getElem?_append_left hlt]
    exact hp

theorem toInt32_range (x : Int) : -2147483648 ≤ toInt32 x ∧ toInt32 x < 2147483648 := by
  unfold toInt32
  simp only
  split <;> omega

theorem toInt32_congr (x : Int) : (toInt32 x - x) % 4294967296 = 0 := by
  unfold toInt32
  simp only
  split <;> omega

theorem toInt32_idem (x : Int) : toInt32 (toInt32 x) = toInt32 x := by
  unfold toInt32
  simp only
  split <;> split <;> omega

theorem toInt32_add (x y : Int) : toInt32 (toInt32 x + toInt32 y) = toInt32 (x + y) := by
  unfold toInt32
  simp only
  split <;> split <;> split <;> split <;> omega

theorem toInt32_of_range (x : Int) (h1 : -2147483648 ≤ x) (h2 : x < 2147483648) :
    toInt32 x = x := by
  unfold toInt32
  simp only
  split <;> omega

theorem loop_mono (env : Env) (n k : Nat) (s : VMState) (r : Res VMState Nat)
    (h : loop env n s = some r) : loop env (n + k) s = some r := by
  induction n generalizing s with
  | zero => simp [loop] at h
  | succ n ih =>
    rw [Nat.add_right_comm]
    simp only [loop] at h ⊢
    cases hs : step env s with
    | ok a s1 =>
      rw [hs] at h
      cases a with
      | next => exact ih _ h
      | ret v => exact h
    | throw e s1 =>
      rw [hs] at h
      exact h

theorem execOpcode_c5 (env : Env) (data : Nat) :
    execOpcode env 0xc5 data = op_binary_ii (add_i env) := rfl

theorem execOpcode_24 (env : Env) (data : Nat) : execOpcode env 0x24 data = op_pushbyte := rfl

theorem execOpcode_48 (env : Env) (data : Nat) : execOpcode env 0x48 data = op_returnvalue := rfl

/-- The Integer object boxed by `abstract_i`. -/
theorem step_pushbyte (env : Env) (s : VMState)
    (hip : s.instructionPointer < s.code.length)
    (hop : byteAt s.code s.instructionPointer = 0x24)
    (hroom : s.context.stack.length < s.context.max_stack) :
    step env s = Res.ok next
      { code := s.code
        instructionPointer := s.instructionPointer + 2
        context := { s.context with
          exec_pos := s.instructionPointer
          stack := (s.sys.objects.length + 1) :: s.context.stack }
        sys := { s.sys with objects := s.sys.objects ++
          [{ type := T_INTEGER, ref_count := 1,
             val := toInt32 (toInt8 (byteAt s.code (s.instructionPointer + 1))),
             ival := 0, dval := 0, isfloat := false }] } } := by
  simp only [step, hip, if_true, hop, execOpcode_24]
  simp [op_pushbyte, getIP, advance, onSys, abstract_i, alloc, runtime_stack_push, hroom]

theorem step_returnvalue (env : Env) (s : VMState) (v : Nat) (rest : List Nat)
    (hip : s.instructionPointer < s.code.length)
    (hop : byteAt s.code s.instructionPointer = 0x48)
    (hstack : s.context.stack = v :: rest) :
    step env s = Res.ok (ret v)
      { code := s.code
        instructionPointer := s.instructionPointer + 1
        context := { s.context with exec_pos := s.instructionPointer, stack := rest }
        sys := s.sys } := by
  simp only [step, hip, if_true, hop, execOpcode_48]
  simp [op_returnvalue, runtime_stack_pop, hstack]

set_option maxHeartbeats 1000000 in
theorem step_add_i (env : Env) (s : VMState) (pa pb : Nat) (rest : List Nat) (oa ob : ASObject)
    (hip : s.instructionPointer < s.code.length)
    (hop : byteAt s.code s.instructionPointer = 0xc5)
    (hstack : s.context.stack = pb :: pa :: rest)
    (hmax : s.context.stack.length ≤ s.context.max_stack)
    (ha : s.sys.deref pa = some oa) (hb : s.sys.deref pb = some ob)
    (hta : oa.type = T_INTEGER) (htb : ob.type = T_INTEGER) :
    step env s = Res.ok next
      { code := s.code
        instructionPointer := s.instructionPointer + 1
        context := { s.context with
          exec_pos := s.instructionPointer
          stack := (s.sys.objects.length + 1) :: rest }
        sys := { ((s.sys.addRef pa (-1)).addRef pb (-1)) with
          objects := ((s.sys.addRef pa (-1)).addRef pb (-1)).objects ++
            [{ type := T_INTEGER, ref_count := 1, val := toInt32 (oa.val + ob.val),
               ival := 0, dval := 0, isfloat := false }] } } := by
  have hroom : rest.length < s.context.max_stack := by
    rw [hstack] at hmax
    simp at hmax
    omega
  simp only [step, hip, if_true, hop, execOpcode_c5]
  simp [op_binary_ii, runtime_stack_pop, hstack, onSys, add_i, toInt, isIntegral, ha, hb, hta, htb,
    decRef, abstract_i, alloc, runtime_stack_push, hroom, addRef_length, toIntValue, toInt64Value,
    toInt32_idem, toInt32_add]


theorem deref_alloc_new_of_length (h : SystemState) (o : ASObject) (n : Nat)
    (hn : h.objects.length = n) :
    SystemState.deref { h with objects := h.objects ++ [o] } (n + 1) = some o := by
  subst hn
  exact deref_alloc_new h o

theorem scenario_add_i_run (env : Env) (context : call_context) (sys : SystemState)
    (hpos : context.exec_pos = 0) (hstack : context.stack = [])
    (hmax : 2 ≤ context.max_stack) :
    ∃ r s1 o, executeFunctionFast env 4 [0x24, 2, 0x24, 3, 0xc5, 0x48] context sys
        = some (Res.ok r s1)
      ∧ s1.sys.deref r = some o ∧ o.type = T_INTEGER ∧ o.val = 5 ∧ s1.context.stack = [] := by
  unfold executeFunctionFast
  simp only [loop, hpos]
  rw [step_pushbyte env _ (by simp) (by simp [byteAt]) (by simp [hstack]; omega)]
  simp only []
  rw [step_pushbyte env _ (by simp) (by simp [byteAt]) (by simp [hstack]; omega)]
  simp only []
  rw [step_add_i env _ (sys.objects.length + 1) (sys.objects.length + 1 + 1) []
    { type := T_INTEGER, ref_count := 1, val := 2, ival := 0, dval := 0, isfloat := false }
    { type := T_INTEGER, ref_count := 1, val := 3, ival := 0, dval := 0, isfloat := false }
    (by simp) (by simp [byteAt]) (by simp [hstack]) (by simp [hstack]; omega)
    (deref_alloc_old _ _ _ _ (deref_alloc_new sys _))
    (deref_alloc_new_of_length { sys with objects := sys.objects ++ [_] } _
      (sys.objects.length + 1) (by simp)) rfl rfl]
  simp only []
  rw [step_returnvalue env _ _ [] (by simp) (by simp [byteAt]) rfl]
  refine ⟨_, _, ASObject.mk T_INTEGER 1 5 0 0 false, rfl, ?_, rfl, rfl, rfl⟩
  exact deref_alloc_new_of_length _ _ _ (by simp [addRef_length])

/-- C1: add_i (0xC5) on two boxed Integers `a` (pushed first) and `b` pops
both, pushes one boxed Integer whose value is `a + b` reduced modulo 2^32 and
read as a signed 32-bit value, and advances the instruction pointer by 1;
the body `pushbyte 2; pushbyte 3; add_i; returnvalue` returns Integer 5 for
every fuel of at least four iterations. -/
theorem C1_add_i (env : Env) :
    (∀ (s : VMState) (pa pb : Nat) (rest : List Nat) (oa ob : ASObject),
      s.instructionPointer < s.code.length →
      byteAt s.code s.instructionPointer = 0xc5 →
      s.context.stack = pb :: pa :: rest →
      s.context.stack.length ≤ s.context.max_stack →
      s.sys.deref pa = some oa → s.sys.deref pb = some ob →
      oa.type = T_INTEGER → ob.type = T_INTEGER →
      ∃ s1 r o, step env s = Res.ok next s1
        ∧ s1.instructionPointer = s.instructionPointer + 1
        ∧ s1.context.stack = r :: rest
        ∧ s1.sys.deref r = some o ∧ o.type = T_INTEGER
        ∧ (o.val - (oa.val + ob.val)) % 4294967296 = 0
        ∧ -2147483648 ≤ o.val ∧ o.val < 2147483648)
    ∧ (∀ (fuel : Nat) (context : call_context) (sys : SystemState),
      4 ≤ fuel → context.exec_pos = 0 → context.stack = [] → 2 ≤ context.max_stack →
      ∃ r s1 o,
        executeFunctionFast env fuel [0x24, 2, 0x24, 3, 0xc5, 0x48] context sys
          = some (Res.ok r s1)
        ∧ s1.sys.deref r = some o ∧ o.type = T_INTEGER ∧ o.val = 5
        ∧ s1.context.stack = []) := by
  constructor
  · intro s pa pb rest oa ob hip hop hstack hmax ha hb hta htb
    refine ⟨_, _, _, step_add_i env s pa pb rest oa ob hip hop hstack hmax ha hb hta htb,
      rfl, rfl, deref_alloc_new_of_length _ _ _ (by simp [addRef_length]), rfl, ?_, ?_, ?_⟩
    · exact toInt32_congr _
    · exact (toInt32_range _).1
    · exact (toInt32_range _).2
  · intro fuel context sys hfuel hpos hstack hmax
    obtain ⟨r, s1, o, hrun, hrest⟩ := scenario_add_i_run env context sys hpos hstack hmax
    refine ⟨r, s1, o, ?_, hrest⟩
    have hf : fuel = 4 + (fuel - 4) := by omega
    rw [hf]
    exact loop_mono env 4 (fuel - 4) _ _ hrun

theorem C1_add_i_witness :
    (∃ s1 r o, step Env.failing (exampleState [0xc5] [4, 3]) = Res.ok next s1
        ∧ s1.instructionPointer = (exampleState [0xc5] [4, 3]).instructionPointer + 1
        ∧ s1.context.stack = r :: []
        ∧ s1.sys.deref r = some o ∧ o.type = T_INTEGER
        ∧ (o.val - ((exampleInteger 7).val + (exampleInteger 5).val)) % 4294967296 = 0
        ∧ -2147483648 ≤ o.val ∧ o.val < 2147483648)
    ∧ (∃ r s1 o,
        executeFunctionFast Env.failing 4 [0x24, 2, 0x24, 3, 0xc5, 0x48] (exampleContext [])
          exampleSys = some (Res.ok r s1)
        ∧ s1.sys.deref r = some o ∧ o.type = T_INTEGER ∧ o.val = 5
        ∧ s1.context.stack = []) :=
  ⟨(C1_add_i Env.failing).1 (exampleState [0xc5] [4, 3]) 3 4 [] (exampleInteger 7)
      (exampleInteger 5) (by decide) (by decide) rfl (by decide) rfl rfl rfl rfl,
    (C1_add_i Env.failing).2 4 (exampleContext []) exampleSys (by decide) rfl rfl (by decide)⟩

theorem execOpcode_15 (env : Env) (data : Nat) :
    execOpcode env 0x15 data = op_if2 (ifLT env) data := rfl

theorem execOpcode_2c (env : Env) (data : Nat) :
    execOpcode env 0x2c data = op_push_ctx_u32 env.pushString data := rfl

set_option maxHeartbeats 1000000 in
theorem step_iflt (env : Env) (s : VMState) (pa pb : Nat) (rest : List Nat) (oa ob : ASObject)
    (hip : s.instructionPointer < s.code.length)
    (hop : byteAt s.code s.instructionPointer = 0x15)
    (hstack : s.context.stack = pb :: pa :: rest)
    (ha : s.sys.deref pa = some oa) (hb : s.sys.deref pb = some ob)
    (hta : oa.type = T_INTEGER) (htb : ob.type = T_INTEGER)
    (hdest : oa.val < ob.val → readU32 s.code (s.instructionPointer + 1) < s.code.length) :
    step env s = Res.ok next
      { code := s.code
        instructionPointer :=
          if oa.val < ob.val then readU32 s.code (s.instructionPointer + 1)
          else s.instructionPointer + 5
        context := { s.context with exec_pos := s.instructionPointer, stack := rest }
        sys := (s.sys.addRef pb (-1)).addRef pa (-1) } := by
  simp only [step, hip, if_true, hop, execOpcode_15]
  by_cases hlt : oa.val < ob.val
  · have hd := hdest hlt
    simp [op_if2, uints, advance, runtime_stack_pop, hstack, onSys, ifLT, isLess, isIntegral, ha, hb,
      hta, htb, decRef, toInt64Value, branchIf, hlt, assertInCode, setIP, hd]
  · simp [op_if2, uints, advance, runtime_stack_pop, hstack, onSys, ifLT, isLess, isIntegral, ha, hb,
      hta, htb, decRef, toInt64Value, branchIf, hlt, assertInCode, setIP]

theorem step_pushstring (env : Env) (s : VMState) (v : Nat) (w : World)
    (hip : s.instructionPointer < s.code.length)
    (hop : byteAt s.code s.instructionPointer = 0x2c)
    (hps : env.pushString (readU32 s.code (s.instructionPointer + 1))
      { context := { s.context with exec_pos := s.instructionPointer }, sys := s.sys }
      = Res.ok v w)
    (hroom : w.context.stack.length < w.context.max_stack) :
    step env s = Res.ok next
      { code := s.code
        instructionPointer := s.instructionPointer + 5
        context := { w.context with stack := v :: w.context.stack }
        sys := w.sys } := by
  simp only [step, hip, if_true, hop, execOpcode_2c]
  simp [op_push_ctx_u32, uints, onCtx, hps, runtime_stack_push, hroom, advance]


theorem scenario_iflt_tail (env : Env) (iNo iYes yes : Nat) (s : VMState)
    (hyes : ∀ w, ∃ w1, env.pushString iYes w = Res.ok yes w1 ∧ w1.context = w.context)
    (hi : iYes < 256)
    (hcode : s.code = ifltBody iNo iYes) (hip : s.instructionPointer = 15)
    (hroom : s.context.stack.length < s.context.max_stack) :
    ∃ s1, loop env 2 s = some (Res.ok yes s1) ∧ s1.context.stack = s.context.stack := by
  obtain ⟨w1, hw1, hctx⟩ := hyes
    { context := { s.context with exec_pos := s.instructionPointer }, sys := s.sys }
  have hrd : readU32 s.code (s.instructionPointer + 1) = iYes := by
    simp [hcode, hip, ifltBody, readU32, byteAt, Nat.mod_eq_of_lt hi]
  simp only [loop]
  rw [step_pushstring env s yes w1 (by simp [hcode, hip, ifltBody])
    (by simp [hcode, hip, ifltBody, byteAt]) (by rw [hrd]; exact hw1)
    (by rw [hctx]; exact hroom)]
  simp only []
  rw [step_returnvalue env _ yes w1.context.stack (by simp [hcode, hip, ifltBody])
    (by simp [hcode, hip, ifltBody, byteAt]) rfl]
  refine ⟨_, rfl, ?_⟩
  simp [hctx]

theorem loop_step_next (env : Env) (n : Nat) (s s1 : VMState)
    (h : step env s = Res.ok next s1) : loop env (n + 1) s = loop env n s1 := by
  simp only [loop, h]

theorem scenario_iflt_head (env : Env) (iNo iYes : Nat) (context : call_context)
    (sys : SystemState)
    (hpos : context.exec_pos = 0) (hstack : context.stack = [])
    (hmax : 2 ≤ context.max_stack) :
    ∃ s3, (∀ n, loop env (n + 3) (VMState.mk (ifltBody iNo iYes) context.exec_pos context sys)
        = loop env n s3)
      ∧ s3.code = ifltBody iNo iYes ∧ s3.instructionPointer = 15
      ∧ s3.context.stack = [] ∧ s3.context.max_stack = context.max_stack := by
  apply Exists.intro
  refine ⟨fun n => ?_, ?_, ?_, ?_, ?_⟩
  · rw [hpos, loop_step_next env _ _ _ (step_pushbyte env _ (by simp [ifltBody])
      (by simp [byteAt, ifltBody]) (by simp [hstack]; omega))]
    rw [loop_step_next env _ _ _ (step_pushbyte env _ (by simp [ifltBody])
      (by simp [byteAt, ifltBody]) (by simp [hstack]; omega))]
    have hv1 : toInt32 (toInt8 ↑(byteAt (ifltBody iNo iYes) (0 + 1))) = 1 := by
      simp [ifltBody, byteAt, toInt8, toInt32]
    have hv2 : toInt32 (toInt8 ↑(byteAt (ifltBody iNo iYes) (0 + 2 + 1))) = 2 := by
      simp [ifltBody, byteAt, toInt8, toInt32]
    simp only [hv1, hv2]
    rw [loop_step_next env _ _ _ (step_iflt env _ (sys.objects.length + 1)
      (sys.objects.length + 1 + 1) []
      (ASObject.mk T_INTEGER 1 1 0 0 false) (ASObject.mk T_INTEGER 1 2 0 0 false)
      (by simp [ifltBody]) (by simp [byteAt, ifltBody]) (by simp [hstack])
      (deref_alloc_old _ _ _ _ (deref_alloc_new sys _))
      (deref_alloc_new_of_length { sys with objects := sys.objects ++ [_] } _
        (sys.objects.length + 1) (by simp)) rfl rfl
      (by intro _; simp [ifltBody, readU32, byteAt]))]
  · rfl
  · simp [ifltBody, readU32, byteAt]
  · rfl
  · rfl

theorem scenario_iflt_run (env : Env) (iNo iYes yes : Nat) (context : call_context)
    (sys : SystemState)
    (hyes : ∀ w, ∃ w1, env.pushString iYes w = Res.ok yes w1 ∧ w1.context = w.context)
    (hi : iYes < 256)
    (hpos : context.exec_pos = 0) (hstack : context.stack = [])
    (hmax : 2 ≤ context.max_stack) :
    ∃ s1, executeFunctionFast env 5 (ifltBody iNo iYes) context sys = some (Res.ok yes s1)
      ∧ s1.context.stack = [] := by
  obtain ⟨s3, hloop, hcode, hip, hst, hms⟩ :=
    scenario_iflt_head env iNo iYes context sys hpos hstack hmax
  obtain ⟨s1, hs1, hst1⟩ := scenario_iflt_tail env iNo iYes yes s3 hyes hi hcode hip
    (by rw [hst, hms]; simp; omega)
  refine ⟨s1, ?_, by rw [hst1, hst]⟩
  unfold executeFunctionFast
  rw [hloop 2]
  exact hs1


/-- C2: iflt (0x15) at offset `p` with operand `dest`, on Integers `a`
(pushed first) and `b` (pushed second): both are popped, and the next
instruction pointer is `dest` when `a < b` (for a target inside the code
array, which the source asserts) and `p + 5` otherwise; the body
`pushbyte 1; pushbyte 2; iflt L; pushstring "no"; returnvalue;
L: pushstring "yes"; returnvalue` returns the value `pushString` gives for
the index of "yes". -/
theorem C2_iflt (env : Env) :
    (∀ (s : VMState) (pa pb : Nat) (rest : List Nat) (oa ob : ASObject),
      s.instructionPointer < s.code.length →
      byteAt s.code s.instructionPointer = 0x15 →
      s.context.stack = pb :: pa :: rest →
      s.sys.deref pa = some oa → s.sys.deref pb = some ob →
      oa.type = T_INTEGER → ob.type = T_INTEGER →
      (oa.val < ob.val → readU32 s.code (s.instructionPointer + 1) < s.code.length) →
      ∃ s1, step env s = Res.ok next s1
        ∧ s1.context.stack = rest
        ∧ (oa.val < ob.val →
            s1.instructionPointer = readU32 s.code (s.instructionPointer + 1))
        ∧ (¬ oa.val < ob.val → s1.instructionPointer = s.instructionPointer + 5))
    ∧ (∀ (iNo iYes yes fuel : Nat) (context : call_context) (sys : SystemState),
      5 ≤ fuel →
      (∀ w, ∃ w1, env.pushString iYes w = Res.ok yes w1 ∧ w1.context = w.context) →
      iYes < 256 →
      context.exec_pos = 0 → context.stack = [] → 2 ≤ context.max_stack →
      ∃ s1, executeFunctionFast env fuel (ifltBody iNo iYes) context sys
          = some (Res.ok yes s1)
        ∧ s1.context.stack = []) := by
  constructor
  · intro s pa pb rest oa ob hip hop hstack ha hb hta htb hdest
    refine ⟨_, step_iflt env s pa pb rest oa ob hip hop hstack ha hb hta htb hdest, rfl, ?_, ?_⟩
    · intro hlt
      simp [hlt]
    · intro hlt
      simp [hlt]
  · intro iNo iYes yes fuel context sys hfuel hyes hi hpos hstack hmax
    obtain ⟨s1, hrun, hrest⟩ :=
      scenario_iflt_run env iNo iYes yes context sys hyes hi hpos hstack hmax
    refine ⟨s1, ?_, hrest⟩
    have hf : fuel = 5 + (fuel - 5) := by omega
    rw [hf]
    exact loop_mono env 5 (fuel - 5) _ _ hrun

theorem C2_iflt_witness :
    (∃ s1, step Env.strings (exampleState [0x15, 0, 0, 0, 0] [3, 4]) = Res.ok next s1
        ∧ s1.context.stack = []
        ∧ ((exampleInteger 5).val < (exampleInteger 7).val →
            s1.instructionPointer = readU32 (exampleState [0x15, 0, 0, 0, 0] [3, 4]).code
              ((exampleState [0x15, 0, 0, 0, 0] [3, 4]).instructionPointer + 1))
        ∧ (¬ (exampleInteger 5).val < (exampleInteger 7).val →
            s1.instructionPointer
              = (exampleState [0x15, 0, 0, 0, 0] [3, 4]).instructionPointer + 5))
    ∧ (∃ s1, executeFunctionFast Env.strings 5 (ifltBody 1 2) (exampleContext []) exampleSys
          = some (Res.ok 2 s1)
        ∧ s1.context.stack = []) :=
  ⟨(C2_iflt Env.strings).1 (exampleState [0x15, 0, 0, 0, 0] [3, 4]) 4 3 [] (exampleInteger 5)
      (exampleInteger 7) (by decide) (by decide) rfl rfl rfl rfl rfl (fun _ => by decide),
    (C2_iflt Env.strings).2 1 2 2 5 (exampleContext []) exampleSys (by decide)
      (fun w => ⟨w, rfl, rfl⟩) (by decide) rfl rfl (by decide)⟩

theorem execOpcode_1b (env : Env) (data : Nat) :
    execOpcode env 0x1b data = op_lookupswitch env data := rfl

set_option maxHeartbeats 1000000 in
theorem step_lookupswitch (env : Env) (s : VMState) (pi : Nat) (rest : List Nat) (oi : ASObject)
    (dest : Nat)
    (hip : s.instructionPointer < s.code.length)
    (hop : byteAt s.code s.instructionPointer = 0x1b)
    (hstack : s.context.stack = pi :: rest)
    (hi : s.sys.deref pi = some oi) (hti : oi.type = T_INTEGER)
    (hd : dest = if toUInt32 oi.val ≤ (readU32 s.code (s.instructionPointer + 1 + 4 * 1) : Int)
      then readU32 s.code (s.instructionPointer + 1 + 4 * (2 + (toUInt32 oi.val).toNat))
      else readU32 s.code (s.instructionPointer + 1 + 4 * 0))
    (hdest : dest < s.code.length) :
    step env s = Res.ok next
      { code := s.code
        instructionPointer := dest
        context := { s.context with exec_pos := s.instructionPointer, stack := rest }
        sys := s.sys.addRef pi (-1) } := by
  simp only [step, hip, if_true, hop, execOpcode_1b]
  subst hd
  by_cases hle : toUInt32 oi.val ≤ (readU32 s.code (s.instructionPointer + 1 + 4 * 1) : Int)
  · simp only [hle, if_true] at hdest
    simp [op_lookupswitch, uints, runtime_stack_pop, hstack, getSys, assert_and_throw,
      SystemState.hasType, hi, hti, onSys, toUInt, isIntegral, toInt64Value, decRef, hle,
      assertInCode, setIP, hdest]
  · simp only [hle, if_false] at hdest
    simp [op_lookupswitch, uints, runtime_stack_pop, hstack, getSys, assert_and_throw,
      SystemState.hasType, hi, hti, onSys, toUInt, isIntegral, toInt64Value, decRef, hle,
      assertInCode, setIP, hdest]

theorem byteAt_lt (code : List Nat) (i : Nat) : byteAt code i < 256 := by
  unfold byteAt
  omega

theorem readU32_lt (code : List Nat) (off : Nat) : readU32 code off < 4294967296 := by
  have h0 := byteAt_lt code off
  have h1 := byteAt_lt code (off + 1)
  have h2 := byteAt_lt code (off + 2)
  have h3 := byteAt_lt code (off + 3)
  unfold readU32
  omega

theorem lookupswitch_general (env : Env) (s : VMState) (pi : Nat) (rest : List Nat)
    (oi : ASObject)
    (hip : s.instructionPointer < s.code.length)
    (hop : byteAt s.code s.instructionPointer = 0x1b)
    (hstack : s.context.stack = pi :: rest)
    (hi : s.sys.deref pi = some oi) (hti : oi.type = T_INTEGER)
    (hlo : -2147483648 ≤ oi.val) (hhi : oi.val < 2147483648)
    (hlen : s.code.length < 4294967296)
    (htab : s.instructionPointer + 9 + 4 * (readU32 s.code (s.instructionPointer + 5) + 1)
      ≤ s.code.length)
    (hdef : readU32 s.code (s.instructionPointer + 1) < s.code.length)
    (hcase : ∀ k, k ≤ readU32 s.code (s.instructionPointer + 5) →
      readU32 s.code (s.instructionPointer + 9 + 4 * k) < s.code.length) :
    ∃ s1, step env s = Res.ok next s1
      ∧ s1.context.stack = rest
      ∧ ((0 ≤ oi.val ∧ oi.val ≤ (readU32 s.code (s.instructionPointer + 5) : Int)) →
          s1.instructionPointer = readU32 s.code (s.instructionPointer + 9 + 4 * oi.val.toNat))
      ∧ (¬ (0 ≤ oi.val ∧ oi.val ≤ (readU32 s.code (s.instructionPointer + 5) : Int)) →
          s1.instructionPointer = readU32 s.code (s.instructionPointer + 1)) := by
  have e1 : s.instructionPointer + 1 + 4 * 1 = s.instructionPointer + 5 := by omega
  have e0 : s.instructionPointer + 1 + 4 * 0 = s.instructionPointer + 1 := by omega
  by_cases hin : 0 ≤ oi.val ∧ oi.val ≤ (readU32 s.code (s.instructionPointer + 5) : Int)
  · have hu : toUInt32 oi.val = oi.val := by
      unfold toUInt32
      omega
    have e2 : s.instructionPointer + 1 + 4 * (2 + (toUInt32 oi.val).toNat)
        = s.instructionPointer + 9 + 4 * oi.val.toNat := by
      rw [hu]
      omega
    have hk : oi.val.toNat ≤ readU32 s.code (s.instructionPointer + 5) := by omega
    refine ⟨_, step_lookupswitch env s pi rest oi
      (readU32 s.code (s.instructionPointer + 9 + 4 * oi.val.toNat)) hip hop hstack hi hti ?_
      (hcase _ hk), rfl, fun _ => rfl, fun hn => absurd hin hn⟩
    rw [e1, e2, e0, hu, if_pos hin.2]
  · have hu : ¬ toUInt32 oi.val ≤ (readU32 s.code (s.instructionPointer + 5) : Int) := by
      unfold toUInt32
      omega
    refine ⟨_, step_lookupswitch env s pi rest oi
      (readU32 s.code (s.instructionPointer + 1)) hip hop hstack hi hti ?_ hdef,
      rfl, fun h => absurd h hin, fun _ => rfl⟩
    rw [e1, e0, if_neg hu]

theorem loop_step_ret (env : Env) (n : Nat) (s s1 : VMState) (v : Nat)
    (h : step env s = Res.ok (ret v) s1) : loop env (n + 1) s = some (Res.ok v s1) := by
  simp only [loop, h]

theorem loop_step_throw (env : Env) (n : Nat) (s s1 : VMState) (e : ASError)
    (h : step env s = Res.throw e s1) : loop env (n + 1) s = some (Res.throw e s1) := by
  simp only [loop, h]

theorem scenario_lookupswitch_run (env : Env) (context : call_context) (sys : SystemState)
    (hpos : context.exec_pos = 0) (hstack : context.stack = [])
    (hmax : 1 ≤ context.max_stack) :
    ∃ r s1 o, executeFunctionFast env 4 lookupswitchBody context sys = some (Res.ok r s1)
      ∧ s1.sys.deref r = some o ∧ o.type = T_INTEGER ∧ o.val = 42
      ∧ s1.context.stack = [] := by
  unfold executeFunctionFast
  rw [hpos, loop_step_next env _ _ _ (step_pushbyte env _ (by simp [lookupswitchBody])
    (by simp [byteAt, lookupswitchBody]) (by simp [hstack]; omega))]
  have hv1 : toInt32 (toInt8 ↑(byteAt lookupswitchBody (0 + 1))) = 9 := by
    simp [lookupswitchBody, byteAt, toInt8, toInt32]
  simp only [hv1]
  rw [loop_step_next env _ _ _ (step_lookupswitch env _ (sys.objects.length + 1) []
    (ASObject.mk T_INTEGER 1 9 0 0 false) 32
    (by simp [lookupswitchBody]) (by simp [byteAt, lookupswitchBody]) (by simp [hstack])
    (deref_alloc_new sys _) rfl
    (by simp [lookupswitchBody, readU32, byteAt, toUInt32])
    (by simp [lookupswitchBody]))]
  rw [loop_step_next env _ _ _ (step_pushbyte env _ (by simp [lookupswitchBody])
    (by simp [byteAt, lookupswitchBody]) (by simp; omega))]
  have hv2 : toInt32 (toInt8 ↑(byteAt lookupswitchBody (32 + 1))) = 42 := by
    simp [lookupswitchBody, byteAt, toInt8, toInt32]
  simp only [hv2]
  rw [loop_step_ret env _ _ _ _ (step_returnvalue env _ _ [] (by simp [lookupswitchBody])
    (by simp [byteAt, lookupswitchBody]) rfl)]
  refine ⟨_, _, ASObject.mk T_INTEGER 1 42 0 0 false, rfl, ?_, rfl, rfl, rfl⟩
  exact deref_alloc_new_of_length _ _ _ (by simp [addRef_length])

/-- C3: lookupswitch (0x1B) with operands default, count and a table of
count+1 offsets that lies inside the code array: for every Integer index `i`
on top of the stack the index is popped and the next instruction pointer is
`case[i]` when `0 <= i <= count` and `default` otherwise, negative `i`
included (the targets being inside the code array, which the source
asserts); with index 9 and count 2 the scenario body returns 42. -/
theorem C3_lookupswitch (env : Env) :
    (∀ (s : VMState) (pi : Nat) (rest : List Nat) (oi : ASObject),
      s.instructionPointer < s.code.length →
      byteAt s.code s.instructionPointer = 0x1b →
      s.context.stack = pi :: rest →
      s.sys.deref pi = some oi → oi.type = T_INTEGER →
      -2147483648 ≤ oi.val → oi.val < 2147483648 →
      s.code.length < 4294967296 →
      s.instructionPointer + 9 + 4 * (readU32 s.code (s.instructionPointer + 5) + 1)
        ≤ s.code.length →
      readU32 s.code (s.instructionPointer + 1) < s.code.length →
      (∀ k, k ≤ readU32 s.code (s.instructionPointer + 5) →
        readU32 s.code (s.instructionPointer + 9 + 4 * k) < s.code.length) →
      ∃ s1, step env s = Res.ok next s1
        ∧ s1.context.stack = rest
        ∧ ((0 ≤ oi.val ∧ oi.val ≤ (readU32 s.code (s.instructionPointer + 5) : Int)) →
            s1.instructionPointer
              = readU32 s.code (s.instructionPointer + 9 + 4 * oi.val.toNat))
        ∧ (¬ (0 ≤ oi.val ∧ oi.val ≤ (readU32 s.code (s.instructionPointer + 5) : Int)) →
            s1.instructionPointer = readU32 s.code (s.instructionPointer + 1)))
    ∧ (∀ (fuel : Nat) (context : call_context) (sys : SystemState),
      4 ≤ fuel → context.exec_pos = 0 → context.stack = [] → 1 ≤ context.max_stack →
      ∃ r s1 o, executeFunctionFast env fuel lookupswitchBody context sys = some (Res.ok r s1)
        ∧ s1.sys.deref r = some o ∧ o.type = T_INTEGER ∧ o.val = 42
        ∧ s1.context.stack = []) := by
  constructor
  · intro s pi rest oi hip hop hstack hi hti hlo hhi hlen htab hdef hcase
    exact lookupswitch_general env s pi rest oi hip hop hstack hi hti hlo hhi hlen htab hdef hcase
  · intro fuel context sys hfuel hpos hstack hmax
    obtain ⟨r, s1, o, hrun, hrest⟩ := scenario_lookupswitch_run env context sys hpos hstack hmax
    refine ⟨r, s1, o, ?_, hrest⟩
    have hf : fuel = 4 + (fuel - 4) := by omega
    rw [hf]
    exact loop_mono env 4 (fuel - 4) _ _ hrun

theorem C3_lookupswitch_witness :
    (∃ s1, step Env.failing (exampleState [0x1b, 13, 0, 0, 0, 0, 0, 0, 0, 13, 0, 0, 0, 0x47] [5])
          = Res.ok next s1
        ∧ s1.context.stack = []
        ∧ ((0 ≤ (exampleInteger 0).val ∧ (exampleInteger 0).val ≤
              (readU32 (exampleState [0x1b, 13, 0, 0, 0, 0, 0, 0, 0, 13, 0, 0, 0, 0x47] [5]).code
                ((exampleState [0x1b, 13, 0, 0, 0, 0, 0, 0, 0, 13, 0, 0, 0, 0x47]
                  [5]).instructionPointer + 5) : Int)) →
            s1.instructionPointer
              = readU32 (exampleState [0x1b, 13, 0, 0, 0, 0, 0, 0, 0, 13, 0, 0, 0, 0x47] [5]).code
                ((exampleState [0x1b, 13, 0, 0, 0, 0, 0, 0, 0, 13, 0, 0, 0, 0x47]
                  [5]).instructionPointer + 9 + 4 * (exampleInteger 0).val.toNat))
        ∧ (¬ (0 ≤ (exampleInteger 0).val ∧ (exampleInteger 0).val ≤
              (readU32 (exampleState [0x1b, 13, 0, 0, 0, 0, 0, 0, 0, 13, 0, 0, 0, 0x47] [5]).code
                ((exampleState [0x1b, 13, 0, 0, 0, 0, 0, 0, 0, 13, 0, 0, 0, 0x47]
                  [5]).instructionPointer + 5) : Int)) →
            s1.instructionPointer
              = readU32 (exampleState [0x1b, 13, 0, 0, 0, 0, 0, 0, 0, 13, 0, 0, 0, 0x47] [5]).code
                ((exampleState [0x1b, 13, 0, 0, 0, 0, 0, 0, 0, 13, 0, 0, 0, 0x47]
                  [5]).instructionPointer + 1)))
    ∧ (∃ r s1 o, executeFunctionFast Env.failing 4 lookupswitchBody (exampleContext [])
          exampleSys = some (Res.ok r s1)
        ∧ s1.sys.deref r = some o ∧ o.type = T_INTEGER ∧ o.val = 42
        ∧ s1.context.stack = []) :=
  ⟨(C3_lookupswitch Env.failing).1
      (exampleState [0x1b, 13, 0, 0, 0, 0, 0, 0, 0, 13, 0, 0, 0, 0x47] [5]) 5 []
      (exampleInteger 0) (by decide) (by decide) rfl rfl rfl (by decide) (by decide)
      (by decide) (by decide) (by decide)
      (fun k hk => by
        have h0 : k = 0 := Nat.le_zero.mp hk
        subst h0
        decide),
    (C3_lookupswitch Env.failing).2 4 (exampleContext []) exampleSys (by decide) rfl rfl
      (by decide)⟩

theorem execOpcode_a4 (env : Env) (data : Nat) :
    execOpcode env 0xa4 data = op_arith moduloI (fun v1 v2 => env.modulo v1 v2) := rfl

theorem tmod_bounds (a b : Int) :
    (0 ≤ a → 0 ≤ a.tmod b ∧ a.tmod b ≤ a) ∧ (a ≤ 0 → a ≤ a.tmod b ∧ a.tmod b ≤ 0) := by
  rcases a with m | m <;> rcases b with n | n
  · have h := Nat.mod_le m n
    show (0 ≤ (m : Int) → 0 ≤ ((m % n : Nat) : Int) ∧ ((m % n : Nat) : Int) ≤ (m : Int))
      ∧ ((m : Int) ≤ 0 → (m : Int) ≤ ((m % n : Nat) : Int) ∧ ((m % n : Nat) : Int) ≤ 0)
    generalize m % n = r at h ⊢
    omega
  · have h := Nat.mod_le m n.succ
    show (0 ≤ (m : Int) → 0 ≤ ((m % n.succ : Nat) : Int) ∧ ((m % n.succ : Nat) : Int) ≤ (m : Int))
      ∧ ((m : Int) ≤ 0 → (m : Int) ≤ ((m % n.succ : Nat) : Int)
        ∧ ((m % n.succ : Nat) : Int) ≤ 0)
    generalize m % n.succ = r at h ⊢
    omega
  · have h := Nat.mod_le m.succ n
    show (0 ≤ Int.negSucc m → 0 ≤ -((m.succ % n : Nat) : Int)
        ∧ -((m.succ % n : Nat) : Int) ≤ Int.negSucc m)
      ∧ (Int.negSucc m ≤ 0 → Int.negSucc m ≤ -((m.succ % n : Nat) : Int)
        ∧ -((m.succ % n : Nat) : Int) ≤ 0)
    rw [Int.negSucc_eq]
    generalize m.succ % n = r at h ⊢
    omega
  · have h := Nat.mod_le m.succ n.succ
    show (0 ≤ Int.negSucc m → 0 ≤ -((m.succ % n.succ : Nat) : Int)
        ∧ -((m.succ % n.succ : Nat) : Int) ≤ Int.negSucc m)
      ∧ (Int.negSucc m ≤ 0 → Int.negSucc m ≤ -((m.succ % n.succ : Nat) : Int)
        ∧ -((m.succ % n.succ : Nat) : Int) ≤ 0)
    rw [Int.negSucc_eq]
    generalize m.succ % n.succ = r at h ⊢
    omega
theorem toInt64_of_range (x : Int) (h1 : -9223372036854775808 ≤ x)
    (h2 : x < 9223372036854775808) : toInt64 x = x := by
  unfold toInt64
  simp only
  split <;> omega

set_option maxHeartbeats 1000000 in
theorem step_modulo_integral (env : Env) (s : VMState) (v1 v2 : Nat) (rest : List Nat)
    (hip : s.instructionPointer < s.code.length)
    (hop : byteAt s.code s.instructionPointer = 0xa4)
    (hstack : s.context.stack = v2 :: v1 :: rest)
    (hmax : s.context.stack.length ≤ s.context.max_stack)
    (h1 : isIntegral s.sys v1 = true) (h2 : isIntegral s.sys v2 = true)
    (hdef : ¬ (toInt64Value s.sys v1 = -9223372036854775808 ∧ toInt64Value s.sys v2 = -1)) :
    step env s = Res.ok next
      { code := s.code
        instructionPointer := s.instructionPointer + 1
        context := { s.context with
          exec_pos := s.instructionPointer
          stack := (s.sys.objects.length + 1) :: rest }
        sys := { ((s.sys.addRef v1 (-1)).addRef v2 (-1)) with
          objects := ((s.sys.addRef v1 (-1)).addRef v2 (-1)).objects ++
            [if toInt64Value s.sys v2 = 0
              then { type := T_NUMBER, ref_count := 1, val := 0, ival := 0, dval := Number.NaN,
                     isfloat := true }
              else { type := T_NUMBER, ref_count := 1, val := 0,
                     ival := toInt64 (Int.tmod (toInt64Value s.sys v1) (toInt64Value s.sys v2)),
                     dval := 0, isfloat := false }] } } := by
  have hroom : rest.length < s.context.max_stack := by
    rw [hstack] at hmax
    simp at hmax
    omega
  simp only [step, hip, if_true, hop, execOpcode_a4]
  by_cases hz : toInt64Value s.sys v2 = 0
  · have hm : moduloI (toInt64Value s.sys v1) 0 = IntResult.nan := by
      unfold moduloI
      rw [if_pos rfl]
    simp [op_arith, runtime_stack_pop, hstack, getSys, h1, h2, onSys, decRef, hm, hz,
      abstract_d, alloc, runtime_stack_push, hroom, addRef_length]
  · have hm : moduloI (toInt64Value s.sys v1) (toInt64Value s.sys v2)
        = IntResult.value (Int.tmod (toInt64Value s.sys v1) (toInt64Value s.sys v2)) := by
      unfold moduloI
      rw [if_neg hz, if_neg hdef]
    simp [op_arith, runtime_stack_pop, hstack, getSys, h1, h2, onSys, decRef, hm, hz,
      abstract_di, alloc, runtime_stack_push, hroom, addRef_length]

/-- The input for which the integer path of modulo is undefined: the two
operands are released and the run ends there. -/
theorem step_modulo_undefined (env : Env) (s : VMState) (v1 v2 : Nat) (rest : List Nat)
    (hip : s.instructionPointer < s.code.length)
    (hop : byteAt s.code s.instructionPointer = 0xa4)
    (hstack : s.context.stack = v2 :: v1 :: rest)
    (h1 : isIntegral s.sys v1 = true) (h2 : isIntegral s.sys v2 = true)
    (ha : toInt64Value s.sys v1 = -9223372036854775808) (hb : toInt64Value s.sys v2 = -1) :
    step env s = Res.throw ASError.UndefinedBehaviour
      { code := s.code
        instructionPointer := s.instructionPointer + 1
        context := { s.context with exec_pos := s.instructionPointer, stack := rest }
        sys := (s.sys.addRef v1 (-1)).addRef v2 (-1) } := by
  simp only [step, hip, if_true, hop, execOpcode_a4]
  have hm : moduloI (toInt64Value s.sys v1) (toInt64Value s.sys v2) = IntResult.undefined := by
    rw [ha, hb]
    rfl
  simp [op_arith, runtime_stack_pop, hstack, getSys, h1, h2, onSys, decRef, hm, throwErr]

theorem isIntegral_of_integer (h : SystemState) (p : Nat) (o : ASObject)
    (hp : h.deref p = some o) (ht : o.type = T_INTEGER) : isIntegral h p = true := by
  simp [isIntegral, hp, ht]

theorem toInt64Value_of_integer (h : SystemState) (p : Nat) (o : ASObject)
    (hp : h.deref p = some o) (ht : o.type = T_INTEGER) : toInt64Value h p = o.val := by
  simp [toInt64Value, hp, ht]

theorem scenario_modulo_run (env : Env) (context : call_context) (sys : SystemState)
    (hpos : context.exec_pos = 0) (hstack : context.stack = [])
    (hmax : 2 ≤ context.max_stack) :
    ∃ r s1 o, executeFunctionFast env 4 [0x24, 7, 0x24, 0, 0xa4, 0x48] context sys
        = some (Res.ok r s1)
      ∧ s1.sys.deref r = some o ∧ o.type = T_NUMBER ∧ o.isfloat = true
      ∧ o.dval = Number.NaN ∧ s1.context.stack = [] := by
  unfold executeFunctionFast
  rw [hpos, loop_step_next env _ _ _ (step_pushbyte env _ (by simp) (by simp [byteAt])
    (by simp [hstack]; omega))]
  rw [loop_step_next env _ _ _ (step_pushbyte env _ (by simp) (by simp [byteAt])
    (by simp [hstack]; omega))]
  have hv1 : toInt32 (toInt8 ↑(byteAt [0x24, 7, 0x24, 0, 0xa4, 0x48] (0 + 1))) = 7 := by
    simp [byteAt, toInt8, toInt32]
  have hv2 : toInt32 (toInt8 ↑(byteAt [0x24, 7, 0x24, 0, 0xa4, 0x48] (0 + 2 + 1))) = 0 := by
    simp [byteAt, toInt8, toInt32]
  simp only [hv1, hv2]
  have hd1 : SystemState.deref
      { sys with objects := sys.objects ++ [ASObject.mk T_INTEGER 1 7 0 0 false]
          ++ [ASObject.mk T_INTEGER 1 0 0 0 false] }
      (sys.objects.length + 1) = some (ASObject.mk T_INTEGER 1 7 0 0 false) :=
    deref_alloc_old _ _ _ _ (deref_alloc_new sys _)
  have hd2 : SystemState.deref
      { sys with objects := sys.objects ++ [ASObject.mk T_INTEGER 1 7 0 0 false]
          ++ [ASObject.mk T_INTEGER 1 0 0 0 false] }
      (sys.objects.length + 1 + 1) = some (ASObject.mk T_INTEGER 1 0 0 0 false) :=
    deref_alloc_new_of_length { sys with objects := sys.objects ++ [_] } _
      (sys.objects.length + 1) (by simp)
  rw [loop_step_next env _ _ _ (step_modulo_integral env _ (sys.objects.length + 1)
    (sys.objects.length + 1 + 1) [] (by simp) (by simp [byteAt]) (by simp [hstack])
    (by simp [hstack]; omega)
    (isIntegral_of_integer _ _ _ hd1 rfl) (isIntegral_of_integer _ _ _ hd2 rfl)
    (fun h => absurd ((toInt64Value_of_integer _ _ _ hd2 rfl).symm.trans h.2) (by decide)))]
  rw [loop_step_ret env _ _ _ _ (step_returnvalue env _ _ [] (by simp) (by simp [byteAt]) rfl)]
  refine ⟨_, _, ASObject.mk T_NUMBER 1 0 0 Number.NaN true, rfl, ?_, rfl, rfl, rfl, rfl⟩
  have hz := toInt64Value_of_integer _ _ _ hd2 rfl
  simp only [] at hz ⊢
  rw [hz]
  simp only [if_true]
  exact deref_alloc_new_of_length _ _ _ (by simp [addRef_length])

/-- C4: modulo (0xA4) with an integral dividend and an integral divisor whose
value is 0 pops both operands, pushes a Number that is NaN, raises no error
and advances the instruction pointer by 1; the body
`pushbyte 7; pushbyte 0; modulo; returnvalue` returns NaN. -/
theorem C4_modulo_by_zero (env : Env) :
    (∀ (s : VMState) (v1 v2 : Nat) (rest : List Nat),
      s.instructionPointer < s.code.length →
      byteAt s.code s.instructionPointer = 0xa4 →
      s.context.stack = v2 :: v1 :: rest →
      s.context.stack.length ≤ s.context.max_stack →
      isIntegral s.sys v1 = true → isIntegral s.sys v2 = true →
      toInt64Value s.sys v2 = 0 →
      ∃ s1 r o, step env s = Res.ok next s1
        ∧ s1.instructionPointer = s.instructionPointer + 1
        ∧ s1.context.stack = r :: rest
        ∧ s1.sys.deref r = some o ∧ o.type = T_NUMBER ∧ o.isfloat = true
        ∧ o.dval = Number.NaN ∧ isNaNBits o.dval = true)
    ∧ (∀ (fuel : Nat) (context : call_context) (sys : SystemState),
      4 ≤ fuel → context.exec_pos = 0 → context.stack = [] → 2 ≤ context.max_stack →
      ∃ r s1 o,
        executeFunctionFast env fuel [0x24, 7, 0x24, 0, 0xa4, 0x48] context sys
          = some (Res.ok r s1)
        ∧ s1.sys.deref r = some o ∧ o.type = T_NUMBER ∧ o.isfloat = true
        ∧ o.dval = Number.NaN ∧ isNaNBits o.dval = true) := by
  constructor
  · intro s v1 v2 rest hip hop hstack hmax h1 h2 hz
    refine ⟨_, _, ASObject.mk T_NUMBER 1 0 0 Number.NaN true,
      step_modulo_integral env s v1 v2 rest hip hop hstack hmax h1 h2
        (fun h => absurd (hz.symm.trans h.2) (by decide)), rfl, rfl, ?_,
      rfl, rfl, rfl, by decide⟩
    simp only [hz, if_true]
    exact deref_alloc_new_of_length _ _ _ (by simp [addRef_length])
  · intro fuel context sys hfuel hpos hstack hmax
    obtain ⟨r, s1, o, hrun, hd, ht, hf, hn, _⟩ :=
      scenario_modulo_run env context sys hpos hstack hmax
    refine ⟨r, s1, o, ?_, hd, ht, hf, hn, by rw [hn]; decide⟩
    have hfu : fuel = 4 + (fuel - 4) := by omega
    rw [hfu]
    exact loop_mono env 4 (fuel - 4) _ _ hrun

theorem C4_modulo_by_zero_witness :
    (∃ s1 r o, step Env.failing (exampleState [0xa4] [5, 3]) = Res.ok next s1
        ∧ s1.instructionPointer = (exampleState [0xa4] [5, 3]).instructionPointer + 1
        ∧ s1.context.stack = r :: []
        ∧ s1.sys.deref r = some o ∧ o.type = T_NUMBER ∧ o.isfloat = true
        ∧ o.dval = Number.NaN ∧ isNaNBits o.dval = true)
    ∧ (∃ r s1 o,
        executeFunctionFast Env.failing 4 [0x24, 7, 0x24, 0, 0xa4, 0x48] (exampleContext [])
          exampleSys = some (Res.ok r s1)
        ∧ s1.sys.deref r = some o ∧ o.type = T_NUMBER ∧ o.isfloat = true
        ∧ o.dval = Number.NaN ∧ isNaNBits o.dval = true) :=
  ⟨(C4_modulo_by_zero Env.failing).1 (exampleState [0xa4] [5, 3]) 3 5 [] (by decide)
      (by decide) rfl (by decide) rfl rfl rfl,
    (C4_modulo_by_zero Env.failing).2 4 (exampleContext []) exampleSys (by decide) rfl rfl
      (by decide)⟩

/-- C5 (counterexample): modulo (0xA4) on the integral Number holding
-9223372036854775808 (pushed first) and the Integer -1 (pushed second), two
non-zero integers boxed as integral values: `a - trunc(a/b)*b` is 0, but the
integer path evaluates `num1%num2`, which is undefined for this pair, and no
value is pushed: the run ends there with both operands popped. -/
theorem C5_counterexample :
    isIntegral minState.sys 8 = true ∧ isIntegral minState.sys 9 = true
    ∧ toInt64Value minState.sys 8 = -9223372036854775808
    ∧ toInt64Value minState.sys 9 = -1
    ∧ toInt64Value minState.sys 8
        - (toInt64Value minState.sys 8).tdiv (toInt64Value minState.sys 9)
          * toInt64Value minState.sys 9 = 0
    ∧ ∃ s1, step Env.failing minState = Res.throw ASError.UndefinedBehaviour s1
      ∧ s1.context.stack = []
      ∧ loop Env.failing 2 minState = some (Res.throw ASError.UndefinedBehaviour s1) := by
  have h := step_modulo_undefined Env.failing minState 8 9 [] (by decide) (by decide) rfl
    rfl rfl rfl rfl
  exact ⟨rfl, rfl, rfl, rfl, by decide, _, h, rfl, loop_step_throw Env.failing 1 _ _ _ h⟩

/-- C5 (amended): modulo (0xA4) on integral operands `a` (pushed first) and
`b` (pushed second), `b` non-zero, `a` a 64-bit value, other than the pair
`a = INT64_MIN`, `b = -1`: the value pushed is the integral Number
`a - trunc(a/b)*b`, the remainder of the division truncated towards zero,
whose sign follows the dividend `a`. -/
theorem C5_modulo_nonzero (env : Env) (s : VMState) (v1 v2 : Nat) (rest : List Nat)
    (hip : s.instructionPointer < s.code.length)
    (hop : byteAt s.code s.instructionPointer = 0xa4)
    (hstack : s.context.stack = v2 :: v1 :: rest)
    (hmax : s.context.stack.length ≤ s.context.max_stack)
    (h1 : isIntegral s.sys v1 = true) (h2 : isIntegral s.sys v2 = true)
    (hb : toInt64Value s.sys v2 ≠ 0)
    (ha1 : -9223372036854775808 ≤ toInt64Value s.sys v1)
    (ha2 : toInt64Value s.sys v1 < 9223372036854775808)
    (hdef : ¬ (toInt64Value s.sys v1 = -9223372036854775808 ∧ toInt64Value s.sys v2 = -1)) :
    ∃ s1 r o, step env s = Res.ok next s1
      ∧ s1.context.stack = r :: rest
      ∧ s1.sys.deref r = some o ∧ o.type = T_NUMBER ∧ o.isfloat = false
      ∧ o.ival = toInt64Value s.sys v1
          - (toInt64Value s.sys v1).tdiv (toInt64Value s.sys v2) * toInt64Value s.sys v2
      ∧ (0 ≤ toInt64Value s.sys v1 → 0 ≤ o.ival)
      ∧ (toInt64Value s.sys v1 ≤ 0 → o.ival ≤ 0) := by
  have hbd := tmod_bounds (toInt64Value s.sys v1) (toInt64Value s.sys v2)
  have hr : toInt64 (Int.tmod (toInt64Value s.sys v1) (toInt64Value s.sys v2))
      = Int.tmod (toInt64Value s.sys v1) (toInt64Value s.sys v2) := by
    apply toInt64_of_range
    · rcases le_total 0 (toInt64Value s.sys v1) with h | h
      · have := (hbd.1 h).1
        omega
      · have := (hbd.2 h).1
        omega
    · rcases le_total 0 (toInt64Value s.sys v1) with h | h
      · have := (hbd.1 h).2
        omega
      · have := (hbd.2 h).2
        omega
  refine ⟨_, _, ASObject.mk T_NUMBER 1 0
      (Int.tmod (toInt64Value s.sys v1) (toInt64Value s.sys v2)) 0 false,
    step_modulo_integral env s v1 v2 rest hip hop hstack hmax h1 h2 hdef, rfl, ?_, rfl, rfl, ?_,
    fun h => (hbd.1 h).1, fun h => (hbd.2 h).2⟩
  · simp only [hb, if_false, hr]
    exact deref_alloc_new_of_length _ _ _ (by simp [addRef_length])
  · show Int.tmod (toInt64Value s.sys v1) (toInt64Value s.sys v2) = _
    rw [Int.tmod_def, Int.mul_comm]

theorem C5_modulo_nonzero_witness :
    ∃ s1 r o, step Env.failing (exampleState [0xa4] [4, 6]) = Res.ok next s1
      ∧ s1.context.stack = r :: []
      ∧ s1.sys.deref r = some o ∧ o.type = T_NUMBER ∧ o.isfloat = false
      ∧ o.ival = toInt64Value (exampleState [0xa4] [4, 6]).sys 6
          - (toInt64Value (exampleState [0xa4] [4, 6]).sys 6).tdiv
              (toInt64Value (exampleState [0xa4] [4, 6]).sys 4)
            * toInt64Value (exampleState [0xa4] [4, 6]).sys 4
      ∧ (0 ≤ toInt64Value (exampleState [0xa4] [4, 6]).sys 6 → 0 ≤ o.ival)
      ∧ (toInt64Value (exampleState [0xa4] [4, 6]).sys 6 ≤ 0 → o.ival ≤ 0) :=
  C5_modulo_nonzero Env.failing (exampleState [0xa4] [4, 6]) 6 4 [] (by decide) (by decide)
    rfl (by decide) rfl rfl (by decide) (by decide) (by decide) (by decide)

theorem execOpcode_77 (env : Env) (data : Nat) : execOpcode env 0x77 data = op_convert_o := rfl

theorem execOpcode_20 (env : Env) (data : Nat) :
    execOpcode env 0x20 data = op_push_const pushNull := rfl

theorem step_convert_o_null (env : Env) (s : VMState) (v : Nat) (rest : List Nat) (o : ASObject)
    (hip : s.instructionPointer < s.code.length)
    (hop : byteAt s.code s.instructionPointer = 0x77)
    (hstack : s.context.stack = v :: rest)
    (hv : s.sys.deref v = some o) (ht : o.type = T_NULL) :
    step env s = Res.throw (ASError.TypeError ErrorConstant.kConvertNullToObjectError)
      { code := s.code
        instructionPointer := s.instructionPointer + 1
        context := { s.context with exec_pos := s.instructionPointer, stack := rest }
        sys := s.sys } := by
  have hv0 : v ≠ 0 := by
    intro h0
    simp [SystemState.deref, h0] at hv
  simp only [step, hip, if_true, hop, execOpcode_77]
  simp [op_convert_o, runtime_stack_peek, runtime_stack_pop, hstack, hv0, getSys,
    SystemState.hasType, hv, ht, throwErr]

theorem step_convert_o_undefined (env : Env) (s : VMState) (v : Nat) (rest : List Nat)
    (o : ASObject)
    (hip : s.instructionPointer < s.code.length)
    (hop : byteAt s.code s.instructionPointer = 0x77)
    (hstack : s.context.stack = v :: rest)
    (hv : s.sys.deref v = some o) (ht : o.type = T_UNDEFINED) :
    step env s = Res.throw (ASError.TypeError ErrorConstant.kConvertUndefinedToObjectError)
      { code := s.code
        instructionPointer := s.instructionPointer + 1
        context := { s.context with exec_pos := s.instructionPointer, stack := rest }
        sys := s.sys } := by
  have hv0 : v ≠ 0 := by
    intro h0
    simp [SystemState.deref, h0] at hv
  simp only [step, hip, if_true, hop, execOpcode_77]
  simp [op_convert_o, runtime_stack_peek, runtime_stack_pop, hstack, hv0, getSys,
    SystemState.hasType, hv, ht, throwErr]

theorem step_convert_o_other (env : Env) (s : VMState) (v : Nat) (rest : List Nat)
    (o : ASObject)
    (hip : s.instructionPointer < s.code.length)
    (hop : byteAt s.code s.instructionPointer = 0x77)
    (hstack : s.context.stack = v :: rest)
    (hv : s.sys.deref v = some o) (ht1 : o.type ≠ T_NULL) (ht2 : o.type ≠ T_UNDEFINED) :
    step env s = Res.ok next
      { code := s.code
        instructionPointer := s.instructionPointer + 1
        context := { s.context with exec_pos := s.instructionPointer }
        sys := s.sys } := by
  have hv0 : v ≠ 0 := by
    intro h0
    simp [SystemState.deref, h0] at hv
  simp only [step, hip, if_true, hop, execOpcode_77]
  simp [op_convert_o, runtime_stack_peek, runtime_stack_pop, hstack, hv0, getSys,
    SystemState.hasType, hv, ht1, ht2]

/-- C6: convert_o (0x77) on a stack whose top value is an object of the
system state raises a TypeError if and only if that value is Null or
Undefined, kConvertNullToObjectError for Null and
kConvertUndefinedToObjectError for Undefined; for every other value it raises
nothing, leaves the operand stack, the locals and the whole object table (so
that value's reference count) unchanged and advances the instruction pointer
by 1. -/
theorem C6_convert_o (env : Env) (s : VMState) (v : Nat) (rest : List Nat) (o : ASObject)
    (hip : s.instructionPointer < s.code.length)
    (hop : byteAt s.code s.instructionPointer = 0x77)
    (hstack : s.context.stack = v :: rest)
    (hv : s.sys.deref v = some o) :
    ((∃ e s1, step env s = Res.throw (ASError.TypeError e) s1)
        ↔ (o.type = T_NULL ∨ o.type = T_UNDEFINED))
    ∧ (o.type = T_NULL → ∃ s1, step env s
        = Res.throw (ASError.TypeError ErrorConstant.kConvertNullToObjectError) s1)
    ∧ (o.type = T_UNDEFINED → ∃ s1, step env s
        = Res.throw (ASError.TypeError ErrorConstant.kConvertUndefinedToObjectError) s1)
    ∧ (o.type ≠ T_NULL → o.type ≠ T_UNDEFINED →
        ∃ s1, step env s = Res.ok next s1
          ∧ s1.context.stack = s.context.stack
          ∧ s1.context.locals = s.context.locals
          ∧ s1.sys = s.sys
          ∧ s1.sys.deref v = some o
          ∧ s1.instructionPointer = s.instructionPointer + 1) := by
  refine ⟨⟨?_, ?_⟩, ?_, ?_, ?_⟩
  · rintro ⟨e, s1, h⟩
    by_cases h1 : o.type = T_NULL
    · exact Or.inl h1
    · by_cases h2 : o.type = T_UNDEFINED
      · exact Or.inr h2
      · rw [step_convert_o_other env s v rest o hip hop hstack hv h1 h2] at h
        cases h
  · rintro (h | h)
    · exact ⟨_, _, step_convert_o_null env s v rest o hip hop hstack hv h⟩
    · exact ⟨_, _, step_convert_o_undefined env s v rest o hip hop hstack hv h⟩
  · intro h
    exact ⟨_, step_convert_o_null env s v rest o hip hop hstack hv h⟩
  · intro h
    exact ⟨_, step_convert_o_undefined env s v rest o hip hop hstack hv h⟩
  · intro h1 h2
    exact ⟨_, step_convert_o_other env s v rest o hip hop hstack hv h1 h2, rfl, rfl, rfl, hv,
      rfl⟩

theorem C6_convert_o_witness :
    (∃ s1, step Env.failing (exampleState [0x77] [1])
        = Res.throw (ASError.TypeError ErrorConstant.kConvertNullToObjectError) s1)
    ∧ (∃ s1, step Env.failing (exampleState [0x77] [3]) = Res.ok next s1
          ∧ s1.context.stack = (exampleState [0x77] [3]).context.stack
          ∧ s1.context.locals = (exampleState [0x77] [3]).context.locals
          ∧ s1.sys = (exampleState [0x77] [3]).sys
          ∧ s1.sys.deref 3 = some (exampleInteger 7)
          ∧ s1.instructionPointer = (exampleState [0x77] [3]).instructionPointer + 1) :=
  ⟨(C6_convert_o Env.failing (exampleState [0x77] [1]) 1 []
      { type := T_NULL, ref_count := 1, val := 0, ival := 0, dval := 0, isfloat := false }
      (by decide) (by decide) rfl rfl).2.1 rfl,
    (C6_convert_o Env.failing (exampleState [0x77] [3]) 3 [] (exampleInteger 7)
      (by decide) (by decide) rfl rfl).2.2.2 (by decide) (by decide)⟩

theorem step_pushnull (env : Env) (s : VMState)
    (hip : s.instructionPointer < s.code.length)
    (hop : byteAt s.code s.instructionPointer = 0x20)
    (hroom : s.context.stack.length < s.context.max_stack) :
    step env s = Res.ok next
      { code := s.code
        instructionPointer := s.instructionPointer + 1
        context := { s.context with
          exec_pos := s.instructionPointer
          stack := s.sys.nullRef :: s.context.stack }
        sys := s.sys.addRef s.sys.nullRef 1 } := by
  simp only [step, hip, if_true, hop, execOpcode_20]
  simp [op_push_const, onSys, pushNull, getNullRef, runtime_stack_push, hroom]

theorem scenario_convert_o_run (env : Env) (context : call_context) (sys : SystemState)
    (onull : ASObject)
    (hpos : context.exec_pos = 0) (hstack : context.stack = [])
    (hmax : 1 ≤ context.max_stack)
    (hnull : sys.deref sys.nullRef = some onull) (ht : onull.type = T_NULL) :
    ∃ s1, executeFunctionFast env 2 [0x20, 0x77] context sys
        = some (Res.throw (ASError.TypeError ErrorConstant.kConvertNullToObjectError) s1)
      ∧ s1.context.stack = [] := by
  unfold executeFunctionFast
  rw [hpos, loop_step_next env _ _ _ (step_pushnull env _ (by simp) (by simp [byteAt])
    (by simp [hstack]; omega))]
  rw [loop_step_throw env _ _ _ _ (step_convert_o_null env _ sys.nullRef []
    { onull with ref_count := onull.ref_count + 1 }
    (by simp) (by simp [byteAt]) (by simp [hstack])
    (by simp [deref_addRef, hnull]) ht)]
  exact ⟨_, rfl, rfl⟩

/-- C7: when convert_o (0x77) raises its TypeError the offending Null or
Undefined value has already been popped, so the operand stack at the throw
is the stack below that value; for the body `pushnull; convert_o` started on
an empty stack the TypeError kConvertNullToObjectError surfaces and the
operand stack is empty. -/
theorem C7_convert_o_pops (env : Env) :
    (∀ (s : VMState) (v : Nat) (rest : List Nat) (o : ASObject),
      s.instructionPointer < s.code.length →
      byteAt s.code s.instructionPointer = 0x77 →
      s.context.stack = v :: rest →
      s.sys.deref v = some o →
      (o.type = T_NULL ∨ o.type = T_UNDEFINED) →
      ∃ e s1, step env s = Res.throw (ASError.TypeError e) s1 ∧ s1.context.stack = rest)
    ∧ (∀ (fuel : Nat) (context : call_context) (sys : SystemState) (onull : ASObject),
      2 ≤ fuel → context.exec_pos = 0 → context.stack = [] → 1 ≤ context.max_stack →
      sys.deref sys.nullRef = some onull → onull.type = T_NULL →
      ∃ s1, executeFunctionFast env fuel [0x20, 0x77] context sys
          = some (Res.throw (ASError.TypeError ErrorConstant.kConvertNullToObjectError) s1)
        ∧ s1.context.stack = []) := by
  constructor
  · intro s v rest o hip hop hstack hv ht
    rcases ht with h | h
    · exact ⟨_, _, step_convert_o_null env s v rest o hip hop hstack hv h, rfl⟩
    · exact ⟨_, _, step_convert_o_undefined env s v rest o hip hop hstack hv h, rfl⟩
  · intro fuel context sys onull hfuel hpos hstack hmax hnull ht
    obtain ⟨s1, hrun, hrest⟩ :=
      scenario_convert_o_run env context sys onull hpos hstack hmax hnull ht
    refine ⟨s1, ?_, hrest⟩
    have hf : fuel = 2 + (fuel - 2) := by omega
    rw [hf]
    exact loop_mono env 2 (fuel - 2) _ _ hrun

theorem C7_convert_o_pops_witness :
    (∃ e s1, step Env.failing (exampleState [0x77] [2, 3]) = Res.throw (ASError.TypeError e) s1
        ∧ s1.context.stack = [3])
    ∧ (∃ s1, executeFunctionFast Env.failing 2 [0x20, 0x77] (exampleContext []) exampleSys
          = some (Res.throw (ASError.TypeError ErrorConstant.kConvertNullToObjectError) s1)
        ∧ s1.context.stack = []) :=
  ⟨(C7_convert_o_pops Env.failing).1 (exampleState [0x77] [2, 3]) 2 [3]
      { type := T_UNDEFINED, ref_count := 1, val := 0, ival := 0, dval := 0, isfloat := false }
      (by decide) (by decide) rfl rfl (Or.inr rfl),
    (C7_convert_o_pops Env.failing).2 2 (exampleContext []) exampleSys
      { type := T_NULL, ref_count := 1, val := 0, ival := 0, dval := 0, isfloat := false }
      (by decide) rfl rfl (by decide) rfl rfl⟩

set_option maxHeartbeats 4000000 in
set_option maxRecDepth 100000 in
theorem execOpcode_default (env : Env) (opcode data : Nat) (hlt : opcode < 256)
    (h : opcode ∉ caseLabels) :
    execOpcode env opcode data = throwErr ASError.ParseException := by
  interval_cases opcode <;> first | (exfalso; exact h (by decide)) | rfl

/-- C8: an opcode byte that has no case label in the dispatch switch (0x00,
0x09, 0x43, 0x81 and 0xF0 are such bytes) raises a ParseException, which
ends the run whatever the fuel, with the operand stack, the locals, the
scope stack, the objects and the code array all unchanged. -/
theorem C8_unknown_opcode (env : Env) (s : VMState)
    (hip : s.instructionPointer < s.code.length)
    (hop : byteAt s.code s.instructionPointer ∉ caseLabels) :
    (∃ s1, step env s = Res.throw ASError.ParseException s1
      ∧ (∀ fuel, loop env (fuel + 1) s = some (Res.throw ASError.ParseException s1))
      ∧ s1.context.stack = s.context.stack
      ∧ s1.context.locals = s.context.locals
      ∧ s1.context.scope_stack = s.context.scope_stack
      ∧ s1.context.curr_scope_stack = s.context.curr_scope_stack
      ∧ s1.context.parent_scope_stack = s.context.parent_scope_stack
      ∧ s1.sys = s.sys
      ∧ s1.code = s.code)
    ∧ 0x00 ∉ caseLabels ∧ 0x09 ∉ caseLabels ∧ 0x43 ∉ caseLabels ∧ 0x81 ∉ caseLabels
    ∧ 0xf0 ∉ caseLabels := by
  have hstep : step env s = Res.throw ASError.ParseException
      { code := s.code
        instructionPointer := s.instructionPointer + 1
        context := { s.context with exec_pos := s.instructionPointer }
        sys := s.sys } := by
    simp only [step, hip, if_true]
    rw [execOpcode_default env _ _ (byteAt_lt _ _) hop]
    rfl
  refine ⟨⟨_, hstep, fun fuel => loop_step_throw env fuel _ _ _ hstep, rfl, rfl, rfl, rfl, rfl,
    rfl, rfl⟩, by decide, by decide, by decide, by decide, by decide⟩

theorem C8_unknown_opcode_witness :
    (∃ s1, step Env.failing (exampleState [0x43, 0x48] [3])
        = Res.throw ASError.ParseException s1
      ∧ (∀ fuel, loop Env.failing (fuel + 1) (exampleState [0x43, 0x48] [3])
          = some (Res.throw ASError.ParseException s1))
      ∧ s1.context.stack = (exampleState [0x43, 0x48] [3]).context.stack
      ∧ s1.context.locals = (exampleState [0x43, 0x48] [3]).context.locals
      ∧ s1.context.scope_stack = (exampleState [0x43, 0x48] [3]).context.scope_stack
      ∧ s1.context.curr_scope_stack = (exampleState [0x43, 0x48] [3]).context.curr_scope_stack
      ∧ s1.context.parent_scope_stack
          = (exampleState [0x43, 0x48] [3]).context.parent_scope_stack
      ∧ s1.sys = (exampleState [0x43, 0x48] [3]).sys
      ∧ s1.code = (exampleState [0x43, 0x48] [3]).code) :=
  (C8_unknown_opcode Env.failing (exampleState [0x43, 0x48] [3]) (by decide) (by decide)).1

theorem byteAt_set (code : List Nat) (i j x : Nat) :
    byteAt (code.set i x) j = if i = j ∧ i < code.length then x % 256 else byteAt code j := by
  unfold byteAt
  by_cases hij : i = j
  · subst hij
    by_cases hl : i < code.length
    · simp [List.getD_eq_getElem?_getD, List.getElem?_set, hl]
    · have h1 : code.length ≤ i := by omega
      have h2 : (code.set i x).length ≤ i := by simpa using h1
      simp [List.getD_eq_getElem?_getD, List.getElem?_eq_none h1, List.getElem?_eq_none h2, hl]
  · simp [List.getD_eq_getElem?_getD, List.getElem?_set, hij]

theorem writeU64_length (code : List Nat) (off v : Nat) :
    (writeU64 code off v).length = code.length := by
  simp [writeU64]

theorem byteAt_writeU64_outside (code : List Nat) (off v i : Nat)
    (h : i < off ∨ off + 8 ≤ i) : byteAt (writeU64 code off v) i = byteAt code i := by
  unfold writeU64
  simp only [byteAt_set, List.length_set]
  have h0 : ¬ (off = i ∧ off < code.length) := by omega
  have h1 : ¬ (off + 1 = i ∧ off + 1 < code.length) := by omega
  have h2 : ¬ (off + 2 = i ∧ off + 2 < code.length) := by omega
  have h3 : ¬ (off + 3 = i ∧ off + 3 < code.length) := by omega
  have h4 : ¬ (off + 4 = i ∧ off + 4 < code.length) := by omega
  have h5 : ¬ (off + 5 = i ∧ off + 5 < code.length) := by omega
  have h6 : ¬ (off + 6 = i ∧ off + 6 < code.length) := by omega
  have h7 : ¬ (off + 7 = i ∧ off + 7 < code.length) := by omega
  simp only [h0, h1, h2, h3, h4, h5, h6, h7, if_false]

theorem readU64_writeU64 (code : List Nat) (off v : Nat) (h : off + 8 ≤ code.length) :
    readU64 (writeU64 code off v) off = v % 18446744073709551616 := by
  unfold readU64 readU32 writeU64
  simp only [byteAt_set, List.length_set]
  have e0 : (off = off ∧ off < code.length) := ⟨rfl, by omega⟩
  have e1 : (off + 1 = off + 1 ∧ off + 1 < code.length) := ⟨rfl, by omega⟩
  have e2 : (off + 2 = off + 2 ∧ off + 2 < code.length) := ⟨rfl, by omega⟩
  have e3 : (off + 3 = off + 3 ∧ off + 3 < code.length) := ⟨rfl, by omega⟩
  have e4 : (off + 4 = off + 4 ∧ off + 4 < code.length) := ⟨rfl, by omega⟩
  have e5 : (off + 4 + 1 = off + 4 + 1 ∧ off + 4 + 1 < code.length) := ⟨rfl, by omega⟩
  have e6 : (off + 4 + 2 = off + 4 + 2 ∧ off + 4 + 2 < code.length) := ⟨rfl, by omega⟩
  have e7 : (off + 4 + 3 = off + 4 + 3 ∧ off + 4 + 3 < code.length) := ⟨rfl, by omega⟩
  have n1 : ¬ (off + 1 = off) := by omega
  have n2 : ¬ (off + 2 = off) := by omega
  have n3 : ¬ (off + 3 = off) := by omega
  have n4 : ¬ (off + 4 = off) := by omega
  have n5 : ¬ (off + 5 = off) := by omega
  have n6 : ¬ (off + 6 = off) := by omega
  have n7 : ¬ (off + 7 = off) := by omega
  have a5 : off + 4 + 1 = off + 5 := by omega
  have a6 : off + 4 + 2 = off + 6 := by omega
  have a7 : off + 4 + 3 = off + 7 := by omega
  simp only [a5, a6, a7] at e5 e6 e7 ⊢
  simp only [e0, e1, e2, e3, e4, e5, e6, e7, if_true, false_and,
    if_false, Nat.add_right_cancel_iff, add_right_eq_self, OfNat.ofNat_ne_zero, Nat.reduceEqDiff,
    self_eq_add_right, add_right_inj, and_self, true_and]
  omega


theorem execOpcode_80 (env : Env) (data : Nat) : execOpcode env 0x80 data = op_coerce env data := rfl

theorem execOpcode_fc (env : Env) (data : Nat) :
    execOpcode env 0xfc data = op_coerceearly env data := rfl

theorem execOpcode_fe (env : Env) (data : Nat) :
    execOpcode env 0xfe data = op_getlexonce env data := rfl

theorem execOpcode_ff (env : Env) (data : Nat) : execOpcode env 0xff data = op_pushearly data := rfl

/-- The effect shared by coerce after its rewrite and coerceearly: coerce the
top of the stack with `type` and skip the 8 operand bytes. -/
theorem rewritten_byte (code : List Nat) (p opcode v : Nat) (h : p + 9 ≤ code.length)
    (ho : opcode < 256) :
    byteAt (writeU64 (code.set (p + 1 - 1) opcode) (p + 1) v) p = opcode := by
  rw [byteAt_writeU64_outside _ _ _ _ (Or.inl (by omega)), byteAt_set]
  simp [show p < code.length by omega, Nat.mod_eq_of_lt ho]

theorem rewritten_operand (code : List Nat) (p opcode v : Nat) (h : p + 9 ≤ code.length)
    (hv : v < 18446744073709551616) :
    readU64 (writeU64 (code.set (p + 1 - 1) opcode) (p + 1) v) (p + 1) = v := by
  rw [readU64_writeU64 _ _ _ (by simp; omega), Nat.mod_eq_of_lt hv]

theorem rewritten_length (code : List Nat) (p opcode v : Nat) :
    (writeU64 (code.set (p + 1 - 1) opcode) (p + 1) v).length = code.length := by
  simp [writeU64_length]


theorem step_coerce_eq (env : Env) (s : VMState)
    (hlen : s.instructionPointer + 9 ≤ s.code.length)
    (hop : byteAt s.code s.instructionPointer = 0x80)
    (hfit : env.getTypeFromMultiname (readU64 s.code (s.instructionPointer + 1))
      { context := { s.context with exec_pos := s.instructionPointer }, sys := s.sys }
        < 18446744073709551616) :
    step env s = op_coerceearly env (s.instructionPointer + 1)
      { code := writeU64 (s.code.set (s.instructionPointer + 1 - 1) 0xfc)
          (s.instructionPointer + 1)
          (env.getTypeFromMultiname (readU64 s.code (s.instructionPointer + 1))
            { context := { s.context with exec_pos := s.instructionPointer }, sys := s.sys })
        instructionPointer := s.instructionPointer + 1
        context := { s.context with exec_pos := s.instructionPointer }
        sys := s.sys } := by
  have hip : s.instructionPointer < s.code.length := by omega
  simp only [step, hip, if_true, hop, execOpcode_80]
  simp only [op_coerce, op_coerceearly, word64, rewriteCode, M_bind_apply,
    rewritten_operand _ _ _ _ hlen hfit]

theorem step_coerceearly_eq (env : Env) (s : VMState)
    (hip : s.instructionPointer < s.code.length)
    (hop : byteAt s.code s.instructionPointer = 0xfc) :
    step env s = op_coerceearly env (s.instructionPointer + 1)
      { code := s.code
        instructionPointer := s.instructionPointer + 1
        context := { s.context with exec_pos := s.instructionPointer }
        sys := s.sys } := by
  simp only [step, hip, if_true, hop, execOpcode_fc]

theorem op_coerceearly_code (env : Env) (data : Nat) (s : VMState) :
    (op_coerceearly env data s).state.code = s.code := by
  simp only [op_coerceearly, word64, M_bind_apply, runtime_stack_pop]
  cases hst : s.context.stack with
  | nil => simp [Res.state]
  | cons o rest =>
    simp only [onSys]
    cases hc : env.Type_coerce (readU64 s.code data) o s.sys with
    | ok r h =>
      by_cases hroom : rest.length < s.context.max_stack <;>
        simp [runtime_stack_push, hroom, Res.state, advance]
    | throw e h => simp [Res.state]

theorem op_coerceearly_env (env env2 : Env) (data : Nat)
    (h : env2.Type_coerce = env.Type_coerce) :
    op_coerceearly env2 data = op_coerceearly env data := by
  simp only [op_coerceearly, h]

theorem op_coerceearly_ok (env : Env) (data : Nat) (s : VMState) (o r : Nat) (rest : List Nat)
    (h : SystemState)
    (hstack : s.context.stack = o :: rest)
    (hmax : s.context.stack.length ≤ s.context.max_stack)
    (hc : env.Type_coerce (readU64 s.code data) o s.sys = Res.ok r h) :
    op_coerceearly env data s = Res.ok next
      { code := s.code
        instructionPointer := s.instructionPointer + 8
        context := { s.context with stack := r :: rest }
        sys := h } := by
  have hroom : rest.length < s.context.max_stack := by
    rw [hstack] at hmax
    simp at hmax
    omega
  simp [op_coerceearly, word64, runtime_stack_pop, hstack, onSys, hc, runtime_stack_push, hroom,
    advance]

theorem op_coerceearly_ok_inv (env : Env) (data : Nat) (s s1 : VMState) (a : LoopCtl)
    (h : op_coerceearly env data s = Res.ok a s1) :
    a = next ∧ s1.instructionPointer = s.instructionPointer + 8 := by
  simp only [op_coerceearly, word64, M_bind_apply, runtime_stack_pop] at h
  cases hst : s.context.stack with
  | nil => simp [hst] at h
  | cons o rest =>
    simp only [hst, onSys] at h
    cases hc : env.Type_coerce (readU64 s.code data) o s.sys with
    | ok r hh =>
      by_cases hroom : rest.length < s.context.max_stack
      · simp only [hc, runtime_stack_push, hroom, if_true, advance, M_pure_apply,
          Res.ok.injEq] at h
        obtain ⟨h1, h2⟩ := h
        subst h2
        exact ⟨h1.symm, rfl⟩
      · simp [hc, runtime_stack_push, hroom] at h
    | throw e hh =>
      simp [hc] at h


/-- C9: coerce self-rewriting. After the first execution of opcode 0x80 at
offset `p` (the resolved Type pointer `T` fitting the 8-byte operand record),
whether it completes or throws, `code[p]` is 0xFC and the operand record at
`p+1` holds `T`; executing the rewritten instruction from the same context,
with any name resolution whatsoever, gives exactly the outcome of the first
execution (same stack, same objects, same error if any), and a completed
execution has coerced the top value with `T` and continues at `p + 9`. -/
theorem C9_coerce_rewrite (env : Env) (s : VMState) (T : Nat)
    (hlen : s.instructionPointer + 9 ≤ s.code.length)
    (hop : byteAt s.code s.instructionPointer = 0x80)
    (hT : env.getTypeFromMultiname (readU64 s.code (s.instructionPointer + 1))
      { context := { s.context with exec_pos := s.instructionPointer }, sys := s.sys } = T)
    (hfit : T < 18446744073709551616) :
    byteAt (step env s).state.code s.instructionPointer = 0xfc
    ∧ readU64 (step env s).state.code (s.instructionPointer + 1) = T
    ∧ (step env s).state.code.length = s.code.length
    ∧ (∀ env2 : Env, env2.Type_coerce = env.Type_coerce →
        step env2 { s with code := (step env s).state.code } = step env s)
    ∧ (∀ a s1, step env s = Res.ok a s1 →
        a = next ∧ s1.instructionPointer = s.instructionPointer + 9)
    ∧ (∀ o r rest h, s.context.stack = o :: rest →
        s.context.stack.length ≤ s.context.max_stack →
        env.Type_coerce T o s.sys = Res.ok r h →
        ∃ s1, step env s = Res.ok next s1 ∧ s1.context.stack = r :: rest ∧ s1.sys = h
          ∧ s1.instructionPointer = s.instructionPointer + 9) := by
  have hfit2 := hfit
  rw [← hT] at hfit2
  have hstep := step_coerce_eq env s hlen hop hfit2
  rw [hT] at hstep
  have hcode : (step env s).state.code
      = writeU64 (s.code.set (s.instructionPointer + 1 - 1) 0xfc) (s.instructionPointer + 1) T := by
    rw [hstep, op_coerceearly_code]
  have hb := rewritten_byte s.code s.instructionPointer 0xfc T hlen (by decide)
  have hr := rewritten_operand s.code s.instructionPointer 0xfc T hlen hfit
  refine ⟨by rw [hcode]; exact hb, by rw [hcode]; exact hr,
    by rw [hcode]; exact rewritten_length _ _ _ _, ?_, ?_, ?_⟩
  · intro env2 h2
    rw [hcode]
    rw [step_coerceearly_eq env2 _ (by simp only [rewritten_length]; omega) hb,
      op_coerceearly_env env env2 _ h2, hstep]
  · intro a s1 h
    rw [hstep] at h
    obtain ⟨h1, h2⟩ := op_coerceearly_ok_inv env _ _ _ _ h
    exact ⟨h1, by rw [h2]⟩
  · intro o r rest h hstack hmax hc
    rw [hstep]
    exact ⟨_, op_coerceearly_ok env _ _ o r rest h hstack hmax (by simp only [hr]; exact hc),
      rfl, rfl, rfl⟩

theorem C9_coerce_rewrite_witness :
    byteAt (step Env.resolving (exampleState [0x80, 9, 0, 0, 0, 0, 0, 0, 0, 0x48] [3])).state.code
        (exampleState [0x80, 9, 0, 0, 0, 0, 0, 0, 0, 0x48] [3]).instructionPointer = 0xfc :=
  (C9_coerce_rewrite Env.resolving (exampleState [0x80, 9, 0, 0, 0, 0, 0, 0, 0, 0x48] [3]) 9
    (by decide) (by decide) (by decide) (by decide)).1


theorem step_pushearly (env : Env) (s : VMState)
    (hip : s.instructionPointer < s.code.length)
    (hop : byteAt s.code s.instructionPointer = 0xff) :
    step env s = op_pushearly (s.instructionPointer + 1)
      { code := s.code
        instructionPointer := s.instructionPointer + 1
        context := { s.context with exec_pos := s.instructionPointer }
        sys := s.sys } := by
  simp only [step, hip, if_true, hop, execOpcode_ff]

theorem op_pushearly_eq (data : Nat) (s : VMState) :
    op_pushearly data s =
      if s.context.stack.length < s.context.max_stack then
        Res.ok next
          { code := s.code
            instructionPointer := s.instructionPointer + 8
            context := { s.context with stack := readU64 s.code data :: s.context.stack }
            sys := s.sys.addRef (readU64 s.code data) 1 }
      else
        Res.throw ASError.StackOverflow
          { code := s.code
            instructionPointer := s.instructionPointer + 8
            context := s.context
            sys := s.sys.addRef (readU64 s.code data) 1 } := by
  by_cases hroom : s.context.stack.length < s.context.max_stack <;>
    simp [op_pushearly, word64, advance, onSys, incRef, runtime_stack_push, hroom]

theorem step_getlexonce_eq (env : Env) (s : VMState) (obj : Nat)
    (hlen : s.instructionPointer + 9 ≤ s.code.length)
    (hop : byteAt s.code s.instructionPointer = 0xfe)
    (hobj : env.getVariableAndTargetByMultiname (readU64 s.code (s.instructionPointer + 1))
      { context := { s.context with exec_pos := s.instructionPointer }, sys := s.sys } = obj)
    (hne : obj ≠ 0) (hfit : obj < 18446744073709551616)
    (hroom : s.context.stack.length < s.context.max_stack) :
    step env s = op_pushearly (s.instructionPointer + 1)
      { code := writeU64 (s.code.set (s.instructionPointer + 1 - 1) 0xff)
          (s.instructionPointer + 1) obj
        instructionPointer := s.instructionPointer + 1
        context := { s.context with exec_pos := s.instructionPointer }
        sys := s.sys } := by
  have hip : s.instructionPointer < s.code.length := by omega
  have hr := rewritten_operand s.code s.instructionPointer 0xff obj hlen hfit
  simp only [step, hip, if_true, hop, execOpcode_fe]
  rw [op_pushearly_eq]
  simp only [hr]
  simp [op_getlexonce, word64, hobj, assert_and_throw, hne, rewriteCode, onSys, incRef,
    runtime_stack_push, hroom, advance]

/-- C10: getlexonce self-rewriting. After the first execution of opcode 0xFE
at offset `p` (the object found being non-null and its pointer fitting the
8-byte operand record), `code[p]` is 0xFF and the operand record holds the
resolved object; that first execution, and every execution of the rewritten
0xFF at `p` from any context, push that same object with its reference
count incremented by one and continue at `p + 9`. -/
theorem C10_getlexonce_rewrite (env : Env) (s : VMState) (obj : Nat)
    (hlen : s.instructionPointer + 9 ≤ s.code.length)
    (hop : byteAt s.code s.instructionPointer = 0xfe)
    (hobj : env.getVariableAndTargetByMultiname (readU64 s.code (s.instructionPointer + 1))
      { context := { s.context with exec_pos := s.instructionPointer }, sys := s.sys } = obj)
    (hne : obj ≠ 0) (hfit : obj < 18446744073709551616) :
    byteAt (step env s).state.code s.instructionPointer = 0xff
    ∧ readU64 (step env s).state.code (s.instructionPointer + 1) = obj
    ∧ (step env s).state.code.length = s.code.length
    ∧ (∀ (env2 : Env) (s2 : VMState), (env2 = env ∧ s2 = s) ∨
          (s2.code = (step env s).state.code ∧ s2.instructionPointer = s.instructionPointer) →
        s2.context.stack.length < s2.context.max_stack →
        ∃ s1, step env2 s2 = Res.ok next s1
          ∧ s1.code = (step env s).state.code
          ∧ s1.context.stack = obj :: s2.context.stack
          ∧ s1.context.locals = s2.context.locals
          ∧ s1.sys = s2.sys.addRef obj 1
          ∧ (∀ o, s2.sys.deref obj = some o →
              s1.sys.deref obj = some { o with ref_count := o.ref_count + 1 })
          ∧ s1.instructionPointer = s.instructionPointer + 9) := by
  have hip : s.instructionPointer < s.code.length := by omega
  have hb := rewritten_byte s.code s.instructionPointer 0xff obj hlen (by decide)
  have hr := rewritten_operand s.code s.instructionPointer 0xff obj hlen hfit
  have hl := rewritten_length s.code s.instructionPointer 0xff obj
  have hcode : (step env s).state.code
      = writeU64 (s.code.set (s.instructionPointer + 1 - 1) 0xff) (s.instructionPointer + 1)
          obj := by
    simp only [step, hip, if_true, hop, execOpcode_fe]
    by_cases hroom : s.context.stack.length < s.context.max_stack <;>
      simp [op_getlexonce, word64, hobj, assert_and_throw, hne, rewriteCode, onSys, incRef,
        runtime_stack_push, hroom, advance, Res.state]
  refine ⟨by rw [hcode]; exact hb, by rw [hcode]; exact hr, by rw [hcode]; exact hl, ?_⟩
  intro env2 s2 hs2 hroom
  have key : step env2 s2 = op_pushearly (s.instructionPointer + 1)
      { code := writeU64 (s.code.set (s.instructionPointer + 1 - 1) 0xff)
          (s.instructionPointer + 1) obj
        instructionPointer := s.instructionPointer + 1
        context := { s2.context with exec_pos := s.instructionPointer }
        sys := s2.sys } := by
    rcases hs2 with ⟨he, hs⟩ | ⟨hc, hp⟩
    · subst he
      subst hs
      exact step_getlexonce_eq env2 s2 obj hlen hop hobj hne hfit hroom
    · rw [hcode] at hc
      rw [step_pushearly env2 s2 (by rw [hc, hl, hp]; omega) (by rw [hc, hp]; exact hb),
        hc, hp]
  rw [key, op_pushearly_eq]
  simp only [hroom, if_true, hr]
  refine ⟨_, rfl, hcode.symm, rfl, rfl, rfl, ?_, rfl⟩
  intro o ho
  simp [deref_addRef, ho]

theorem C10_getlexonce_rewrite_witness :
    byteAt (step Env.resolving (exampleState [0xfe, 3, 0, 0, 0, 0, 0, 0, 0, 0x48] [])).state.code
        (exampleState [0xfe, 3, 0, 0, 0, 0, 0, 0, 0, 0x48] []).instructionPointer = 0xff :=
  (C10_getlexonce_rewrite Env.resolving (exampleState [0xfe, 3, 0, 0, 0, 0, 0, 0, 0, 0x48] []) 3
    (by decide) (by decide) (by decide) (by decide) (by decide)).1

theorem execOpcode_01 (env : Env) (data : Nat) :
    execOpcode env 0x01 data = pure next := rfl

theorem execOpcode_02 (env : Env) (data : Nat) :
    execOpcode env 0x02 data = pure next := rfl

theorem execOpcode_03 (env : Env) (data : Nat) :
    execOpcode env 0x03 data = op_ctx env._throw := rfl

theorem execOpcode_04 (env : Env) (data : Nat) :
    execOpcode env 0x04 data = op_ctx_u32 env.getSuper data := rfl

theorem execOpcode_05 (env : Env) (data : Nat) :
    execOpcode env 0x05 data = op_ctx_u32 env.setSuper data := rfl

theorem execOpcode_06 (env : Env) (data : Nat) :
    execOpcode env 0x06 data = op_ctx_u32 env.dxns data := rfl

theorem execOpcode_07 (env : Env) (data : Nat) :
    execOpcode env 0x07 data = op_dxnslate env := rfl

theorem execOpcode_08 (env : Env) (data : Nat) :
    execOpcode env 0x08 data = op_kill data := rfl

theorem execOpcode_0c (env : Env) (data : Nat) :
    execOpcode env 0x0c data = op_if2 env.ifNLT data := rfl

theorem execOpcode_0d (env : Env) (data : Nat) :
    execOpcode env 0x0d data = op_if2 env.ifNLE data := rfl

theorem execOpcode_0e (env : Env) (data : Nat) :
    execOpcode env 0x0e data = op_if2 env.ifNGT data := rfl

theorem execOpcode_0f (env : Env) (data : Nat) :
    execOpcode env 0x0f data = op_if2 env.ifNGE data := rfl

theorem execOpcode_10 (env : Env) (data : Nat) :
    execOpcode env 0x10 data = op_jump data := rfl

theorem execOpcode_11 (env : Env) (data : Nat) :
    execOpcode env 0x11 data = op_if1 env.ifTrue data := rfl

theorem execOpcode_12 (env : Env) (data : Nat) :
    execOpcode env 0x12 data = op_if1 env.ifFalse data := rfl

theorem execOpcode_13 (env : Env) (data : Nat) :
    execOpcode env 0x13 data = op_if2 env.ifEq data := rfl

theorem execOpcode_14 (env : Env) (data : Nat) :
    execOpcode env 0x14 data = op_if2 env.ifNE data := rfl

theorem execOpcode_16 (env : Env) (data : Nat) :
    execOpcode env 0x16 data = op_if2 env.ifLE data := rfl

theorem execOpcode_17 (env : Env) (data : Nat) :
    execOpcode env 0x17 data = op_if2 env.ifGT data := rfl

theorem execOpcode_18 (env : Env) (data : Nat) :
    execOpcode env 0x18 data = op_if2 env.ifGE data := rfl

theorem execOpcode_19 (env : Env) (data : Nat) :
    execOpcode env 0x19 data = op_if2 env.ifStrictEq data := rfl

theorem execOpcode_1a (env : Env) (data : Nat) :
    execOpcode env 0x1a data = op_if2 env.ifStrictNE data := rfl

theorem execOpcode_1c (env : Env) (data : Nat) :
    execOpcode env 0x1c data = op_ctx env.pushWith := rfl

theorem execOpcode_1d (env : Env) (data : Nat) :
    execOpcode env 0x1d data = op_ctx env.popScope := rfl

theorem execOpcode_1e (env : Env) (data : Nat) :
    execOpcode env 0x1e data = op_pop2_push env.nextName := rfl

theorem execOpcode_21 (env : Env) (data : Nat) :
    execOpcode env 0x21 data = op_push_const pushUndefined := rfl

theorem execOpcode_23 (env : Env) (data : Nat) :
    execOpcode env 0x23 data = op_pop2_push env.nextValue := rfl

theorem execOpcode_25 (env : Env) (data : Nat) :
    execOpcode env 0x25 data = op_pushshort data := rfl

theorem execOpcode_26 (env : Env) (data : Nat) :
    execOpcode env 0x26 data = op_pushbool true := rfl

theorem execOpcode_27 (env : Env) (data : Nat) :
    execOpcode env 0x27 data = op_pushbool false := rfl

theorem execOpcode_28 (env : Env) (data : Nat) :
    execOpcode env 0x28 data = op_push_const pushNaN := rfl

theorem execOpcode_29 (env : Env) (data : Nat) :
    execOpcode env 0x29 data = op_pop := rfl

theorem execOpcode_2a (env : Env) (data : Nat) :
    execOpcode env 0x2a data = op_dup := rfl

theorem execOpcode_2b (env : Env) (data : Nat) :
    execOpcode env 0x2b data = op_swap := rfl

theorem execOpcode_2d (env : Env) (data : Nat) :
    execOpcode env 0x2d data = op_pushint env data := rfl

theorem execOpcode_2e (env : Env) (data : Nat) :
    execOpcode env 0x2e data = op_pushuint env data := rfl

theorem execOpcode_2f (env : Env) (data : Nat) :
    execOpcode env 0x2f data = op_pushdouble env data := rfl

theorem execOpcode_30 (env : Env) (data : Nat) :
    execOpcode env 0x30 data = op_ctx env.pushScope := rfl

theorem execOpcode_31 (env : Env) (data : Nat) :
    execOpcode env 0x31 data = op_push_ctx_u32 env.pushNamespace data := rfl

theorem execOpcode_32 (env : Env) (data : Nat) :
    execOpcode env 0x32 data = op_hasnext2 env data := rfl

theorem execOpcode_35 (env : Env) (data : Nat) :
    execOpcode env 0x35 data = op_ctx (env.loadIntN 8) := rfl

theorem execOpcode_36 (env : Env) (data : Nat) :
    execOpcode env 0x36 data = op_ctx (env.loadIntN 16) := rfl

theorem execOpcode_37 (env : Env) (data : Nat) :
    execOpcode env 0x37 data = op_ctx (env.loadIntN 32) := rfl

theorem execOpcode_38 (env : Env) (data : Nat) :
    execOpcode env 0x38 data = op_ctx env.loadFloat := rfl

theorem execOpcode_39 (env : Env) (data : Nat) :
    execOpcode env 0x39 data = op_ctx env.loadDouble := rfl

theorem execOpcode_3a (env : Env) (data : Nat) :
    execOpcode env 0x3a data = op_ctx (env.storeIntN 8) := rfl

theorem execOpcode_3b (env : Env) (data : Nat) :
    execOpcode env 0x3b data = op_ctx (env.storeIntN 16) := rfl

theorem execOpcode_3c (env : Env) (data : Nat) :
    execOpcode env 0x3c data = op_ctx (env.storeIntN 32) := rfl

theorem execOpcode_3d (env : Env) (data : Nat) :
    execOpcode env 0x3d data = op_ctx env.storeFloat := rfl

theorem execOpcode_3e (env : Env) (data : Nat) :
    execOpcode env 0x3e data = op_ctx env.storeDouble := rfl

theorem execOpcode_40 (env : Env) (data : Nat) :
    execOpcode env 0x40 data = op_push_ctx_u32 env.newFunction data := rfl

theorem execOpcode_41 (env : Env) (data : Nat) :
    execOpcode env 0x41 data = op_call_u32 env.call data := rfl

theorem execOpcode_42 (env : Env) (data : Nat) :
    execOpcode env 0x42 data = op_call_u32 env.construct data := rfl

theorem execOpcode_47 (env : Env) (data : Nat) :
    execOpcode env 0x47 data = op_returnvoid := rfl

theorem execOpcode_49 (env : Env) (data : Nat) :
    execOpcode env 0x49 data = op_call_u32 env.constructSuper data := rfl

theorem execOpcode_4a (env : Env) (data : Nat) :
    execOpcode env 0x4a data = op_constructprop env data := rfl

theorem execOpcode_50 (env : Env) (data : Nat) :
    execOpcode env 0x50 data = op_sxi env (fun u => u % 2) := rfl

theorem execOpcode_51 (env : Env) (data : Nat) :
    execOpcode env 0x51 data = op_sxi env toInt8 := rfl

theorem execOpcode_52 (env : Env) (data : Nat) :
    execOpcode env 0x52 data = op_sxi env toInt16 := rfl

theorem execOpcode_53 (env : Env) (data : Nat) :
    execOpcode env 0x53 data = op_ctx_u32 env.constructGenericType data := rfl

theorem execOpcode_55 (env : Env) (data : Nat) :
    execOpcode env 0x55 data = op_ctx_u32 env.newObject data := rfl

theorem execOpcode_56 (env : Env) (data : Nat) :
    execOpcode env 0x56 data = op_ctx_u32 env.newArray data := rfl

theorem execOpcode_57 (env : Env) (data : Nat) :
    execOpcode env 0x57 data = op_newactivation env := rfl

theorem execOpcode_58 (env : Env) (data : Nat) :
    execOpcode env 0x58 data = op_ctx_u32 env.newClass data := rfl

theorem execOpcode_59 (env : Env) (data : Nat) :
    execOpcode env 0x59 data = op_ctx_u32 env.getDescendants data := rfl

theorem execOpcode_5a (env : Env) (data : Nat) :
    execOpcode env 0x5a data = op_push_ctx_u32 env.newCatch data := rfl

theorem execOpcode_5d (env : Env) (data : Nat) :
    execOpcode env 0x5d data = op_findprop env env.findPropStrict data := rfl

theorem execOpcode_5e (env : Env) (data : Nat) :
    execOpcode env 0x5e data = op_findprop env env.findProperty data := rfl

theorem execOpcode_5f (env : Env) (data : Nat) :
    execOpcode env 0x5f data = op_finddef env data := rfl

theorem execOpcode_60 (env : Env) (data : Nat) :
    execOpcode env 0x60 data = op_u32_ctx env.getLex data := rfl

theorem execOpcode_61 (env : Env) (data : Nat) :
    execOpcode env 0x61 data = op_setproperty env data := rfl

theorem execOpcode_62 (env : Env) (data : Nat) :
    execOpcode env 0x62 data = op_getlocal data := rfl

theorem execOpcode_63 (env : Env) (data : Nat) :
    execOpcode env 0x63 data = op_setlocal data := rfl

theorem execOpcode_64 (env : Env) (data : Nat) :
    execOpcode env 0x64 data = op_getglobalscope env := rfl

theorem execOpcode_65 (env : Env) (data : Nat) :
    execOpcode env 0x65 data = op_getscopeobject env data := rfl

theorem execOpcode_66 (env : Env) (data : Nat) :
    execOpcode env 0x66 data = op_getproperty env data := rfl

theorem execOpcode_68 (env : Env) (data : Nat) :
    execOpcode env 0x68 data = op_initproperty env data := rfl

theorem execOpcode_6a (env : Env) (data : Nat) :
    execOpcode env 0x6a data = op_deleteproperty env data := rfl

theorem execOpcode_6c (env : Env) (data : Nat) :
    execOpcode env 0x6c data = op_getslot env data := rfl

theorem execOpcode_6d (env : Env) (data : Nat) :
    execOpcode env 0x6d data = op_setslot env data := rfl

theorem execOpcode_6e (env : Env) (data : Nat) :
    execOpcode env 0x6e data = op_getglobalslot env data := rfl

theorem execOpcode_6f (env : Env) (data : Nat) :
    execOpcode env 0x6f data = op_setglobalslot env data := rfl

theorem execOpcode_70 (env : Env) (data : Nat) :
    execOpcode env 0x70 data = op_pop_push env.convert_s := rfl

theorem execOpcode_71 (env : Env) (data : Nat) :
    execOpcode env 0x71 data = op_pop_push env.esc_xelem := rfl

theorem execOpcode_72 (env : Env) (data : Nat) :
    execOpcode env 0x72 data = op_pop_push env.esc_xattr := rfl

theorem execOpcode_73 (env : Env) (data : Nat) :
    execOpcode env 0x73 data = op_convert_i env := rfl

theorem execOpcode_74 (env : Env) (data : Nat) :
    execOpcode env 0x74 data = op_convert_u env := rfl

theorem execOpcode_75 (env : Env) (data : Nat) :
    execOpcode env 0x75 data = op_convert_d env := rfl

theorem execOpcode_76 (env : Env) (data : Nat) :
    execOpcode env 0x76 data = op_convert_b env := rfl

theorem execOpcode_78 (env : Env) (data : Nat) :
    execOpcode env 0x78 data = op_pop_push env.checkfilter := rfl

theorem execOpcode_82 (env : Env) (data : Nat) :
    execOpcode env 0x82 data = pure next := rfl

theorem execOpcode_85 (env : Env) (data : Nat) :
    execOpcode env 0x85 data = op_coerce_s env := rfl

theorem execOpcode_86 (env : Env) (data : Nat) :
    execOpcode env 0x86 data = op_astype env data := rfl

theorem execOpcode_87 (env : Env) (data : Nat) :
    execOpcode env 0x87 data = op_pop2_push env.asTypelate := rfl

theorem execOpcode_90 (env : Env) (data : Nat) :
    execOpcode env 0x90 data = op_negate env := rfl

theorem execOpcode_91 (env : Env) (data : Nat) :
    execOpcode env 0x91 data = op_increment env := rfl

theorem execOpcode_92 (env : Env) (data : Nat) :
    execOpcode env 0x92 data = op_u32_ctx env.incLocal data := rfl

theorem execOpcode_93 (env : Env) (data : Nat) :
    execOpcode env 0x93 data = op_decrement env := rfl

theorem execOpcode_94 (env : Env) (data : Nat) :
    execOpcode env 0x94 data = op_u32_ctx env.decLocal data := rfl

theorem execOpcode_95 (env : Env) (data : Nat) :
    execOpcode env 0x95 data = op_pop_push env.typeOf := rfl

theorem execOpcode_96 (env : Env) (data : Nat) :
    execOpcode env 0x96 data = op_not env := rfl

theorem execOpcode_97 (env : Env) (data : Nat) :
    execOpcode env 0x97 data = op_unary_i env.bitNot := rfl

theorem execOpcode_a0 (env : Env) (data : Nat) :
    execOpcode env 0xa0 data = op_add env := rfl

theorem execOpcode_a1 (env : Env) (data : Nat) :
    execOpcode env 0xa1 data = op_arith subtractI (fun v1 v2 => env.subtract v2 v1) := rfl

theorem execOpcode_a2 (env : Env) (data : Nat) :
    execOpcode env 0xa2 data = op_arith multiplyI (fun v1 v2 => env.multiply v2 v1) := rfl

theorem execOpcode_a3 (env : Env) (data : Nat) :
    execOpcode env 0xa3 data = op_divide env := rfl

theorem execOpcode_a5 (env : Env) (data : Nat) :
    execOpcode env 0xa5 data = op_binary_i env.lShift := rfl

theorem execOpcode_a6 (env : Env) (data : Nat) :
    execOpcode env 0xa6 data = op_binary_i env.rShift := rfl

theorem execOpcode_a7 (env : Env) (data : Nat) :
    execOpcode env 0xa7 data = op_binary_i env.urShift := rfl

theorem execOpcode_a8 (env : Env) (data : Nat) :
    execOpcode env 0xa8 data = op_binary_i env.bitAnd := rfl

theorem execOpcode_a9 (env : Env) (data : Nat) :
    execOpcode env 0xa9 data = op_binary_i env.bitOr := rfl

theorem execOpcode_aa (env : Env) (data : Nat) :
    execOpcode env 0xaa data = op_binary_i env.bitXor := rfl

theorem execOpcode_ab (env : Env) (data : Nat) :
    execOpcode env 0xab data = op_compare env.equals := rfl

theorem execOpcode_ac (env : Env) (data : Nat) :
    execOpcode env 0xac data = op_compare env.strictEquals := rfl

theorem execOpcode_ad (env : Env) (data : Nat) :
    execOpcode env 0xad data = op_compare env.lessThan := rfl

theorem execOpcode_ae (env : Env) (data : Nat) :
    execOpcode env 0xae data = op_compare env.lessEquals := rfl

theorem execOpcode_af (env : Env) (data : Nat) :
    execOpcode env 0xaf data = op_compare env.greaterThan := rfl

theorem execOpcode_b0 (env : Env) (data : Nat) :
    execOpcode env 0xb0 data = op_compare env.greaterEquals := rfl

theorem execOpcode_b1 (env : Env) (data : Nat) :
    execOpcode env 0xb1 data = op_compare env.instanceOf := rfl

theorem execOpcode_b2 (env : Env) (data : Nat) :
    execOpcode env 0xb2 data = op_istype env data := rfl

theorem execOpcode_b3 (env : Env) (data : Nat) :
    execOpcode env 0xb3 data = op_binary_b env.isTypelate := rfl

theorem execOpcode_b4 (env : Env) (data : Nat) :
    execOpcode env 0xb4 data = op_binary_b env.in_ := rfl

theorem execOpcode_c0 (env : Env) (data : Nat) :
    execOpcode env 0xc0 data = op_unary_i env.increment_i := rfl

theorem execOpcode_c1 (env : Env) (data : Nat) :
    execOpcode env 0xc1 data = op_unary_i env.decrement_i := rfl

theorem execOpcode_c2 (env : Env) (data : Nat) :
    execOpcode env 0xc2 data = op_u32_ctx env.incLocal_i data := rfl

theorem execOpcode_c3 (env : Env) (data : Nat) :
    execOpcode env 0xc3 data = op_u32_ctx env.decLocal_i data := rfl

theorem execOpcode_c4 (env : Env) (data : Nat) :
    execOpcode env 0xc4 data = op_unary_i env.negate_i := rfl

theorem execOpcode_c6 (env : Env) (data : Nat) :
    execOpcode env 0xc6 data = op_binary_ii env.subtract_i := rfl

theorem execOpcode_c7 (env : Env) (data : Nat) :
    execOpcode env 0xc7 data = op_binary_ii env.multiply_i := rfl

theorem execOpcode_d0 (env : Env) (data : Nat) :
    execOpcode env 0xd0 data = op_getlocal_n 0xd0 := rfl

theorem execOpcode_d1 (env : Env) (data : Nat) :
    execOpcode env 0xd1 data = op_getlocal_n 0xd1 := rfl

theorem execOpcode_d2 (env : Env) (data : Nat) :
    execOpcode env 0xd2 data = op_getlocal_n 0xd2 := rfl

theorem execOpcode_d3 (env : Env) (data : Nat) :
    execOpcode env 0xd3 data = op_getlocal_n 0xd3 := rfl

theorem execOpcode_d4 (env : Env) (data : Nat) :
    execOpcode env 0xd4 data = op_setlocal_n 0xd4 := rfl

theorem execOpcode_d5 (env : Env) (data : Nat) :
    execOpcode env 0xd5 data = op_setlocal_n 0xd5 := rfl

theorem execOpcode_d6 (env : Env) (data : Nat) :
    execOpcode env 0xd6 data = op_setlocal_n 0xd6 := rfl

theorem execOpcode_d7 (env : Env) (data : Nat) :
    execOpcode env 0xd7 data = op_setlocal_n 0xd7 := rfl

theorem execOpcode_f2 (env : Env) (data : Nat) :
    execOpcode env 0xf2 data = op_skip4 := rfl

theorem execOpcode_f3 (env : Env) (data : Nat) :
    execOpcode env 0xf3 data = op_skip4 := rfl

theorem execOpcode_fb (env : Env) (data : Nat) :
    execOpcode env 0xfb data = op_setslot_no_coerce env data := rfl

theorem execOpcode_fd (env : Env) (data : Nat) :
    execOpcode env 0xfd data = op_getscopeatindex data := rfl

theorem step_eq (env : Env) (s : VMState) (hip : s.instructionPointer < s.code.length) :
    step env s = execOpcode env (byteAt s.code s.instructionPointer) (s.instructionPointer + 1)
      { code := s.code
        instructionPointer := s.instructionPointer + 1
        context := { s.context with exec_pos := s.instructionPointer }
        sys := s.sys } := by
  simp only [step, hip, if_true]

theorem IPAt_elim {α : Type} {b pre post : Nat} {m : M VMState α} (h : IPAt b pre post m)
    (s : VMState) (a : α) (s1 : VMState) (hs : s.instructionPointer = b + pre)
    (hm : m s = Res.ok a s1) : s1.instructionPointer = b + post := by
  unfold IPAt at h
  exact h s a s1 hs hm

theorem IPAt_pure {α : Type} (b pre post : Nat) (a : α) (hp : pre = post) :
    IPAt b pre post (pure a : M VMState α) := by
  unfold IPAt
  intro s a1 s1 hs h
  simp only [M_pure_apply, Res.ok.injEq] at h
  rw [← h.2, ← hp]
  exact hs

theorem IPAt_bind {α β : Type} (b pre mid post : Nat) (m : M VMState α) (f : α → M VMState β)
    (hm : IPAt b pre mid m) (hf : ∀ a, IPAt b mid post (f a)) : IPAt b pre post (m >>= f) := by
  unfold IPAt
  intro s a1 s1 hs h
  simp only [M_bind_apply] at h
  cases hms : m s with
  | ok a s2 =>
    rw [hms] at h
    unfold IPAt at hm hf
    exact hf a s2 a1 s1 (hm s a s2 hs hms) h
  | throw e s2 =>
    rw [hms] at h
    cases h

theorem IPAt_onSys {α : Type} (b pre : Nat) (f : M SystemState α) : IPAt b pre pre (onSys f) := by
  unfold IPAt
  intro s a s1 hs h
  simp only [onSys] at h
  cases hf : f s.sys with
  | ok x y =>
    rw [hf] at h
    simp only [Res.ok.injEq] at h
    rw [← h.2]
    exact hs
  | throw x y =>
    rw [hf] at h
    cases h

theorem IPAt_onCtx {α : Type} (b pre : Nat) (f : M World α) : IPAt b pre pre (onCtx f) := by
  unfold IPAt
  intro s a s1 hs h
  simp only [onCtx] at h
  cases hf : f { context := s.context, sys := s.sys } with
  | ok x y =>
    rw [hf] at h
    simp only [Res.ok.injEq] at h
    rw [← h.2]
    exact hs
  | throw x y =>
    rw [hf] at h
    cases h

theorem IPAt_onCall {α : Type} (b pre : Nat) (f : M Machine α) : IPAt b pre pre (onCall f) := by
  unfold IPAt
  intro s a s1 hs h
  simp only [onCall] at h
  cases hf : f { context := s.context, sys := s.sys, code := s.code } with
  | ok x y =>
    rw [hf] at h
    simp only [Res.ok.injEq] at h
    rw [← h.2]
    exact hs
  | throw x y =>
    rw [hf] at h
    cases h

theorem IPAt_uints (b pre data k : Nat) : IPAt b pre pre (uints data k) := by
  unfold IPAt
  intro s a s1 hs h
  simp only [uints, Res.ok.injEq] at h
  rw [← h.2]
  exact hs

theorem IPAt_advance (b pre n : Nat) : IPAt b pre (pre + n) (advance n) := by
  unfold IPAt
  intro s a s1 hs h
  simp only [advance, Res.ok.injEq] at h
  rw [← h.2]
  simp only [hs]
  omega

theorem IPAt_pop (b pre : Nat) : IPAt b pre pre runtime_stack_pop := by
  unfold IPAt
  intro s a s1 hs h
  simp only [runtime_stack_pop] at h
  split at h
  · cases h
  · simp only [Res.ok.injEq] at h
    rw [← h.2]
    exact hs

theorem IPAt_push (b pre v : Nat) : IPAt b pre pre (runtime_stack_push v) := by
  unfold IPAt
  intro s a s1 hs h
  simp only [runtime_stack_push] at h
  split at h
  · simp only [Res.ok.injEq] at h
    rw [← h.2]
    exact hs
  · cases h

theorem IPAt_getContext (b pre : Nat) : IPAt b pre pre getContext := by
  unfold IPAt
  intro s a s1 hs h
  simp only [getContext, Res.ok.injEq] at h
  rw [← h.2]
  exact hs

theorem IPAt_getSys (b pre : Nat) : IPAt b pre pre getSys := by
  unfold IPAt
  intro s a s1 hs h
  simp only [getSys, Res.ok.injEq] at h
  rw [← h.2]
  exact hs

theorem IPAt_setLocalSlot (b pre i v : Nat) : IPAt b pre pre (setLocalSlot i v) := by
  unfold IPAt
  intro s a s1 hs h
  simp only [setLocalSlot, Res.ok.injEq] at h
  rw [← h.2]
  exact hs

theorem IPAt_assert_and_throw (b pre : Nat) (c : Bool) : IPAt b pre pre (assert_and_throw c) := by
  unfold IPAt
  intro s a s1 hs h
  simp only [assert_and_throw] at h
  split at h
  · simp only [Res.ok.injEq] at h
    rw [← h.2]
    exact hs
  · cases h

theorem IPAt_ite {α : Type} (b pre post : Nat) (c : Prop) [Decidable c] (x y : M VMState α)
    (hx : IPAt b pre post x) (hy : IPAt b pre post y) :
    IPAt b pre post (if c then x else y) := by
  unfold IPAt at hx hy ⊢
  split
  · exact hx
  · exact hy

theorem IPAt_op_call2 (f : Nat → Nat → Bool → M Machine Unit) (k : Bool)
    (b data : Nat) : IPAt b 1 9 (op_call2 f k data) := by
  unfold op_call2
  repeat' first
    | with_reducible exact IPAt_pure _ _ _ _ rfl
    | (with_reducible refine IPAt_pure _ _ _ _ ?_; omega)
    | with_reducible exact IPAt_onCall _ _ _
    | with_reducible exact IPAt_uints _ _ _ _
    | with_reducible exact IPAt_advance _ _ _
    | with_reducible apply IPAt_bind
    | intro _

theorem IPAt_op_callstatic (env : Env) (b data : Nat) : IPAt b 1 1 (op_callstatic env data) := by
  unfold op_callstatic
  repeat' first
    | with_reducible exact IPAt_pure _ _ _ _ rfl
    | (with_reducible refine IPAt_pure _ _ _ _ ?_; omega)
    | with_reducible exact IPAt_onCall _ _ _
    | with_reducible exact IPAt_uints _ _ _ _
    | with_reducible apply IPAt_bind
    | intro _

theorem execOpcode_44 (env : Env) (data : Nat) :
    execOpcode env 0x44 data = op_callstatic env data := rfl

theorem execOpcode_45 (env : Env) (data : Nat) :
    execOpcode env 0x45 data = op_call2 env.callSuper true data := rfl

theorem execOpcode_46 (env : Env) (data : Nat) :
    execOpcode env 0x46 data = op_call2 env.callProperty true data := rfl

theorem execOpcode_4c (env : Env) (data : Nat) :
    execOpcode env 0x4c data = op_call2 env.callProperty true data := rfl

theorem execOpcode_4e (env : Env) (data : Nat) :
    execOpcode env 0x4e data = op_call2 env.callSuper false data := rfl

theorem execOpcode_4f (env : Env) (data : Nat) :
    execOpcode env 0x4f data = op_call2 env.callProperty false data := rfl

/-- C13: callsuper (0x45), callproperty (0x46), callproplex (0x4C),
callsupervoid (0x4E) and callpropvoid (0x4F) at offset `p` skip their two u32
operands, so that a completed call continues at `p + 9`; callstatic (0x44)
reads its two operands but never advances the instruction pointer, so that a
completed callstatic continues at `p + 1`, inside its own operands. -/
theorem C13_call_family (env : Env) (s s1 : VMState)
    (hip : s.instructionPointer < s.code.length)
    (hstep : step env s = Res.ok next s1) :
    ((byteAt s.code s.instructionPointer = 0x45 ∨ byteAt s.code s.instructionPointer = 0x46
        ∨ byteAt s.code s.instructionPointer = 0x4c ∨ byteAt s.code s.instructionPointer = 0x4e
        ∨ byteAt s.code s.instructionPointer = 0x4f) →
      s1.instructionPointer = s.instructionPointer + 9)
    ∧ (byteAt s.code s.instructionPointer = 0x44 →
      s1.instructionPointer = s.instructionPointer + 1) := by
  rw [step_eq env s hip] at hstep
  constructor
  · intro hop
    rcases hop with h | h | h | h | h <;> rw [h] at hstep
    · exact IPAt_elim (IPAt_op_call2 _ _ _ _) _ _ _ rfl hstep
    · exact IPAt_elim (IPAt_op_call2 _ _ _ _) _ _ _ rfl hstep
    · exact IPAt_elim (IPAt_op_call2 _ _ _ _) _ _ _ rfl hstep
    · exact IPAt_elim (IPAt_op_call2 _ _ _ _) _ _ _ rfl hstep
    · exact IPAt_elim (IPAt_op_call2 _ _ _ _) _ _ _ rfl hstep
  · intro hop
    rw [hop] at hstep
    exact IPAt_elim (IPAt_op_callstatic env _ _) _ _ _ rfl hstep

theorem C13_call_family_witness :
    (step Env.calls (exampleState [0x44, 1, 0, 0, 0, 0, 0, 0, 0, 0x47] [])).state.instructionPointer
      = (exampleState [0x44, 1, 0, 0, 0, 0, 0, 0, 0, 0x47] []).instructionPointer + 1 :=
  (C13_call_family Env.calls (exampleState [0x44, 1, 0, 0, 0, 0, 0, 0, 0, 0x47] [])
    (step Env.calls (exampleState [0x44, 1, 0, 0, 0, 0, 0, 0, 0, 0x47] [])).state
    (by decide) (by decide)).2 (by decide)


theorem IPAt_getLocalAt (b pre i : Nat) : IPAt b pre pre (getLocalAt i) := by
  unfold getLocalAt
  repeat' first
    | with_reducible exact IPAt_pure _ _ _ _ rfl
    | (with_reducible refine IPAt_pure _ _ _ _ ?_; omega)
    | with_reducible exact IPAt_onSys _ _ _
    | with_reducible exact IPAt_push _ _ _
    | with_reducible exact IPAt_getContext _ _
    | with_reducible apply IPAt_bind
    | with_reducible apply IPAt_ite
    | intro _
    | dsimp only

theorem IPAt_setLocalGuarded (b pre i obj : Nat) : IPAt b pre pre (setLocalGuarded i obj) := by
  unfold setLocalGuarded
  repeat' first
    | with_reducible exact IPAt_pure _ _ _ _ rfl
    | (with_reducible refine IPAt_pure _ _ _ _ ?_; omega)
    | with_reducible exact IPAt_onSys _ _ _
    | with_reducible exact IPAt_getContext _ _
    | with_reducible exact IPAt_getSys _ _
    | with_reducible exact IPAt_setLocalSlot _ _ _ _
    | with_reducible apply IPAt_bind
    | with_reducible apply IPAt_ite
    | intro _
    | dsimp only

theorem IPAt_accessors (env : Env) (b data : Nat) :
    IPAt b 1 5 (op_setproperty env data) ∧ IPAt b 1 5 (op_getlocal data)
    ∧ IPAt b 1 5 (op_setlocal data) ∧ IPAt b 1 5 (op_getscopeobject env data)
    ∧ IPAt b 1 5 (op_getproperty env data) ∧ IPAt b 1 5 (op_initproperty env data)
    ∧ IPAt b 1 5 (op_deleteproperty env data) ∧ IPAt b 1 5 (op_getslot env data)
    ∧ IPAt b 1 5 (op_setslot env data) ∧ IPAt b 1 5 (op_getglobalslot env data)
    ∧ IPAt b 1 5 (op_setglobalslot env data) ∧ IPAt b 1 1 (op_getglobalscope env) := by
  refine ⟨?_, ?_, ?_, ?_, ?_, ?_, ?_, ?_, ?_, ?_, ?_, ?_⟩ <;>
  · first
      | unfold op_setproperty
      | unfold op_getlocal
      | unfold op_setlocal
      | unfold op_getscopeobject
      | unfold op_getproperty
      | unfold op_initproperty
      | unfold op_deleteproperty
      | unfold op_getslot
      | unfold op_setslot
      | unfold op_getglobalslot
      | unfold op_setglobalslot
      | unfold op_getglobalscope
    repeat' first
      | with_reducible exact IPAt_pure _ _ _ _ rfl
      | (with_reducible refine IPAt_pure _ _ _ _ ?_; omega)
      | with_reducible exact IPAt_onSys _ _ _
      | with_reducible exact IPAt_onCtx _ _ _
      | with_reducible exact IPAt_uints _ _ _ _
      | with_reducible exact IPAt_advance _ _ _
      | with_reducible exact IPAt_pop _ _
      | with_reducible exact IPAt_push _ _ _
      | with_reducible exact IPAt_assert_and_throw _ _ _
      | with_reducible exact IPAt_getLocalAt _ _ _
      | with_reducible exact IPAt_setLocalGuarded _ _ _ _
      | with_reducible apply IPAt_bind
      | intro _


/-- C14 fails as stated: 0x67 lies in the range 0x61..0x6F and has no case, so
it raises a ParseException; 0x64 (getglobalscope) is accepted but takes no
operand, so a completed getglobalscope at offset 0 continues at offset 1. -/
theorem C14_counterexample :
    (∃ s1, step Env.calls (exampleState [0x67, 0, 0, 0, 0, 0x47] [])
        = Res.throw ASError.ParseException s1)
    ∧ (∃ s1, step Env.calls (exampleState [0x64, 0, 0, 0, 0, 0x47] []) = Res.ok next s1
        ∧ s1.instructionPointer = 1 ∧ s1.instructionPointer ≠ 0 + 5) :=
  ⟨⟨_, rfl⟩, ⟨_, rfl, rfl, by decide⟩⟩

/-- C14 (amended): each of the opcode bytes 0x61, 0x62, 0x63, 0x65, 0x66,
0x68, 0x6A, 0x6C, 0x6D, 0x6E and 0x6F takes exactly one u32 operand, so that
when it completes without error at offset `p` the next opcode is fetched
from `p + 5`; 0x64 (getglobalscope) takes no operand and continues at
`p + 1`; 0x67, 0x69 and 0x6B have no case and raise a ParseException. -/
theorem C14_accessor_width (env : Env) (s : VMState)
    (hip : s.instructionPointer < s.code.length) :
    (byteAt s.code s.instructionPointer ∈
        [0x61, 0x62, 0x63, 0x65, 0x66, 0x68, 0x6a, 0x6c, 0x6d, 0x6e, 0x6f] →
      ∀ s1, step env s = Res.ok next s1 → s1.instructionPointer = s.instructionPointer + 5)
    ∧ (byteAt s.code s.instructionPointer = 0x64 →
      ∀ s1, step env s = Res.ok next s1 → s1.instructionPointer = s.instructionPointer + 1)
    ∧ (byteAt s.code s.instructionPointer ∈ [0x67, 0x69, 0x6b] →
      ∃ s1, step env s = Res.throw ASError.ParseException s1) := by
  have hacc := IPAt_accessors env s.instructionPointer (s.instructionPointer + 1)
  obtain ⟨h61, h62, h63, h65, h66, h68, h6a, h6c, h6d, h6e, h6f, h64⟩ := hacc
  rw [step_eq env s hip]
  refine ⟨?_, ?_, ?_⟩
  · intro hop s1 hstep
    simp only [List.mem_cons, List.mem_singleton, List.not_mem_nil, or_false] at hop
    rcases hop with h | h | h | h | h | h | h | h | h | h | h <;> rw [h] at hstep
    · exact IPAt_elim h61 _ _ _ rfl hstep
    · exact IPAt_elim h62 _ _ _ rfl hstep
    · exact IPAt_elim h63 _ _ _ rfl hstep
    · exact IPAt_elim h65 _ _ _ rfl hstep
    · exact IPAt_elim h66 _ _ _ rfl hstep
    · exact IPAt_elim h68 _ _ _ rfl hstep
    · exact IPAt_elim h6a _ _ _ rfl hstep
    · exact IPAt_elim h6c _ _ _ rfl hstep
    · exact IPAt_elim h6d _ _ _ rfl hstep
    · exact IPAt_elim h6e _ _ _ rfl hstep
    · exact IPAt_elim h6f _ _ _ rfl hstep
  · intro hop s1 hstep
    rw [hop] at hstep
    exact IPAt_elim h64 _ _ _ rfl hstep
  · intro hop
    simp only [List.mem_cons, List.mem_singleton, List.not_mem_nil, or_false] at hop
    rcases hop with h | h | h <;> rw [h] <;> exact ⟨_, rfl⟩

theorem C14_accessor_width_witness :
    (step Env.strings (exampleState [0x62, 0, 0, 0, 0, 0x47] [])).state.instructionPointer
      = (exampleState [0x62, 0, 0, 0, 0, 0x47] []).instructionPointer + 5 :=
  (C14_accessor_width Env.strings (exampleState [0x62, 0, 0, 0, 0, 0x47] [])
    (by decide)).1 (by decide) _ (by decide)

theorem bind_ok {σ α β : Type} {m : M σ α} {f : α → M σ β} {s : σ} {a : α} {s1 : σ}
    (h : m s = Res.ok a s1) : (m >>= f) s = f a s1 := by
  rw [M_bind_apply, h]

theorem bind_throw {σ α β : Type} {m : M σ α} {f : α → M σ β} {s : σ} {e : ASError} {s1 : σ}
    (h : m s = Res.throw e s1) : (m >>= f) s = Res.throw e s1 := by
  rw [M_bind_apply, h]

theorem getD_set_self (l : List Nat) (i v : Nat) (h : i < l.length) : (l.set i v).getD i 0 = v := by
  simp [List.getD_eq_getElem?_getD, List.getElem?_set, h]

theorem getD_set_other (l : List Nat) (i j v : Nat) (h : j ≠ i) :
    (l.set i v).getD j 0 = l.getD j 0 := by
  simp [List.getD_eq_getElem?_getD, List.getElem?_set, Ne.symm h]

/-- The guarded store when the guard holds: the slot is assigned and the
previous occupant, if any, loses one reference. -/
theorem setLocalGuarded_pos (i obj : Nat) (s : VMState)
    (hg : toInt32 i ≠ s.context.argarrayposition ∨ s.sys.hasType obj T_ARRAY = true) :
    setLocalGuarded i obj s = Res.ok ()
      { s with
        context := { s.context with locals := s.context.locals.set i obj }
        sys := if s.context.locals.getD i 0 ≠ 0
          then s.sys.addRef (s.context.locals.getD i 0) (-1) else s.sys } := by
  unfold setLocalGuarded
  rw [bind_ok (rfl : getContext s = Res.ok s.context s)]
  rw [bind_ok (rfl : getSys s = Res.ok s.sys s)]
  rw [if_pos hg]
  by_cases hl : s.context.locals.getD i 0 ≠ 0
  · rw [if_pos hl, if_pos hl]
    rfl
  · rw [if_neg hl, if_neg hl]
    rfl

/-- The guarded store when the guard fails: nothing changes. -/
theorem setLocalGuarded_neg (i obj : Nat) (s : VMState)
    (hg : ¬ (toInt32 i ≠ s.context.argarrayposition ∨ s.sys.hasType obj T_ARRAY = true)) :
    setLocalGuarded i obj s = Res.ok () s := by
  unfold setLocalGuarded
  rw [bind_ok (rfl : getContext s = Res.ok s.context s)]
  rw [bind_ok (rfl : getSys s = Res.ok s.sys s)]
  rw [if_neg hg]
  rfl

theorem uints_ok (data k : Nat) (s : VMState) :
    uints data k s = Res.ok (readU32 s.code (data + 4 * k)) s := rfl

theorem advance_ok (n : Nat) (s : VMState) :
    advance n s = Res.ok () { s with instructionPointer := s.instructionPointer + n } := rfl

theorem pop_ok (s : VMState) (v : Nat) (rest : List Nat) (h : s.context.stack = v :: rest) :
    runtime_stack_pop s = Res.ok v { s with context := { s.context with stack := rest } } := by
  unfold runtime_stack_pop
  rw [h]

theorem assert_and_throw_ok (c : Bool) (s : VMState) (h : c = true) :
    assert_and_throw c s = Res.ok () s := by
  subst h
  rfl

/-- The body of setlocal, given the outcome of the guarded store. -/
theorem op_setlocal_run (data v : Nat) (rest : List Nat) (s s2 : VMState)
    (hstack : s.context.stack = v :: rest) (hv : v ≠ 0)
    (hG : setLocalGuarded (readU32 s.code (data + 4 * 0)) v
      { s with
        instructionPointer := s.instructionPointer + 4
        context := { s.context with stack := rest } } = Res.ok () s2) :
    op_setlocal data s = Res.ok next s2 := by
  unfold op_setlocal
  rw [bind_ok (uints_ok _ _ _)]
  rw [bind_ok (advance_ok _ _)]
  rw [bind_ok (pop_ok _ v rest (by exact hstack))]
  rw [bind_ok (assert_and_throw_ok _ _ (decide_eq_true hv))]
  rw [bind_ok hG]
  rfl

/-- The body of setlocal_n, given the outcome of the guarded store. -/
theorem op_setlocal_n_run (op v : Nat) (rest : List Nat) (s s2 : VMState)
    (hstack : s.context.stack = v :: rest)
    (hG : setLocalGuarded (op % 4) v
      { s with context := { s.context with stack := rest } } = Res.ok () s2) :
    op_setlocal_n op s = Res.ok next s2 := by
  unfold op_setlocal_n
  rw [bind_ok (pop_ok _ v rest (by exact hstack))]
  rw [bind_ok hG]
  rfl

theorem step_setlocal (env : Env) (s : VMState) (v : Nat) (rest : List Nat)
    (hip : s.instructionPointer < s.code.length)
    (hop : byteAt s.code s.instructionPointer = 0x63)
    (hstack : s.context.stack = v :: rest) (hv : v ≠ 0) :
    ∃ s1, step env s = Res.ok next s1
      ∧ s1.instructionPointer = s.instructionPointer + 5
      ∧ s1.context.stack = rest
      ∧ ((toInt32 (readU32 s.code (s.instructionPointer + 1)) ≠ s.context.argarrayposition
            ∨ s.sys.hasType v T_ARRAY = true) →
          s1.context.locals = s.context.locals.set (readU32 s.code (s.instructionPointer + 1)) v)
      ∧ (¬ (toInt32 (readU32 s.code (s.instructionPointer + 1)) ≠ s.context.argarrayposition
            ∨ s.sys.hasType v T_ARRAY = true) →
          s1.context.locals = s.context.locals) := by
  rw [step_eq env s hip, hop, execOpcode_63]
  by_cases hg : toInt32 (readU32 s.code (s.instructionPointer + 1)) ≠ s.context.argarrayposition
            ∨ s.sys.hasType v T_ARRAY = true
  · rw [op_setlocal_run _ v rest _ _ (by exact hstack) hv (by exact setLocalGuarded_pos _ _ _ hg)]
    exact ⟨_, rfl, rfl, rfl, fun _ => rfl, fun h => absurd hg h⟩
  · rw [op_setlocal_run _ v rest _ _ (by exact hstack) hv (by exact setLocalGuarded_neg _ _ _ hg)]
    exact ⟨_, rfl, rfl, rfl, fun h => absurd h hg, fun _ => rfl⟩

theorem step_setlocal_n (env : Env) (s : VMState) (op v : Nat) (rest : List Nat)
    (hip : s.instructionPointer < s.code.length)
    (hop : byteAt s.code s.instructionPointer = op)
    (hrange : op = 0xd4 ∨ op = 0xd5 ∨ op = 0xd6 ∨ op = 0xd7)
    (hstack : s.context.stack = v :: rest) :
    ∃ s1, step env s = Res.ok next s1
      ∧ s1.instructionPointer = s.instructionPointer + 1
      ∧ s1.context.stack = rest
      ∧ ((toInt32 ((op % 4 : Nat) : Int) ≠ s.context.argarrayposition
            ∨ s.sys.hasType v T_ARRAY = true) →
          s1.context.locals = s.context.locals.set (op % 4) v)
      ∧ (¬ (toInt32 ((op % 4 : Nat) : Int) ≠ s.context.argarrayposition
            ∨ s.sys.hasType v T_ARRAY = true) →
          s1.context.locals = s.context.locals) := by
  rw [step_eq env s hip, hop]
  have hex : execOpcode env op (s.instructionPointer + 1) = op_setlocal_n op := by
    rcases hrange with h | h | h | h <;> subst h <;> rfl
  rw [hex]
  by_cases hg : toInt32 ((op % 4 : Nat) : Int) ≠ s.context.argarrayposition
            ∨ s.sys.hasType v T_ARRAY = true
  · rw [op_setlocal_n_run _ v rest _ _ (by exact hstack) (by exact setLocalGuarded_pos _ _ _ hg)]
    exact ⟨_, rfl, rfl, rfl, fun _ => rfl, fun h => absurd hg h⟩
  · rw [op_setlocal_n_run _ v rest _ _ (by exact hstack) (by exact setLocalGuarded_neg _ _ _ hg)]
    exact ⟨_, rfl, rfl, rfl, fun h => absurd h hg, fun _ => rfl⟩

/-- C15: setlocal with index `i` (opcode 0x63 with an index that fits a
signed 32-bit int, or a short form 0xD4..0xD7 with `i = opcode & 3`) and a
popped object `v` completes on `step` and pops `v`; when `i` equals
`argarrayposition` and `v` is not an Array the locals are unchanged, and in
every other case `locals[i]` becomes `v` and every other local is unchanged. -/
theorem C15_setlocal_guard (env : Env) (s : VMState) (op i v : Nat) (rest : List Nat)
    (hip : s.instructionPointer < s.code.length)
    (hop : byteAt s.code s.instructionPointer = op)
    (hform : (op = 0x63 ∧ i = readU32 s.code (s.instructionPointer + 1) ∧ i < 2147483648)
      ∨ ((op = 0xd4 ∨ op = 0xd5 ∨ op = 0xd6 ∨ op = 0xd7) ∧ i = op % 4))
    (hstack : s.context.stack = v :: rest) (hv : v ≠ 0) :
    ∃ s1, step env s = Res.ok next s1
      ∧ s1.context.stack = rest
      ∧ (((i : Int) = s.context.argarrayposition ∧ s.sys.hasType v T_ARRAY = false) →
          s1.context.locals = s.context.locals)
      ∧ (¬ ((i : Int) = s.context.argarrayposition ∧ s.sys.hasType v T_ARRAY = false) →
          s1.context.locals = s.context.locals.set i v
          ∧ (i < s.context.locals.length → s1.context.locals.getD i 0 = v)
          ∧ ∀ j, j ≠ i → s1.context.locals.getD j 0 = s.context.locals.getD j 0) := by
  have key : ∃ s1, step env s = Res.ok next s1 ∧ s1.context.stack = rest
      ∧ ((toInt32 (i : Int) ≠ s.context.argarrayposition ∨ s.sys.hasType v T_ARRAY = true) →
          s1.context.locals = s.context.locals.set i v)
      ∧ (¬ (toInt32 (i : Int) ≠ s.context.argarrayposition ∨ s.sys.hasType v T_ARRAY = true) →
          s1.context.locals = s.context.locals) := by
    rcases hform with ⟨h63, hi, _⟩ | ⟨hn, hi⟩
    · subst hi
      obtain ⟨s1, h1, _, h3, h4, h5⟩ := step_setlocal env s v rest hip (hop.trans h63) hstack hv
      exact ⟨s1, h1, h3, h4, h5⟩
    · subst hi
      obtain ⟨s1, h1, _, h3, h4, h5⟩ := step_setlocal_n env s op v rest hip hop hn hstack
      exact ⟨s1, h1, h3, h4, h5⟩
  have hsmall : i < 2147483648 := by
    rcases hform with ⟨_, _, h⟩ | ⟨_, hi⟩
    · exact h
    · omega
  have hto : toInt32 (i : Int) = (i : Int) := toInt32_of_range _ (by omega) (by omega)
  obtain ⟨s1, h1, h2, h3, h4⟩ := key
  rw [hto] at h3 h4
  refine ⟨s1, h1, h2, ?_, ?_⟩
  · rintro ⟨hi, ha⟩
    apply h4
    rintro (h | h)
    · exact h hi
    · rw [ha] at h
      exact Bool.noConfusion h
  · intro hn
    have hset : s1.context.locals = s.context.locals.set i v := by
      apply h3
      by_cases hi : (i : Int) = s.context.argarrayposition
      · right
        cases ha : s.sys.hasType v T_ARRAY
        · exact absurd ⟨hi, ha⟩ hn
        · rfl
      · left
        exact hi
    refine ⟨hset, fun hlen => ?_, fun j hj => ?_⟩
    · rw [hset]
      exact getD_set_self _ _ _ hlen
    · rw [hset]
      exact getD_set_other _ _ _ _ hj

theorem C15_setlocal_guard_witness :
    ∃ s1, step Env.failing argArrayState = Res.ok next s1
      ∧ s1.context.stack = [] ∧ s1.context.locals = [0, 0] := by
  obtain ⟨s1, h1, h2, h3, _⟩ := C15_setlocal_guard Env.failing argArrayState 0xd5 1 3 []
    (by decide) (by decide) (Or.inr ⟨by decide, by decide⟩) (by decide) (by decide)
  exact ⟨s1, h1, h2, h3 ⟨by decide, by decide⟩⟩

theorem addRef_undefinedRef (h : SystemState) (p : Nat) (d : Int) :
    (h.addRef p d).undefinedRef = h.undefinedRef := by
  unfold SystemState.addRef
  split <;> rfl

theorem step_kill (env : Env) (s : VMState)
    (hip : s.instructionPointer < s.code.length)
    (hop : byteAt s.code s.instructionPointer = 0x08)
    (hinit : s.context.locals.getD (readU32 s.code (s.instructionPointer + 1)) 0 ≠ 0) :
    step env s = Res.ok next
      { code := s.code
        instructionPointer := s.instructionPointer + 5
        context := { s.context with
          exec_pos := s.instructionPointer
          locals := s.context.locals.set (readU32 s.code (s.instructionPointer + 1))
            s.sys.undefinedRef }
        sys := (s.sys.addRef
          (s.context.locals.getD (readU32 s.code (s.instructionPointer + 1)) 0) (-1)).addRef
            s.sys.undefinedRef 1 } := by
  have hinit2 := hinit
  simp only [List.getD_eq_getElem?_getD] at hinit2
  simp only [step, hip, if_true, hop, execOpcode_08]
  simp [op_kill, uints, advance, getContext, assert_and_throw, hinit2, onSys, decRef,
    getUndefinedRef, setLocalSlot, addRef_undefinedRef]

theorem step_kill_null (env : Env) (s : VMState)
    (hip : s.instructionPointer < s.code.length)
    (hop : byteAt s.code s.instructionPointer = 0x08)
    (hnull : s.context.locals.getD (readU32 s.code (s.instructionPointer + 1)) 0 = 0) :
    step env s = Res.throw ASError.AssertionException
      { code := s.code
        instructionPointer := s.instructionPointer + 5
        context := { s.context with exec_pos := s.instructionPointer }
        sys := s.sys } := by
  have hnull2 := hnull
  simp only [List.getD_eq_getElem?_getD] at hnull2
  simp only [step, hip, if_true, hop, execOpcode_08]
  simp [op_kill, uints, advance, getContext, assert_and_throw, hnull2]

/-- C16 (counterexample): local 0 of `exampleState` lies below the local
count and is uninitialised; `kill 0` on it does not complete but throws at
the `assert_and_throw(context->locals[t])` guard, leaving the locals as they
were. -/
theorem C16_counterexample :
    0 < (exampleState [0x08, 0, 0, 0, 0, 0x47] []).context.locals.length
    ∧ (exampleState [0x08, 0, 0, 0, 0, 0x47] []).context.locals.getD 0 0 = 0
    ∧ ∃ s1, step Env.failing (exampleState [0x08, 0, 0, 0, 0, 0x47] [])
        = Res.throw ASError.AssertionException s1
      ∧ s1.context.locals = [0, 0] :=
  ⟨by decide, by decide, _, rfl, rfl⟩

/-- C16 (amended): for a local index `t` below the local count whose slot is
initialised (non-null), `kill t` completes on `step`, leaves `locals[t]`
equal to Undefined after dropping one reference of the previous occupant
(and taking one on Undefined), leaves every other local, the operand stack
and the code unchanged, and advances the instruction pointer by 5. -/
theorem C16_kill (env : Env) (s : VMState) (t : Nat)
    (hip : s.instructionPointer < s.code.length)
    (hop : byteAt s.code s.instructionPointer = 0x08)
    (ht : t = readU32 s.code (s.instructionPointer + 1))
    (hlt : t < s.context.locals.length)
    (hinit : s.context.locals.getD t 0 ≠ 0) :
    ∃ s1, step env s = Res.ok next s1
      ∧ s1.context.locals.getD t 0 = s.sys.undefinedRef
      ∧ (∀ j, j ≠ t → s1.context.locals.getD j 0 = s.context.locals.getD j 0)
      ∧ s1.context.locals.length = s.context.locals.length
      ∧ s1.sys = (s.sys.addRef (s.context.locals.getD t 0) (-1)).addRef s.sys.undefinedRef 1
      ∧ s1.context.stack = s.context.stack
      ∧ s1.code = s.code
      ∧ s1.instructionPointer = s.instructionPointer + 5 := by
  subst ht
  rw [step_kill env s hip hop hinit]
  refine ⟨_, rfl, ?_, ?_, ?_, rfl, rfl, rfl, rfl⟩
  · exact getD_set_self _ _ _ hlt
  · intro j hj
    exact getD_set_other _ _ _ _ hj
  · simp

theorem C16_kill_witness :
    ∃ s1, step Env.failing killState = Res.ok next s1
      ∧ s1.context.locals.getD 1 0 = 2
      ∧ s1.sys.deref 3 = some { exampleInteger 7 with ref_count := 0 }
      ∧ s1.context.stack = [4]
      ∧ s1.instructionPointer = 5 := by
  obtain ⟨s1, h1, h2, _, _, h5, h6, _, h8⟩ := C16_kill Env.failing killState 1
    (by decide) (by decide) (by decide) (by decide) (by decide)
  refine ⟨s1, h1, h2, ?_, h6, h8⟩
  rw [h5]
  decide

theorem getLocalAt_null (i : Nat) (s : VMState)
    (hroom : s.context.stack.length < s.context.max_stack)
    (hnull : s.context.locals.getD i 0 = 0) :
    getLocalAt i s = Res.ok next
      { s with
        context := { s.context with stack := s.sys.undefinedRef :: s.context.stack }
        sys := s.sys.addRef s.sys.undefinedRef 1 } := by
  have hnull2 := hnull
  simp only [List.getD_eq_getElem?_getD] at hnull2
  simp [getLocalAt, getContext, hnull2, onSys, getUndefinedRef, runtime_stack_push, hroom]

theorem getLocalAt_set (i : Nat) (s : VMState)
    (hroom : s.context.stack.length < s.context.max_stack)
    (hset : s.context.locals.getD i 0 ≠ 0) :
    getLocalAt i s = Res.ok next
      { s with
        context := { s.context with stack := s.context.locals.getD i 0 :: s.context.stack }
        sys := s.sys.addRef (s.context.locals.getD i 0) 1 } := by
  have hset2 := hset
  simp only [List.getD_eq_getElem?_getD] at hset2
  simp [getLocalAt, getContext, hset2, onSys, incRef, runtime_stack_push, hroom]

theorem step_getlocal_any (env : Env) (s : VMState) (op i : Nat)
    (hip : s.instructionPointer < s.code.length)
    (hop : byteAt s.code s.instructionPointer = op)
    (hform : (op = 0x62 ∧ i = readU32 s.code (s.instructionPointer + 1))
      ∨ ((op = 0xd0 ∨ op = 0xd1 ∨ op = 0xd2 ∨ op = 0xd3) ∧ i = op % 4)) :
    ∃ s0, step env s = getLocalAt i s0 ∧ s0.context.stack = s.context.stack
      ∧ s0.context.max_stack = s.context.max_stack ∧ s0.context.locals = s.context.locals
      ∧ s0.sys = s.sys ∧ s0.code = s.code := by
  rw [step_eq env s hip, hop]
  rcases hform with ⟨h, hi⟩ | ⟨h, hi⟩
  · subst h
    subst hi
    rw [execOpcode_62]
    simp only [op_getlocal, uints, advance, M_bind_apply, Nat.mul_zero, Nat.add_zero]
    exact ⟨_, rfl, rfl, rfl, rfl, rfl, rfl⟩
  · subst hi
    have hex : execOpcode env op (s.instructionPointer + 1) = getLocalAt (op % 4) := by
      rcases h with h | h | h | h <;> subst h <;> rfl
    rw [hex]
    exact ⟨_, rfl, rfl, rfl, rfl, rfl, rfl⟩

/-- C17: getlocal with index `i` (opcode 0x62, or a short form 0xD0..0xD3
with `i = opcode & 3`) on a stack with room for one more entry completes on
`step`; when `locals[i]` is uninitialised (null) Undefined is pushed, and
otherwise `locals[i]` itself is pushed and its reference count grows by
exactly one; in both cases the operand stack grows by one entry and no local
is modified. -/
theorem C17_getlocal (env : Env) (s : VMState) (op i : Nat)
    (hip : s.instructionPointer < s.code.length)
    (hop : byteAt s.code s.instructionPointer = op)
    (hform : (op = 0x62 ∧ i = readU32 s.code (s.instructionPointer + 1))
      ∨ ((op = 0xd0 ∨ op = 0xd1 ∨ op = 0xd2 ∨ op = 0xd3) ∧ i = op % 4))
    (hroom : s.context.stack.length < s.context.max_stack) :
    ∃ s1, step env s = Res.ok next s1
      ∧ s1.context.locals = s.context.locals
      ∧ s1.context.stack.length = s.context.stack.length + 1
      ∧ (s.context.locals.getD i 0 = 0 →
          s1.context.stack = s.sys.undefinedRef :: s.context.stack)
      ∧ (s.context.locals.getD i 0 ≠ 0 →
          s1.context.stack = s.context.locals.getD i 0 :: s.context.stack
          ∧ s1.sys = s.sys.addRef (s.context.locals.getD i 0) 1
          ∧ ∀ o, s.sys.deref (s.context.locals.getD i 0) = some o →
              s1.sys.deref (s.context.locals.getD i 0)
                = some { o with ref_count := o.ref_count + 1 }) := by
  obtain ⟨s0, h0, hst, hmax, hloc, hsys, _⟩ := step_getlocal_any env s op i hip hop hform
  rw [h0]
  by_cases hnull : s.context.locals.getD i 0 = 0
  · rw [getLocalAt_null i s0 (by rw [hst, hmax]; exact hroom) (by rw [hloc]; exact hnull)]
    refine ⟨_, rfl, hloc, ?_, fun _ => ?_, fun h => absurd hnull h⟩
    · simp [hst]
    · simp [hst, hsys]
  · rw [getLocalAt_set i s0 (by rw [hst, hmax]; exact hroom) (by rw [hloc]; exact hnull)]
    refine ⟨_, rfl, hloc, ?_, fun h => absurd h hnull, fun _ => ⟨?_, ?_, ?_⟩⟩
    · simp [hst]
    · simp [hst, hloc]
    · simp [hsys, hloc]
    · intro o ho
      simp only [hsys, hloc, deref_addRef, if_true, ho, Option.map_some']

theorem C17_getlocal_witness :
    ∃ s1, step Env.failing getlocalState = Res.ok next s1
      ∧ s1.context.locals = [0, 3]
      ∧ s1.context.stack = [3]
      ∧ s1.sys.deref 3 = some { exampleInteger 7 with ref_count := 2 } := by
  obtain ⟨s1, h1, h2, _, _, h5⟩ := C17_getlocal Env.failing getlocalState 0xd1 1
    (by decide) (by decide) (Or.inr ⟨by decide, by decide⟩) (by decide)
  obtain ⟨h6, _, h8⟩ := h5 (by decide)
  exact ⟨s1, h1, h2, h6, h8 _ (by decide)⟩

theorem step_returnvoid (env : Env) (s : VMState)
    (hip : s.instructionPointer < s.code.length)
    (hop : byteAt s.code s.instructionPointer = 0x47) :
    step env s = Res.ok (ret 0)
      { code := s.code
        instructionPointer := s.instructionPointer + 1
        context := { s.context with exec_pos := s.instructionPointer }
        sys := s.sys } := by
  rw [step_eq env s hip, hop, execOpcode_47]
  rfl

/-- C18: on a state whose next opcode is returnvoid (0x47) the run ends
returning the void sentinel (the null pointer) with the operand stack, the
locals and every object unchanged; on a state whose next opcode is
returnvalue (0x48) and whose stack is `v :: rest` the run ends returning
exactly `v`, the stack is `rest` (one entry shorter), and no reference count
changes, so the reference held by the stack passes to the caller. -/
theorem C18_return (env : Env) (s : VMState) (fuel : Nat)
    (hip : s.instructionPointer < s.code.length) :
    (byteAt s.code s.instructionPointer = 0x47 →
      ∃ s1, loop env (fuel + 1) s = some (Res.ok 0 s1)
        ∧ s1.context.stack = s.context.stack
        ∧ s1.context.locals = s.context.locals
        ∧ s1.sys = s.sys)
    ∧ (byteAt s.code s.instructionPointer = 0x48 →
      ∀ v rest, s.context.stack = v :: rest →
        ∃ s1, loop env (fuel + 1) s = some (Res.ok v s1)
          ∧ s1.context.stack = rest
          ∧ s1.context.stack.length + 1 = s.context.stack.length
          ∧ s1.context.locals = s.context.locals
          ∧ s1.sys = s.sys) := by
  refine ⟨fun hop => ?_, fun hop v rest hstack => ?_⟩
  · rw [loop_step_ret env fuel s _ 0 (step_returnvoid env s hip hop)]
    exact ⟨_, rfl, rfl, rfl, rfl⟩
  · rw [loop_step_ret env fuel s _ v (step_returnvalue env s v rest hip hop hstack)]
    refine ⟨_, rfl, rfl, ?_, rfl, rfl⟩
    simp [hstack]

theorem C18_return_witness :
    ∃ s1, loop Env.failing 1 (exampleState [0x48] [3, 4]) = some (Res.ok 3 s1)
      ∧ s1.context.stack = [4]
      ∧ s1.sys = exampleSys := by
  obtain ⟨s1, h1, h2, _, _, h5⟩ :=
    (C18_return Env.failing (exampleState [0x48] [3, 4]) 0 (by decide)).2 (by decide) 3 [4]
      (by decide)
  exact ⟨s1, h1, h2, h5⟩

theorem step_getscopeatindex_parent (env : Env) (s : VMState)
    (hip : s.instructionPointer < s.code.length)
    (hop : byteAt s.code s.instructionPointer = 0xfd)
    (hroom : s.context.stack.length < s.context.max_stack)
    (hlt : readU32 s.code (s.instructionPointer + 1) < parentSize s.context) :
    step env s = Res.ok next
      { code := s.code
        instructionPointer := s.instructionPointer + 5
        context := { s.context with
          exec_pos := s.instructionPointer
          stack := parentEntry s.context (readU32 s.code (s.instructionPointer + 1))
            :: s.context.stack }
        sys := s.sys.addRef
          (parentEntry s.context (readU32 s.code (s.instructionPointer + 1))) 1 } := by
  rw [step_eq env s hip, hop, execOpcode_fd]
  unfold parentSize at hlt
  unfold parentEntry
  cases hp : s.context.parent_scope_stack with
  | none => simp [hp] at hlt
  | some scope =>
    simp only [hp] at hlt
    simp [op_getscopeatindex, uints, getContext, hp, hlt, onSys, incRef, runtime_stack_push,
      hroom, advance]

theorem step_getscopeatindex_current (env : Env) (s : VMState)
    (hip : s.instructionPointer < s.code.length)
    (hop : byteAt s.code s.instructionPointer = 0xfd)
    (hroom : s.context.stack.length < s.context.max_stack)
    (hge : parentSize s.context ≤ readU32 s.code (s.instructionPointer + 1))
    (hlt : readU32 s.code (s.instructionPointer + 1)
      < parentSize s.context + s.context.curr_scope_stack) :
    step env s = Res.ok next
      { code := s.code
        instructionPointer := s.instructionPointer + 5
        context := { s.context with
          exec_pos := s.instructionPointer
          stack := s.context.scope_stack.getD
            (readU32 s.code (s.instructionPointer + 1) - parentSize s.context) 0
            :: s.context.stack }
        sys := s.sys.addRef (s.context.scope_stack.getD
            (readU32 s.code (s.instructionPointer + 1) - parentSize s.context) 0) 1 } := by
  rw [step_eq env s hip, hop, execOpcode_fd]
  unfold parentSize at hge hlt ⊢
  cases hp : s.context.parent_scope_stack with
  | none =>
    simp only [hp] at hge hlt
    have h2 : readU32 s.code (s.instructionPointer + 1) < s.context.curr_scope_stack := by omega
    simp [op_getscopeatindex, uints, getContext, hp, assert_and_throw, h2, onSys, incRef,
      runtime_stack_push, hroom, advance]
  | some scope =>
    simp only [hp] at hge hlt
    have h1 : ¬ readU32 s.code (s.instructionPointer + 1) < scope.length := by omega
    have h2 : readU32 s.code (s.instructionPointer + 1) - scope.length
        < s.context.curr_scope_stack := by omega
    simp [op_getscopeatindex, uints, getContext, hp, h1, assert_and_throw, h2, onSys, incRef,
      runtime_stack_push, hroom, advance]

theorem step_getscopeatindex_out (env : Env) (s : VMState)
    (hip : s.instructionPointer < s.code.length)
    (hop : byteAt s.code s.instructionPointer = 0xfd)
    (hge : parentSize s.context + s.context.curr_scope_stack
      ≤ readU32 s.code (s.instructionPointer + 1)) :
    step env s = Res.throw ASError.AssertionException
      { code := s.code
        instructionPointer := s.instructionPointer + 1
        context := { s.context with exec_pos := s.instructionPointer }
        sys := s.sys } := by
  rw [step_eq env s hip, hop, execOpcode_fd]
  unfold parentSize at hge
  cases hp : s.context.parent_scope_stack with
  | none =>
    simp only [hp] at hge
    have h2 : ¬ readU32 s.code (s.instructionPointer + 1) < s.context.curr_scope_stack := by omega
    simp [op_getscopeatindex, uints, getContext, hp, assert_and_throw, h2]
  | some scope =>
    simp only [hp] at hge
    have h1 : ¬ readU32 s.code (s.instructionPointer + 1) < scope.length := by omega
    have h2 : ¬ readU32 s.code (s.instructionPointer + 1) - scope.length
        < s.context.curr_scope_stack := by omega
    simp [op_getscopeatindex, uints, getContext, hp, h1, assert_and_throw, h2]

/-- C19: getscopeatindex (0xFD) with operand `t`, parent scope of size `P`
(`parentSize`, 0 without a parent scope) and current scope depth `C`, on a
stack with room for one more entry: if `t < P` it pushes entry `t` of the
parent scope; if `P ≤ t < P + C` it pushes entry `t - P` of the current scope
stack; in both cases the pushed object gains exactly one reference and the
instruction pointer advances by 5; if `t ≥ P + C` it throws without pushing. -/
theorem C19_getscopeatindex (env : Env) (s : VMState) (t : Nat)
    (hip : s.instructionPointer < s.code.length)
    (hop : byteAt s.code s.instructionPointer = 0xfd)
    (ht : t = readU32 s.code (s.instructionPointer + 1))
    (hroom : s.context.stack.length < s.context.max_stack) :
    (t < parentSize s.context →
      ∃ s1, step env s = Res.ok next s1
        ∧ s1.context.stack = parentEntry s.context t :: s.context.stack
        ∧ s1.sys = s.sys.addRef (parentEntry s.context t) 1
        ∧ (∀ o, s.sys.deref (parentEntry s.context t) = some o →
            s1.sys.deref (parentEntry s.context t) = some { o with ref_count := o.ref_count + 1 })
        ∧ s1.instructionPointer = s.instructionPointer + 5)
    ∧ (parentSize s.context ≤ t → t < parentSize s.context + s.context.curr_scope_stack →
      ∃ s1, step env s = Res.ok next s1
        ∧ s1.context.stack
            = s.context.scope_stack.getD (t - parentSize s.context) 0 :: s.context.stack
        ∧ s1.sys = s.sys.addRef (s.context.scope_stack.getD (t - parentSize s.context) 0) 1
        ∧ (∀ o, s.sys.deref (s.context.scope_stack.getD (t - parentSize s.context) 0) = some o →
            s1.sys.deref (s.context.scope_stack.getD (t - parentSize s.context) 0)
              = some { o with ref_count := o.ref_count + 1 })
        ∧ s1.instructionPointer = s.instructionPointer + 5)
    ∧ (parentSize s.context + s.context.curr_scope_stack ≤ t →
      ∃ s1, step env s = Res.throw ASError.AssertionException s1
        ∧ s1.context.stack = s.context.stack
        ∧ s1.sys = s.sys) := by
  subst ht
  refine ⟨fun h => ?_, fun h1 h2 => ?_, fun h => ?_⟩
  · rw [step_getscopeatindex_parent env s hip hop hroom h]
    refine ⟨_, rfl, rfl, rfl, fun o ho => ?_, rfl⟩
    simp only [deref_addRef, if_true, ho, Option.map_some']
  · rw [step_getscopeatindex_current env s hip hop hroom h1 h2]
    refine ⟨_, rfl, rfl, rfl, fun o ho => ?_, rfl⟩
    simp only [deref_addRef, if_true, ho, Option.map_some']
  · rw [step_getscopeatindex_out env s hip hop h]
    exact ⟨_, rfl, rfl, rfl⟩

theorem C19_getscopeatindex_witness :
    (∃ s1, step Env.failing (scopeState 1) = Res.ok next s1
        ∧ s1.context.stack = [4]
        ∧ s1.sys.deref 4 = some { exampleInteger 5 with ref_count := 2 }
        ∧ s1.instructionPointer = 5) := by
  obtain ⟨s1, h1, h2, _, h4, h5⟩ :=
    (C19_getscopeatindex Env.failing (scopeState 1) 1 (by decide) (by decide) (by decide)
      (by decide)).1 (by decide)
  exact ⟨s1, h1, h2, h4 _ (by decide), h5⟩

theorem step_sxi1 (env : Env) (s : VMState) (v : Nat) (rest : List Nat) (u : Int)
    (h1 : SystemState)
    (hip : s.instructionPointer < s.code.length)
    (hop : byteAt s.code s.instructionPointer = 0x50)
    (hstack : s.context.stack = v :: rest)
    (hmax : s.context.stack.length ≤ s.context.max_stack)
    (hu : toUInt env v s.sys = Res.ok u h1) :
    step env s = Res.ok next
      { code := s.code
        instructionPointer := s.instructionPointer + 1
        context := { s.context with
          exec_pos := s.instructionPointer
          stack := ((h1.addRef v (-1)).objects.length + 1) :: rest }
        sys := { (h1.addRef v (-1)) with
          objects := (h1.addRef v (-1)).objects ++
            [{ type := T_INTEGER, ref_count := 1, val := toInt32 (u % 2),
               ival := 0, dval := 0, isfloat := false }] } } := by
  have hroom : rest.length < s.context.max_stack := by
    rw [hstack] at hmax
    simp at hmax
    omega
  rw [step_eq env s hip, hop, execOpcode_50]
  simp [op_sxi, runtime_stack_pop, hstack, onSys, hu, decRef, abstract_i, alloc,
    runtime_stack_push, hroom, addRef_length]

/-- C20: sxi1 (0x50) on a value `v` whose `toUInt()` is `u` pops `v`, drops
one reference of it and pushes a fresh Integer holding `u & 1`: the Integer 1
when the lowest bit of `u` is 1 and the Integer 0 when it is 0; it never
pushes -1. -/
theorem C20_sxi1 (env : Env) (s : VMState) (v : Nat) (rest : List Nat) (u : Int)
    (h1 : SystemState)
    (hip : s.instructionPointer < s.code.length)
    (hop : byteAt s.code s.instructionPointer = 0x50)
    (hstack : s.context.stack = v :: rest)
    (hmax : s.context.stack.length ≤ s.context.max_stack)
    (hu : toUInt env v s.sys = Res.ok u h1) :
    ∃ s1 r o, step env s = Res.ok next s1
      ∧ s1.context.stack = r :: rest
      ∧ s1.sys.deref r = some o
      ∧ o.type = T_INTEGER
      ∧ (u % 2 = 1 → o.val = 1)
      ∧ (u % 2 = 0 → o.val = 0)
      ∧ o.val ≠ -1 := by
  rw [step_sxi1 env s v rest u h1 hip hop hstack hmax hu]
  refine ⟨_, _, _, rfl, rfl, deref_alloc_new _ _, rfl, ?_, ?_, ?_⟩
  · intro h
    show toInt32 (u % 2) = 1
    rw [h]
    rfl
  · intro h
    show toInt32 (u % 2) = 0
    rw [h]
    rfl
  · show toInt32 (u % 2) ≠ -1
    rw [toInt32_of_range _ (by omega) (by omega)]
    omega

theorem C20_sxi1_witness :
    ∃ s1 r o, step Env.failing (exampleState [0x50, 0x48] [3]) = Res.ok next s1
      ∧ s1.context.stack = [r]
      ∧ s1.sys.deref r = some o
      ∧ o.type = T_INTEGER
      ∧ o.val = 1 := by
  obtain ⟨s1, r, o, h1, h2, h3, h4, h5, _, _⟩ :=
    C20_sxi1 Env.failing (exampleState [0x50, 0x48] [3]) 3 [] 7 exampleSys
      (by decide) (by decide) (by decide) (by decide) rfl
  exact ⟨s1, r, o, h1, h2, h3, h4, h5 (by decide)⟩

/-- Case analysis on the switch: a property of the opcode byte and of the
computation its case runs holds for every byte once it holds for each of the
160 case bodies and for the default. -/
theorem execOpcode_ind (P : Nat → M VMState LoopCtl → Prop) (env : Env) (data : Nat)
    (h01 : P 0x01 (pure next))
    (h02 : P 0x02 (pure next))
    (h03 : P 0x03 (op_ctx env._throw))
    (h04 : P 0x04 (op_ctx_u32 env.getSuper data))
    (h05 : P 0x05 (op_ctx_u32 env.setSuper data))
    (h06 : P 0x06 (op_ctx_u32 env.dxns data))
    (h07 : P 0x07 (op_dxnslate env))
    (h08 : P 0x08 (op_kill data))
    (h0c : P 0x0c (op_if2 env.ifNLT data))
    (h0d : P 0x0d (op_if2 env.ifNLE data))
    (h0e : P 0x0e (op_if2 env.ifNGT data))
    (h0f : P 0x0f (op_if2 env.ifNGE data))
    (h10 : P 0x10 (op_jump data))
    (h11 : P 0x11 (op_if1 env.ifTrue data))
    (h12 : P 0x12 (op_if1 env.ifFalse data))
    (h13 : P 0x13 (op_if2 env.ifEq data))
    (h14 : P 0x14 (op_if2 env.ifNE data))
    (h15 : P 0x15 (op_if2 (ifLT env) data))
    (h16 : P 0x16 (op_if2 env.ifLE data))
    (h17 : P 0x17 (op_if2 env.ifGT data))
    (h18 : P 0x18 (op_if2 env.ifGE data))
    (h19 : P 0x19 (op_if2 env.ifStrictEq data))
    (h1a : P 0x1a (op_if2 env.ifStrictNE data))
    (h1b : P 0x1b (op_lookupswitch env data))
    (h1c : P 0x1c (op_ctx env.pushWith))
    (h1d : P 0x1d (op_ctx env.popScope))
    (h1e : P 0x1e (op_pop2_push env.nextName))
    (h20 : P 0x20 (op_push_const pushNull))
    (h21 : P 0x21 (op_push_const pushUndefined))
    (h23 : P 0x23 (op_pop2_push env.nextValue))
    (h24 : P 0x24 (op_pushbyte))
    (h25 : P 0x25 (op_pushshort data))
    (h26 : P 0x26 (op_pushbool true))
    (h27 : P 0x27 (op_pushbool false))
    (h28 : P 0x28 (op_push_const pushNaN))
    (h29 : P 0x29 (op_pop))
    (h2a : P 0x2a (op_dup))
    (h2b : P 0x2b (op_swap))
    (h2c : P 0x2c (op_push_ctx_u32 env.pushString data))
    (h2d : P 0x2d (op_pushint env data))
    (h2e : P 0x2e (op_pushuint env data))
    (h2f : P 0x2f (op_pushdouble env data))
    (h30 : P 0x30 (op_ctx env.pushScope))
    (h31 : P 0x31 (op_push_ctx_u32 env.pushNamespace data))
    (h32 : P 0x32 (op_hasnext2 env data))
    (h35 : P 0x35 (op_ctx (env.loadIntN 8)))
    (h36 : P 0x36 (op_ctx (env.loadIntN 16)))
    (h37 : P 0x37 (op_ctx (env.loadIntN 32)))
    (h38 : P 0x38 (op_ctx env.loadFloat))
    (h39 : P 0x39 (op_ctx env.loadDouble))
    (h3a : P 0x3a (op_ctx (env.storeIntN 8)))
    (h3b : P 0x3b (op_ctx (env.storeIntN 16)))
    (h3c : P 0x3c (op_ctx (env.storeIntN 32)))
    (h3d : P 0x3d (op_ctx env.storeFloat))
    (h3e : P 0x3e (op_ctx env.storeDouble))
    (h40 : P 0x40 (op_push_ctx_u32 env.newFunction data))
    (h41 : P 0x41 (op_call_u32 env.call data))
    (h42 : P 0x42 (op_call_u32 env.construct data))
    (h44 : P 0x44 (op_callstatic env data))
    (h45 : P 0x45 (op_call2 env.callSuper true data))
    (h46 : P 0x46 (op_call2 env.callProperty true data))
    (h4c : P 0x4c (op_call2 env.callProperty true data))
    (h47 : P 0x47 (op_returnvoid))
    (h48 : P 0x48 (op_returnvalue))
    (h49 : P 0x49 (op_call_u32 env.constructSuper data))
    (h4a : P 0x4a (op_constructprop env data))
    (h4e : P 0x4e (op_call2 env.callSuper false data))
    (h4f : P 0x4f (op_call2 env.callProperty false data))
    (h50 : P 0x50 (op_sxi env (fun u => u % 2)))
    (h51 : P 0x51 (op_sxi env toInt8))
    (h52 : P 0x52 (op_sxi env toInt16))
    (h53 : P 0x53 (op_ctx_u32 env.constructGenericType data))
    (h55 : P 0x55 (op_ctx_u32 env.newObject data))
    (h56 : P 0x56 (op_ctx_u32 env.newArray data))
    (h57 : P 0x57 (op_newactivation env))
    (h58 : P 0x58 (op_ctx_u32 env.newClass data))
    (h59 : P 0x59 (op_ctx_u32 env.getDescendants data))
    (h5a : P 0x5a (op_push_ctx_u32 env.newCatch data))
    (h5d : P 0x5d (op_findprop env env.findPropStrict data))
    (h5e : P 0x5e (op_findprop env env.findProperty data))
    (h5f : P 0x5f (op_finddef env data))
    (h60 : P 0x60 (op_u32_ctx env.getLex data))
    (h61 : P 0x61 (op_setproperty env data))
    (h62 : P 0x62 (op_getlocal data))
    (h63 : P 0x63 (op_setlocal data))
    (h64 : P 0x64 (op_getglobalscope env))
    (h65 : P 0x65 (op_getscopeobject env data))
    (h66 : P 0x66 (op_getproperty env data))
    (h68 : P 0x68 (op_initproperty env data))
    (h6a : P 0x6a (op_deleteproperty env data))
    (h6c : P 0x6c (op_getslot env data))
    (h6d : P 0x6d (op_setslot env data))
    (h6e : P 0x6e (op_getglobalslot env data))
    (h6f : P 0x6f (op_setglobalslot env data))
    (h70 : P 0x70 (op_pop_push env.convert_s))
    (h71 : P 0x71 (op_pop_push env.esc_xelem))
    (h72 : P 0x72 (op_pop_push env.esc_xattr))
    (h73 : P 0x73 (op_convert_i env))
    (h74 : P 0x74 (op_convert_u env))
    (h75 : P 0x75 (op_convert_d env))
    (h76 : P 0x76 (op_convert_b env))
    (h77 : P 0x77 (op_convert_o))
    (h78 : P 0x78 (op_pop_push env.checkfilter))
    (h80 : P 0x80 (op_coerce env data))
    (h82 : P 0x82 (pure next))
    (h85 : P 0x85 (op_coerce_s env))
    (h86 : P 0x86 (op_astype env data))
    (h87 : P 0x87 (op_pop2_push env.asTypelate))
    (h90 : P 0x90 (op_negate env))
    (h91 : P 0x91 (op_increment env))
    (h92 : P 0x92 (op_u32_ctx env.incLocal data))
    (h93 : P 0x93 (op_decrement env))
    (h94 : P 0x94 (op_u32_ctx env.decLocal data))
    (h95 : P 0x95 (op_pop_push env.typeOf))
    (h96 : P 0x96 (op_not env))
    (h97 : P 0x97 (op_unary_i env.bitNot))
    (ha0 : P 0xa0 (op_add env))
    (ha1 : P 0xa1 (op_arith subtractI (fun v1 v2 => env.subtract v2 v1)))
    (ha2 : P 0xa2 (op_arith multiplyI (fun v1 v2 => env.multiply v2 v1)))
    (ha3 : P 0xa3 (op_divide env))
    (ha4 : P 0xa4 (op_arith moduloI (fun v1 v2 => env.modulo v1 v2)))
    (ha5 : P 0xa5 (op_binary_i env.lShift))
    (ha6 : P 0xa6 (op_binary_i env.rShift))
    (ha7 : P 0xa7 (op_binary_i env.urShift))
    (ha8 : P 0xa8 (op_binary_i env.bitAnd))
    (ha9 : P 0xa9 (op_binary_i env.bitOr))
    (haa : P 0xaa (op_binary_i env.bitXor))
    (hab : P 0xab (op_compare env.equals))
    (hac : P 0xac (op_compare env.strictEquals))
    (had : P 0xad (op_compare env.lessThan))
    (hae : P 0xae (op_compare env.lessEquals))
    (haf : P 0xaf (op_compare env.greaterThan))
    (hb0 : P 0xb0 (op_compare env.greaterEquals))
    (hb1 : P 0xb1 (op_compare env.instanceOf))
    (hb2 : P 0xb2 (op_istype env data))
    (hb3 : P 0xb3 (op_binary_b env.isTypelate))
    (hb4 : P 0xb4 (op_binary_b env.in_))
    (hc0 : P 0xc0 (op_unary_i env.increment_i))
    (hc1 : P 0xc1 (op_unary_i env.decrement_i))
    (hc2 : P 0xc2 (op_u32_ctx env.incLocal_i data))
    (hc3 : P 0xc3 (op_u32_ctx env.decLocal_i data))
    (hc4 : P 0xc4 (op_unary_i env.negate_i))
    (hc5 : P 0xc5 (op_binary_ii (add_i env)))
    (hc6 : P 0xc6 (op_binary_ii env.subtract_i))
    (hc7 : P 0xc7 (op_binary_ii env.multiply_i))
    (hd0 : P 0xd0 (op_getlocal_n 0xd0))
    (hd1 : P 0xd1 (op_getlocal_n 0xd1))
    (hd2 : P 0xd2 (op_getlocal_n 0xd2))
    (hd3 : P 0xd3 (op_getlocal_n 0xd3))
    (hd4 : P 0xd4 (op_setlocal_n 0xd4))
    (hd5 : P 0xd5 (op_setlocal_n 0xd5))
    (hd6 : P 0xd6 (op_setlocal_n 0xd6))
    (hd7 : P 0xd7 (op_setlocal_n 0xd7))
    (hf2 : P 0xf2 (op_skip4))
    (hf3 : P 0xf3 (op_skip4))
    (hfb : P 0xfb (op_setslot_no_coerce env data))
    (hfc : P 0xfc (op_coerceearly env data))
    (hfd : P 0xfd (op_getscopeatindex data))
    (hfe : P 0xfe (op_getlexonce env data))
    (hff : P 0xff (op_pushearly data))
    (hdefault : ∀ opcode, opcode ∉ caseLabels → P opcode (throwErr ASError.ParseException))
    (opcode : Nat) (hlt : opcode < 256) : P opcode (execOpcode env opcode data) := by
  by_cases hmem : opcode ∈ caseLabels
  swap
  · rw [execOpcode_default env opcode data hlt hmem]
    exact hdefault opcode hmem
  have hall : ∀ x ∈ caseLabels, P x (execOpcode env x data) := by
    unfold caseLabels
    simp only [List.forall_mem_cons]
    refine ⟨?_, ?_, ?_, ?_, ?_, ?_, ?_, ?_, ?_, ?_, ?_, ?_, ?_, ?_, ?_, ?_, ?_, ?_, ?_, ?_, ?_, ?_,
      ?_, ?_, ?_, ?_, ?_, ?_, ?_, ?_, ?_, ?_, ?_, ?_, ?_, ?_, ?_, ?_, ?_, ?_, ?_, ?_, ?_, ?_,
      ?_, ?_, ?_, ?_, ?_, ?_, ?_, ?_, ?_, ?_, ?_, ?_, ?_, ?_, ?_, ?_, ?_, ?_, ?_, ?_, ?_, ?_,
      ?_, ?_, ?_, ?_, ?_, ?_, ?_, ?_, ?_, ?_, ?_, ?_, ?_, ?_, ?_, ?_, ?_, ?_, ?_, ?_, ?_, ?_,
      ?_, ?_, ?_, ?_, ?_, ?_, ?_, ?_, ?_, ?_, ?_, ?_, ?_, ?_, ?_, ?_, ?_, ?_, ?_, ?_, ?_, ?_,
      ?_, ?_, ?_, ?_, ?_, ?_, ?_, ?_, ?_, ?_, ?_, ?_, ?_, ?_, ?_, ?_, ?_, ?_, ?_, ?_, ?_, ?_,
      ?_, ?_, ?_, ?_, ?_, ?_, ?_, ?_, ?_, ?_, ?_, ?_, ?_, ?_, ?_, ?_, ?_, ?_, ?_, ?_, ?_, ?_,
      ?_, ?_, ?_, ?_, ?_, ?_,
      fun _ h => absurd h (List.not_mem_nil _)⟩
    · rw [execOpcode_01]; exact h01
    · rw [execOpcode_02]; exact h02
    · rw [execOpcode_03]; exact h03
    · rw [execOpcode_04]; exact h04
    · rw [execOpcode_05]; exact h05
    · rw [execOpcode_06]; exact h06
    · rw [execOpcode_07]; exact h07
    · rw [execOpcode_08]; exact h08
    · rw [execOpcode_0c]; exact h0c
    · rw [execOpcode_0d]; exact h0d
    · rw [execOpcode_0e]; exact h0e
    · rw [execOpcode_0f]; exact h0f
    · rw [execOpcode_10]; exact h10
    · rw [execOpcode_11]; exact h11
    · rw [execOpcode_12]; exact h12
    · rw [execOpcode_13]; exact h13
    · rw [execOpcode_14]; exact h14
    · rw [execOpcode_15]; exact h15
    · rw [execOpcode_16]; exact h16
    · rw [execOpcode_17]; exact h17
    · rw [execOpcode_18]; exact h18
    · rw [execOpcode_19]; exact h19
    · rw [execOpcode_1a]; exact h1a
    · rw [execOpcode_1b]; exact h1b
    · rw [execOpcode_1c]; exact h1c
    · rw [execOpcode_1d]; exact h1d
    · rw [execOpcode_1e]; exact h1e
    · rw [execOpcode_20]; exact h20
    · rw [execOpcode_21]; exact h21
    · rw [execOpcode_23]; exact h23
    · rw [execOpcode_24]; exact h24
    · rw [execOpcode_25]; exact h25
    · rw [execOpcode_26]; exact h26
    · rw [execOpcode_27]; exact h27
    · rw [execOpcode_28]; exact h28
    · rw [execOpcode_29]; exact h29
    · rw [execOpcode_2a]; exact h2a
    · rw [execOpcode_2b]; exact h2b
    · rw [execOpcode_2c]; exact h2c
    · rw [execOpcode_2d]; exact h2d
    · rw [execOpcode_2e]; exact h2e
    · rw [execOpcode_2f]; exact h2f
    · rw [execOpcode_30]; exact h30
    · rw [execOpcode_31]; exact h31
    · rw [execOpcode_32]; exact h32
    · rw [execOpcode_35]; exact h35
    · rw [execOpcode_36]; exact h36
    · rw [execOpcode_37]; exact h37
    · rw [execOpcode_38]; exact h38
    · rw [execOpcode_39]; exact h39
    · rw [execOpcode_3a]; exact h3a
    · rw [execOpcode_3b]; exact h3b
    · rw [execOpcode_3c]; exact h3c
    · rw [execOpcode_3d]; exact h3d
    · rw [execOpcode_3e]; exact h3e
    · rw [execOpcode_40]; exact h40
    · rw [execOpcode_41]; exact h41
    · rw [execOpcode_42]; exact h42
    · rw [execOpcode_44]; exact h44
    · rw [execOpcode_45]; exact h45
    · rw [execOpcode_46]; exact h46
    · rw [execOpcode_4c]; exact h4c
    · rw [execOpcode_47]; exact h47
    · rw [execOpcode_48]; exact h48
    · rw [execOpcode_49]; exact h49
    · rw [execOpcode_4a]; exact h4a
    · rw [execOpcode_4e]; exact h4e
    · rw [execOpcode_4f]; exact h4f
    · rw [execOpcode_50]; exact h50
    · rw [execOpcode_51]; exact h51
    · rw [execOpcode_52]; exact h52
    · rw [execOpcode_53]; exact h53
    · rw [execOpcode_55]; exact h55
    · rw [execOpcode_56]; exact h56
    · rw [execOpcode_57]; exact h57
    · rw [execOpcode_58]; exact h58
    · rw [execOpcode_59]; exact h59
    · rw [execOpcode_5a]; exact h5a
    · rw [execOpcode_5d]; exact h5d
    · rw [execOpcode_5e]; exact h5e
    · rw [execOpcode_5f]; exact h5f
    · rw [execOpcode_60]; exact h60
    · rw [execOpcode_61]; exact h61
    · rw [execOpcode_62]; exact h62
    · rw [execOpcode_63]; exact h63
    · rw [execOpcode_64]; exact h64
    · rw [execOpcode_65]; exact h65
    · rw [execOpcode_66]; exact h66
    · rw [execOpcode_68]; exact h68
    · rw [execOpcode_6a]; exact h6a
    · rw [execOpcode_6c]; exact h6c
    · rw [execOpcode_6d]; exact h6d
    · rw [execOpcode_6e]; exact h6e
    · rw [execOpcode_6f]; exact h6f
    · rw [execOpcode_70]; exact h70
    · rw [execOpcode_71]; exact h71
    · rw [execOpcode_72]; exact h72
    · rw [execOpcode_73]; exact h73
    · rw [execOpcode_74]; exact h74
    · rw [execOpcode_75]; exact h75
    · rw [execOpcode_76]; exact h76
    · rw [execOpcode_77]; exact h77
    · rw [execOpcode_78]; exact h78
    · rw [execOpcode_80]; exact h80
    · rw [execOpcode_82]; exact h82
    · rw [execOpcode_85]; exact h85
    · rw [execOpcode_86]; exact h86
    · rw [execOpcode_87]; exact h87
    · rw [execOpcode_90]; exact h90
    · rw [execOpcode_91]; exact h91
    · rw [execOpcode_92]; exact h92
    · rw [execOpcode_93]; exact h93
    · rw [execOpcode_94]; exact h94
    · rw [execOpcode_95]; exact h95
    · rw [execOpcode_96]; exact h96
    · rw [execOpcode_97]; exact h97
    · rw [execOpcode_a0]; exact ha0
    · rw [execOpcode_a1]; exact ha1
    · rw [execOpcode_a2]; exact ha2
    · rw [execOpcode_a3]; exact ha3
    · rw [execOpcode_a4]; exact ha4
    · rw [execOpcode_a5]; exact ha5
    · rw [execOpcode_a6]; exact ha6
    · rw [execOpcode_a7]; exact ha7
    · rw [execOpcode_a8]; exact ha8
    · rw [execOpcode_a9]; exact ha9
    · rw [execOpcode_aa]; exact haa
    · rw [execOpcode_ab]; exact hab
    · rw [execOpcode_ac]; exact hac
    · rw [execOpcode_ad]; exact had
    · rw [execOpcode_ae]; exact hae
    · rw [execOpcode_af]; exact haf
    · rw [execOpcode_b0]; exact hb0
    · rw [execOpcode_b1]; exact hb1
    · rw [execOpcode_b2]; exact hb2
    · rw [execOpcode_b3]; exact hb3
    · rw [execOpcode_b4]; exact hb4
    · rw [execOpcode_c0]; exact hc0
    · rw [execOpcode_c1]; exact hc1
    · rw [execOpcode_c2]; exact hc2
    · rw [execOpcode_c3]; exact hc3
    · rw [execOpcode_c4]; exact hc4
    · rw [execOpcode_c5]; exact hc5
    · rw [execOpcode_c6]; exact hc6
    · rw [execOpcode_c7]; exact hc7
    · rw [execOpcode_d0]; exact hd0
    · rw [execOpcode_d1]; exact hd1
    · rw [execOpcode_d2]; exact hd2
    · rw [execOpcode_d3]; exact hd3
    · rw [execOpcode_d4]; exact hd4
    · rw [execOpcode_d5]; exact hd5
    · rw [execOpcode_d6]; exact hd6
    · rw [execOpcode_d7]; exact hd7
    · rw [execOpcode_f2]; exact hf2
    · rw [execOpcode_f3]; exact hf3
    · rw [execOpcode_fb]; exact hfb
    · rw [execOpcode_fc]; exact hfc
    · rw [execOpcode_fd]; exact hfd
    · rw [execOpcode_fe]; exact hfe
    · rw [execOpcode_ff]; exact hff
  exact hall opcode hmem

theorem Frame_elim {α : Type} {lo hi : Nat} {m : M VMState α} (h : Frame lo hi m)
    (s : VMState) (c : List Nat) (hlen : c.length = s.code.length)
    (hag : ∀ i, lo ≤ i → i < hi → byteAt c i = byteAt s.code i) :
    (m s).state.code = s.code ∧ m (withCode c s) = Res.mapState (withCode c) (m s) := by
  unfold Frame at h
  exact h s c hlen hag

theorem Frame_pure {α : Type} (lo hi : Nat) (a : α) : Frame lo hi (pure a : M VMState α) := by
  unfold Frame
  intro s c _ _
  exact ⟨rfl, rfl⟩

theorem Frame_bind {α β : Type} (lo hi : Nat) (m : M VMState α) (f : α → M VMState β)
    (hm : Frame lo hi m) (hf : ∀ a, Frame lo hi (f a)) : Frame lo hi (m >>= f) := by
  unfold Frame
  intro s c hlen hag
  obtain ⟨h1, h2⟩ := Frame_elim hm s c hlen hag
  rw [M_bind_apply, M_bind_apply, h2]
  cases hms : m s with
  | ok a s1 =>
    rw [hms] at h1
    have hcode : s1.code = s.code := h1
    obtain ⟨h3, h4⟩ := Frame_elim (hf a) s1 c (by rw [hcode]; exact hlen)
      (by rw [hcode]; exact hag)
    exact ⟨by rw [← hcode]; exact h3, h4⟩
  | throw e s1 =>
    rw [hms] at h1
    exact ⟨h1, rfl⟩

theorem Frame_ite {α : Type} (lo hi : Nat) (c : Prop) [Decidable c] (a b : M VMState α)
    (ha : Frame lo hi a) (hb : Frame lo hi b) : Frame lo hi (if c then a else b) := by
  split
  · exact ha
  · exact hb

theorem Frame_onSys {α : Type} (lo hi : Nat) (f : M SystemState α) : Frame lo hi (onSys f) := by
  unfold Frame
  intro s c _ _
  unfold onSys withCode
  cases f s.sys <;> exact ⟨rfl, rfl⟩

theorem Frame_onCtx {α : Type} (lo hi : Nat) (f : M World α) : Frame lo hi (onCtx f) := by
  unfold Frame
  intro s c _ _
  unfold onCtx withCode
  cases f { context := s.context, sys := s.sys } <;> exact ⟨rfl, rfl⟩

theorem readU32_agree (c1 c2 : List Nat) (off : Nat)
    (h : ∀ i, off ≤ i → i < off + 4 → byteAt c1 i = byteAt c2 i) :
    readU32 c1 off = readU32 c2 off := by
  unfold readU32
  rw [h off (by omega) (by omega), h (off + 1) (by omega) (by omega),
    h (off + 2) (by omega) (by omega), h (off + 3) (by omega) (by omega)]

theorem readU64_agree (c1 c2 : List Nat) (off : Nat)
    (h : ∀ i, off ≤ i → i < off + 8 → byteAt c1 i = byteAt c2 i) :
    readU64 c1 off = readU64 c2 off := by
  unfold readU64
  rw [readU32_agree c1 c2 off (fun i h1 h2 => h i h1 (by omega)),
    readU32_agree c1 c2 (off + 4) (fun i h1 h2 => h i (by omega) (by omega))]

theorem Frame_uints (lo hi data k : Nat) (h1 : lo ≤ data + 4 * k) (h2 : data + 4 * k + 4 ≤ hi) :
    Frame lo hi (uints data k) := by
  unfold Frame
  intro s c _ hag
  unfold uints withCode
  refine ⟨rfl, ?_⟩
  show Res.ok (readU32 c (data + 4 * k)) _ = Res.ok (readU32 s.code (data + 4 * k)) _
  rw [readU32_agree c s.code _ (fun i hi1 hi2 => hag i (by omega) (by omega))]

theorem Frame_ints (lo hi data k : Nat) (h1 : lo ≤ data + 4 * k) (h2 : data + 4 * k + 4 ≤ hi) :
    Frame lo hi (ints data k) := by
  unfold Frame
  intro s c _ hag
  unfold ints withCode
  refine ⟨rfl, ?_⟩
  show Res.ok (toInt32 (readU32 c (data + 4 * k))) _
    = Res.ok (toInt32 (readU32 s.code (data + 4 * k))) _
  rw [readU32_agree c s.code _ (fun i hi1 hi2 => hag i (by omega) (by omega))]

theorem Frame_word64 (lo hi data : Nat) (h1 : lo ≤ data) (h2 : data + 8 ≤ hi) :
    Frame lo hi (word64 data) := by
  unfold Frame
  intro s c _ hag
  unfold word64 withCode
  refine ⟨rfl, ?_⟩
  show Res.ok (readU64 c data) _ = Res.ok (readU64 s.code data) _
  rw [readU64_agree c s.code _ (fun i hi1 hi2 => hag i (by omega) (by omega))]

theorem Frame_advance (lo hi n : Nat) : Frame lo hi (advance n) := by
  unfold Frame
  intro s c _ _
  exact ⟨rfl, rfl⟩

theorem Frame_setIP (lo hi n : Nat) : Frame lo hi (setIP n) := by
  unfold Frame
  intro s c _ _
  exact ⟨rfl, rfl⟩

theorem Frame_getIP (lo hi : Nat) : Frame lo hi getIP := by
  unfold Frame
  intro s c _ _
  exact ⟨rfl, rfl⟩

theorem Frame_getContext (lo hi : Nat) : Frame lo hi getContext := by
  unfold Frame
  intro s c _ _
  exact ⟨rfl, rfl⟩

theorem Frame_getSys (lo hi : Nat) : Frame lo hi getSys := by
  unfold Frame
  intro s c _ _
  exact ⟨rfl, rfl⟩

theorem Frame_setLocalSlot (lo hi i v : Nat) : Frame lo hi (setLocalSlot i v) := by
  unfold Frame
  intro s c _ _
  exact ⟨rfl, rfl⟩

theorem Frame_throwErr {α : Type} (lo hi : Nat) (e : ASError) :
    Frame lo hi (throwErr e : M VMState α) := by
  unfold Frame
  intro s c _ _
  exact ⟨rfl, rfl⟩

theorem Frame_assertInCode (lo hi dest : Nat) : Frame lo hi (assertInCode dest) := by
  unfold Frame
  intro s c hlen _
  unfold assertInCode withCode
  simp only [hlen]
  split <;> exact ⟨rfl, rfl⟩

theorem Frame_assert_and_throw (lo hi : Nat) (b : Bool) : Frame lo hi (assert_and_throw b) := by
  unfold Frame
  intro s c _ _
  unfold assert_and_throw
  cases b <;> exact ⟨rfl, rfl⟩

theorem Frame_push (lo hi v : Nat) : Frame lo hi (runtime_stack_push v) := by
  unfold Frame
  intro s c _ _
  unfold runtime_stack_push withCode
  simp only
  split <;> exact ⟨rfl, rfl⟩

theorem Frame_pop (lo hi : Nat) : Frame lo hi runtime_stack_pop := by
  unfold Frame
  intro s c _ _
  unfold runtime_stack_pop withCode
  simp only
  split <;> exact ⟨rfl, rfl⟩

theorem Frame_peek (lo hi : Nat) : Frame lo hi runtime_stack_peek := by
  unfold Frame
  intro s c _ _
  unfold runtime_stack_peek withCode
  simp only
  split <;> exact ⟨rfl, rfl⟩

theorem Frame_branchIf (lo hi : Nat) (b : Bool) (dest : Nat) : Frame lo hi (branchIf b dest) := by
  unfold branchIf
  cases b
  · exact Frame_pure _ _ _
  · exact Frame_bind _ _ _ _ (Frame_assertInCode _ _ _) (fun _ => Frame_setIP _ _ _)

theorem Frame_getLocalAt (lo hi i : Nat) : Frame lo hi (getLocalAt i) := by
  unfold getLocalAt
  repeat' first
    | with_reducible exact Frame_pure _ _ _
    | with_reducible exact Frame_onSys _ _ _
    | with_reducible exact Frame_onCtx _ _ _
    | (with_reducible refine Frame_uints _ _ _ _ ?_ ?_ <;> omega)
    | (with_reducible refine Frame_ints _ _ _ _ ?_ ?_ <;> omega)
    | (with_reducible refine Frame_word64 _ _ _ ?_ ?_ <;> omega)
    | with_reducible exact Frame_advance _ _ _
    | with_reducible exact Frame_setIP _ _ _
    | with_reducible exact Frame_getIP _ _
    | with_reducible exact Frame_getContext _ _
    | with_reducible exact Frame_getSys _ _
    | with_reducible exact Frame_setLocalSlot _ _ _ _
    | with_reducible exact Frame_throwErr _ _ _
    | with_reducible exact Frame_assertInCode _ _ _
    | with_reducible exact Frame_assert_and_throw _ _ _
    | with_reducible exact Frame_push _ _ _
    | with_reducible exact Frame_pop _ _
    | with_reducible exact Frame_peek _ _
    | with_reducible exact Frame_branchIf _ _ _ _
    | with_reducible apply Frame_bind
    | with_reducible apply Frame_ite
    | intro _
    | dsimp only
    | split

theorem Frame_setLocalGuarded (lo hi i obj : Nat) : Frame lo hi (setLocalGuarded i obj) := by
  unfold setLocalGuarded
  repeat' first
    | with_reducible exact Frame_pure _ _ _
    | with_reducible exact Frame_onSys _ _ _
    | with_reducible exact Frame_onCtx _ _ _
    | (with_reducible refine Frame_uints _ _ _ _ ?_ ?_ <;> omega)
    | (with_reducible refine Frame_ints _ _ _ _ ?_ ?_ <;> omega)
    | (with_reducible refine Frame_word64 _ _ _ ?_ ?_ <;> omega)
    | with_reducible exact Frame_advance _ _ _
    | with_reducible exact Frame_setIP _ _ _
    | with_reducible exact Frame_getIP _ _
    | with_reducible exact Frame_getContext _ _
    | with_reducible exact Frame_getSys _ _
    | with_reducible exact Frame_setLocalSlot _ _ _ _
    | with_reducible exact Frame_throwErr _ _ _
    | with_reducible exact Frame_assertInCode _ _ _
    | with_reducible exact Frame_assert_and_throw _ _ _
    | with_reducible exact Frame_push _ _ _
    | with_reducible exact Frame_pop _ _
    | with_reducible exact Frame_peek _ _
    | with_reducible exact Frame_branchIf _ _ _ _
    | with_reducible apply Frame_bind
    | with_reducible apply Frame_ite
    | intro _
    | dsimp only
    | split

theorem Frame_onCall {α : Type} (lo hi : Nat) (f : M Machine α) (hf : callKeepsCode f) :
    Frame lo hi (onCall f) := by
  unfold Frame
  intro s c _ _
  have h0 := hf { context := s.context, sys := s.sys, code := s.code } s.code
  have h1 := hf { context := s.context, sys := s.sys, code := s.code } c
  unfold onCall withCode
  simp only at h0 h1 ⊢
  rw [h1]
  cases hm : f { context := s.context, sys := s.sys, code := s.code } with
  | ok a w =>
    rw [hm] at h0
    simp only [Res.mapState, Res.ok.injEq, true_and] at h0
    refine ⟨?_, rfl⟩
    show w.code = s.code
    rw [h0]
  | throw e w =>
    rw [hm] at h0
    simp only [Res.mapState, Res.throw.injEq, true_and] at h0
    refine ⟨?_, rfl⟩
    show w.code = s.code
    rw [h0]

theorem Frame_coerceearly (env : Env) (data : Nat) :
    Frame data (data + 8) (op_coerceearly env data) := by
  unfold op_coerceearly
  repeat' first
    | with_reducible exact Frame_pure _ _ _
    | with_reducible exact Frame_onSys _ _ _
    | with_reducible exact Frame_onCtx _ _ _
    | (with_reducible refine Frame_uints _ _ _ _ ?_ ?_ <;> omega)
    | (with_reducible refine Frame_ints _ _ _ _ ?_ ?_ <;> omega)
    | (with_reducible refine Frame_word64 _ _ _ ?_ ?_ <;> omega)
    | with_reducible exact Frame_advance _ _ _
    | with_reducible exact Frame_setIP _ _ _
    | with_reducible exact Frame_getIP _ _
    | with_reducible exact Frame_getContext _ _
    | with_reducible exact Frame_getSys _ _
    | with_reducible exact Frame_setLocalSlot _ _ _ _
    | with_reducible exact Frame_throwErr _ _ _
    | with_reducible exact Frame_assertInCode _ _ _
    | with_reducible exact Frame_assert_and_throw _ _ _
    | with_reducible exact Frame_push _ _ _
    | with_reducible exact Frame_pop _ _
    | with_reducible exact Frame_peek _ _
    | with_reducible exact Frame_branchIf _ _ _ _
    | with_reducible exact Frame_getLocalAt _ _ _
    | with_reducible exact Frame_setLocalGuarded _ _ _ _
    | with_reducible apply Frame_bind
    | with_reducible apply Frame_ite
    | intro _
    | dsimp only
    | split

theorem Frame_pushearly (env : Env) (data : Nat) :
    Frame data (data + 8) (op_pushearly data) := by
  unfold op_pushearly
  repeat' first
    | with_reducible exact Frame_pure _ _ _
    | with_reducible exact Frame_onSys _ _ _
    | with_reducible exact Frame_onCtx _ _ _
    | (with_reducible refine Frame_uints _ _ _ _ ?_ ?_ <;> omega)
    | (with_reducible refine Frame_ints _ _ _ _ ?_ ?_ <;> omega)
    | (with_reducible refine Frame_word64 _ _ _ ?_ ?_ <;> omega)
    | with_reducible exact Frame_advance _ _ _
    | with_reducible exact Frame_setIP _ _ _
    | with_reducible exact Frame_getIP _ _
    | with_reducible exact Frame_getContext _ _
    | with_reducible exact Frame_getSys _ _
    | with_reducible exact Frame_setLocalSlot _ _ _ _
    | with_reducible exact Frame_throwErr _ _ _
    | with_reducible exact Frame_assertInCode _ _ _
    | with_reducible exact Frame_assert_and_throw _ _ _
    | with_reducible exact Frame_push _ _ _
    | with_reducible exact Frame_pop _ _
    | with_reducible exact Frame_peek _ _
    | with_reducible exact Frame_branchIf _ _ _ _
    | with_reducible exact Frame_getLocalAt _ _ _
    | with_reducible exact Frame_setLocalGuarded _ _ _ _
    | with_reducible apply Frame_bind
    | with_reducible apply Frame_ite
    | intro _
    | dsimp only
    | split

set_option maxHeartbeats 4000000 in
/-- Every case of the switch other than lookupswitch, pushbyte, coerce and
getlexonce, and the default, reads of the code array only the `operandBytes`
of its operand record, and leaves the array alone when the helpers that invoke
a function do. -/
theorem execOpcode_frame (env : Env) (hk : env.keepsCode) (opcode data : Nat)
    (hlt : opcode < 256)
    (h1b : opcode ≠ 0x1b) (h24 : opcode ≠ 0x24) (h80 : opcode ≠ 0x80) (hfe : opcode ≠ 0xfe) :
    Frame data (data + operandBytes opcode) (execOpcode env opcode data) := by
  unfold Env.keepsCode at hk
  obtain ⟨hk0, hk1, hk2, hk3, hk4, hk5, hk6⟩ := hk
  refine execOpcode_ind
    (fun op m => op ≠ 0x1b → op ≠ 0x24 → op ≠ 0x80 → op ≠ 0xfe →
      Frame data (data + operandBytes op) m) env data
    ?_ ?_ ?_ ?_ ?_ ?_ ?_ ?_ ?_ ?_ ?_ ?_ ?_ ?_ ?_ ?_ ?_ ?_ ?_ ?_ ?_ ?_ ?_ ?_ ?_ ?_ ?_ ?_ ?_ ?_
    ?_ ?_ ?_ ?_ ?_ ?_ ?_ ?_ ?_ ?_ ?_ ?_ ?_ ?_ ?_ ?_ ?_ ?_ ?_ ?_ ?_ ?_ ?_ ?_ ?_ ?_ ?_ ?_ ?_ ?_
    ?_ ?_ ?_ ?_ ?_ ?_ ?_ ?_ ?_ ?_ ?_ ?_ ?_ ?_ ?_ ?_ ?_ ?_ ?_ ?_ ?_ ?_ ?_ ?_ ?_ ?_ ?_ ?_ ?_ ?_
    ?_ ?_ ?_ ?_ ?_ ?_ ?_ ?_ ?_ ?_ ?_ ?_ ?_ ?_ ?_ ?_ ?_ ?_ ?_ ?_ ?_ ?_ ?_ ?_ ?_ ?_ ?_ ?_ ?_ ?_
    ?_ ?_ ?_ ?_ ?_ ?_ ?_ ?_ ?_ ?_ ?_ ?_ ?_ ?_ ?_ ?_ ?_ ?_ ?_ ?_ ?_ ?_ ?_ ?_ ?_ ?_ ?_ ?_ ?_ ?_
    ?_ ?_ ?_ ?_ ?_ ?_ ?_ ?_ ?_ ?_
    ?_ opcode hlt h1b h24 h80 hfe
  all_goals intro g1 g2 g3 g4
  all_goals first
    | exact absurd rfl g1
    | exact absurd rfl g2
    | exact absurd rfl g3
    | exact absurd rfl g4
    | skip
  all_goals first
    | rw [show operandBytes _ = 8 from by decide]
    | rw [show operandBytes _ = 4 from by decide]
    | rw [show operandBytes _ = 0 from by decide]
    | skip
  all_goals first
    | unfold op_ctx
    | unfold op_ctx_u32
    | unfold op_dxnslate
    | unfold op_kill
    | unfold op_if2
    | unfold op_jump
    | unfold op_if1
    | unfold op_pop2_push
    | unfold op_push_const
    | unfold op_pushshort
    | unfold op_pushbool
    | unfold op_pop
    | unfold op_dup
    | unfold op_swap
    | unfold op_push_ctx_u32
    | unfold op_pushint
    | unfold op_pushuint
    | unfold op_pushdouble
    | unfold op_hasnext2
    | unfold op_call_u32
    | unfold op_callstatic
    | unfold op_call2
    | unfold op_returnvoid
    | unfold op_returnvalue
    | unfold op_constructprop
    | unfold op_sxi
    | unfold op_newactivation
    | unfold op_findprop
    | unfold op_finddef
    | unfold op_u32_ctx
    | unfold op_setproperty
    | unfold op_getlocal
    | unfold op_setlocal
    | unfold op_getglobalscope
    | unfold op_getscopeobject
    | unfold op_getproperty
    | unfold op_initproperty
    | unfold op_deleteproperty
    | unfold op_getslot
    | unfold op_setslot
    | unfold op_getglobalslot
    | unfold op_setglobalslot
    | unfold op_pop_push
    | unfold op_convert_i
    | unfold op_convert_u
    | unfold op_convert_d
    | unfold op_convert_b
    | unfold op_convert_o
    | unfold op_coerce_s
    | unfold op_astype
    | unfold op_negate
    | unfold op_increment
    | unfold op_decrement
    | unfold op_not
    | unfold op_unary_i
    | unfold op_add
    | unfold op_arith
    | unfold op_divide
    | unfold op_binary_i
    | unfold op_compare
    | unfold op_istype
    | unfold op_binary_b
    | unfold op_binary_ii
    | unfold op_getlocal_n
    | unfold op_setlocal_n
    | unfold op_skip4
    | unfold op_setslot_no_coerce
    | unfold op_coerceearly
    | unfold op_getscopeatindex
    | unfold op_pushearly
    | skip
  all_goals repeat' first
    | with_reducible exact Frame_pure _ _ _
    | with_reducible exact Frame_onSys _ _ _
    | with_reducible exact Frame_onCtx _ _ _
    | (with_reducible refine Frame_onCall _ _ _ ?_
       first
       | exact hk0 _
       | exact hk1 _
       | exact hk2 _ _ _
       | exact hk3 _ _ _
       | exact hk4 _ _ _
       | exact hk5 _
       | exact hk6 _ _)
    | (with_reducible refine Frame_uints _ _ _ _ ?_ ?_ <;> omega)
    | (with_reducible refine Frame_ints _ _ _ _ ?_ ?_ <;> omega)
    | (with_reducible refine Frame_word64 _ _ _ ?_ ?_ <;> omega)
    | with_reducible exact Frame_advance _ _ _
    | with_reducible exact Frame_setIP _ _ _
    | with_reducible exact Frame_getIP _ _
    | with_reducible exact Frame_getContext _ _
    | with_reducible exact Frame_getSys _ _
    | with_reducible exact Frame_setLocalSlot _ _ _ _
    | with_reducible exact Frame_throwErr _ _ _
    | with_reducible exact Frame_assertInCode _ _ _
    | with_reducible exact Frame_assert_and_throw _ _ _
    | with_reducible exact Frame_push _ _ _
    | with_reducible exact Frame_pop _ _
    | with_reducible exact Frame_peek _ _
    | with_reducible exact Frame_branchIf _ _ _ _
    | with_reducible exact Frame_getLocalAt _ _ _
    | with_reducible exact Frame_setLocalGuarded _ _ _ _
    | with_reducible apply Frame_bind
    | with_reducible apply Frame_ite
    | intro _
    | dsimp only
    | split

theorem Frame_ite_cond {α : Type} (lo hi : Nat) (c : Prop) [Decidable c] (a b : M VMState α)
    (ha : c → Frame lo hi a) (hb : ¬ c → Frame lo hi b) : Frame lo hi (if c then a else b) := by
  split
  · exact ha (by assumption)
  · exact hb (by assumption)

theorem lookupswitch_frame (env : Env) (data : Nat) (s : VMState) (c : List Nat)
    (hlen : c.length = s.code.length)
    (hag : ∀ i, data ≤ i → i < data + 8 + 4 * (readU32 s.code (data + 4) + 1) →
      byteAt c i = byteAt s.code i) :
    (op_lookupswitch env data s).state.code = s.code
    ∧ op_lookupswitch env data (withCode c s)
        = Res.mapState (withCode c) (op_lookupswitch env data s) := by
  have h0 : readU32 c (data + 4 * 0) = readU32 s.code (data + 4 * 0) :=
    readU32_agree _ _ _ (fun i h1 h2 => hag i (by omega) (by omega))
  have h1 : readU32 c (data + 4 * 1) = readU32 s.code (data + 4 * 1) :=
    readU32_agree _ _ _ (fun i h1 h2 => hag i (by omega) (by omega))
  have hn : readU32 s.code (data + 4) = readU32 s.code (data + 4 * 1) := rfl
  rw [hn] at hag
  unfold op_lookupswitch
  rw [bind_ok (uints_ok data 0 s), bind_ok (uints_ok data 1 s),
    bind_ok (uints_ok data 0 (withCode c s)), bind_ok (uints_ok data 1 (withCode c s))]
  show _ ∧ _ = _
  have e0 : readU32 (withCode c s).code (data + 4 * 0) = readU32 s.code (data + 4 * 0) := h0
  have e1 : readU32 (withCode c s).code (data + 4 * 1) = readU32 s.code (data + 4 * 1) := h1
  rw [e0, e1]
  generalize readU32 s.code (data + 4 * 0) = d at *
  generalize readU32 s.code (data + 4 * 1) = n at *
  refine @Frame_elim _ data (data + 8 + 4 * (n + 1)) _ ?_ s c hlen hag
  repeat' first
    | with_reducible exact Frame_pure _ _ _
    | with_reducible exact Frame_onSys _ _ _
    | with_reducible exact Frame_setIP _ _ _
    | with_reducible exact Frame_getSys _ _
    | with_reducible exact Frame_assertInCode _ _ _
    | with_reducible exact Frame_assert_and_throw _ _ _
    | with_reducible exact Frame_pop _ _
    | with_reducible apply Frame_bind
    | with_reducible apply Frame_ite_cond
    | (refine Frame_uints _ _ _ _ (by omega) ?_; rename_i hle; have hle2 := Int.toNat_le.mpr hle; omega)
    | intro _
    | dsimp only

theorem readByte_bind {β : Type} (ip : Nat) (f : Int → M VMState β) (s : VMState) :
    ((fun s1 => Res.ok (toInt8 (byteAt s1.code ip)) s1 : M VMState Int) >>= f) s
      = f (toInt8 (byteAt s.code ip)) s :=
  bind_ok rfl

theorem pushbyte_frame (s : VMState) (c : List Nat) (hlen : c.length = s.code.length)
    (hag : byteAt c s.instructionPointer = byteAt s.code s.instructionPointer) :
    (op_pushbyte s).state.code = s.code
    ∧ op_pushbyte (withCode c s) = Res.mapState (withCode c) (op_pushbyte s) := by
  unfold op_pushbyte
  rw [bind_ok (rfl : getIP s = Res.ok s.instructionPointer s),
    bind_ok (rfl : getIP (withCode c s) = Res.ok s.instructionPointer (withCode c s)),
    readByte_bind, readByte_bind]
  have e : byteAt (withCode c s).code (withCode c s).instructionPointer
      = byteAt s.code s.instructionPointer := hag
  rw [e]
  generalize toInt8 (byteAt s.code s.instructionPointer) = t
  refine @Frame_elim _ 0 0 _ ?_ s c hlen (fun i _ h => absurd h (Nat.not_lt_zero i))
  repeat' first
    | with_reducible exact Frame_pure _ _ _
    | with_reducible exact Frame_onSys _ _ _
    | with_reducible exact Frame_advance _ _ _
    | with_reducible exact Frame_push _ _ _
    | with_reducible apply Frame_bind
    | intro _
    | dsimp only

/-- The frame property of one iteration of the loop: an instruction other
than coerce and getlexonce leaves the code array alone, and does the same on
any code array of the same length that agrees with the current one on the
extent of the instruction, when the helpers that invoke a function leave
the array alone. -/
theorem step_frame (env : Env) (hk : env.keepsCode) (s : VMState) (c : List Nat)
    (hlen : c.length = s.code.length)
    (hag : ∀ i, s.instructionPointer ≤ i →
      i < s.instructionPointer + instrLen s.code s.instructionPointer →
      byteAt c i = byteAt s.code i)
    (h80 : byteAt s.code s.instructionPointer ≠ 0x80)
    (hfe : byteAt s.code s.instructionPointer ≠ 0xfe) :
    (step env s).state.code = s.code
    ∧ step env (withCode c s) = Res.mapState (withCode c) (step env s) := by
  by_cases hip : s.instructionPointer < s.code.length
  · have hpos : 1 ≤ instrLen s.code s.instructionPointer := by
      unfold instrLen
      split <;> omega
    have hb : byteAt c s.instructionPointer = byteAt s.code s.instructionPointer :=
      hag _ (Nat.le_refl _) (by omega)
    have hip2 : (withCode c s).instructionPointer < (withCode c s).code.length := by
      show s.instructionPointer < c.length
      omega
    rw [step_eq env s hip, step_eq env (withCode c s) hip2]
    show _ ∧ execOpcode env (byteAt c s.instructionPointer) (s.instructionPointer + 1)
      (withCode c
        { code := s.code, instructionPointer := s.instructionPointer + 1,
          context := { s.context with exec_pos := s.instructionPointer }, sys := s.sys }) = _
    rw [hb]
    by_cases h1b : byteAt s.code s.instructionPointer = 0x1b
    · rw [h1b, execOpcode_1b]
      refine lookupswitch_frame env _ _ c hlen (fun i hi1 hi2 => hag i (by omega) ?_)
      have hi3 : i < s.instructionPointer + 1 + 8
          + 4 * (readU32 s.code (s.instructionPointer + 1 + 4) + 1) := hi2
      unfold instrLen
      rw [if_pos h1b]
      have e : s.instructionPointer + 5 = s.instructionPointer + 1 + 4 := rfl
      rw [e]
      omega
    · by_cases h24 : byteAt s.code s.instructionPointer = 0x24
      · rw [h24, execOpcode_24]
        refine pushbyte_frame _ c hlen (hag _ (by simp) ?_)
        unfold instrLen
        rw [if_neg h1b, h24]
        show s.instructionPointer + 1 < s.instructionPointer + (1 + 1)
        omega
      · refine Frame_elim (execOpcode_frame env hk _ (s.instructionPointer + 1)
          (byteAt_lt _ _) h1b h24 h80 hfe) _ c hlen (fun i hi1 hi2 => hag i (by omega) ?_)
        unfold instrLen
        rw [if_neg h1b]
        omega
  · have hip2 : ¬ (withCode c s).instructionPointer < (withCode c s).code.length := by
      show ¬ s.instructionPointer < c.length
      omega
    unfold step
    rw [if_neg hip, if_neg hip2]
    exact ⟨rfl, rfl⟩

theorem sameOutcome_refl {α : Type} (r : Res VMState α) : sameOutcome r r :=
  ⟨rfl, rfl, rfl, rfl⟩

theorem withCode_self (s : VMState) : withCode s.code s = s := rfl

theorem rewritten_outside (code : List Nat) (p opcode v i : Nat) (h : i < p ∨ p + 9 ≤ i) :
    byteAt (writeU64 (code.set (p + 1 - 1) opcode) (p + 1) v) i = byteAt code i := by
  rw [byteAt_writeU64_outside _ _ _ _ (by omega), byteAt_set]
  have hne : ¬ (p + 1 - 1 = i ∧ p + 1 - 1 < code.length) := by omega
  rw [if_neg hne]

/-- What the first execution of coerce does to the code array, and that the
instruction left behind does the same again. -/
theorem step_coerce_sim (env : Env) (s : VMState)
    (hlen : s.instructionPointer + 9 ≤ s.code.length)
    (hop : byteAt s.code s.instructionPointer = 0x80)
    (hfit : env.getTypeFromMultiname (readU64 s.code (s.instructionPointer + 1))
      { context := { s.context with exec_pos := s.instructionPointer }, sys := s.sys }
        < 18446744073709551616) :
    (step env s).state.code.length = s.code.length
    ∧ byteAt (step env s).state.code s.instructionPointer = 0xfc
    ∧ (∀ i, i < s.instructionPointer ∨ s.instructionPointer + 9 ≤ i →
        byteAt (step env s).state.code i = byteAt s.code i)
    ∧ (∀ c, c.length = s.code.length →
        (∀ i, s.instructionPointer ≤ i → i < s.instructionPointer + 9 →
          byteAt c i = byteAt (step env s).state.code i) →
        step env (withCode c s) = Res.mapState (withCode c) (step env s)) := by
  have h1 := step_coerce_eq env s hlen hop hfit
  have hcode := congrArg (fun r => r.state.code) h1
  simp only [op_coerceearly_code] at hcode
  refine ⟨?_, ?_, ?_, ?_⟩
  · rw [hcode]
    exact rewritten_length _ _ _ _
  · rw [hcode]
    exact rewritten_byte _ _ _ _ hlen (by decide)
  · intro i hi
    rw [hcode]
    exact rewritten_outside _ _ _ _ _ hi
  · intro c hclen hag
    have hb : byteAt c s.instructionPointer = 0xfc := by
      rw [hag _ (Nat.le_refl _) (by omega), hcode]
      exact rewritten_byte _ _ _ _ hlen (by decide)
    have hip2 : (withCode c s).instructionPointer < (withCode c s).code.length := by
      show s.instructionPointer < c.length
      omega
    rw [step_coerceearly_eq env (withCode c s) hip2 hb, h1]
    refine Eq.trans ?_
      (Frame_elim (Frame_coerceearly env (s.instructionPointer + 1)) _ c ?_ ?_).2
    · rfl
    · show c.length = (writeU64 _ _ _).length
      rw [rewritten_length]
      exact hclen
    · intro i hi1 hi2
      rw [hag i (by omega) (by omega), hcode]

theorem step_getlexonce_cases (env : Env) (s : VMState)
    (hlen : s.instructionPointer + 9 ≤ s.code.length)
    (hop : byteAt s.code s.instructionPointer = 0xfe) :
    step env s =
      if env.getVariableAndTargetByMultiname (readU64 s.code (s.instructionPointer + 1))
          { context := { s.context with exec_pos := s.instructionPointer }, sys := s.sys } = 0
      then Res.throw ASError.AssertionException
        { code := s.code
          instructionPointer := s.instructionPointer + 1
          context := { s.context with exec_pos := s.instructionPointer }
          sys := s.sys }
      else if s.context.stack.length < s.context.max_stack then
        Res.ok next
          { code := writeU64 (s.code.set (s.instructionPointer + 1 - 1) 0xff)
              (s.instructionPointer + 1)
              (env.getVariableAndTargetByMultiname (readU64 s.code (s.instructionPointer + 1))
                { context := { s.context with exec_pos := s.instructionPointer }, sys := s.sys })
            instructionPointer := s.instructionPointer + 9
            context := { s.context with
              exec_pos := s.instructionPointer
              stack := env.getVariableAndTargetByMultiname
                (readU64 s.code (s.instructionPointer + 1))
                { context := { s.context with exec_pos := s.instructionPointer }, sys := s.sys }
                :: s.context.stack }
            sys := s.sys.addRef (env.getVariableAndTargetByMultiname
              (readU64 s.code (s.instructionPointer + 1))
              { context := { s.context with exec_pos := s.instructionPointer }, sys := s.sys }) 1 }
      else
        Res.throw ASError.StackOverflow
          { code := writeU64 (s.code.set (s.instructionPointer + 1 - 1) 0xff)
              (s.instructionPointer + 1)
              (env.getVariableAndTargetByMultiname (readU64 s.code (s.instructionPointer + 1))
                { context := { s.context with exec_pos := s.instructionPointer }, sys := s.sys })
            instructionPointer := s.instructionPointer + 1
            context := { s.context with exec_pos := s.instructionPointer }
            sys := s.sys.addRef (env.getVariableAndTargetByMultiname
              (readU64 s.code (s.instructionPointer + 1))
              { context := { s.context with exec_pos := s.instructionPointer }, sys := s.sys }) 1 } := by
  have hip : s.instructionPointer < s.code.length := by omega
  rw [step_eq env s hip, hop, execOpcode_fe]
  generalize hobj : env.getVariableAndTargetByMultiname (readU64 s.code (s.instructionPointer + 1))
      { context := { s.context with exec_pos := s.instructionPointer }, sys := s.sys } = obj
  by_cases h0 : obj = 0
  · simp [op_getlexonce, word64, hobj, h0, assert_and_throw]
  · by_cases hroom : s.context.stack.length < s.context.max_stack
    · simp [op_getlexonce, word64, hobj, h0, assert_and_throw, rewriteCode, onSys, incRef,
        runtime_stack_push, hroom, advance]
    · simp [op_getlexonce, word64, hobj, h0, assert_and_throw, rewriteCode, onSys, incRef,
        runtime_stack_push, hroom]

/-- What the first execution of getlexonce does to the code array, and that
the instruction left behind does the same again. -/
theorem step_getlexonce_sim (env : Env) (s : VMState)
    (hlen : s.instructionPointer + 9 ≤ s.code.length)
    (hop : byteAt s.code s.instructionPointer = 0xfe)
    (hfit : env.getVariableAndTargetByMultiname (readU64 s.code (s.instructionPointer + 1))
      { context := { s.context with exec_pos := s.instructionPointer }, sys := s.sys }
        < 18446744073709551616) :
    (step env s).state.code.length = s.code.length
    ∧ (∀ i, i < s.instructionPointer ∨ s.instructionPointer + 9 ≤ i →
        byteAt (step env s).state.code i = byteAt s.code i)
    ∧ (∀ s1, step env s = Res.ok next s1 →
        byteAt s1.code s.instructionPointer = 0xff
        ∧ ∀ c, c.length = s.code.length →
          (∀ i, s.instructionPointer ≤ i → i < s.instructionPointer + 9 →
            byteAt c i = byteAt s1.code i) →
          step env (withCode c s) = Res.ok next (withCode c s1))
    ∧ (∀ a s1, step env s ≠ Res.ok (ret a) s1)
    ∧ ((∀ s1, step env s ≠ Res.ok next s1) →
        sameOutcome (step env (withCode (step env s).state.code s)) (step env s)) := by
  have hcases := step_getlexonce_cases env s hlen hop
  generalize hobj : env.getVariableAndTargetByMultiname (readU64 s.code (s.instructionPointer + 1))
      { context := { s.context with exec_pos := s.instructionPointer }, sys := s.sys } = obj
    at hcases hfit
  have hip : s.instructionPointer < s.code.length := by omega
  by_cases h0 : obj = 0
  · rw [if_pos h0] at hcases
    rw [hcases]
    refine ⟨rfl, fun i _ => rfl, fun s1 h => ?_, fun a s1 h => ?_, fun _ => ?_⟩
    · cases h
    · cases h
    · show sameOutcome (step env s) _
      rw [hcases]
      exact sameOutcome_refl _
  · rw [if_neg h0] at hcases
    have hbyte := rewritten_byte s.code s.instructionPointer 0xff obj hlen (by decide)
    have hoper := rewritten_operand s.code s.instructionPointer 0xff obj hlen hfit
    have hlen1 := rewritten_length s.code s.instructionPointer 0xff obj
    have hout := fun i hi => rewritten_outside s.code s.instructionPointer 0xff obj i hi
    generalize writeU64 (s.code.set (s.instructionPointer + 1 - 1) 0xff)
      (s.instructionPointer + 1) obj = c1 at hcases hbyte hoper hlen1 hout
    by_cases hroom : s.context.stack.length < s.context.max_stack
    · rw [if_pos hroom] at hcases
      rw [hcases]
      refine ⟨hlen1, hout, fun s1 h => ?_, fun a s1 h => ?_, fun hn => absurd rfl (hn _)⟩
      · simp only [Res.ok.injEq, true_and] at h
        subst h
        refine ⟨hbyte, fun c hclen hag => ?_⟩
        have hb : byteAt c s.instructionPointer = 0xff := by
          rw [hag _ (Nat.le_refl _) (by omega)]
          exact hbyte
        have hip2 : (withCode c s).instructionPointer < (withCode c s).code.length := by
          show s.instructionPointer < c.length
          omega
        have hr : readU64 (withCode c s).code ((withCode c s).instructionPointer + 1) = obj := by
          show readU64 c (s.instructionPointer + 1) = obj
          rw [readU64_agree c _ (s.instructionPointer + 1)
            (fun i h1 h2 => hag i (by omega) (by omega))]
          exact hoper
        have hroom2 : (withCode c s).context.stack.length < (withCode c s).context.max_stack :=
          hroom
        rw [step_pushearly env (withCode c s) hip2 hb, op_pushearly_eq]
        simp only [hroom2, if_true, hr]
        rfl
      · simp only [Res.ok.injEq] at h
        exact LoopCtl.noConfusion h.1
    · rw [if_neg hroom] at hcases
      rw [hcases]
      refine ⟨hlen1, hout, fun s1 h => ?_, fun a s1 h => ?_, fun _ => ?_⟩
      · cases h
      · cases h
      · simp only [Res.state]
        have hip2 : (withCode c1 s).instructionPointer < (withCode c1 s).code.length := by
          show s.instructionPointer < c1.length
          omega
        have hroom2 : ¬ (withCode c1 s).context.stack.length
            < (withCode c1 s).context.max_stack := hroom
        have hr : readU64 (withCode c1 s).code ((withCode c1 s).instructionPointer + 1) = obj :=
          hoper
        rw [step_pushearly env (withCode c1 s) hip2 hbyte, op_pushearly_eq]
        simp only [hroom2, if_false, hr]
        exact ⟨rfl, rfl, rfl, rfl⟩

theorem mapState_withCode_self {α : Type} (r : Res VMState α) :
    Res.mapState (withCode r.state.code) r = r := by
  cases r <;> rfl

theorem instrLen_pos (code : List Nat) (p : Nat) : 1 ≤ instrLen code p := by
  unfold instrLen
  split <;> omega

theorem instrLen_congr (c1 c2 : List Nat) (p : Nat) (h : c1 = c2) :
    instrLen c1 p = instrLen c2 p := by
  rw [h]

/-- One iteration of the loop and its repetition on another code array: what
the iteration writes, and that the iteration on a code array which has, on
the extent of the instruction, the bytes the iteration leaves there, does the
same. -/
theorem step_sim (env : Env) (hk : env.keepsCode) (s : VMState)
    (hwf : (byteAt s.code s.instructionPointer = 0x80
        ∨ byteAt s.code s.instructionPointer = 0xfe) →
      s.instructionPointer + 9 ≤ s.code.length ∧ resolvedFits env s = true) :
    (step env s).state.code.length = s.code.length
    ∧ (∀ i, ((byteAt s.code s.instructionPointer = 0x80
          ∨ byteAt s.code s.instructionPointer = 0xfe) →
          i < s.instructionPointer ∨ s.instructionPointer + 9 ≤ i) →
        byteAt (step env s).state.code i = byteAt s.code i)
    ∧ (∀ s1, step env s = Res.ok next s1 → ∀ c, c.length = s.code.length →
        (∀ i, s.instructionPointer ≤ i →
          i < s.instructionPointer + instrLen s1.code s.instructionPointer →
          byteAt c i = byteAt s1.code i) →
        step env (withCode c s) = Res.ok next (withCode c s1))
    ∧ ((∀ s1, step env s ≠ Res.ok next s1) →
        sameOutcome (step env (withCode (step env s).state.code s)) (step env s))
    ∧ (∀ a s1, step env s = Res.ok a s1 →
        (byteAt s.code s.instructionPointer = 0x80 →
          a = next ∧ byteAt s1.code s.instructionPointer = 0xfc)
        ∧ (byteAt s.code s.instructionPointer = 0xfe →
          a = next ∧ byteAt s1.code s.instructionPointer = 0xff)) := by
  by_cases h80 : byteAt s.code s.instructionPointer = 0x80
  · obtain ⟨hlen, hfits⟩ := hwf (Or.inl h80)
    have hfit : env.getTypeFromMultiname (readU64 s.code (s.instructionPointer + 1))
        { context := { s.context with exec_pos := s.instructionPointer }, sys := s.sys }
          < 18446744073709551616 := by
      unfold resolvedFits at hfits
      rw [if_pos h80] at hfits
      exact of_decide_eq_true hfits
    obtain ⟨hA, hbyte, hB, hC⟩ := step_coerce_sim env s hlen h80 hfit
    have hinv : ∀ a s1, step env s = Res.ok a s1 → a = next := by
      intro a s1 h
      rw [step_coerce_eq env s hlen h80 hfit] at h
      exact (op_coerceearly_ok_inv env _ _ _ _ h).1
    refine ⟨hA, fun i hi => hB i (hi (Or.inl h80)), fun s1 hs1 c hclen hag => ?_,
      fun _ => ?_, fun a s1 hs1 => ⟨fun _ => ⟨hinv a s1 hs1, ?_⟩, fun h => ?_⟩⟩
    · have hcode : (step env s).state.code = s1.code := by rw [hs1]; rfl
      have hb1 : byteAt s1.code s.instructionPointer = 0xfc := by rw [← hcode]; exact hbyte
      have hL : instrLen s1.code s.instructionPointer = 9 := by
        unfold instrLen
        rw [hb1]
        rfl
      rw [hL] at hag
      rw [hC c hclen (fun i h1 h2 => by rw [hcode]; exact hag i h1 h2), hs1]
      rfl
    · rw [hC _ hA (fun i _ _ => rfl), mapState_withCode_self]
      exact sameOutcome_refl _
    · have hcode : (step env s).state.code = s1.code := by rw [hs1]; rfl
      rw [← hcode]
      exact hbyte
    · rw [h80] at h
      exact absurd h (by decide)
  · by_cases hfe : byteAt s.code s.instructionPointer = 0xfe
    · obtain ⟨hlen, hfits⟩ := hwf (Or.inr hfe)
      have hfit : env.getVariableAndTargetByMultiname
          (readU64 s.code (s.instructionPointer + 1))
          { context := { s.context with exec_pos := s.instructionPointer }, sys := s.sys }
            < 18446744073709551616 := by
        unfold resolvedFits at hfits
        rw [if_neg h80] at hfits
        exact of_decide_eq_true hfits
      obtain ⟨hA, hB, hC, hR, hD⟩ := step_getlexonce_sim env s hlen hfe hfit
      refine ⟨hA, fun i hi => hB i (hi (Or.inr hfe)), fun s1 hs1 c hclen hag => ?_, hD,
        fun a s1 hs1 => ⟨fun h => absurd h h80, fun _ => ?_⟩⟩
      · obtain ⟨hb1, hC2⟩ := hC s1 hs1
        have hL : instrLen s1.code s.instructionPointer = 9 := by
          unfold instrLen
          rw [hb1]
          rfl
        rw [hL] at hag
        exact hC2 c hclen hag
      · cases a with
        | next => exact ⟨rfl, (hC s1 hs1).1⟩
        | ret v => exact absurd hs1 (hR v s1)
    · have hF := fun c hclen hag => step_frame env hk s c hclen hag h80 hfe
      have hcode : (step env s).state.code = s.code :=
        (hF s.code rfl (fun _ _ _ => rfl)).1
      refine ⟨by rw [hcode], fun i _ => by rw [hcode], fun s1 hs1 c hclen hag => ?_,
        fun _ => ?_, fun a s1 _ => ⟨fun h => absurd h h80, fun h => absurd h hfe⟩⟩
      · have hc1 : s1.code = s.code := by rw [← hcode, hs1]; rfl
        rw [hc1] at hag
        rw [(hF c hclen hag).2, hs1]
        rfl
      · rw [hcode, withCode_self]
        exact sameOutcome_refl _

theorem wellFormedRun_succ (env : Env) (fuel : Nat) (s : VMState) (past : List (Nat × Nat))
    (h : wellFormedRun env (fuel + 1) s past = true) :
    ((byteAt s.code s.instructionPointer = 0x80 ∨ byteAt s.code s.instructionPointer = 0xfe) →
      s.instructionPointer + 9 ≤ s.code.length ∧ resolvedFits env s = true
      ∧ ∀ q ∈ past, q.1 + q.2 ≤ s.instructionPointer ∨ s.instructionPointer + 9 ≤ q.1)
    ∧ (∀ s1, step env s = Res.ok next s1 →
        wellFormedRun env fuel s1
          ((s.instructionPointer, instrLen s1.code s.instructionPointer) :: past) = true) := by
  unfold wellFormedRun at h
  rw [Bool.and_eq_true] at h
  obtain ⟨h1, h2⟩ := h
  refine ⟨fun hr => ?_, fun s1 hs1 => ?_⟩
  · rw [if_pos hr, Bool.and_eq_true, Bool.and_eq_true] at h1
    obtain ⟨⟨ha, hb⟩, hc⟩ := h1
    refine ⟨of_decide_eq_true ha, hb, fun q hq => ?_⟩
    rw [List.all_eq_true] at hc
    exact of_decide_eq_true (hc q hq)
  · rw [hs1] at h2
    exact h2

theorem sameOutcome_ok_inv {α : Type} (r2 : Res VMState α) (a : α) (s1 : VMState)
    (h : sameOutcome r2 (Res.ok a s1)) :
    ∃ s2, r2 = Res.ok a s2 ∧ s2.code = s1.code ∧ s2.context = s1.context ∧ s2.sys = s1.sys := by
  obtain ⟨h1, h2, h3, h4⟩ := h
  cases r2 with
  | ok b s2 =>
    simp only [Res.result, Except.ok.injEq] at h1
    subst h1
    exact ⟨s2, rfl, h2, h3, h4⟩
  | throw e s2 => cases h1

theorem sameOutcome_throw_inv {α : Type} (r2 : Res VMState α) (e : ASError) (s1 : VMState)
    (h : sameOutcome r2 (Res.throw e s1)) :
    ∃ s2, r2 = Res.throw e s2 ∧ s2.code = s1.code ∧ s2.context = s1.context
      ∧ s2.sys = s1.sys := by
  obtain ⟨h1, h2, h3, h4⟩ := h
  cases r2 with
  | ok b s2 => cases h1
  | throw e2 s2 =>
    simp only [Res.result, Except.error.injEq] at h1
    subst h1
    exact ⟨s2, rfl, h2, h3, h4⟩

/-- The simulation behind self-rewriting idempotence: a well-formed run that
ends leaves a code array of the same length that still has, on the extent of
every instruction executed so far, the bytes it had; and the run from the
same state over that final code array ends with the same outcome. -/
theorem rerun_sim (env : Env) (hk : env.keepsCode) : ∀ (fuel : Nat) (s : VMState)
    (past : List (Nat × Nat))
    (r : Res VMState Nat), loop env fuel s = some r → wellFormedRun env fuel s past = true →
    r.state.code.length = s.code.length
    ∧ (∀ q ∈ past, ∀ i, q.1 ≤ i → i < q.1 + q.2 → byteAt r.state.code i = byteAt s.code i)
    ∧ ∃ r2, loop env fuel (withCode r.state.code s) = some r2 ∧ sameOutcome r2 r := by
  intro fuel
  induction fuel with
  | zero =>
    intro s past r h
    cases h
  | succ fuel ih =>
    intro s past r hrun hwf
    obtain ⟨hw1, hw2⟩ := wellFormedRun_succ env fuel s past hwf
    obtain ⟨hA, hB, hC, hD, _⟩ := step_sim env hk s (fun hr => ⟨(hw1 hr).1, (hw1 hr).2.1⟩)
    have hpast : ∀ q ∈ past, ∀ i, q.1 ≤ i → i < q.1 + q.2 →
        byteAt (step env s).state.code i = byteAt s.code i := by
      intro q hq i hi1 hi2
      refine hB i (fun hr => ?_)
      have := (hw1 hr).2.2 q hq
      omega
    cases hstep : step env s with
    | ok a s1 =>
      rw [hstep] at hA hpast
      cases a with
      | next =>
        rw [loop_step_next env fuel s s1 hstep] at hrun
        obtain ⟨ih1, ih2, r2, ih3, ih4⟩ := ih s1 _ r hrun (hw2 s1 hstep)
        refine ⟨ih1.trans hA, fun q hq i hi1 hi2 => ?_, r2, ?_, ih4⟩
        · rw [ih2 q (List.mem_cons_of_mem _ hq) i hi1 hi2]
          exact hpast q hq i hi1 hi2
        · have hstep2 := hC s1 hstep r.state.code (ih1.trans hA)
            (fun i hi1 hi2 => ih2 _ (List.mem_cons_self _ _) i hi1 hi2)
          rw [loop_step_next env fuel _ _ hstep2]
          exact ih3
      | ret v =>
        rw [loop_step_ret env fuel s s1 v hstep] at hrun
        simp only [Option.some.injEq] at hrun
        subst hrun
        have hD2 := hD (fun s2 h => by rw [hstep] at h; cases h)
        rw [hstep] at hD2
        obtain ⟨s2, hs2, hc2, hx2, hy2⟩ := sameOutcome_ok_inv _ _ _ hD2
        refine ⟨hA, hpast, Res.ok v s2, ?_, ⟨rfl, hc2, hx2, hy2⟩⟩
        exact loop_step_ret env fuel _ s2 v hs2
    | throw e s1 =>
      rw [hstep] at hA hpast
      rw [loop_step_throw env fuel s s1 e hstep] at hrun
      simp only [Option.some.injEq] at hrun
      subst hrun
      have hD2 := hD (fun s2 h => by rw [hstep] at h; cases h)
      rw [hstep] at hD2
      obtain ⟨s2, hs2, hc2, hx2, hy2⟩ := sameOutcome_throw_inv _ _ _ hD2
      refine ⟨hA, hpast, Res.throw e s2, ?_, ⟨rfl, hc2, hx2, hy2⟩⟩
      exact loop_step_throw env fuel _ s2 e hs2

theorem executed_rewritten (env : Env) (hk : env.keepsCode) : ∀ (fuel : Nat) (s : VMState)
    (past : List (Nat × Nat)) (v : Nat) (sF : VMState),
    loop env fuel s = some (Res.ok v sF) → wellFormedRun env fuel s past = true →
    ∀ p, ((p, 0x80) ∈ executed env fuel s → byteAt sF.code p = 0xfc)
      ∧ ((p, 0xfe) ∈ executed env fuel s → byteAt sF.code p = 0xff) := by
  intro fuel
  induction fuel with
  | zero =>
    intro s past v sF h
    cases h
  | succ fuel ih =>
    intro s past v sF hrun hwf p
    obtain ⟨hw1, hw2⟩ := wellFormedRun_succ env fuel s past hwf
    obtain ⟨_, _, _, _, hE⟩ := step_sim env hk s (fun hr => ⟨(hw1 hr).1, (hw1 hr).2.1⟩)
    cases hstep : step env s with
    | ok a s1 =>
      cases a with
      | next =>
        have hrun1 := hrun
        rw [loop_step_next env fuel s s1 hstep] at hrun1
        have hwf1 := hw2 s1 hstep
        obtain ⟨_, hkeep, _⟩ := rerun_sim env hk fuel s1 _ (Res.ok v sF) hrun1 hwf1
        have hkeep0 : byteAt sF.code s.instructionPointer = byteAt s1.code s.instructionPointer :=
          hkeep _ (List.mem_cons_self _ _) _ (Nat.le_refl _)
            (by have := instrLen_pos s1.code s.instructionPointer; simp only; omega)
        have hex : executed env (fuel + 1) s
            = (s.instructionPointer, byteAt s.code s.instructionPointer)
              :: executed env fuel s1 := by
          simp only [executed, hstep]
        rw [hex]
        refine ⟨fun hm => ?_, fun hm => ?_⟩
        · rcases List.mem_cons.mp hm with h | h
          · simp only [Prod.mk.injEq] at h
            rw [h.1, hkeep0]
            exact ((hE next s1 hstep).1 h.2.symm).2
          · exact (ih s1 _ v sF hrun1 hwf1 p).1 h
        · rcases List.mem_cons.mp hm with h | h
          · simp only [Prod.mk.injEq] at h
            rw [h.1, hkeep0]
            exact ((hE next s1 hstep).2 h.2.symm).2
          · exact (ih s1 _ v sF hrun1 hwf1 p).2 h
      | ret w =>
        have hex : executed env (fuel + 1) s
            = [(s.instructionPointer, byteAt s.code s.instructionPointer)] := by
          simp only [executed, hstep]
        rw [hex]
        refine ⟨fun hm => ?_, fun hm => ?_⟩
        · simp only [List.mem_singleton, Prod.mk.injEq] at hm
          exact absurd ((hE (ret w) s1 hstep).1 hm.2.symm).1 (by intro h; cases h)
        · simp only [List.mem_singleton, Prod.mk.injEq] at hm
          exact absurd ((hE (ret w) s1 hstep).2 hm.2.symm).1 (by intro h; cases h)
    | throw e s1 =>
      rw [loop_step_throw env fuel s s1 e hstep] at hrun
      cases hrun

theorem unexecuted_unchanged (env : Env) (hk : env.keepsCode) : ∀ (fuel : Nat) (s : VMState)
    (past : List (Nat × Nat)) (r : Res VMState Nat),
    loop env fuel s = some r → wellFormedRun env fuel s past = true →
    ∀ i, (∀ q ∈ executed env fuel s, (q.2 = 0x80 ∨ q.2 = 0xfe) → i < q.1 ∨ q.1 + 9 ≤ i) →
      byteAt r.state.code i = byteAt s.code i := by
  intro fuel
  induction fuel with
  | zero =>
    intro s past r h
    cases h
  | succ fuel ih =>
    intro s past r hrun hwf i hi
    obtain ⟨hw1, hw2⟩ := wellFormedRun_succ env fuel s past hwf
    obtain ⟨_, hB, _, _, _⟩ := step_sim env hk s (fun hr => ⟨(hw1 hr).1, (hw1 hr).2.1⟩)
    have hhead : byteAt (step env s).state.code i = byteAt s.code i := by
      refine hB i (fun hr => ?_)
      refine hi (s.instructionPointer, byteAt s.code s.instructionPointer) ?_ hr
      unfold executed
      exact List.mem_cons_self _ _
    cases hstep : step env s with
    | ok a s1 =>
      rw [hstep] at hhead
      cases a with
      | next =>
        rw [loop_step_next env fuel s s1 hstep] at hrun
        have hex : executed env (fuel + 1) s
            = (s.instructionPointer, byteAt s.code s.instructionPointer)
              :: executed env fuel s1 := by
          simp only [executed, hstep]
        rw [hex] at hi
        rw [ih s1 _ r hrun (hw2 s1 hstep) i (fun q hq => hi q (List.mem_cons_of_mem _ hq))]
        exact hhead
      | ret w =>
        rw [loop_step_ret env fuel s s1 w hstep] at hrun
        simp only [Option.some.injEq] at hrun
        subst hrun
        exact hhead
    | throw e s1 =>
      rw [hstep] at hhead
      rw [loop_step_throw env fuel s s1 e hstep] at hrun
      simp only [Option.some.injEq] at hrun
      subst hrun
      exact hhead

theorem callKeepsCode_throwErr {α : Type} (e : ASError) :
    callKeepsCode (throwErr e : M Machine α) := by
  intro w c
  rfl

theorem Env.caching_keepsCode : Env.caching.keepsCode :=
  ⟨fun _ => callKeepsCode_throwErr _, fun _ => callKeepsCode_throwErr _,
   fun _ _ _ => callKeepsCode_throwErr _, fun _ _ _ => callKeepsCode_throwErr _,
   fun _ _ _ => callKeepsCode_throwErr _, fun _ => callKeepsCode_throwErr _,
   fun _ _ => callKeepsCode_throwErr _⟩

theorem Env.fixedType_keepsCode : Env.fixedType.keepsCode :=
  ⟨fun _ => callKeepsCode_throwErr _, fun _ => callKeepsCode_throwErr _,
   fun _ _ _ => callKeepsCode_throwErr _, fun _ _ _ => callKeepsCode_throwErr _,
   fun _ _ _ => callKeepsCode_throwErr _, fun _ => callKeepsCode_throwErr _,
   fun _ _ => callKeepsCode_throwErr _⟩

theorem Env.returning_callProperty_keepsCode (t argc : Nat) (k : Bool) :
    callKeepsCode (Env.returning.callProperty t argc k) := by
  intro w c
  rfl

theorem Env.returning_keepsCode : Env.returning.keepsCode :=
  ⟨fun _ => callKeepsCode_throwErr _, fun _ => callKeepsCode_throwErr _,
   fun _ _ _ => callKeepsCode_throwErr _, fun _ _ _ => callKeepsCode_throwErr _,
   fun _ _ _ => Env.returning_callProperty_keepsCode _ _ _, fun _ => callKeepsCode_throwErr _,
   fun _ _ => callKeepsCode_throwErr _⟩

/-- C11 (counterexample): the run of `branchBody` returns, takes the default
branch of its lookupswitch and so never reaches the coerce at offset 17, whose
opcode byte is 0x80 before the run and still 0x80 after it. -/
theorem C11_counterexample :
    ∃ v s1, executeFunctionFast Env.caching 4 branchBody (exampleContext []) exampleSys
        = some (Res.ok v s1)
      ∧ byteAt branchBody 17 = 0x80
      ∧ byteAt s1.code 17 = 0x80
      ∧ wellFormedRun Env.caching 4
          { code := branchBody, instructionPointer := 0, context := exampleContext [],
            sys := exampleSys } [] = true :=
  ⟨_, _, rfl, rfl, rfl, rfl⟩

/-- C11 (amended): for every method body and every well-formed execution of
it that returns (`wellFormedRun`), when the helpers that invoke a function
neither read nor write the code array (`Env.keepsCode`: no nested run of the
same body), after that execution every instruction the execution reached
(`executed`) whose opcode was 0x80 has opcode byte 0xFC and every reached
instruction whose opcode was 0xFE has opcode byte 0xFF; every byte outside the
9-byte records of the reached 0x80 and 0xFE instructions is as it was, so that
such an instruction the execution did not reach keeps its opcode. -/
theorem C11_reached_rewritten (env : Env) (hk : env.keepsCode) (fuel : Nat) (code : List Nat)
    (context : call_context) (sys : SystemState) (v : Nat) (sF : VMState)
    (hrun : executeFunctionFast env fuel code context sys = some (Res.ok v sF))
    (hwf : wellFormedRun env fuel
      { code := code, instructionPointer := context.exec_pos, context := context, sys := sys }
      [] = true) :
    (∀ p, (p, 0x80) ∈ executed env fuel
        { code := code, instructionPointer := context.exec_pos, context := context, sys := sys } →
      byteAt sF.code p = 0xfc)
    ∧ (∀ p, (p, 0xfe) ∈ executed env fuel
        { code := code, instructionPointer := context.exec_pos, context := context, sys := sys } →
      byteAt sF.code p = 0xff)
    ∧ (∀ i, (∀ q ∈ executed env fuel
          { code := code, instructionPointer := context.exec_pos, context := context,
            sys := sys },
          (q.2 = 0x80 ∨ q.2 = 0xfe) → i < q.1 ∨ q.1 + 9 ≤ i) →
        byteAt sF.code i = byteAt code i) := by
  unfold executeFunctionFast at hrun
  exact ⟨fun p => (executed_rewritten env hk fuel _ [] v sF hrun hwf p).1,
    fun p => (executed_rewritten env hk fuel _ [] v sF hrun hwf p).2,
    fun i hi => unexecuted_unchanged env hk fuel _ [] _ hrun hwf i hi⟩

theorem C11_reached_rewritten_witness :
    ∃ sF, executeFunctionFast Env.caching 3 rewriteBody (exampleContext []) exampleSys
        = some (Res.ok 3 sF)
      ∧ byteAt sF.code 0 = 0xff ∧ byteAt sF.code 9 = 0xfc ∧ byteAt sF.code 18 = 0x48 := by
  have h := C11_reached_rewritten Env.caching Env.caching_keepsCode 3 rewriteBody
    (exampleContext []) exampleSys 3 _ rfl rfl
  exact ⟨_, rfl, h.2.1 0 (by decide), h.1 9 (by decide), rfl⟩

/-- C12 (counterexample): in `overlapBody` the operand record of the coerce
holds the instructions executed before it. The first run returns the Integer
7 (the new object at address 8) and its coerce overwrites those instructions
with the resolved pointer 0x47; the second run, from the same context and
objects on the code left by the first, executes that byte as returnvoid and
returns void. No helper invokes a function here (`Env.keepsCode`), and the
first run is not well formed (`wellFormedRun`). -/
theorem C12_counterexample :
    ∃ r r2, executeFunctionFast Env.fixedType 5 overlapBody (exampleContext []) exampleSys
        = some r
      ∧ r.result = Except.ok 8
      ∧ r.state.sys.objects.getD 7 (exampleInteger 0) = exampleInteger 7
      ∧ r.state.code = [0x10, 6, 0, 0, 0, 0xfc, 0x47, 0, 0, 0, 0, 0, 0, 0, 0x48]
      ∧ executeFunctionFast Env.fixedType 5 r.state.code (exampleContext []) exampleSys
        = some r2
      ∧ r2.result = Except.ok 0
      ∧ Env.fixedType.keepsCode
      ∧ wellFormedRun Env.fixedType 5
          { code := overlapBody, instructionPointer := 0, context := exampleContext [],
            sys := exampleSys } [] = false :=
  ⟨_, _, rfl, rfl, rfl, rfl, rfl, rfl, Env.fixedType_keepsCode, rfl⟩

/-- C12 (amended): self-rewriting idempotence of whole runs. If the run of a
method on the code `code` from the context `context` (with the objects `sys`)
ends and is well formed (`wellFormedRun`), and the helpers that invoke a
function neither read nor write the code array (`Env.keepsCode`), then the run
from the same context and objects on the code array left by the first run
ends with the same result (the same returned value, or the same error), the
same context and the same objects, and leaves that code array exactly as the
first run left it; a third run, on the code left by the second, is the second
run again. -/
theorem C12_rerun_idempotent (env : Env) (hk : env.keepsCode) (fuel : Nat) (code : List Nat)
    (context : call_context) (sys : SystemState) (r : Res VMState Nat)
    (hrun : executeFunctionFast env fuel code context sys = some r)
    (hwf : wellFormedRun env fuel
      { code := code, instructionPointer := context.exec_pos, context := context, sys := sys }
      [] = true) :
    ∃ r2, executeFunctionFast env fuel r.state.code context sys = some r2
      ∧ r2.result = r.result
      ∧ r2.state.code = r.state.code
      ∧ r2.state.context = r.state.context
      ∧ r2.state.sys = r.state.sys
      ∧ executeFunctionFast env fuel r2.state.code context sys = some r2 := by
  unfold executeFunctionFast at hrun
  obtain ⟨_, _, r2, h2, h3, h4, h5, h6⟩ := rerun_sim env hk fuel _ [] r hrun hwf
  refine ⟨r2, h2, h3, h4, h5, h6, ?_⟩
  rw [h4]
  exact h2

theorem C12_rerun_idempotent_witness :
    ∃ r2, executeFunctionFast Env.caching 3
        [0xff, 3, 0, 0, 0, 0, 0, 0, 0, 0xfc, 19, 0, 0, 0, 0, 0, 0, 0, 0x48]
        (exampleContext []) exampleSys = some r2
      ∧ r2.result = Except.ok 3
      ∧ r2.state.code = [0xff, 3, 0, 0, 0, 0, 0, 0, 0, 0xfc, 19, 0, 0, 0, 0, 0, 0, 0, 0x48] := by
  obtain ⟨r2, h1, h2, h3, _⟩ := C12_rerun_idempotent Env.caching Env.caching_keepsCode 3
    rewriteBody (exampleContext []) exampleSys _ rfl rfl
  exact ⟨r2, h1, h2, h3⟩

theorem op_sxi_eq (env : Env) (narrow : Int → Int) (s : VMState) (v : Nat) (rest : List Nat)
    (u : Int) (h1 : SystemState)
    (hstack : s.context.stack = v :: rest)
    (hmax : s.context.stack.length ≤ s.context.max_stack)
    (hu : toUInt env v s.sys = Res.ok u h1) :
    op_sxi env narrow s = Res.ok next
      { s with
        context := { s.context with stack := ((h1.addRef v (-1)).objects.length + 1) :: rest }
        sys := { (h1.addRef v (-1)) with
          objects := (h1.addRef v (-1)).objects ++
            [{ type := T_INTEGER, ref_count := 1, val := toInt32 (narrow u),
               ival := 0, dval := 0, isfloat := false }] } } := by
  have hroom : rest.length < s.context.max_stack := by
    rw [hstack] at hmax
    simp at hmax
    omega
  simp [op_sxi, runtime_stack_pop, hstack, onSys, hu, decRef, abstract_i, alloc,
    runtime_stack_push, hroom, addRef_length]

theorem toUInt_of_integer (env : Env) (h : SystemState) (p : Nat) (o : ASObject)
    (hp : h.deref p = some o) (ht : o.type = T_INTEGER) :
    toUInt env p h = Res.ok (toUInt32 o.val) h := by
  simp [toUInt, isIntegral, toInt64Value, hp, ht]

theorem toInt8_range (x : Int) : -128 ≤ toInt8 x ∧ toInt8 x ≤ 127 ∧ (toInt8 x - x) % 256 = 0 := by
  unfold toInt8
  simp only
  split <;> omega

theorem toInt16_range (x : Int) :
    -32768 ≤ toInt16 x ∧ toInt16 x ≤ 32767 ∧ (toInt16 x - x) % 65536 = 0 := by
  unfold toInt16
  simp only
  split <;> omega

theorem toInt8_fixed (x : Int) (h1 : -128 ≤ x) (h2 : x ≤ 127) :
    toInt32 (toInt8 (toUInt32 x)) = x := by
  unfold toInt32 toInt8 toUInt32
  simp only
  split <;> split <;> omega

theorem toInt16_fixed (x : Int) (h1 : -32768 ≤ x) (h2 : x ≤ 32767) :
    toInt32 (toInt16 (toUInt32 x)) = x := by
  unfold toInt32 toInt16 toUInt32
  simp only
  split <;> split <;> omega

/-- One sign-extending step and the facts needed to repeat it. -/
theorem step_sxi_narrow (env : Env) (narrow : Int → Int) (op : Nat) (s : VMState) (v : Nat)
    (rest : List Nat) (u : Int) (h1 : SystemState)
    (hex : ∀ data, execOpcode env op data = op_sxi env narrow)
    (hip : s.instructionPointer < s.code.length)
    (hop : byteAt s.code s.instructionPointer = op)
    (hstack : s.context.stack = v :: rest)
    (hmax : s.context.stack.length ≤ s.context.max_stack)
    (hu : toUInt env v s.sys = Res.ok u h1) :
    ∃ s1 r o, step env s = Res.ok next s1
      ∧ s1.context.stack = r :: rest
      ∧ s1.sys.deref r = some o
      ∧ o.type = T_INTEGER
      ∧ o.val = toInt32 (narrow u)
      ∧ s1.context.max_stack = s.context.max_stack
      ∧ s1.code = s.code
      ∧ s1.instructionPointer = s.instructionPointer + 1 := by
  rw [step_eq env s hip, hop, hex,
    op_sxi_eq env narrow _ v rest u h1 (by exact hstack) (by exact hmax) (by exact hu)]
  exact ⟨_, _, _, rfl, rfl, deref_alloc_new _ _, rfl, rfl, rfl, rfl, rfl⟩

/-- C21: sxi8 (0x51) and sxi16 (0x52) on a value `v` whose `toUInt()` is `u`
pop `v` and push a fresh Integer: the number in -128..127 congruent to `u`
modulo 2^8 for sxi8, the number in -32768..32767 congruent to `u` modulo 2^16
for sxi16; and the same opcode applied next to that result pushes an Integer
with the same value. -/
theorem C21_sxi8_sxi16 (env : Env) (s : VMState) (op v : Nat) (rest : List Nat) (u : Int)
    (h1 : SystemState)
    (hip : s.instructionPointer < s.code.length)
    (hop : byteAt s.code s.instructionPointer = op)
    (hform : op = 0x51 ∨ op = 0x52)
    (hstack : s.context.stack = v :: rest)
    (hmax : s.context.stack.length ≤ s.context.max_stack)
    (hu : toUInt env v s.sys = Res.ok u h1) :
    ∃ s1 r o, step env s = Res.ok next s1
      ∧ s1.context.stack = r :: rest
      ∧ s1.sys.deref r = some o
      ∧ o.type = T_INTEGER
      ∧ (op = 0x51 → -128 ≤ o.val ∧ o.val ≤ 127 ∧ (o.val - u) % 256 = 0)
      ∧ (op = 0x52 → -32768 ≤ o.val ∧ o.val ≤ 32767 ∧ (o.val - u) % 65536 = 0)
      ∧ (s1.instructionPointer < s1.code.length →
          byteAt s1.code s1.instructionPointer = op →
          ∃ s2 r2 o2, step env s1 = Res.ok next s2
            ∧ s2.context.stack = r2 :: rest
            ∧ s2.sys.deref r2 = some o2
            ∧ o2.type = T_INTEGER
            ∧ o2.val = o.val) := by
  rcases hform with h | h
  · subst h
    obtain ⟨s1, r, o, hs1, hst1, hd1, ht1, hv1, hm1, _, _⟩ :=
      step_sxi_narrow env toInt8 0x51 s v rest u h1 (fun _ => rfl) hip hop hstack hmax hu
    have hr := toInt8_range u
    have hval : o.val = toInt8 u := by
      rw [hv1]
      exact toInt32_of_range _ (by omega) (by omega)
    refine ⟨s1, r, o, hs1, hst1, hd1, ht1, fun _ => ?_, fun h => absurd h (by decide),
      fun hip1 hop1 => ?_⟩
    · rw [hval]
      exact hr
    · obtain ⟨s2, r2, o2, hs2, hst2, hd2, ht2, hv2, _⟩ :=
        step_sxi_narrow env toInt8 0x51 s1 r rest (toUInt32 o.val) s1.sys (fun _ => rfl) hip1 hop1
          hst1 (by rw [hst1, hm1]; rw [hstack] at hmax; exact hmax)
          (toUInt_of_integer env _ _ _ hd1 ht1)
      refine ⟨s2, r2, o2, hs2, hst2, hd2, ht2, ?_⟩
      rw [hv2]
      exact toInt8_fixed _ (by rw [hval]; exact hr.1) (by rw [hval]; exact hr.2.1)
  · subst h
    obtain ⟨s1, r, o, hs1, hst1, hd1, ht1, hv1, hm1, _, _⟩ :=
      step_sxi_narrow env toInt16 0x52 s v rest u h1 (fun _ => rfl) hip hop hstack hmax hu
    have hr := toInt16_range u
    have hval : o.val = toInt16 u := by
      rw [hv1]
      exact toInt32_of_range _ (by omega) (by omega)
    refine ⟨s1, r, o, hs1, hst1, hd1, ht1, fun h => absurd h (by decide), fun _ => ?_,
      fun hip1 hop1 => ?_⟩
    · rw [hval]
      exact hr
    · obtain ⟨s2, r2, o2, hs2, hst2, hd2, ht2, hv2, _⟩ :=
        step_sxi_narrow env toInt16 0x52 s1 r rest (toUInt32 o.val) s1.sys (fun _ => rfl) hip1
          hop1 hst1 (by rw [hst1, hm1]; rw [hstack] at hmax; exact hmax)
          (toUInt_of_integer env _ _ _ hd1 ht1)
      refine ⟨s2, r2, o2, hs2, hst2, hd2, ht2, ?_⟩
      rw [hv2]
      exact toInt16_fixed _ (by rw [hval]; exact hr.1) (by rw [hval]; exact hr.2.1)

theorem C21_sxi8_sxi16_witness :
    ∃ s1 r o, step Env.failing sxiState = Res.ok next s1
      ∧ s1.context.stack = [r]
      ∧ s1.sys.deref r = some o
      ∧ o.val = -56
      ∧ ∃ s2 r2 o2, step Env.failing s1 = Res.ok next s2
        ∧ s2.sys.deref r2 = some o2 ∧ o2.val = -56 := by
  obtain ⟨s1, r, o, h1, h2, h3, _, h5, _, h7⟩ :=
    C21_sxi8_sxi16 Env.failing sxiState 0x51 8 [] 200 sxiState.sys
      (by decide) (by decide) (Or.inl rfl) (by decide) (by decide) rfl
  have hv : o.val = -56 := by
    have := h5 rfl
    omega
  have hs1 : s1 = (step Env.failing sxiState).state := by rw [h1]; rfl
  obtain ⟨s2, r2, o2, g1, _, g3, _, g5⟩ := h7 (by rw [hs1]; decide) (by rw [hs1]; decide)
  exact ⟨s1, r, o, h1, h2, h3, hv, s2, r2, o2, g1, g3, by rw [g5]; exact hv⟩

theorem op_call2_eq (f : Nat → Nat → Bool → M Machine Unit) (k : Bool) (data : Nat)
    (s : VMState) :
    op_call2 f k data s =
      match f (readU32 s.code (data + 4 * 0)) (readU32 s.code (data + 4 * 1)) k
          { context := s.context, sys := s.sys, code := s.code } with
      | Res.ok _ w =>
        Res.ok next (VMState.mk w.code (s.instructionPointer + 8) w.context w.sys)
      | Res.throw e w =>
        Res.throw e (VMState.mk w.code s.instructionPointer w.context w.sys) := by
  simp only [op_call2, uints, onCall, advance, M_bind_apply, M_pure_apply]
  cases f (readU32 s.code (data + 4 * 0)) (readU32 s.code (data + 4 * 1)) k
    { context := s.context, sys := s.sys, code := s.code } <;> rfl

/-- One iteration on a state whose next opcode is callproperty or callproplex
is the call of `callProperty` with `keepReturn = true`. -/
theorem step_callproperty (env : Env) (s : VMState)
    (hip : s.instructionPointer < s.code.length)
    (hop : byteAt s.code s.instructionPointer = 0x4c
      ∨ byteAt s.code s.instructionPointer = 0x46) :
    step env s =
      match env.callProperty (readU32 s.code (s.instructionPointer + 1))
          (readU32 s.code (s.instructionPointer + 5)) true
          (Machine.mk { s.context with exec_pos := s.instructionPointer } s.sys s.code) with
      | Res.ok _ w =>
        Res.ok next (VMState.mk w.code (s.instructionPointer + 9) w.context w.sys)
      | Res.throw e w =>
        Res.throw e (VMState.mk w.code (s.instructionPointer + 1) w.context w.sys) := by
  rw [step_eq env s hip]
  rcases hop with h | h
  · rw [h, execOpcode_4c, op_call2_eq]
  · rw [h, execOpcode_46, op_call2_eq]

/-- C22: callproplex (0x4C) is callproperty (0x46), the return value being
kept in both. One iteration of the loop on a state whose next opcode is 0x4C
(`s`) or 0x46 (`sx`) is the call `callProperty t t2 true` on the operands
`t`, `t2` of the instruction, the call context and the objects: when the call
completes the iteration completes with what the call left and the instruction
pointer after the operands, when it throws the iteration throws the same
error; `execOpcode` runs the same computation under the two opcodes. So two
such states at the same offset, with the same two operands, the same call
context and the same objects, end the iteration with the same outcome, the
same context (operand stack, locals, scope), the same objects and the same
instruction pointer, when the call does not depend on the code array, which
holds the opcode byte (`callKeepsCode`). -/
theorem C22_callproplex (env : Env) (s sx : VMState)
    (hip : s.instructionPointer < s.code.length)
    (hipx : sx.instructionPointer < sx.code.length)
    (hop : byteAt s.code s.instructionPointer = 0x4c)
    (hopx : byteAt sx.code sx.instructionPointer = 0x46)
    (hsame : sx.instructionPointer = s.instructionPointer)
    (ht : readU32 sx.code (s.instructionPointer + 1) = readU32 s.code (s.instructionPointer + 1))
    (ht2 : readU32 sx.code (s.instructionPointer + 5) = readU32 s.code (s.instructionPointer + 5))
    (hctx : sx.context = s.context) (hsys : sx.sys = s.sys) :
    (∀ w, env.callProperty (readU32 s.code (s.instructionPointer + 1))
          (readU32 s.code (s.instructionPointer + 5)) true
          (Machine.mk { s.context with exec_pos := s.instructionPointer } s.sys s.code)
        = Res.ok () w →
        step env s = Res.ok next
          (VMState.mk w.code (s.instructionPointer + 9) w.context w.sys))
    ∧ (∀ e w, env.callProperty (readU32 s.code (s.instructionPointer + 1))
          (readU32 s.code (s.instructionPointer + 5)) true
          (Machine.mk { s.context with exec_pos := s.instructionPointer } s.sys s.code)
        = Res.throw e w →
        step env s = Res.throw e
          (VMState.mk w.code (s.instructionPointer + 1) w.context w.sys))
    ∧ (∀ w, env.callProperty (readU32 s.code (s.instructionPointer + 1))
          (readU32 s.code (s.instructionPointer + 5)) true
          (Machine.mk { s.context with exec_pos := s.instructionPointer } s.sys sx.code)
        = Res.ok () w →
        step env sx = Res.ok next
          (VMState.mk w.code (s.instructionPointer + 9) w.context w.sys))
    ∧ (∀ e w, env.callProperty (readU32 s.code (s.instructionPointer + 1))
          (readU32 s.code (s.instructionPointer + 5)) true
          (Machine.mk { s.context with exec_pos := s.instructionPointer } s.sys sx.code)
        = Res.throw e w →
        step env sx = Res.throw e
          (VMState.mk w.code (s.instructionPointer + 1) w.context w.sys))
    ∧ (callKeepsCode (env.callProperty (readU32 s.code (s.instructionPointer + 1))
          (readU32 s.code (s.instructionPointer + 5)) true) →
        (step env s).result = (step env sx).result
        ∧ (step env s).state.context = (step env sx).state.context
        ∧ (step env s).state.sys = (step env sx).state.sys
        ∧ (step env s).state.instructionPointer = (step env sx).state.instructionPointer)
    ∧ execOpcode env 0x4c = execOpcode env 0x46 := by
  have hs := step_callproperty env s hip (Or.inl hop)
  have hsx := step_callproperty env sx hipx (Or.inr hopx)
  rw [hsame, ht, ht2, hctx, hsys] at hsx
  refine ⟨fun w hw => ?_, fun e w hw => ?_, fun w hw => ?_, fun e w hw => ?_, fun hkc => ?_, ?_⟩
  · rw [hs, hw]
  · rw [hs, hw]
  · rw [hsx, hw]
  · rw [hsx, hw]
  · have h1 := hkc (Machine.mk { s.context with exec_pos := s.instructionPointer } s.sys
      s.code) sx.code
    simp only at h1
    rw [hs, hsx, h1]
    cases env.callProperty (readU32 s.code (s.instructionPointer + 1))
      (readU32 s.code (s.instructionPointer + 5)) true
      (Machine.mk { s.context with exec_pos := s.instructionPointer } s.sys s.code)
    <;> exact ⟨rfl, rfl, rfl, rfl⟩
  · funext data
    rfl

theorem C22_callproplex_witness :
    step Env.returning (exampleState [0x4c, 1, 0, 0, 0, 0, 0, 0, 0, 0x47] [3])
      = Res.ok next
          { code := [0x4c, 1, 0, 0, 0, 0, 0, 0, 0, 0x47], instructionPointer := 9,
            context := exampleContext [4], sys := exampleSys }
    ∧ step Env.returning (exampleState [0x46, 1, 0, 0, 0, 0, 0, 0, 0, 0x47] [3])
      = Res.ok next
          { code := [0x46, 1, 0, 0, 0, 0, 0, 0, 0, 0x47], instructionPointer := 9,
            context := exampleContext [4], sys := exampleSys } :=
  have h := C22_callproplex Env.returning
    (exampleState [0x4c, 1, 0, 0, 0, 0, 0, 0, 0, 0x47] [3])
    (exampleState [0x46, 1, 0, 0, 0, 0, 0, 0, 0, 0x47] [3])
    (by decide) (by decide) (by decide) (by decide) rfl (by decide) (by decide) rfl rfl
  ⟨h.1 _ rfl, h.2.2.1 _ rfl⟩

theorem step_arith_integral (env : Env) (op : Nat) (intOp : Int → Int → IntResult)
    (dblOp : Nat → Nat → M SystemState Nat) (s : VMState) (v1 v2 : Nat) (rest : List Nat)
    (i : Int)
    (hex : ∀ data, execOpcode env op data = op_arith intOp dblOp)
    (hip : s.instructionPointer < s.code.length)
    (hop : byteAt s.code s.instructionPointer = op)
    (hstack : s.context.stack = v2 :: v1 :: rest)
    (hmax : s.context.stack.length ≤ s.context.max_stack)
    (h1 : isIntegral s.sys v1 = true) (h2 : isIntegral s.sys v2 = true)
    (hi : intOp (toInt64Value s.sys v1) (toInt64Value s.sys v2) = IntResult.value i) :
    step env s = Res.ok next
      { code := s.code
        instructionPointer := s.instructionPointer + 1
        context := { s.context with
          exec_pos := s.instructionPointer
          stack := (s.sys.objects.length + 1) :: rest }
        sys := { ((s.sys.addRef v1 (-1)).addRef v2 (-1)) with
          objects := ((s.sys.addRef v1 (-1)).addRef v2 (-1)).objects ++
            [{ type := T_NUMBER, ref_count := 1, val := 0, ival := toInt64 i,
               dval := 0, isfloat := false }] } } := by
  have hroom : rest.length < s.context.max_stack := by
    rw [hstack] at hmax
    simp at hmax
    omega
  rw [step_eq env s hip, hop, hex]
  simp [op_arith, runtime_stack_pop, hstack, getSys, h1, h2, onSys, decRef, hi,
    abstract_di, alloc, runtime_stack_push, hroom, addRef_length]

/-- C24 (counterexample): two UInteger operands that both hold 4294967295 are
integral and fit in 32 bits; multiply takes the integral path and pushes an
integral Number holding -8589934591, the product reduced to a signed 64-bit
integer, not the product 18446744065119617025. -/
theorem C24_counterexample :
    isIntegral mulState.sys 8 = true ∧ isIntegral mulState.sys 9 = true
    ∧ toInt64Value mulState.sys 8 = 4294967295 ∧ toInt64Value mulState.sys 9 = 4294967295
    ∧ ∃ s1 r o, step Env.failing mulState = Res.ok next s1
      ∧ s1.context.stack = [r]
      ∧ s1.sys.deref r = some o
      ∧ o.type = T_NUMBER ∧ o.isfloat = false
      ∧ o.ival = -8589934591
      ∧ o.ival ≠ 4294967295 * 4294967295 :=
  ⟨rfl, rfl, rfl, rfl, _, _, _, rfl, rfl, rfl, rfl, rfl, rfl, by decide⟩

/-- C24 (amended): for subtract (0xA1) and multiply (0xA2), when both operands
are integral with 64-bit values `a` (pushed first) and `b` (pushed second) in
the range -2^31 ≤ x < 2^32, the opcode pops both, decrements the reference
count of each once and pushes an integral Number, whatever the
double-precision primitives are; its value is exactly `a - b` for subtract,
and for multiply exactly `a * b` when the product lies in the signed 64-bit
range, which it does whenever one of the operands is below 2^31. -/
theorem C24_integral_fast_path (env : Env) (s : VMState) (op v1 v2 : Nat) (rest : List Nat)
    (a b : Int)
    (hip : s.instructionPointer < s.code.length)
    (hop : byteAt s.code s.instructionPointer = op)
    (hform : op = 0xa1 ∨ op = 0xa2)
    (hstack : s.context.stack = v2 :: v1 :: rest)
    (hmax : s.context.stack.length ≤ s.context.max_stack)
    (h1 : isIntegral s.sys v1 = true) (h2 : isIntegral s.sys v2 = true)
    (ha : toInt64Value s.sys v1 = a) (hb : toInt64Value s.sys v2 = b)
    (hra : -2147483648 ≤ a ∧ a < 4294967296) (hrb : -2147483648 ≤ b ∧ b < 4294967296) :
    ∃ s1 r o, step env s = Res.ok next s1
      ∧ s1.context.stack = r :: rest
      ∧ s1.sys.deref r = some o
      ∧ o.type = T_NUMBER ∧ o.isfloat = false
      ∧ s1.sys.objects = ((s.sys.addRef v1 (-1)).addRef v2 (-1)).objects ++ [o]
      ∧ (op = 0xa1 → o.ival = a - b)
      ∧ (op = 0xa2 → -9223372036854775808 ≤ a * b → a * b < 9223372036854775808 →
          o.ival = a * b)
      ∧ (op = 0xa2 → a < 2147483648 ∨ b < 2147483648 → o.ival = a * b) := by
  rcases hform with h | h
  · subst h
    rw [step_arith_integral env 0xa1 subtractI _ s v1 v2 rest (a - b) (fun _ => rfl) hip hop
      hstack hmax h1 h2 (by rw [ha, hb]; rfl)]
    refine ⟨_, _, _, rfl, rfl, deref_alloc_new_of_length _ _ _ (by simp [addRef_length]), rfl,
      rfl, rfl, fun _ => ?_, fun h => absurd h (by decide), fun h => absurd h (by decide)⟩
    exact toInt64_of_range _ (by omega) (by omega)
  · subst h
    rw [step_arith_integral env 0xa2 multiplyI _ s v1 v2 rest (a * b) (fun _ => rfl) hip hop
      hstack hmax h1 h2 (by rw [ha, hb]; rfl)]
    refine ⟨_, _, _, rfl, rfl, deref_alloc_new_of_length _ _ _ (by simp [addRef_length]), rfl,
      rfl, rfl, fun h => absurd h (by decide), fun _ hlo hhi => ?_, fun _ hsmall => ?_⟩
    · exact toInt64_of_range _ hlo hhi
    · refine toInt64_of_range _ ?_ ?_
      · rcases hsmall with h | h <;> nlinarith [hra.1, hra.2, hrb.1, hrb.2]
      · rcases hsmall with h | h <;> nlinarith [hra.1, hra.2, hrb.1, hrb.2]

theorem C24_integral_fast_path_witness :
    ∃ s1 r o, step Env.failing subState = Res.ok next s1
      ∧ s1.context.stack = [r]
      ∧ s1.sys.deref r = some o
      ∧ o.type = T_NUMBER ∧ o.isfloat = false
      ∧ o.ival = 2 := by
  obtain ⟨s1, r, o, h1, h2, h3, h4, h5, _, h7, _⟩ :=
    C24_integral_fast_path Env.failing subState 0xa1 3 4 [] 7 5
      (by decide) (by decide) (Or.inl rfl) (by decide) (by decide) rfl rfl rfl rfl
      (by decide) (by decide)
  exact ⟨s1, r, o, h1, h2, h3, h4, h5, h7 rfl⟩

/-- The whole effect of setlocal on a non-null value, in the two cases of the
guard. -/
theorem step_setlocal_full (env : Env) (s : VMState) (v : Nat) (rest : List Nat)
    (hip : s.instructionPointer < s.code.length)
    (hop : byteAt s.code s.instructionPointer = 0x63)
    (hstack : s.context.stack = v :: rest) (hv : v ≠ 0) :
    ((toInt32 (readU32 s.code (s.instructionPointer + 1)) ≠ s.context.argarrayposition
        ∨ s.sys.hasType v T_ARRAY = true) →
      step env s = Res.ok next
        { code := s.code
          instructionPointer := s.instructionPointer + 1 + 4
          context := { s.context with
            exec_pos := s.instructionPointer
            stack := rest
            locals := s.context.locals.set (readU32 s.code (s.instructionPointer + 1)) v }
          sys := if s.context.locals.getD (readU32 s.code (s.instructionPointer + 1)) 0 ≠ 0
            then s.sys.addRef
              (s.context.locals.getD (readU32 s.code (s.instructionPointer + 1)) 0) (-1)
            else s.sys })
    ∧ (¬ (toInt32 (readU32 s.code (s.instructionPointer + 1)) ≠ s.context.argarrayposition
        ∨ s.sys.hasType v T_ARRAY = true) →
      step env s = Res.ok next
        { code := s.code
          instructionPointer := s.instructionPointer + 1 + 4
          context := { s.context with exec_pos := s.instructionPointer, stack := rest }
          sys := s.sys }) := by
  rw [step_eq env s hip, hop, execOpcode_63]
  refine ⟨fun hg => ?_, fun hg => ?_⟩
  · rw [op_setlocal_run _ v rest _ _ (by exact hstack) hv
      (by exact setLocalGuarded_pos _ _ _ hg)]
  · rw [op_setlocal_run _ v rest _ _ (by exact hstack) hv
      (by exact setLocalGuarded_neg _ _ _ hg)]

/-- The whole effect of setlocal_n, in the two cases of the guard. -/
theorem step_setlocal_n_full (env : Env) (s : VMState) (op v : Nat) (rest : List Nat)
    (hip : s.instructionPointer < s.code.length)
    (hop : byteAt s.code s.instructionPointer = op)
    (hrange : op = 0xd4 ∨ op = 0xd5 ∨ op = 0xd6 ∨ op = 0xd7)
    (hstack : s.context.stack = v :: rest) :
    ((toInt32 ((op % 4 : Nat) : Int) ≠ s.context.argarrayposition
        ∨ s.sys.hasType v T_ARRAY = true) →
      step env s = Res.ok next
        { code := s.code
          instructionPointer := s.instructionPointer + 1
          context := { s.context with
            exec_pos := s.instructionPointer
            stack := rest
            locals := s.context.locals.set (op % 4) v }
          sys := if s.context.locals.getD (op % 4) 0 ≠ 0
            then s.sys.addRef (s.context.locals.getD (op % 4) 0) (-1)
            else s.sys })
    ∧ (¬ (toInt32 ((op % 4 : Nat) : Int) ≠ s.context.argarrayposition
        ∨ s.sys.hasType v T_ARRAY = true) →
      step env s = Res.ok next
        { code := s.code
          instructionPointer := s.instructionPointer + 1
          context := { s.context with exec_pos := s.instructionPointer, stack := rest }
          sys := s.sys }) := by
  rw [step_eq env s hip, hop]
  have hex : execOpcode env op (s.instructionPointer + 1) = op_setlocal_n op := by
    rcases hrange with h | h | h | h <;> subst h <;> rfl
  rw [hex]
  refine ⟨fun hg => ?_, fun hg => ?_⟩
  · rw [op_setlocal_n_run _ v rest _ _ (by exact hstack)
      (by exact setLocalGuarded_pos _ _ _ hg)]
  · rw [op_setlocal_n_run _ v rest _ _ (by exact hstack)
      (by exact setLocalGuarded_neg _ _ _ hg)]

theorem step_pop (env : Env) (s : VMState) (v : Nat) (rest : List Nat)
    (hip : s.instructionPointer < s.code.length)
    (hop : byteAt s.code s.instructionPointer = 0x29)
    (hstack : s.context.stack = v :: rest) (hv : v ≠ 0) :
    step env s = Res.ok next
      { code := s.code
        instructionPointer := s.instructionPointer + 1
        context := { s.context with exec_pos := s.instructionPointer, stack := rest }
        sys := s.sys.addRef v (-1) } := by
  rw [step_eq env s hip, hop, execOpcode_29]
  simp [op_pop, runtime_stack_pop, hstack, hv, onSys, decRef]

theorem lookupswitch_drops (env : Env) (s : VMState) (v : Nat) (rest : List Nat) (o : ASObject)
    (hip : s.instructionPointer < s.code.length)
    (hop : byteAt s.code s.instructionPointer = 0x1b)
    (hstack : s.context.stack = v :: rest)
    (hd : s.sys.deref v = some o) (ht : o.type = T_INTEGER) :
    (step env s).state.context.stack = rest
    ∧ (step env s).state.sys = s.sys.addRef v (-1) := by
  rw [step_eq env s hip, hop, execOpcode_1b]
  by_cases hle : toUInt32 o.val ≤ (readU32 s.code (s.instructionPointer + 1 + 4 * 1) : Int)
  · by_cases hdest : readU32 s.code
        (s.instructionPointer + 1 + 4 * (2 + (toUInt32 o.val).toNat)) < s.code.length
    · simp [op_lookupswitch, uints, runtime_stack_pop, hstack, getSys, assert_and_throw,
        SystemState.hasType, hd, ht, onSys, toUInt, isIntegral, toInt64Value, decRef, hle,
        assertInCode, setIP, hdest, Res.state]
    · simp [op_lookupswitch, uints, runtime_stack_pop, hstack, getSys, assert_and_throw,
        SystemState.hasType, hd, ht, onSys, toUInt, isIntegral, toInt64Value, decRef, hle,
        assertInCode, setIP, hdest, Res.state]
  · by_cases hdest : readU32 s.code (s.instructionPointer + 1 + 4 * 0) < s.code.length
    · simp [op_lookupswitch, uints, runtime_stack_pop, hstack, getSys, assert_and_throw,
        SystemState.hasType, hd, ht, onSys, toUInt, isIntegral, toInt64Value, decRef, hle,
        assertInCode, setIP, hdest, Res.state]
    · simp [op_lookupswitch, uints, runtime_stack_pop, hstack, getSys, assert_and_throw,
        SystemState.hasType, hd, ht, onSys, toUInt, isIntegral, toInt64Value, decRef, hle,
        assertInCode, setIP, hdest, Res.state]

theorem deref_ne_zero (h : SystemState) (p : Nat) (o : ASObject) (hp : h.deref p = some o) :
    p ≠ 0 := by
  intro h0
  rw [h0] at hp
  simp [SystemState.deref] at hp

theorem deref_addRef_self (h : SystemState) (p : Nat) (d : Int) (o : ASObject)
    (hp : h.deref p = some o) :
    (h.addRef p d).deref p = some { o with ref_count := o.ref_count + d } := by
  rw [deref_addRef, if_pos rfl, hp]
  rfl

/-- C26: what the loop does to the reference count of a value `v` (an object
`o`) that it pops and drops. pop (0x29), lookupswitch (0x1B, on an Integer
index) and sxi1/sxi8/sxi16 (0x50..0x52) release it: its count goes down by
exactly one. setlocal (0x63) and setlocal_n (0xD4..0xD7), when the store into
the argument-array slot is suppressed, pop the value and leave the objects
untouched: the count of the dropped value does not change. -/
theorem C26_dropped_values (env : Env) (s : VMState) (v : Nat) (rest : List Nat) (o : ASObject)
    (hip : s.instructionPointer < s.code.length)
    (hstack : s.context.stack = v :: rest)
    (hd : s.sys.deref v = some o) :
    (byteAt s.code s.instructionPointer = 0x29 →
      ∃ s1, step env s = Res.ok next s1 ∧ s1.context.stack = rest
        ∧ s1.sys.deref v = some { o with ref_count := o.ref_count - 1 })
    ∧ (byteAt s.code s.instructionPointer = 0x1b → o.type = T_INTEGER →
      (step env s).state.context.stack = rest
        ∧ (step env s).state.sys.deref v = some { o with ref_count := o.ref_count - 1 })
    ∧ (byteAt s.code s.instructionPointer = 0x50 ∨ byteAt s.code s.instructionPointer = 0x51
        ∨ byteAt s.code s.instructionPointer = 0x52 →
      s.context.stack.length ≤ s.context.max_stack →
      ∀ u h1 o1, toUInt env v s.sys = Res.ok u h1 → h1.deref v = some o1 →
        ∃ s1 r, step env s = Res.ok next s1 ∧ s1.context.stack = r :: rest
          ∧ s1.sys.deref v = some { o1 with ref_count := o1.ref_count - 1 })
    ∧ (∀ i, (byteAt s.code s.instructionPointer = 0x63
          ∧ i = readU32 s.code (s.instructionPointer + 1))
        ∨ ((byteAt s.code s.instructionPointer = 0xd4 ∨ byteAt s.code s.instructionPointer = 0xd5
            ∨ byteAt s.code s.instructionPointer = 0xd6
            ∨ byteAt s.code s.instructionPointer = 0xd7)
          ∧ i = byteAt s.code s.instructionPointer % 4) →
      toInt32 (i : Int) = s.context.argarrayposition → s.sys.hasType v T_ARRAY = false →
      ∃ s1, step env s = Res.ok next s1 ∧ s1.context.stack = rest
        ∧ s1.context.locals = s.context.locals
        ∧ s1.sys = s.sys ∧ s1.sys.deref v = some o) := by
  have hv := deref_ne_zero _ _ _ hd
  refine ⟨fun hop => ?_, fun hop ht => ?_, fun hop hmax u h1 o1 hu hd1 => ?_,
    fun i hform harg harr => ?_⟩
  · rw [step_pop env s v rest hip hop hstack hv]
    exact ⟨_, rfl, rfl, deref_addRef_self _ _ _ _ hd⟩
  · obtain ⟨h1, h2⟩ := lookupswitch_drops env s v rest o hip hop hstack hd ht
    rw [h2]
    exact ⟨h1, deref_addRef_self _ _ _ _ hd⟩
  · have hgen : ∀ (narrow : Int → Int) (op : Nat),
        (∀ data, execOpcode env op data = op_sxi env narrow) →
        byteAt s.code s.instructionPointer = op →
        ∃ s1 r, step env s = Res.ok next s1 ∧ s1.context.stack = r :: rest
          ∧ s1.sys.deref v = some { o1 with ref_count := o1.ref_count - 1 } := by
      intro narrow op hex hop1
      rw [step_eq env s hip, hop1, hex,
        op_sxi_eq env narrow _ v rest u h1 (by exact hstack) (by exact hmax) (by exact hu)]
      exact ⟨_, _, rfl, rfl, deref_alloc_old _ _ _ _ (deref_addRef_self _ _ _ _ hd1)⟩
    rcases hop with h | h | h
    · exact hgen _ 0x50 (fun _ => rfl) h
    · exact hgen _ 0x51 (fun _ => rfl) h
    · exact hgen _ 0x52 (fun _ => rfl) h
  · have hg : ¬ (toInt32 (i : Int) ≠ s.context.argarrayposition
        ∨ s.sys.hasType v T_ARRAY = true) := by
      rintro (h | h)
      · exact h harg
      · rw [harr] at h
        exact Bool.noConfusion h
    rcases hform with ⟨hop, hi⟩ | ⟨hop, hi⟩
    · subst hi
      rw [(step_setlocal_full env s v rest hip hop hstack hv).2 hg]
      exact ⟨_, rfl, rfl, rfl, rfl, hd⟩
    · subst hi
      rw [(step_setlocal_n_full env s _ v rest hip rfl hop hstack).2 hg]
      exact ⟨_, rfl, rfl, rfl, rfl, hd⟩

theorem C26_dropped_values_witness :
    ∃ s1, step Env.failing argArrayState = Res.ok next s1 ∧ s1.context.stack = []
      ∧ s1.sys.deref 3 = some (exampleInteger 7) := by
  obtain ⟨s1, h1, h2, _, _, h5⟩ :=
    (C26_dropped_values Env.failing argArrayState 3 [] (exampleInteger 7)
      (by decide) (by decide) (by decide)).2.2.2 1 (Or.inr ⟨by decide, by decide⟩)
      (by decide) (by decide)
  exact ⟨s1, h1, h2, h5⟩

theorem step_pushshort (env : Env) (s : VMState)
    (hip : s.instructionPointer < s.code.length)
    (hop : byteAt s.code s.instructionPointer = 0x25)
    (hroom : s.context.stack.length < s.context.max_stack) :
    step env s = Res.ok next
      { code := s.code
        instructionPointer := s.instructionPointer + 1 + 4
        context := { s.context with
          exec_pos := s.instructionPointer
          stack := (s.sys.objects.length + 1) :: s.context.stack }
        sys := { s.sys with objects := s.sys.objects ++
          [{ type := T_INTEGER, ref_count := 1,
             val := toInt32 (readU32 s.code (s.instructionPointer + 1)),
             ival := 0, dval := 0, isfloat := false }] } } := by
  rw [step_eq env s hip, hop, execOpcode_25]
  simp [op_pushshort, uints, advance, onSys, abstract_i, alloc, runtime_stack_push, hroom]

/-- C27 (counterexample): pushshort with the operand bytes 00 00 00 80, the
u32 2147483648 whose top bit is set, pushes an Integer holding -2147483648,
not 2147483648. -/
theorem C27_counterexample :
    readU32 [0x25, 0, 0, 0, 0x80, 0x48] 1 = 2147483648
    ∧ ∃ s1 r o, step Env.failing (exampleState [0x25, 0, 0, 0, 0x80, 0x48] []) = Res.ok next s1
      ∧ s1.context.stack = [r]
      ∧ s1.sys.deref r = some o
      ∧ o.type = T_INTEGER
      ∧ o.val = -2147483648
      ∧ o.val ≠ 2147483648 :=
  ⟨rfl, _, _, _, rfl, rfl, rfl, rfl, rfl, by decide⟩

/-- C27 (amended): pushshort (0x25) reads a full 4-byte unsigned little-endian
operand `t`, consumes exactly those 4 bytes (the next opcode is at `p + 5`)
and pushes one fresh boxed Integer holding `t` converted to a signed 32-bit
integer: `t` itself when `t < 2^31` (so also when bit 30 is set), and
`t - 2^32` when the top bit is set. -/
theorem C27_pushshort (env : Env) (s : VMState) (t : Nat)
    (hip : s.instructionPointer < s.code.length)
    (hop : byteAt s.code s.instructionPointer = 0x25)
    (ht : t = readU32 s.code (s.instructionPointer + 1))
    (hroom : s.context.stack.length < s.context.max_stack) :
    ∃ s1 r o, step env s = Res.ok next s1
      ∧ s1.instructionPointer = s.instructionPointer + 5
      ∧ s1.context.stack = r :: s.context.stack
      ∧ s1.sys.deref r = some o
      ∧ o.type = T_INTEGER
      ∧ (t < 2147483648 → o.val = t)
      ∧ (2147483648 ≤ t → o.val = (t : Int) - 4294967296) := by
  have hlt : t < 4294967296 := by
    rw [ht]
    exact readU32_lt _ _
  rw [step_pushshort env s hip hop hroom]
  refine ⟨_, _, _, rfl, rfl, rfl, deref_alloc_new _ _, rfl, fun h => ?_, fun h => ?_⟩
  · dsimp only
    rw [← ht]
    exact toInt32_of_range _ (by omega) (by omega)
  · dsimp only
    rw [← ht]
    unfold toInt32
    simp only
    split <;> omega

theorem C27_pushshort_witness :
    ∃ s1 r o, step Env.failing (exampleState [0x25, 0, 0, 0, 0x40, 0x48] []) = Res.ok next s1
      ∧ s1.instructionPointer = 5
      ∧ s1.sys.deref r = some o
      ∧ o.val = 1073741824 := by
  obtain ⟨s1, r, o, h1, h2, _, h4, _, h6, _⟩ :=
    C27_pushshort Env.failing (exampleState [0x25, 0, 0, 0, 0x40, 0x48] []) 1073741824
      (by decide) (by decide) (by decide) (by decide)
  exact ⟨s1, r, o, h1, h2, h4, h6 (by decide)⟩

/-- The whole effect of the common part of getlocal and getlocal_n. -/
theorem getLocalAt_eq (i : Nat) (s : VMState) :
    getLocalAt i s =
      if s.context.locals.getD i 0 = 0 then
        if s.context.stack.length < s.context.max_stack then
          Res.ok next { s with
            context := { s.context with stack := s.sys.undefinedRef :: s.context.stack }
            sys := s.sys.addRef s.sys.undefinedRef 1 }
        else Res.throw ASError.StackOverflow { s with sys := s.sys.addRef s.sys.undefinedRef 1 }
      else
        if s.context.stack.length < s.context.max_stack then
          Res.ok next { s with
            context := { s.context with stack := s.context.locals.getD i 0 :: s.context.stack }
            sys := s.sys.addRef (s.context.locals.getD i 0) 1 }
        else Res.throw ASError.StackOverflow
          { s with sys := s.sys.addRef (s.context.locals.getD i 0) 1 } := by
  by_cases hnull : s.context.locals.getD i 0 = 0
  · have hnull2 := hnull
    simp only [List.getD_eq_getElem?_getD] at hnull2
    by_cases hroom : s.context.stack.length < s.context.max_stack
    · rw [if_pos hnull, if_pos hroom]
      simp [getLocalAt, getContext, hnull2, onSys, getUndefinedRef, runtime_stack_push, hroom]
    · rw [if_pos hnull, if_neg hroom]
      simp [getLocalAt, getContext, hnull2, onSys, getUndefinedRef, runtime_stack_push, hroom]
  · have hnull2 := hnull
    simp only [List.getD_eq_getElem?_getD] at hnull2
    by_cases hroom : s.context.stack.length < s.context.max_stack
    · rw [if_neg hnull, if_pos hroom]
      simp [getLocalAt, getContext, hnull2, onSys, incRef, runtime_stack_push, hroom]
    · rw [if_neg hnull, if_neg hroom]
      simp [getLocalAt, getContext, hnull2, onSys, incRef, runtime_stack_push, hroom]

/-- The common part of getlocal and getlocal_n looks only at the context and
the objects, and leaves the instruction pointer alone. -/
theorem getLocalAt_rel (i : Nat) (s sx : VMState)
    (hctx : sx.context = s.context) (hsys : sx.sys = s.sys) :
    (getLocalAt i s).result = (getLocalAt i sx).result
    ∧ (getLocalAt i s).state.context = (getLocalAt i sx).state.context
    ∧ (getLocalAt i s).state.sys = (getLocalAt i sx).state.sys
    ∧ (getLocalAt i s).state.instructionPointer = s.instructionPointer := by
  rw [getLocalAt_eq i s, getLocalAt_eq i sx, hctx, hsys]
  split <;> split <;> exact ⟨rfl, rfl, rfl, rfl⟩

theorem step_getlocal_long (env : Env) (s : VMState)
    (hip : s.instructionPointer < s.code.length)
    (hop : byteAt s.code s.instructionPointer = 0x62) :
    step env s = getLocalAt (readU32 s.code (s.instructionPointer + 1))
      { code := s.code
        instructionPointer := s.instructionPointer + 1 + 4
        context := { s.context with exec_pos := s.instructionPointer }
        sys := s.sys } := by
  rw [step_eq env s hip, hop, execOpcode_62]
  simp only [op_getlocal, uints, advance, M_bind_apply, Nat.mul_zero, Nat.add_zero]

theorem step_getlocal_short (env : Env) (s : VMState) (op : Nat)
    (hip : s.instructionPointer < s.code.length)
    (hop : byteAt s.code s.instructionPointer = op)
    (hrange : op = 0xd0 ∨ op = 0xd1 ∨ op = 0xd2 ∨ op = 0xd3) :
    step env s = getLocalAt (op % 4)
      { code := s.code
        instructionPointer := s.instructionPointer + 1
        context := { s.context with exec_pos := s.instructionPointer }
        sys := s.sys } := by
  rw [step_eq env s hip, hop]
  rcases hrange with h | h | h | h <;> subst h <;> rfl

theorem step_setlocal_underflow (env : Env) (s : VMState)
    (hip : s.instructionPointer < s.code.length)
    (hop : byteAt s.code s.instructionPointer = 0x63)
    (hstack : s.context.stack = []) :
    step env s = Res.throw ASError.StackUnderflow
      { code := s.code
        instructionPointer := s.instructionPointer + 1 + 4
        context := { s.context with exec_pos := s.instructionPointer }
        sys := s.sys } := by
  rw [step_eq env s hip, hop, execOpcode_63]
  unfold op_setlocal
  rw [bind_ok (uints_ok _ _ _), bind_ok (advance_ok _ _)]
  refine bind_throw ?_
  unfold runtime_stack_pop
  simp only [hstack]

theorem step_setlocal_n_underflow (env : Env) (s : VMState) (op : Nat)
    (hip : s.instructionPointer < s.code.length)
    (hop : byteAt s.code s.instructionPointer = op)
    (hrange : op = 0xd4 ∨ op = 0xd5 ∨ op = 0xd6 ∨ op = 0xd7)
    (hstack : s.context.stack = []) :
    step env s = Res.throw ASError.StackUnderflow
      { code := s.code
        instructionPointer := s.instructionPointer + 1
        context := { s.context with exec_pos := s.instructionPointer }
        sys := s.sys } := by
  rw [step_eq env s hip, hop]
  have hex : execOpcode env op (s.instructionPointer + 1) = op_setlocal_n op := by
    rcases hrange with h | h | h | h <;> subst h <;> rfl
  rw [hex]
  unfold op_setlocal_n
  refine bind_throw ?_
  unfold runtime_stack_pop
  simp only [hstack]

/-- C29: the short local forms equal the long forms. Take a state `s` and a
state `sx` at the same offset with the same call context and objects, the
operand stack holding no null entry, and `n < 4`. If `s` is at getlocal_n
(0xD0 + n) and `sx` at getlocal (0x62) with operand `n`, or `s` is at
setlocal_n (0xD4 + n) and `sx` at setlocal (0x63) with operand `n`, the two
iterations end with the same outcome (completion or the same error), the
same context (operand stack, locals) and the same objects (reference
counts); the instruction pointer ends 1 byte further for the short form and
5 bytes further for the long form. -/
theorem C29_short_forms (env : Env) (s sx : VMState) (n : Nat) (hn : n < 4)
    (hip : s.instructionPointer < s.code.length)
    (hipx : sx.instructionPointer < sx.code.length)
    (hsame : sx.instructionPointer = s.instructionPointer)
    (hctx : sx.context = s.context) (hsys : sx.sys = s.sys)
    (hoper : readU32 sx.code (s.instructionPointer + 1) = n)
    (hnn : ∀ v ∈ s.context.stack, v ≠ 0) :
    (byteAt s.code s.instructionPointer = 0xd0 + n →
      byteAt sx.code sx.instructionPointer = 0x62 →
      (step env s).result = (step env sx).result
      ∧ (step env s).state.context = (step env sx).state.context
      ∧ (step env s).state.sys = (step env sx).state.sys
      ∧ (step env s).state.instructionPointer = s.instructionPointer + 1
      ∧ (step env sx).state.instructionPointer = s.instructionPointer + 5)
    ∧ (byteAt s.code s.instructionPointer = 0xd4 + n →
      byteAt sx.code sx.instructionPointer = 0x63 →
      (step env s).result = (step env sx).result
      ∧ (step env s).state.context = (step env sx).state.context
      ∧ (step env s).state.sys = (step env sx).state.sys
      ∧ (step env s).state.instructionPointer = s.instructionPointer + 1
      ∧ (step env sx).state.instructionPointer = s.instructionPointer + 5) := by
  refine ⟨fun hop hopx => ?_, fun hop hopx => ?_⟩
  · rw [step_getlocal_short env s _ hip hop (by omega), step_getlocal_long env sx hipx hopx,
      hsame, hoper, show (0xd0 + n) % 4 = n by omega]
    obtain ⟨h1, h2, h3, h4⟩ := getLocalAt_rel n
      { code := s.code, instructionPointer := s.instructionPointer + 1,
        context := { s.context with exec_pos := s.instructionPointer }, sys := s.sys }
      { code := sx.code, instructionPointer := s.instructionPointer + 1 + 4,
        context := { sx.context with exec_pos := s.instructionPointer }, sys := sx.sys }
      (by rw [hctx]) (by rw [hsys])
    obtain ⟨_, _, _, h5⟩ := getLocalAt_rel n
      { code := sx.code, instructionPointer := s.instructionPointer + 1 + 4,
        context := { sx.context with exec_pos := s.instructionPointer }, sys := sx.sys }
      { code := sx.code, instructionPointer := s.instructionPointer + 1 + 4,
        context := { sx.context with exec_pos := s.instructionPointer }, sys := sx.sys }
      rfl rfl
    exact ⟨h1, h2, h3, h4, h5⟩
  · have hmod : (0xd4 + n) % 4 = n := by omega
    cases hst : s.context.stack with
    | nil =>
      rw [step_setlocal_n_underflow env s _ hip hop (by omega) hst,
        step_setlocal_underflow env sx hipx hopx (by rw [hctx]; exact hst), hsame, hctx, hsys]
      exact ⟨rfl, rfl, rfl, rfl, rfl⟩
    | cons v rest =>
      have hv : v ≠ 0 := hnn v (by rw [hst]; exact List.mem_cons_self _ _)
      have hstx : sx.context.stack = v :: rest := by rw [hctx]; exact hst
      obtain ⟨hp, hq⟩ := step_setlocal_n_full env s _ v rest hip hop (by omega) hst
      obtain ⟨hpx, hqx⟩ := step_setlocal_full env sx v rest hipx hopx hstx hv
      rw [hmod] at hp hq
      rw [hsame, hoper, hctx, hsys] at hpx hqx
      by_cases hg : toInt32 (n : Int) ≠ s.context.argarrayposition
          ∨ s.sys.hasType v T_ARRAY = true
      · rw [hp hg, hpx hg]
        exact ⟨rfl, rfl, rfl, rfl, rfl⟩
      · rw [hq hg, hqx hg]
        exact ⟨rfl, rfl, rfl, rfl, rfl⟩

theorem C29_short_forms_witness :
    (step Env.failing (shortFormState false)).state.context
      = (step Env.failing (shortFormState true)).state.context
    ∧ (step Env.failing (shortFormState false)).state.context.stack = [3, 4]
    ∧ (step Env.failing (shortFormState true)).state.instructionPointer = 5 :=
  ⟨((C29_short_forms Env.failing (shortFormState false) (shortFormState true) 1 (by decide)
      (by decide) (by decide) rfl rfl rfl (by decide) (by decide)).1
      (by decide) (by decide)).2.1,
    by decide, by decide⟩

theorem read_bind {α β : Type} (g : VMState → α) (f : α → M VMState β) (s : VMState) :
    ((fun s1 => Res.ok (g s1) s1 : M VMState α) >>= f) s = f (g s) s :=
  bind_ok rfl

theorem Frame_code {α : Type} {lo hi : Nat} {m : M VMState α} (h : Frame lo hi m)
    (s : VMState) : (m s).state.code = s.code :=
  (Frame_elim h s s.code rfl (fun _ _ _ => rfl)).1

/-- After coerce the code array is the rewritten one, whatever the outcome. -/
theorem op_coerce_code (env : Env) (data : Nat) (s : VMState) :
    ∃ T, (op_coerce env data s).state.code = writeU64 (s.code.set (data - 1) 0xfc) data T := by
  unfold op_coerce
  rw [bind_ok (rfl : word64 data s = Res.ok (readU64 s.code data) s), read_bind]
  generalize env.getTypeFromMultiname (readU64 s.code data)
    { context := s.context, sys := s.sys } = T
  rw [bind_ok (rfl : rewriteCode data 0xfc T s = Res.ok () _)]
  refine ⟨T, ?_⟩
  refine Eq.trans (@Frame_code _ 0 0 _ ?_ _) rfl
  repeat' first
    | with_reducible exact Frame_pure _ _ _
    | with_reducible exact Frame_onSys _ _ _
    | with_reducible exact Frame_advance _ _ _
    | with_reducible exact Frame_push _ _ _
    | with_reducible exact Frame_pop _ _
    | with_reducible apply Frame_bind
    | intro _
    | dsimp only

/-- After getlexonce the code array is as it was (the lookup failed) or the
rewritten one. -/
theorem op_getlexonce_code (env : Env) (data : Nat) (s : VMState) :
    (op_getlexonce env data s).state.code = s.code
    ∨ ∃ T, (op_getlexonce env data s).state.code
        = writeU64 (s.code.set (data - 1) 0xff) data T := by
  unfold op_getlexonce
  rw [bind_ok (rfl : word64 data s = Res.ok (readU64 s.code data) s), read_bind]
  generalize env.getVariableAndTargetByMultiname (readU64 s.code data)
    { context := s.context, sys := s.sys } = obj
  by_cases h0 : obj = 0
  · left
    have hthrow : assert_and_throw (decide (obj ≠ 0)) s
        = Res.throw ASError.AssertionException s := by
      simp [assert_and_throw, h0]
    rw [bind_throw hthrow]
    rfl
  · right
    rw [bind_ok (assert_and_throw_ok _ _ (decide_eq_true h0)),
      bind_ok (rfl : rewriteCode data 0xff obj s = Res.ok () _)]
    refine ⟨obj, ?_⟩
    refine Eq.trans (@Frame_code _ 0 0 _ ?_ _) rfl
    repeat' first
      | with_reducible exact Frame_pure _ _ _
      | with_reducible exact Frame_onSys _ _ _
      | with_reducible exact Frame_advance _ _ _
      | with_reducible exact Frame_push _ _ _
      | with_reducible apply Frame_bind
      | intro _
      | dsimp only

/-- C30 (counterexample): in the method `recursiveBody`, which calls itself,
the fifth instruction of the run from `recursiveStart` is the callpropvoid at
offset 17; the nested run it starts takes the other branch and executes the
coerce at offset 29, so that executing opcode 0x4F changes the byte at offset
29 of the code array from 0x80 to 0xFC. -/
theorem C30_counterexample :
    ∃ sc s1, (step Env.recursive (step Env.recursive (step Env.recursive
          (step Env.recursive recursiveStart).state).state).state).state = sc
      ∧ sc.instructionPointer = 17
      ∧ byteAt sc.code sc.instructionPointer = 0x4f
      ∧ step Env.recursive sc = Res.ok next s1
      ∧ byteAt sc.code 29 = 0x80
      ∧ byteAt s1.code 29 = 0xfc
      ∧ s1.code ≠ sc.code
      ∧ (executeFunctionFast Env.recursive 6 recursiveBody recursiveStart.context
          exampleSys).map Res.result = some (Except.ok 0) :=
  ⟨_, _, rfl, rfl, rfl, rfl, rfl, rfl, by decide, rfl⟩

/-- C30 (amended): frame of the code array. One iteration of the loop on the
opcode 0x80 (coerce) or 0xFE (getlexonce) at offset `p` never changes the
length of the code array and changes no byte outside the 9 bytes `p .. p+8`;
one iteration on any other opcode, so also on the rewritten forms 0xFC and
0xFF, leaves the whole code array unchanged when the helpers that invoke a
function leave it alone (`Env.keepsCode`). -/
theorem C30_code_frame (env : Env) (s : VMState) :
    ((byteAt s.code s.instructionPointer = 0x80 ∨ byteAt s.code s.instructionPointer = 0xfe) →
      (step env s).state.code.length = s.code.length
      ∧ ∀ i, i < s.instructionPointer ∨ s.instructionPointer + 9 ≤ i →
          byteAt (step env s).state.code i = byteAt s.code i)
    ∧ (env.keepsCode → byteAt s.code s.instructionPointer ≠ 0x80 →
        byteAt s.code s.instructionPointer ≠ 0xfe → (step env s).state.code = s.code) := by
  by_cases hip : s.instructionPointer < s.code.length
  · refine ⟨fun hop => ?_, fun hk h80 hfe =>
      (step_frame env hk s s.code rfl (fun _ _ _ => rfl) h80 hfe).1⟩
    rcases hop with h80 | hfe
    · obtain ⟨T, hT⟩ := op_coerce_code env (s.instructionPointer + 1)
        { code := s.code, instructionPointer := s.instructionPointer + 1,
          context := { s.context with exec_pos := s.instructionPointer }, sys := s.sys }
      rw [step_eq env s hip, h80, execOpcode_80, hT]
      exact ⟨rewritten_length _ _ _ _, fun i hi => rewritten_outside _ _ _ _ _ hi⟩
    · rw [step_eq env s hip, hfe, execOpcode_fe]
      rcases op_getlexonce_code env (s.instructionPointer + 1)
        { code := s.code, instructionPointer := s.instructionPointer + 1,
          context := { s.context with exec_pos := s.instructionPointer }, sys := s.sys }
        with h | ⟨T, hT⟩
      · rw [h]
        exact ⟨rfl, fun _ _ => rfl⟩
      · rw [hT]
        exact ⟨rewritten_length _ _ _ _, fun i hi => rewritten_outside _ _ _ _ _ hi⟩
  · unfold step
    rw [if_neg hip]
    exact ⟨fun _ => ⟨rfl, fun _ _ => rfl⟩, fun _ _ _ => rfl⟩

theorem C30_code_frame_witness :
    ((step Env.caching (exampleState rewriteBody [])).state.code.length = rewriteBody.length
      ∧ ∀ i, i < 0 ∨ 0 + 9 ≤ i →
          byteAt (step Env.caching (exampleState rewriteBody [])).state.code i
            = byteAt rewriteBody i)
    ∧ (step Env.returning (exampleState [0x4f, 1, 0, 0, 0, 0, 0, 0, 0, 0x47] [3])).state.code
      = [0x4f, 1, 0, 0, 0, 0, 0, 0, 0, 0x47] :=
  ⟨(C30_code_frame Env.caching (exampleState rewriteBody [])).1 (Or.inr (by decide)),
   (C30_code_frame Env.returning (exampleState [0x4f, 1, 0, 0, 0, 0, 0, 0, 0, 0x47] [3])).2
     Env.returning_keepsCode (by decide) (by decide)⟩

theorem OnlyNext_elim {m : M VMState LoopCtl} (h : OnlyNext m) (s : VMState) (a : LoopCtl)
    (s1 : VMState) (hm : m s = Res.ok a s1) : a = next := by
  unfold OnlyNext at h
  exact h s a s1 hm

theorem OnlyNext_pure_next : OnlyNext (pure next) := by
  unfold OnlyNext
  intro s a s1 h
  simp only [M_pure_apply, Res.ok.injEq] at h
  exact h.1.symm

theorem OnlyNext_throwErr (e : ASError) : OnlyNext (throwErr e) := by
  unfold OnlyNext
  intro s a s1 h
  cases h

theorem OnlyNext_bind {α : Type} (m : M VMState α) (f : α → M VMState LoopCtl)
    (hf : ∀ a, OnlyNext (f a)) : OnlyNext (m >>= f) := by
  unfold OnlyNext
  intro s a s1 h
  rw [M_bind_apply] at h
  cases hms : m s with
  | ok b s2 =>
    rw [hms] at h
    exact OnlyNext_elim (hf b) s2 a s1 h
  | throw e s2 =>
    rw [hms] at h
    cases h

theorem OnlyNext_ite (c : Prop) [Decidable c] (a b : M VMState LoopCtl)
    (ha : OnlyNext a) (hb : OnlyNext b) : OnlyNext (if c then a else b) := by
  split
  · exact ha
  · exact hb

theorem OnlyNext_getLocalAt (i : Nat) : OnlyNext (getLocalAt i) := by
  unfold getLocalAt
  repeat' first
    | with_reducible exact OnlyNext_pure_next
    | with_reducible apply OnlyNext_bind
    | with_reducible apply OnlyNext_ite
    | intro _
    | dsimp only

/-- Every case of the switch other than returnvoid and returnvalue, when it
completes, goes on with the next iteration of the loop. -/
theorem execOpcode_onlyNext (env : Env) (opcode data : Nat) (hlt : opcode < 256)
    (h47 : opcode ≠ 0x47) (h48 : opcode ≠ 0x48) : OnlyNext (execOpcode env opcode data) := by
  refine execOpcode_ind (fun op m => op ≠ 0x47 → op ≠ 0x48 → OnlyNext m) env data
    ?_ ?_ ?_ ?_ ?_ ?_ ?_ ?_ ?_ ?_ ?_ ?_ ?_ ?_ ?_ ?_ ?_ ?_ ?_ ?_ ?_ ?_ ?_ ?_ ?_ ?_ ?_ ?_ ?_ ?_
    ?_ ?_ ?_ ?_ ?_ ?_ ?_ ?_ ?_ ?_ ?_ ?_ ?_ ?_ ?_ ?_ ?_ ?_ ?_ ?_ ?_ ?_ ?_ ?_ ?_ ?_ ?_ ?_ ?_ ?_
    ?_ ?_ ?_ ?_ ?_ ?_ ?_ ?_ ?_ ?_ ?_ ?_ ?_ ?_ ?_ ?_ ?_ ?_ ?_ ?_ ?_ ?_ ?_ ?_ ?_ ?_ ?_ ?_ ?_ ?_
    ?_ ?_ ?_ ?_ ?_ ?_ ?_ ?_ ?_ ?_ ?_ ?_ ?_ ?_ ?_ ?_ ?_ ?_ ?_ ?_ ?_ ?_ ?_ ?_ ?_ ?_ ?_ ?_ ?_ ?_
    ?_ ?_ ?_ ?_ ?_ ?_ ?_ ?_ ?_ ?_ ?_ ?_ ?_ ?_ ?_ ?_ ?_ ?_ ?_ ?_ ?_ ?_ ?_ ?_ ?_ ?_ ?_ ?_ ?_ ?_
    ?_ ?_ ?_ ?_ ?_ ?_ ?_ ?_ ?_ ?_
    ?_ opcode hlt h47 h48
  all_goals intro h1 h2
  all_goals first
    | exact absurd rfl h1
    | exact absurd rfl h2
    | skip
  all_goals first
    | unfold op_ctx
    | unfold op_ctx_u32
    | unfold op_call_u32
    | unfold op_dxnslate
    | unfold op_kill
    | unfold op_if2
    | unfold op_jump
    | unfold op_if1
    | unfold op_lookupswitch
    | unfold op_pop2_push
    | unfold op_push_const
    | unfold op_pushbyte
    | unfold op_pushshort
    | unfold op_pushbool
    | unfold op_pop
    | unfold op_dup
    | unfold op_swap
    | unfold op_push_ctx_u32
    | unfold op_pushint
    | unfold op_pushuint
    | unfold op_pushdouble
    | unfold op_hasnext2
    | unfold op_callstatic
    | unfold op_call2
    | unfold op_returnvoid
    | unfold op_returnvalue
    | unfold op_constructprop
    | unfold op_sxi
    | unfold op_newactivation
    | unfold op_findprop
    | unfold op_finddef
    | unfold op_u32_ctx
    | unfold op_setproperty
    | unfold op_getlocal
    | unfold op_setlocal
    | unfold op_getglobalscope
    | unfold op_getscopeobject
    | unfold op_getproperty
    | unfold op_initproperty
    | unfold op_deleteproperty
    | unfold op_getslot
    | unfold op_setslot
    | unfold op_getglobalslot
    | unfold op_setglobalslot
    | unfold op_pop_push
    | unfold op_convert_i
    | unfold op_convert_u
    | unfold op_convert_d
    | unfold op_convert_b
    | unfold op_convert_o
    | unfold op_coerce
    | unfold op_coerce_s
    | unfold op_astype
    | unfold op_negate
    | unfold op_increment
    | unfold op_decrement
    | unfold op_not
    | unfold op_unary_i
    | unfold op_add
    | unfold op_arith
    | unfold op_divide
    | unfold op_binary_i
    | unfold op_compare
    | unfold op_istype
    | unfold op_binary_b
    | unfold op_binary_ii
    | unfold op_getlocal_n
    | unfold op_setlocal_n
    | unfold op_skip4
    | unfold op_setslot_no_coerce
    | unfold op_coerceearly
    | unfold op_getscopeatindex
    | unfold op_getlexonce
    | unfold op_pushearly
    | skip
  all_goals repeat' first
    | with_reducible exact OnlyNext_pure_next
    | with_reducible exact OnlyNext_throwErr _
    | with_reducible exact OnlyNext_getLocalAt _
    | with_reducible apply OnlyNext_bind
    | with_reducible apply OnlyNext_ite
    | intro _
    | dsimp only
    | split

theorem step_ret_cases (env : Env) (s sF : VMState) (v : Nat)
    (h : step env s = Res.ok (ret v) sF) :
    s.instructionPointer < s.code.length
    ∧ ((byteAt s.code s.instructionPointer = 0x47 ∧ v = 0
        ∧ sF.context.stack = s.context.stack)
      ∨ (byteAt s.code s.instructionPointer = 0x48
        ∧ s.context.stack = v :: sF.context.stack)) := by
  by_cases hip : s.instructionPointer < s.code.length
  swap
  · simp only [step, hip, if_false] at h
    cases h
  refine ⟨hip, ?_⟩
  by_cases h47 : byteAt s.code s.instructionPointer = 0x47
  · left
    rw [step_returnvoid env s hip h47] at h
    simp only [Res.ok.injEq, LoopCtl.ret.injEq] at h
    refine ⟨h47, h.1.symm, ?_⟩
    rw [← h.2]
  by_cases h48 : byteAt s.code s.instructionPointer = 0x48
  · right
    refine ⟨h48, ?_⟩
    cases hst : s.context.stack with
    | nil =>
      rw [step_eq env s hip, h48, execOpcode_48] at h
      simp [op_returnvalue, runtime_stack_pop, hst] at h
    | cons a rest =>
      rw [step_returnvalue env s a rest hip h48 hst] at h
      simp only [Res.ok.injEq, LoopCtl.ret.injEq] at h
      rw [← h.2, h.1]
  · exfalso
    rw [step_eq env s hip] at h
    have hn := OnlyNext_elim
      (execOpcode_onlyNext env (byteAt s.code s.instructionPointer) (s.instructionPointer + 1)
        (byteAt_lt _ _) h47 h48) _ _ _ h
    cases hn

theorem loop_lastState (env : Env) (fuel : Nat) (s sF : VMState) (v : Nat)
    (h : loop env fuel s = some (Res.ok v sF)) :
    step env (lastState env fuel s) = Res.ok (ret v) sF := by
  induction fuel generalizing s with
  | zero => simp [loop] at h
  | succ n ih =>
    cases hs : step env s with
    | throw e s1 =>
      simp only [loop, hs] at h
      cases h
    | ok a s1 =>
      cases a with
      | next =>
        simp only [loop, hs] at h
        simp only [lastState, hs]
        exact ih s1 h
      | ret w =>
        simp only [loop, hs, Option.some.injEq, Res.ok.injEq] at h
        simp only [lastState, hs]
        rw [h.1, h.2]

/-- C28 (counterexample): two branch-free bodies started on an empty operand
stack within max_stack 4: through `executeFunctionFast`, the body `pushbyte 1;
returnvalue` exits with operand-stack depth 0, not 1, since returnvalue pops
the value it returns, and `pushbyte 1; returnvoid` exits with depth 1, not 0,
since returnvoid leaves the stack as it is. -/
theorem C28_counterexample :
    (∃ v sF, executeFunctionFast Env.failing 2 [0x24, 1, 0x48] (exampleContext []) exampleSys
        = some (Res.ok v sF)
      ∧ sF.context.stack.length = 0)
    ∧ (∃ sF, executeFunctionFast Env.failing 2 [0x24, 1, 0x47] (exampleContext []) exampleSys
        = some (Res.ok 0 sF)
      ∧ sF.context.stack.length = 1) := by
  constructor
  · apply Exists.intro
    apply Exists.intro
    refine ⟨?h1, ?h2⟩
    case h1 =>
      unfold executeFunctionFast
      rw [loop_step_next Env.failing 1 _ _
        (step_pushbyte Env.failing _ (by decide) (by decide) (by decide))]
      exact loop_step_ret Env.failing 0 _ _ _
        (step_returnvalue Env.failing _ _ _ (by decide) (by decide) rfl)
    case h2 => rfl
  · apply Exists.intro
    refine ⟨?h1, ?h2⟩
    case h1 =>
      unfold executeFunctionFast
      rw [loop_step_next Env.failing 1 _ _
        (step_pushbyte Env.failing _ (by decide) (by decide) (by decide))]
      exact loop_step_ret Env.failing 0 _ _ _
        (step_returnvoid Env.failing _ (by decide) (by decide))
    case h2 => rfl

/-- C28 (amended): whenever a run of the loop returns `v` in the state `sF`,
its last iteration, started in `lastState`, executes returnvoid (0x47) or
returnvalue (0x48) and no other opcode returns; through returnvoid `v` is the
null pointer and the operand stack at exit is the stack the opcode found,
through returnvalue the stack the opcode found is `v` on top of the stack at
exit. So the exit depth is the depth at the return opcode, less one for
returnvalue: it is 0 exactly when that stack was empty (returnvoid) or held
the returned value alone (returnvalue). -/
theorem C28_exit_depth (env : Env) (fuel : Nat) (s sF : VMState) (v : Nat)
    (h : loop env fuel s = some (Res.ok v sF)) :
    step env (lastState env fuel s) = Res.ok (ret v) sF
    ∧ ((byteAt (lastState env fuel s).code (lastState env fuel s).instructionPointer = 0x47
        ∧ v = 0
        ∧ sF.context.stack = (lastState env fuel s).context.stack
        ∧ sF.context.stack.length = (lastState env fuel s).context.stack.length)
      ∨ (byteAt (lastState env fuel s).code (lastState env fuel s).instructionPointer = 0x48
        ∧ (lastState env fuel s).context.stack = v :: sF.context.stack
        ∧ sF.context.stack.length + 1 = (lastState env fuel s).context.stack.length)) := by
  have hl := loop_lastState env fuel s sF v h
  refine ⟨hl, ?_⟩
  rcases (step_ret_cases env _ sF v hl).2 with ⟨h1, h2, h3⟩ | ⟨h1, h2⟩
  · exact Or.inl ⟨h1, h2, h3, by rw [h3]⟩
  · exact Or.inr ⟨h1, h2, by rw [h2]; rfl⟩

theorem C28_exit_depth_witness :
    ∃ sF, loop Env.failing 2 (exampleState [0x24, 1, 0x24, 2, 0x48] []) = none
      ∧ loop Env.failing 3 (exampleState [0x24, 1, 0x24, 2, 0x48] []) = some (Res.ok 9 sF)
      ∧ byteAt (lastState Env.failing 3 (exampleState [0x24, 1, 0x24, 2, 0x48] [])).code
          (lastState Env.failing 3
            (exampleState [0x24, 1, 0x24, 2, 0x48] [])).instructionPointer = 0x48
      ∧ (lastState Env.failing 3 (exampleState [0x24, 1, 0x24, 2, 0x48] [])).context.stack
          = 9 :: sF.context.stack
      ∧ sF.context.stack.length = 1 := by
  have hrun : ∃ sF, loop Env.failing 3 (exampleState [0x24, 1, 0x24, 2, 0x48] [])
      = some (Res.ok 9 sF) ∧ sF.context.stack.length = 1 := by
    apply Exists.intro
    refine ⟨?h1, ?h2⟩
    case h1 =>
      unfold exampleState
      rw [loop_step_next Env.failing 2 _ _
        (step_pushbyte Env.failing _ (by decide) (by decide) (by decide))]
      rw [loop_step_next Env.failing 1 _ _
        (step_pushbyte Env.failing _ (by decide) (by decide) (by decide))]
      exact loop_step_ret Env.failing 0 _ _ _
        (step_returnvalue Env.failing _ _ _ (by decide) (by decide) rfl)
    case h2 => rfl
  obtain ⟨sF, hF, hlen⟩ := hrun
  have hnone : loop Env.failing 2 (exampleState [0x24, 1, 0x24, 2, 0x48] []) = none := by
    unfold exampleState
    rw [loop_step_next Env.failing 1 _ _
      (step_pushbyte Env.failing _ (by decide) (by decide) (by decide))]
    rw [loop_step_next Env.failing 0 _ _
      (step_pushbyte Env.failing _ (by decide) (by decide) (by decide))]
    rfl
  rcases (C28_exit_depth Env.failing 3 _ sF 9 hF).2 with ⟨h1, h2, _⟩ | ⟨h1, h2, _⟩
  · exact absurd h2 (by decide)
  · exact ⟨sF, hnone, hF, h1, h2, hlen⟩

theorem KeepsPos_elim {α : Type} {m : M VMState α} (h : KeepsPos m) (s : VMState) :
    (m s).state.context.exec_pos = s.context.exec_pos := by
  unfold KeepsPos at h
  exact h s

theorem KeepsPos_pure {α : Type} (a : α) : KeepsPos (pure a : M VMState α) := by
  unfold KeepsPos
  intro s
  rfl

theorem KeepsPos_throwErr {α : Type} (e : ASError) : KeepsPos (throwErr e : M VMState α) := by
  unfold KeepsPos
  intro s
  rfl

theorem KeepsPos_read {α : Type} (g : VMState → α) : KeepsPos (fun s => Res.ok (g s) s : M VMState α) := by
  unfold KeepsPos
  intro s
  rfl

theorem KeepsPos_uints (data k : Nat) : KeepsPos (uints data k) := by
  unfold KeepsPos
  intro s
  rfl

theorem KeepsPos_ints (data k : Nat) : KeepsPos (ints data k) := by
  unfold KeepsPos
  intro s
  rfl

theorem KeepsPos_word64 (data : Nat) : KeepsPos (word64 data) := by
  unfold KeepsPos
  intro s
  rfl

theorem KeepsPos_advance (n : Nat) : KeepsPos (advance n) := by
  unfold KeepsPos
  intro s
  rfl

theorem KeepsPos_setIP (n : Nat) : KeepsPos (setIP n) := by
  unfold KeepsPos
  intro s
  rfl

theorem KeepsPos_getIP : KeepsPos getIP := by
  unfold KeepsPos
  intro s
  rfl

theorem KeepsPos_getContext : KeepsPos getContext := by
  unfold KeepsPos
  intro s
  rfl

theorem KeepsPos_getSys : KeepsPos getSys := by
  unfold KeepsPos
  intro s
  rfl

theorem KeepsPos_setLocalSlot (i v : Nat) : KeepsPos (setLocalSlot i v) := by
  unfold KeepsPos
  intro s
  rfl

theorem KeepsPos_rewriteCode (data opcode operand : Nat) : KeepsPos (rewriteCode data opcode operand) := by
  unfold KeepsPos
  intro s
  rfl

theorem KeepsPos_peek : KeepsPos runtime_stack_peek := by
  unfold KeepsPos
  intro s
  unfold runtime_stack_peek
  cases s.context.stack <;> rfl

theorem KeepsPos_bind {α β : Type} (m : M VMState α) (f : α → M VMState β)
    (hm : KeepsPos m) (hf : ∀ a, KeepsPos (f a)) : KeepsPos (m >>= f) := by
  unfold KeepsPos
  intro s
  have h1 := KeepsPos_elim hm s
  rw [M_bind_apply]
  cases hms : m s with
  | ok a s1 =>
    rw [hms] at h1
    exact (KeepsPos_elim (hf a) s1).trans h1
  | throw e s1 =>
    rw [hms] at h1
    exact h1

theorem KeepsPos_ite {α : Type} (c : Prop) [Decidable c] (a b : M VMState α)
    (ha : KeepsPos a) (hb : KeepsPos b) : KeepsPos (if c then a else b) := by
  split
  · exact ha
  · exact hb

theorem KeepsPos_onSys {α : Type} (f : M SystemState α) : KeepsPos (onSys f) := by
  unfold KeepsPos
  intro s
  unfold onSys
  cases f s.sys <;> rfl

theorem KeepsPos_onCtx {α : Type} (f : M World α) (hf : helperKeepsPos f) :
    KeepsPos (onCtx f) := by
  unfold KeepsPos
  intro s
  have h := hf { context := s.context, sys := s.sys }
  unfold onCtx
  cases hw : f { context := s.context, sys := s.sys } with
  | ok a w =>
    rw [hw] at h
    exact h
  | throw e w =>
    rw [hw] at h
    exact h

theorem KeepsPos_onCall {α : Type} (f : M Machine α) (hf : callKeepsPos f) :
    KeepsPos (onCall f) := by
  unfold KeepsPos
  intro s
  have h := hf { context := s.context, sys := s.sys, code := s.code }
  unfold onCall
  cases hw : f { context := s.context, sys := s.sys, code := s.code } with
  | ok a w =>
    rw [hw] at h
    exact h
  | throw e w =>
    rw [hw] at h
    exact h

theorem KeepsPos_assertInCode (dest : Nat) : KeepsPos (assertInCode dest) := by
  unfold KeepsPos
  intro s
  unfold assertInCode
  split <;> rfl

theorem KeepsPos_assert_and_throw (b : Bool) : KeepsPos (assert_and_throw b) := by
  unfold KeepsPos
  intro s
  unfold assert_and_throw
  split <;> rfl

theorem KeepsPos_push (v : Nat) : KeepsPos (runtime_stack_push v) := by
  unfold KeepsPos
  intro s
  unfold runtime_stack_push
  split <;> rfl

theorem KeepsPos_pop : KeepsPos runtime_stack_pop := by
  unfold KeepsPos
  intro s
  unfold runtime_stack_pop
  cases s.context.stack <;> rfl

theorem KeepsPos_branchIf (b : Bool) (dest : Nat) : KeepsPos (branchIf b dest) := by
  unfold branchIf
  repeat' first
    | with_reducible exact KeepsPos_pure _
    | with_reducible exact KeepsPos_throwErr _
    | with_reducible exact KeepsPos_onSys _
    | with_reducible exact KeepsPos_uints _ _
    | with_reducible exact KeepsPos_ints _ _
    | with_reducible exact KeepsPos_word64 _
    | with_reducible exact KeepsPos_advance _
    | with_reducible exact KeepsPos_setIP _
    | with_reducible exact KeepsPos_getIP
    | with_reducible exact KeepsPos_getContext
    | with_reducible exact KeepsPos_getSys
    | with_reducible exact KeepsPos_setLocalSlot _ _
    | with_reducible exact KeepsPos_rewriteCode _ _ _
    | with_reducible exact KeepsPos_assertInCode _
    | with_reducible exact KeepsPos_assert_and_throw _
    | with_reducible exact KeepsPos_push _
    | with_reducible exact KeepsPos_pop
    | with_reducible exact KeepsPos_peek
    | with_reducible exact KeepsPos_read _
    | with_reducible apply KeepsPos_bind
    | with_reducible apply KeepsPos_ite
    | intro _
    | dsimp only
    | split

theorem KeepsPos_getLocalAt (i : Nat) : KeepsPos (getLocalAt i) := by
  unfold getLocalAt
  repeat' first
    | with_reducible exact KeepsPos_pure _
    | with_reducible exact KeepsPos_throwErr _
    | with_reducible exact KeepsPos_onSys _
    | with_reducible exact KeepsPos_uints _ _
    | with_reducible exact KeepsPos_ints _ _
    | with_reducible exact KeepsPos_word64 _
    | with_reducible exact KeepsPos_advance _
    | with_reducible exact KeepsPos_setIP _
    | with_reducible exact KeepsPos_getIP
    | with_reducible exact KeepsPos_getContext
    | with_reducible exact KeepsPos_getSys
    | with_reducible exact KeepsPos_setLocalSlot _ _
    | with_reducible exact KeepsPos_rewriteCode _ _ _
    | with_reducible exact KeepsPos_assertInCode _
    | with_reducible exact KeepsPos_assert_and_throw _
    | with_reducible exact KeepsPos_push _
    | with_reducible exact KeepsPos_pop
    | with_reducible exact KeepsPos_peek
    | with_reducible exact KeepsPos_read _
    | with_reducible apply KeepsPos_bind
    | with_reducible apply KeepsPos_ite
    | intro _
    | dsimp only
    | split

theorem KeepsPos_setLocalGuarded (i obj : Nat) : KeepsPos (setLocalGuarded i obj) := by
  unfold setLocalGuarded
  repeat' first
    | with_reducible exact KeepsPos_pure _
    | with_reducible exact KeepsPos_throwErr _
    | with_reducible exact KeepsPos_onSys _
    | with_reducible exact KeepsPos_uints _ _
    | with_reducible exact KeepsPos_ints _ _
    | with_reducible exact KeepsPos_word64 _
    | with_reducible exact KeepsPos_advance _
    | with_reducible exact KeepsPos_setIP _
    | with_reducible exact KeepsPos_getIP
    | with_reducible exact KeepsPos_getContext
    | with_reducible exact KeepsPos_getSys
    | with_reducible exact KeepsPos_setLocalSlot _ _
    | with_reducible exact KeepsPos_rewriteCode _ _ _
    | with_reducible exact KeepsPos_assertInCode _
    | with_reducible exact KeepsPos_assert_and_throw _
    | with_reducible exact KeepsPos_push _
    | with_reducible exact KeepsPos_pop
    | with_reducible exact KeepsPos_peek
    | with_reducible exact KeepsPos_read _
    | with_reducible apply KeepsPos_bind
    | with_reducible apply KeepsPos_ite
    | intro _
    | dsimp only
    | split

set_option maxHeartbeats 1000000 in
/-- No case of the switch assigns `exec_pos`: when the helpers that are
handed the call context leave the field alone, so does every case body,
whether it completes or throws. -/
theorem execOpcode_keepsPos (env : Env) (hk : env.keepsExecPos) (opcode data : Nat)
    (hlt : opcode < 256) : KeepsPos (execOpcode env opcode data) := by
  unfold Env.keepsExecPos at hk
  obtain ⟨hk0, hk1, hk2, hk3, hk4, hk5, hk6, hk7, hk8, hk9, hk10, hk11, hk12, hk13, hk14, hk15,
    hk16, hk17, hk18, hk19, hk20, hk21, hk22, hk23, hk24, hk25, hk26, hk27, hk28, hk29,
    hk30, hk31, hk32, hk33, hk34, hk35, hk36, hk37, hk38, hk39, hk40, hk41, hk42, hk43,
    hk44⟩ := hk
  refine execOpcode_ind (fun _ m => KeepsPos m) env data
    ?_ ?_ ?_ ?_ ?_ ?_ ?_ ?_ ?_ ?_ ?_ ?_ ?_ ?_ ?_ ?_ ?_ ?_ ?_ ?_ ?_ ?_ ?_ ?_ ?_ ?_ ?_ ?_ ?_ ?_
    ?_ ?_ ?_ ?_ ?_ ?_ ?_ ?_ ?_ ?_ ?_ ?_ ?_ ?_ ?_ ?_ ?_ ?_ ?_ ?_ ?_ ?_ ?_ ?_ ?_ ?_ ?_ ?_ ?_ ?_
    ?_ ?_ ?_ ?_ ?_ ?_ ?_ ?_ ?_ ?_ ?_ ?_ ?_ ?_ ?_ ?_ ?_ ?_ ?_ ?_ ?_ ?_ ?_ ?_ ?_ ?_ ?_ ?_ ?_ ?_
    ?_ ?_ ?_ ?_ ?_ ?_ ?_ ?_ ?_ ?_ ?_ ?_ ?_ ?_ ?_ ?_ ?_ ?_ ?_ ?_ ?_ ?_ ?_ ?_ ?_ ?_ ?_ ?_ ?_ ?_
    ?_ ?_ ?_ ?_ ?_ ?_ ?_ ?_ ?_ ?_ ?_ ?_ ?_ ?_ ?_ ?_ ?_ ?_ ?_ ?_ ?_ ?_ ?_ ?_ ?_ ?_ ?_ ?_ ?_ ?_
    ?_ ?_ ?_ ?_ ?_ ?_ ?_ ?_ ?_ ?_
    ?_ opcode hlt
  all_goals first
    | unfold op_ctx
    | unfold op_ctx_u32
    | unfold op_call_u32
    | unfold op_dxnslate
    | unfold op_kill
    | unfold op_if2
    | unfold op_jump
    | unfold op_if1
    | unfold op_lookupswitch
    | unfold op_pop2_push
    | unfold op_push_const
    | unfold op_pushbyte
    | unfold op_pushshort
    | unfold op_pushbool
    | unfold op_pop
    | unfold op_dup
    | unfold op_swap
    | unfold op_push_ctx_u32
    | unfold op_pushint
    | unfold op_pushuint
    | unfold op_pushdouble
    | unfold op_hasnext2
    | unfold op_callstatic
    | unfold op_call2
    | unfold op_returnvoid
    | unfold op_returnvalue
    | unfold op_constructprop
    | unfold op_sxi
    | unfold op_newactivation
    | unfold op_findprop
    | unfold op_finddef
    | unfold op_u32_ctx
    | unfold op_setproperty
    | unfold op_getlocal
    | unfold op_setlocal
    | unfold op_getglobalscope
    | unfold op_getscopeobject
    | unfold op_getproperty
    | unfold op_initproperty
    | unfold op_deleteproperty
    | unfold op_getslot
    | unfold op_setslot
    | unfold op_getglobalslot
    | unfold op_setglobalslot
    | unfold op_pop_push
    | unfold op_convert_i
    | unfold op_convert_u
    | unfold op_convert_d
    | unfold op_convert_b
    | unfold op_convert_o
    | unfold op_coerce
    | unfold op_coerce_s
    | unfold op_astype
    | unfold op_negate
    | unfold op_increment
    | unfold op_decrement
    | unfold op_not
    | unfold op_unary_i
    | unfold op_add
    | unfold op_arith
    | unfold op_divide
    | unfold op_binary_i
    | unfold op_compare
    | unfold op_istype
    | unfold op_binary_b
    | unfold op_binary_ii
    | unfold op_getlocal_n
    | unfold op_setlocal_n
    | unfold op_skip4
    | unfold op_setslot_no_coerce
    | unfold op_coerceearly
    | unfold op_getscopeatindex
    | unfold op_getlexonce
    | unfold op_pushearly
    | skip
  all_goals repeat' first
    | with_reducible exact KeepsPos_pure _
    | with_reducible exact KeepsPos_throwErr _
    | with_reducible exact KeepsPos_onSys _
    | with_reducible exact KeepsPos_uints _ _
    | with_reducible exact KeepsPos_ints _ _
    | with_reducible exact KeepsPos_word64 _
    | with_reducible exact KeepsPos_advance _
    | with_reducible exact KeepsPos_setIP _
    | with_reducible exact KeepsPos_getIP
    | with_reducible exact KeepsPos_getContext
    | with_reducible exact KeepsPos_getSys
    | with_reducible exact KeepsPos_setLocalSlot _ _
    | with_reducible exact KeepsPos_rewriteCode _ _ _
    | with_reducible exact KeepsPos_assertInCode _
    | with_reducible exact KeepsPos_assert_and_throw _
    | with_reducible exact KeepsPos_push _
    | with_reducible exact KeepsPos_pop
    | with_reducible exact KeepsPos_peek
    | with_reducible exact KeepsPos_branchIf _ _
    | with_reducible exact KeepsPos_getLocalAt _
    | with_reducible exact KeepsPos_setLocalGuarded _ _
    | (with_reducible refine KeepsPos_onCtx _ ?_
       first
       | exact hk0
       | exact hk1 _
       | exact hk2 _
       | exact hk3 _
       | exact hk4 _
       | exact hk5
       | exact hk6
       | exact hk7
       | exact hk8 _
       | exact hk9 _
       | exact hk10 _
       | exact hk11 _
       | exact hk12 _
       | exact hk13 _ _
       | exact hk14 _
       | exact hk15
       | exact hk16
       | exact hk17 _
       | exact hk18
       | exact hk19
       | exact hk20 _
       | exact hk21 _
       | exact hk22 _
       | exact hk23 _ _ _
       | exact hk24 _ _ _
       | exact hk25 _ _ _
       | exact hk26 _
       | exact hk27 _ _
       | exact hk28 _
       | exact hk29 _
       | exact hk30 _
       | exact hk31
       | exact hk32 _
       | exact hk33 _
       | exact hk34 _
       | exact hk35 _
       | exact hk36 _
       | exact hk37 _
       | exact hk38 _
       | exact hk39
       | exact hk40 _
       | exact hk41 _
       | exact hk42 _
       | exact hk43 _
       | exact hk44 _)
    | (with_reducible refine KeepsPos_onCall _ ?_
       first
       | exact hk0
       | exact hk1 _
       | exact hk2 _
       | exact hk3 _
       | exact hk4 _
       | exact hk5
       | exact hk6
       | exact hk7
       | exact hk8 _
       | exact hk9 _
       | exact hk10 _
       | exact hk11 _
       | exact hk12 _
       | exact hk13 _ _
       | exact hk14 _
       | exact hk15
       | exact hk16
       | exact hk17 _
       | exact hk18
       | exact hk19
       | exact hk20 _
       | exact hk21 _
       | exact hk22 _
       | exact hk23 _ _ _
       | exact hk24 _ _ _
       | exact hk25 _ _ _
       | exact hk26 _
       | exact hk27 _ _
       | exact hk28 _
       | exact hk29 _
       | exact hk30 _
       | exact hk31
       | exact hk32 _
       | exact hk33 _
       | exact hk34 _
       | exact hk35 _
       | exact hk36 _
       | exact hk37 _
       | exact hk38 _
       | exact hk39
       | exact hk40 _
       | exact hk41 _
       | exact hk42 _
       | exact hk43 _
       | exact hk44 _)
    | with_reducible exact KeepsPos_read _
    | with_reducible apply KeepsPos_bind
    | with_reducible apply KeepsPos_ite
    | intro _
    | dsimp only
    | split

theorem Env.failing_keepsExecPos : Env.failing.keepsExecPos := by
  unfold Env.keepsExecPos
  refine ⟨?_, ?_, ?_, ?_, ?_, ?_, ?_, ?_, ?_, ?_, ?_, ?_, ?_, ?_, ?_, ?_, ?_, ?_, ?_, ?_, ?_, ?_, ?_, ?_, ?_, ?_, ?_, ?_, ?_, ?_, ?_, ?_, ?_, ?_, ?_, ?_, ?_, ?_, ?_, ?_, ?_, ?_, ?_, ?_, ?_⟩
  all_goals intros
  all_goals intro w
  all_goals rfl

/-- C23: an iteration of the dispatch loop started at an offset inside the
code runs the case of the opcode there on the state `enterCase`, in which
`exec_pos` is already that offset; no case assigns the field, so, the helpers
that are handed the context leaving it alone, `exec_pos` is the offset of the
opcode byte in the state the iteration ends in, and in particular in the
state of every error the opcode raises. -/
theorem C23_exec_pos (env : Env) (hk : env.keepsExecPos) (s : VMState)
    (hip : s.instructionPointer < s.code.length) :
    step env s = execOpcode env (byteAt s.code s.instructionPointer) (s.instructionPointer + 1)
        (enterCase s)
    ∧ (enterCase s).context.exec_pos = s.instructionPointer
    ∧ (step env s).state.context.exec_pos = s.instructionPointer
    ∧ (∀ e s1, step env s = Res.throw e s1 → s1.context.exec_pos = s.instructionPointer) := by
  have hstep : step env s = execOpcode env (byteAt s.code s.instructionPointer)
      (s.instructionPointer + 1) (enterCase s) := step_eq env s hip
  have hpos : (step env s).state.context.exec_pos = s.instructionPointer := by
    rw [hstep]
    exact KeepsPos_elim
      (execOpcode_keepsPos env hk (byteAt s.code s.instructionPointer) (s.instructionPointer + 1)
        (byteAt_lt _ _)) (enterCase s)
  refine ⟨hstep, rfl, hpos, fun e s1 h => ?_⟩
  rw [h] at hpos
  exact hpos

theorem C23_exec_pos_witness :
    underflowState.context.exec_pos = 0
    ∧ ∃ s1, step Env.failing underflowState = Res.throw ASError.StackUnderflow s1
      ∧ s1.context.exec_pos = 2 ∧ s1.instructionPointer = 3 := by
  have hthrow : ∃ s1, step Env.failing underflowState = Res.throw ASError.StackUnderflow s1
      ∧ s1.instructionPointer = 3 := by
    apply Exists.intro
    refine ⟨?h1, ?h2⟩
    case h1 =>
      rw [step_eq Env.failing underflowState (by decide)]
      rfl
    case h2 => rfl
  obtain ⟨s1, h1, h2⟩ := hthrow
  exact ⟨rfl, s1, h1,
    ((C23_exec_pos Env.failing Env.failing_keepsExecPos underflowState (by decide)).2.2.2
      _ s1 h1), h2⟩

theorem step_arith_double (env : Env) (op : Nat) (intOp : Int → Int → IntResult)
    (dblOp : Nat → Nat → M SystemState Nat) (s : VMState) (v1 v2 : Nat) (rest : List Nat)
    (d : Nat) (h1 : SystemState)
    (hex : ∀ data, execOpcode env op data = op_arith intOp dblOp)
    (hip : s.instructionPointer < s.code.length)
    (hop : byteAt s.code s.instructionPointer = op)
    (hstack : s.context.stack = v2 :: v1 :: rest)
    (hmax : s.context.stack.length ≤ s.context.max_stack)
    (hint : ¬ (isIntegral s.sys v1 = true ∧ isIntegral s.sys v2 = true))
    (hd : dblOp v1 v2 s.sys = Res.ok d h1) :
    step env s = Res.ok next
      { code := s.code
        instructionPointer := s.instructionPointer + 1
        context := { s.context with
          exec_pos := s.instructionPointer
          stack := (h1.objects.length + 1) :: rest }
        sys := { h1 with
          objects := h1.objects ++
            [{ type := T_NUMBER, ref_count := 1, val := 0, ival := 0, dval := d,
               isfloat := true }] } } := by
  have hroom : rest.length < s.context.max_stack := by
    rw [hstack] at hmax
    simp at hmax
    omega
  rw [step_eq env s hip, hop, hex]
  simp only [op_arith, runtime_stack_pop, hstack, getSys, M_bind_apply, Bool.and_eq_true]
  rw [if_neg hint]
  simp [onSys, hd, abstract_d, alloc, runtime_stack_push, hroom]

/-- The outcome of coerceearly depends on the code array only through the
64-bit word of its operand record. -/
theorem op_coerceearly_word (env : Env) (data : Nat) (s sx : VMState)
    (hw : readU64 sx.code data = readU64 s.code data)
    (hip : sx.instructionPointer = s.instructionPointer)
    (hctx : sx.context = s.context) (hsys : sx.sys = s.sys) :
    (op_coerceearly env data sx).result = (op_coerceearly env data s).result
    ∧ (op_coerceearly env data sx).state.context = (op_coerceearly env data s).state.context
    ∧ (op_coerceearly env data sx).state.sys = (op_coerceearly env data s).state.sys
    ∧ (op_coerceearly env data sx).state.instructionPointer
        = (op_coerceearly env data s).state.instructionPointer := by
  obtain ⟨cx, ipx, ctxx, sysx⟩ := sx
  simp only at hw hip hctx hsys
  subst hip hctx hsys
  simp only [op_coerceearly, word64, M_bind_apply, runtime_stack_pop, hw]
  cases hst : s.context.stack with
  | nil => simp [Res.state, Res.result]
  | cons o rest =>
    simp only [onSys]
    cases hc : env.Type_coerce (readU64 s.code data) o s.sys with
    | ok r h =>
      by_cases hroom : rest.length < s.context.max_stack <;>
        simp [runtime_stack_push, hroom, Res.state, Res.result, advance]
    | throw e h => simp [Res.state, Res.result]

/-- C31 (counterexample): two bodies whose coerce (0x80) has the same first
four operand bytes, 9 as a little-endian u32, and differ in operand byte 4
only. Run from the same context with a name resolution that maps the name at
address `n` to the type at address `n`, the first caches the pointer 9 and
pushes the result of coercing with the type at 9, the second caches the
pointer 4294967305 and pushes the result of coercing with the type there. -/
theorem C31_counterexample :
    readU32 (coerceState 0).code 1 = 9 ∧ readU32 (coerceState 1).code 1 = 9
    ∧ (coerceState 1).context = (coerceState 0).context
    ∧ (coerceState 1).sys = (coerceState 0).sys
    ∧ ∃ s0 s1, step Env.typed (coerceState 0) = Res.ok next s0
      ∧ step Env.typed (coerceState 1) = Res.ok next s1
      ∧ readU64 s0.code 1 = 9 ∧ readU64 s1.code 1 = 4294967305
      ∧ s0.context.stack = [9] ∧ s1.context.stack = [4294967305] := by
  refine ⟨by decide, by decide, rfl, rfl, ?_⟩
  apply Exists.intro
  apply Exists.intro
  refine ⟨?h1, ?h2, ?h3⟩
  case h1 =>
    rw [step_coerce_eq Env.typed (coerceState 0) (by decide) (by decide) (by decide)]
    rfl
  case h2 =>
    rw [step_coerce_eq Env.typed (coerceState 1) (by decide) (by decide) (by decide)]
    rfl
  case h3 => exact ⟨by decide, by decide, rfl, rfl⟩

/-- C31 (amended): on the first execution of coerce (0x80) at offset `p` the
operand is the pointer-wide word `data->names[0]`, all eight operand bytes
read as one little-endian 64-bit word. The Type `T` resolved from that word is
the pointer cached in the operand record, and the value pushed is the result
of coercing the top of the stack with `T`; two executions from the same context
whose eight operand bytes hold the same word cache the same pointer and end
with the same outcome, context, objects and instruction pointer. -/
theorem C31_coerce_operand (env : Env) (s sx : VMState) (T : Nat)
    (hlen : s.instructionPointer + 9 ≤ s.code.length)
    (hlenx : sx.instructionPointer + 9 ≤ sx.code.length)
    (hop : byteAt s.code s.instructionPointer = 0x80)
    (hopx : byteAt sx.code sx.instructionPointer = 0x80)
    (hsame : sx.instructionPointer = s.instructionPointer)
    (hctx : sx.context = s.context) (hsys : sx.sys = s.sys)
    (hT : env.getTypeFromMultiname (readU64 s.code (s.instructionPointer + 1))
      { context := { s.context with exec_pos := s.instructionPointer }, sys := s.sys } = T)
    (hfit : T < 18446744073709551616)
    (hword : readU64 sx.code (s.instructionPointer + 1)
      = readU64 s.code (s.instructionPointer + 1)) :
    readU64 (step env s).state.code (s.instructionPointer + 1) = T
    ∧ readU64 (step env sx).state.code (s.instructionPointer + 1) = T
    ∧ (step env sx).result = (step env s).result
    ∧ (step env sx).state.context = (step env s).state.context
    ∧ (step env sx).state.sys = (step env s).state.sys
    ∧ (step env sx).state.instructionPointer = (step env s).state.instructionPointer
    ∧ (∀ o r rest h, s.context.stack = o :: rest →
        s.context.stack.length ≤ s.context.max_stack →
        env.Type_coerce T o s.sys = Res.ok r h →
        ∃ s1, step env s = Res.ok next s1 ∧ s1.context.stack = r :: rest ∧ s1.sys = h) := by
  obtain ⟨cx, ipx, ctxx, sysx⟩ := sx
  simp only at hlenx hopx hsame hctx hsys hword
  subst hsame hctx hsys
  have hfit2 := hfit
  rw [← hT] at hfit2
  have hstep := step_coerce_eq env s hlen hop hfit2
  rw [hT] at hstep
  have hTx : env.getTypeFromMultiname (readU64 cx (s.instructionPointer + 1))
      { context := { s.context with exec_pos := s.instructionPointer }, sys := s.sys } = T := by
    rw [hword]
    exact hT
  have hfitx := hfit
  rw [← hTx] at hfitx
  have hstepx := step_coerce_eq env (VMState.mk cx s.instructionPointer s.context s.sys)
    hlenx hopx hfitx
  simp only [hTx] at hstepx
  have hr := rewritten_operand s.code s.instructionPointer 0xfc T hlen hfit
  have hrx := rewritten_operand cx s.instructionPointer 0xfc T hlenx hfit
  have hcode : (step env s).state.code
      = writeU64 (s.code.set (s.instructionPointer + 1 - 1) 0xfc) (s.instructionPointer + 1) T := by
    rw [hstep, op_coerceearly_code]
  have hcodex : (step env (VMState.mk cx s.instructionPointer s.context s.sys)).state.code
      = writeU64 (cx.set (s.instructionPointer + 1 - 1) 0xfc) (s.instructionPointer + 1) T := by
    rw [hstepx, op_coerceearly_code]
  have hww := op_coerceearly_word env (s.instructionPointer + 1)
    { code := writeU64 (s.code.set (s.instructionPointer + 1 - 1) 0xfc)
        (s.instructionPointer + 1) T
      instructionPointer := s.instructionPointer + 1
      context := { s.context with exec_pos := s.instructionPointer }
      sys := s.sys }
    { code := writeU64 (cx.set (s.instructionPointer + 1 - 1) 0xfc)
        (s.instructionPointer + 1) T
      instructionPointer := s.instructionPointer + 1
      context := { s.context with exec_pos := s.instructionPointer }
      sys := s.sys }
    (by
      show readU64 _ (s.instructionPointer + 1) = readU64 _ (s.instructionPointer + 1)
      rw [hr, hrx])
    rfl rfl rfl
  rw [← hstep, ← hstepx] at hww
  refine ⟨by rw [hcode]; exact hr, by rw [hcodex]; exact hrx,
    hww.1, hww.2.1, hww.2.2.1, hww.2.2.2, ?_⟩
  intro o r rest h hstack hmax hc
  rw [hstep]
  exact ⟨_, op_coerceearly_ok env _ _ o r rest h hstack hmax (by simp only [hr]; exact hc),
    rfl, rfl⟩

theorem C31_coerce_operand_witness :
    readU64 (step Env.typed (coerceState 1)).state.code 1 = 4294967305
    ∧ (step Env.typed (exampleState [0x80, 9, 0, 0, 0, 1, 0, 0, 0, 0x47] [3])).state.context
        = (step Env.typed (coerceState 1)).state.context
    ∧ ∃ s1, step Env.typed (coerceState 1) = Res.ok next s1
      ∧ s1.context.stack = [4294967305] := by
  have h := C31_coerce_operand Env.typed (coerceState 1)
    (exampleState [0x80, 9, 0, 0, 0, 1, 0, 0, 0, 0x47] [3]) 4294967305
    (by decide) (by decide) (by decide) (by decide) rfl rfl rfl (by decide) (by decide)
    (by decide)
  obtain ⟨s1, h1, h2, _⟩ := h.2.2.2.2.2.2 3 4294967305 [] exampleSys rfl (by decide) rfl
  exact ⟨h.1, h.2.2.2.1, s1, h1, h2⟩

theorem getSys_ok (s : VMState) : getSys s = Res.ok s.sys s := rfl

theorem hasType_ne_zero (h : SystemState) (v : Nat) (t : SWFOBJECT_TYPE)
    (ht : h.hasType v t = true) : v ≠ 0 := by
  intro hv
  subst hv
  simp [SystemState.hasType, SystemState.deref] at ht

theorem hasType_unique (h : SystemState) (v : Nat) (t u : SWFOBJECT_TYPE)
    (ht : h.hasType v t = true) (hne : u ≠ t) : h.hasType v u = false := by
  unfold SystemState.hasType at ht ⊢
  cases hd : h.deref v with
  | none => rfl
  | some o =>
    rw [hd] at ht
    simp only [decide_eq_true_eq] at ht
    simp only [decide_eq_false_iff_not]
    rw [ht]
    exact fun h2 => hne h2.symm

theorem hasType_alloc_new (h : SystemState) (o : ASObject) :
    SystemState.hasType { h with objects := h.objects ++ [o] } (h.objects.length + 1) o.type
      = true := by
  unfold SystemState.hasType
  rw [deref_alloc_new]
  simp

/-- A conversion opcode whose operand already has the target tag falls through
its test: nothing is popped, pushed, counted or called. -/
theorem step_convert_noop (env : Env) (s : VMState) (op : Nat) (t : SWFOBJECT_TYPE)
    (v : Nat) (rest : List Nat)
    (hip : s.instructionPointer < s.code.length)
    (hop : byteAt s.code s.instructionPointer = op)
    (hform : (op = 0x73 ∧ t = T_INTEGER) ∨ (op = 0x74 ∧ t = T_UINTEGER)
      ∨ (op = 0x75 ∧ t = T_NUMBER) ∨ (op = 0x76 ∧ t = T_BOOLEAN))
    (hstack : s.context.stack = v :: rest)
    (ht : s.sys.hasType v t = true) :
    step env s = Res.ok next (enterCase s) := by
  have hv := hasType_ne_zero _ _ _ ht
  rw [step_eq env s hip, hop]
  rcases hform with ⟨h1, h2⟩ | ⟨h1, h2⟩ | ⟨h1, h2⟩ | ⟨h1, h2⟩
  · subst h1 h2
    rw [execOpcode_73]
    simp [op_convert_i, runtime_stack_peek, hstack, getSys, hv, ht, enterCase]
  · subst h1 h2
    rw [execOpcode_74]
    simp [op_convert_u, runtime_stack_peek, hstack, getSys, hv, ht, enterCase]
  · subst h1 h2
    rw [execOpcode_75]
    simp [op_convert_d, runtime_stack_peek, hstack, getSys, hv, ht, enterCase,
      hasType_unique _ _ _ T_INTEGER ht (by decide),
      hasType_unique _ _ _ T_BOOLEAN ht (by decide),
      hasType_unique _ _ _ T_UINTEGER ht (by decide)]
  · subst h1 h2
    rw [execOpcode_76]
    simp [op_convert_b, runtime_stack_peek, hstack, getSys, hv, ht, enterCase]

/-- The conversion path shared by the four opcodes: pop, convert, box, push.
When it completes, the top of the stack is a fresh object with the tag of the
box. -/
theorem convert_path_tag {α : Type} (f : Nat → M SystemState α) (box : α → M SystemState Nat)
    (t : SWFOBJECT_TYPE) (o : α → ASObject) (ho : ∀ a, (o a).type = t)
    (hbox : ∀ a h, box a h = alloc (o a) h)
    (s s1 : VMState) (c : LoopCtl)
    (h : (do
      let val ← runtime_stack_pop
      let i ← onSys (f val)
      let r ← onSys (box i)
      runtime_stack_push r
      pure next) s = Res.ok c s1) :
    ∃ v rest, s1.context.stack = v :: rest ∧ s1.sys.hasType v t = true := by
  cases hst : s.context.stack with
  | nil => simp [runtime_stack_pop, hst] at h
  | cons w rest =>
    rw [bind_ok (pop_ok s w rest hst)] at h
    cases hf : f w s.sys with
    | throw e h1 => simp [onSys, hf] at h
    | ok a h1 =>
      by_cases hroom : rest.length < s.context.max_stack
      · simp [onSys, hf, hbox, alloc, runtime_stack_push, hroom] at h
        refine ⟨h1.objects.length + 1, rest, ?_, ?_⟩
        · rw [← h.2]
        · rw [← h.2, ← ho a]
          exact hasType_alloc_new h1 (o a)
      · simp [onSys, hf, hbox, alloc, runtime_stack_push, hroom] at h

theorem convert_i_tag (env : Env) (s s1 : VMState) (c : LoopCtl)
    (h : op_convert_i env s = Res.ok c s1) :
    ∃ v rest, s1.context.stack = v :: rest ∧ s1.sys.hasType v T_INTEGER = true := by
  unfold op_convert_i at h
  cases hst : s.context.stack with
  | nil => simp [runtime_stack_peek, runtime_stack_pop, hst, getSys] at h
  | cons w rest =>
    rw [bind_ok (show runtime_stack_peek s = Res.ok w s by simp [runtime_stack_peek, hst]),
      bind_ok (getSys_ok _)] at h
    by_cases hc : w = 0 ∨ s.sys.hasType w T_INTEGER = false
    · rw [if_pos hc] at h
      exact convert_path_tag (fun _ => env.convert_i w) abstract_i T_INTEGER
        (fun i => { type := T_INTEGER, ref_count := 1, val := toInt32 i, ival := 0, dval := 0,
                    isfloat := false }) (fun _ => rfl) (fun _ _ => rfl) s s1 c h
    · rw [if_neg hc] at h
      simp only [M_pure_apply, Res.ok.injEq] at h
      refine ⟨w, rest, by rw [← h.2]; exact hst, ?_⟩
      rw [← h.2]
      cases hh : s.sys.hasType w T_INTEGER with
      | true => rfl
      | false => exact absurd (Or.inr hh) hc

theorem convert_u_tag (env : Env) (s s1 : VMState) (c : LoopCtl)
    (h : op_convert_u env s = Res.ok c s1) :
    ∃ v rest, s1.context.stack = v :: rest ∧ s1.sys.hasType v T_UINTEGER = true := by
  unfold op_convert_u at h
  cases hst : s.context.stack with
  | nil => simp [runtime_stack_peek, runtime_stack_pop, hst, getSys] at h
  | cons w rest =>
    rw [bind_ok (show runtime_stack_peek s = Res.ok w s by simp [runtime_stack_peek, hst]),
      bind_ok (getSys_ok _)] at h
    by_cases hc : w = 0 ∨ s.sys.hasType w T_UINTEGER = false
    · rw [if_pos hc] at h
      exact convert_path_tag (fun _ => env.convert_u w) abstract_ui T_UINTEGER
        (fun i => { type := T_UINTEGER, ref_count := 1, val := toUInt32 i, ival := 0, dval := 0,
                    isfloat := false }) (fun _ => rfl) (fun _ _ => rfl) s s1 c h
    · rw [if_neg hc] at h
      simp only [M_pure_apply, Res.ok.injEq] at h
      refine ⟨w, rest, by rw [← h.2]; exact hst, ?_⟩
      rw [← h.2]
      cases hh : s.sys.hasType w T_UINTEGER with
      | true => rfl
      | false => exact absurd (Or.inr hh) hc

theorem convert_b_tag (env : Env) (s s1 : VMState) (c : LoopCtl)
    (h : op_convert_b env s = Res.ok c s1) :
    ∃ v rest, s1.context.stack = v :: rest ∧ s1.sys.hasType v T_BOOLEAN = true := by
  unfold op_convert_b at h
  cases hst : s.context.stack with
  | nil => simp [runtime_stack_peek, runtime_stack_pop, hst, getSys] at h
  | cons w rest =>
    rw [bind_ok (show runtime_stack_peek s = Res.ok w s by simp [runtime_stack_peek, hst]),
      bind_ok (getSys_ok _)] at h
    by_cases hc : w = 0 ∨ s.sys.hasType w T_BOOLEAN = false
    · rw [if_pos hc] at h
      exact convert_path_tag (fun _ => env.convert_b w) abstract_b T_BOOLEAN
        (fun b => { type := T_BOOLEAN, ref_count := 1, val := if b then 1 else 0, ival := 0,
                    dval := 0, isfloat := false }) (fun _ => rfl) (fun _ _ => rfl) s s1 c h
    · rw [if_neg hc] at h
      simp only [M_pure_apply, Res.ok.injEq] at h
      refine ⟨w, rest, by rw [← h.2]; exact hst, ?_⟩
      rw [← h.2]
      cases hh : s.sys.hasType w T_BOOLEAN with
      | true => rfl
      | false => exact absurd (Or.inr hh) hc

theorem hasType_zero (h : SystemState) (t : SWFOBJECT_TYPE) : h.hasType 0 t = false := by
  simp [SystemState.hasType, SystemState.deref]

theorem convert_d_tag (env : Env) (s s1 : VMState) (c : LoopCtl)
    (h : op_convert_d env s = Res.ok c s1) :
    ∃ v rest, s1.context.stack = v :: rest ∧ s1.sys.hasType v T_NUMBER = true := by
  unfold op_convert_d at h
  cases hst : s.context.stack with
  | nil => simp [runtime_stack_peek, runtime_stack_pop, hst] at h
  | cons w rest =>
    rw [bind_ok (show runtime_stack_peek s = Res.ok w s by simp [runtime_stack_peek, hst])] at h
    by_cases hw : w = 0
    · subst hw
      simp only [if_true] at h
      rw [bind_ok (pop_ok s 0 rest hst)] at h
      rw [bind_ok (M_pure_apply _ _), bind_ok (getSys_ok _)] at h
      simp only [hasType_zero, Bool.or_self, Bool.false_eq_true, if_false] at h
      exact convert_path_tag (fun val => env.convert_d val) abstract_d T_NUMBER
        (fun d => { type := T_NUMBER, ref_count := 1, val := 0, ival := 0, dval := d,
                    isfloat := true }) (fun _ => rfl) (fun _ _ => rfl) _ s1 c h
    · simp only [hw, if_false] at h
      rw [bind_ok (M_pure_apply _ _), bind_ok (getSys_ok _)] at h
      by_cases hA : (s.sys.hasType w T_INTEGER || s.sys.hasType w T_BOOLEAN
          || s.sys.hasType w T_UINTEGER) = true
      · rw [if_pos hA] at h
        exact convert_path_tag (fun val => env.convert_di val) abstract_di T_NUMBER
          (fun i => { type := T_NUMBER, ref_count := 1, val := 0, ival := toInt64 i, dval := 0,
                      isfloat := false }) (fun _ => rfl) (fun _ _ => rfl) _ s1 c h
      · rw [if_neg hA] at h
        by_cases hN : s.sys.hasType w T_NUMBER = true
        · rw [if_pos hN] at h
          simp only [M_pure_apply, Res.ok.injEq] at h
          refine ⟨w, rest, by rw [← h.2]; exact hst, ?_⟩
          rw [← h.2]
          exact hN
        · rw [if_neg hN] at h
          exact convert_path_tag (fun val => env.convert_d val) abstract_d T_NUMBER
            (fun d => { type := T_NUMBER, ref_count := 1, val := 0, ival := 0, dval := d,
                        isfloat := true }) (fun _ => rfl) (fun _ _ => rfl) _ s1 c h

/-- C32: the conversions are no-ops on values that already have the target
tag. For convert_i (0x73) and Integer, convert_u (0x74) and UInteger,
convert_d (0x75) and Number, convert_b (0x76) and Boolean: when the top of
the stack has the target tag the iteration completes in the state in which
the case was entered (`enterCase`: same operand stack with the very same
object, same objects and reference counts), whatever the conversion
primitives of the environment are, so none is called. And whenever the opcode
completes, on any operand, the top of the stack has the target tag, so the same
opcode executed next changes nothing any more. -/
theorem C32_convert_noop (env : Env) (s : VMState) (op : Nat) (t : SWFOBJECT_TYPE)
    (hip : s.instructionPointer < s.code.length)
    (hop : byteAt s.code s.instructionPointer = op)
    (hform : (op = 0x73 ∧ t = T_INTEGER) ∨ (op = 0x74 ∧ t = T_UINTEGER)
      ∨ (op = 0x75 ∧ t = T_NUMBER) ∨ (op = 0x76 ∧ t = T_BOOLEAN)) :
    (∀ v rest, s.context.stack = v :: rest → s.sys.hasType v t = true →
      step env s = Res.ok next (enterCase s)
      ∧ (enterCase s).context.stack = v :: rest
      ∧ (enterCase s).sys = s.sys)
    ∧ (∀ s1, step env s = Res.ok next s1 →
      (∃ v rest, s1.context.stack = v :: rest ∧ s1.sys.hasType v t = true)
      ∧ (s1.instructionPointer < s1.code.length →
          byteAt s1.code s1.instructionPointer = op →
          step env s1 = Res.ok next (enterCase s1)
          ∧ (enterCase s1).context.stack = s1.context.stack
          ∧ (enterCase s1).sys = s1.sys)) := by
  have htag : ∀ s1, step env s = Res.ok next s1 →
      ∃ v rest, s1.context.stack = v :: rest ∧ s1.sys.hasType v t = true := by
    intro s1 h
    rw [step_eq env s hip, hop] at h
    rcases hform with ⟨h1, h2⟩ | ⟨h1, h2⟩ | ⟨h1, h2⟩ | ⟨h1, h2⟩
    · subst h1 h2
      rw [execOpcode_73] at h
      exact convert_i_tag env _ s1 next h
    · subst h1 h2
      rw [execOpcode_74] at h
      exact convert_u_tag env _ s1 next h
    · subst h1 h2
      rw [execOpcode_75] at h
      exact convert_d_tag env _ s1 next h
    · subst h1 h2
      rw [execOpcode_76] at h
      exact convert_b_tag env _ s1 next h
  refine ⟨fun v rest hstack ht =>
    ⟨step_convert_noop env s op t v rest hip hop hform hstack ht, hstack, rfl⟩,
    fun s1 h => ⟨htag s1 h, fun hip1 hop1 => ?_⟩⟩
  obtain ⟨v, rest, hstack1, ht1⟩ := htag s1 h
  exact ⟨step_convert_noop env s1 op t v rest hip1 hop1 hform hstack1 ht1, rfl, rfl⟩

theorem C32_convert_noop_witness :
    (step Env.failing (convertState 0x73 3) = Res.ok next (enterCase (convertState 0x73 3))
      ∧ (enterCase (convertState 0x73 3)).context.stack = [3]
      ∧ (enterCase (convertState 0x73 3)).sys = exampleSys)
    ∧ (∃ s1, step Env.converting (convertState 0x73 7) = Res.ok next s1
      ∧ s1.context.stack = [8]
      ∧ step Env.converting s1 = Res.ok next (enterCase s1)) := by
  constructor
  · exact (C32_convert_noop Env.failing (convertState 0x73 3) 0x73 T_INTEGER (by decide)
      (by decide) (Or.inl ⟨rfl, rfl⟩)).1 3 [] rfl (by decide)
  · have hrun : ∃ s1, step Env.converting (convertState 0x73 7) = Res.ok next s1
        ∧ s1.context.stack = [8] ∧ s1.instructionPointer = 1
        ∧ s1.code = [0x73, 0x73, 0x48] := by
      apply Exists.intro
      refine ⟨?h1, ?h2⟩
      case h1 =>
        rw [step_eq Env.converting (convertState 0x73 7) (by decide)]
        rfl
      case h2 => exact ⟨rfl, rfl, rfl⟩
    obtain ⟨s1, h1, h2, h3, h4⟩ := hrun
    exact ⟨s1, h1, h2,
      ((C32_convert_noop Env.converting (convertState 0x73 7) 0x73 T_INTEGER (by decide)
        (by decide) (Or.inl ⟨rfl, rfl⟩)).2 s1 h1).2
          (by rw [h3, h4]; decide) (by rw [h3, h4]; decide) |>.1⟩

theorem negate_test (h : SystemState) (v : Nat) :
    (isIntegral h v && decide (toInt64Value h v ≠ 0)
        && decide (toInt64Value h v = toIntValue h v)) = true
      ↔ (isIntegral h v = true ∧ toInt64Value h v ≠ 0
        ∧ -2147483648 ≤ toInt64Value h v ∧ toInt64Value h v < 2147483648) := by
  have hr := toInt32_range (toInt64Value h v)
  unfold toIntValue
  constructor
  · intro hc
    simp only [Bool.and_eq_true, decide_eq_true_eq] at hc
    refine ⟨hc.1.1, hc.1.2, ?_, ?_⟩
    · rw [hc.2]
      exact hr.1
    · rw [hc.2]
      exact hr.2
  · intro hc
    simp only [Bool.and_eq_true, decide_eq_true_eq]
    exact ⟨⟨hc.1, hc.2.1⟩, (toInt32_of_range _ hc.2.2.1 hc.2.2.2).symm⟩

theorem op_negate_int (env : Env) (s : VMState) (v : Nat) (rest : List Nat)
    (hstack : s.context.stack = v :: rest)
    (hc : (isIntegral s.sys v && decide (toInt64Value s.sys v ≠ 0)
        && decide (toInt64Value s.sys v = toIntValue s.sys v)) = true) :
    op_negate env s = (do
      let i ← onSys (env.negate_i v)
      let r ← onSys (abstract_di i)
      runtime_stack_push r
      pure next) { s with context := { s.context with stack := rest } } := by
  unfold op_negate
  rw [bind_ok (pop_ok s v rest hstack)]
  rw [bind_ok (getSys_ok _)]
  rw [if_pos (by exact hc)]

theorem op_negate_dbl (env : Env) (s : VMState) (v : Nat) (rest : List Nat)
    (hstack : s.context.stack = v :: rest)
    (hc : ¬ (isIntegral s.sys v && decide (toInt64Value s.sys v ≠ 0)
        && decide (toInt64Value s.sys v = toIntValue s.sys v)) = true) :
    op_negate env s = (do
      let d ← onSys (env.negate v)
      let r ← onSys (abstract_d d)
      runtime_stack_push r
      pure next) { s with context := { s.context with stack := rest } } := by
  unfold op_negate
  rw [bind_ok (pop_ok s v rest hstack)]
  rw [bind_ok (getSys_ok _)]
  rw [if_neg (by exact hc)]

theorem boxed_run {α : Type} (f : M SystemState α) (box : α → M SystemState Nat)
    (o : α → ASObject) (hbox : ∀ a h, box a h = alloc (o a) h)
    (s : VMState) (hroom : s.context.stack.length < s.context.max_stack) :
    (∀ a h1, f s.sys = Res.ok a h1 →
      (do
        let a ← onSys f
        let r ← onSys (box a)
        runtime_stack_push r
        pure next) s = Res.ok next
        { s with
          context := { s.context with stack := (h1.objects.length + 1) :: s.context.stack }
          sys := { h1 with objects := h1.objects ++ [o a] } })
    ∧ (∀ e h1, f s.sys = Res.throw e h1 →
      (do
        let a ← onSys f
        let r ← onSys (box a)
        runtime_stack_push r
        pure next) s = Res.throw e { s with sys := h1 }) := by
  constructor
  · intro a h1 hf
    simp [onSys, hf, hbox, alloc, runtime_stack_push, hroom]
  · intro e h1 hf
    simp [onSys, hf]

/-- C33: negate (0x90) on a stack `v :: rest`. The integer path is taken
exactly when `v` is integral, its 64-bit value is not zero and is in the
signed 32-bit range (equals its `toInt()`): then the result of `negate_i` is
boxed as an integral Number. In every other case, so for an integral zero and
for an integral value outside the signed 32-bit range, the double returned by
the primitive `negate` is boxed, as it is, as a Number with is-float set (the
bits of -0 when the primitive returns them). An error of the primitive ends
the iteration with the operand popped. -/
theorem C33_negate (env : Env) (s : VMState) (v : Nat) (rest : List Nat)
    (hip : s.instructionPointer < s.code.length)
    (hop : byteAt s.code s.instructionPointer = 0x90)
    (hstack : s.context.stack = v :: rest)
    (hmax : s.context.stack.length ≤ s.context.max_stack) :
    (isIntegral s.sys v = true ∧ toInt64Value s.sys v ≠ 0
        ∧ -2147483648 ≤ toInt64Value s.sys v ∧ toInt64Value s.sys v < 2147483648 →
      (∀ i h1, env.negate_i v s.sys = Res.ok i h1 →
        step env s = Res.ok next
          { code := s.code
            instructionPointer := s.instructionPointer + 1
            context := { s.context with
              exec_pos := s.instructionPointer
              stack := (h1.objects.length + 1) :: rest }
            sys := { h1 with
              objects := h1.objects ++
                [{ type := T_NUMBER, ref_count := 1, val := 0, ival := toInt64 i, dval := 0,
                   isfloat := false }] } })
      ∧ (∀ e h1, env.negate_i v s.sys = Res.throw e h1 →
        step env s = Res.throw e
          { code := s.code
            instructionPointer := s.instructionPointer + 1
            context := { s.context with exec_pos := s.instructionPointer, stack := rest }
            sys := h1 }))
    ∧ (¬ (isIntegral s.sys v = true ∧ toInt64Value s.sys v ≠ 0
        ∧ -2147483648 ≤ toInt64Value s.sys v ∧ toInt64Value s.sys v < 2147483648) →
      (∀ d h1, env.negate v s.sys = Res.ok d h1 →
        step env s = Res.ok next
          { code := s.code
            instructionPointer := s.instructionPointer + 1
            context := { s.context with
              exec_pos := s.instructionPointer
              stack := (h1.objects.length + 1) :: rest }
            sys := { h1 with
              objects := h1.objects ++
                [{ type := T_NUMBER, ref_count := 1, val := 0, ival := 0, dval := d,
                   isfloat := true }] } })
      ∧ (∀ e h1, env.negate v s.sys = Res.throw e h1 →
        step env s = Res.throw e
          { code := s.code
            instructionPointer := s.instructionPointer + 1
            context := { s.context with exec_pos := s.instructionPointer, stack := rest }
            sys := h1 })) := by
  have hroom : rest.length < s.context.max_stack := by
    rw [hstack] at hmax
    simp at hmax
    omega
  have hst : (enterCase s).context.stack = v :: rest := hstack
  constructor
  · intro hc
    have hc2 := (negate_test s.sys v).mpr hc
    have hrun := op_negate_int env (enterCase s) v rest hst hc2
    have hb := boxed_run (env.negate_i v) abstract_di
      (fun i => { type := T_NUMBER, ref_count := 1, val := 0, ival := toInt64 i, dval := 0,
                  isfloat := false }) (fun _ _ => rfl)
      { enterCase s with context := { (enterCase s).context with stack := rest } } hroom
    constructor
    · intro i h1 hf
      rw [step_eq env s hip, hop, execOpcode_90]
      exact hrun.trans (hb.1 i h1 hf)
    · intro e h1 hf
      rw [step_eq env s hip, hop, execOpcode_90]
      exact hrun.trans (hb.2 e h1 hf)
  · intro hc
    have hc2 : ¬ (isIntegral s.sys v && decide (toInt64Value s.sys v ≠ 0)
        && decide (toInt64Value s.sys v = toIntValue s.sys v)) = true :=
      fun h => hc ((negate_test s.sys v).mp h)
    have hrun := op_negate_dbl env (enterCase s) v rest hst hc2
    have hb := boxed_run (env.negate v) abstract_d
      (fun d => { type := T_NUMBER, ref_count := 1, val := 0, ival := 0, dval := d,
                  isfloat := true }) (fun _ _ => rfl)
      { enterCase s with context := { (enterCase s).context with stack := rest } } hroom
    constructor
    · intro d h1 hf
      rw [step_eq env s hip, hop, execOpcode_90]
      exact hrun.trans (hb.1 d h1 hf)
    · intro e h1 hf
      rw [step_eq env s hip, hop, execOpcode_90]
      exact hrun.trans (hb.2 e h1 hf)

theorem C33_negate_witness :
    (∃ s1 r o, step Env.negating (negateState 3) = Res.ok next s1
      ∧ s1.context.stack = [r] ∧ s1.sys.deref r = some o
      ∧ o.type = T_NUMBER ∧ o.isfloat = false ∧ o.ival = -7)
    ∧ (∃ s1 r o, step Env.negating (negateState 5) = Res.ok next s1
      ∧ s1.context.stack = [r] ∧ s1.sys.deref r = some o
      ∧ o.type = T_NUMBER ∧ o.isfloat = true ∧ o.dval = 0x8000000000000000) := by
  constructor
  · have h := ((C33_negate Env.negating (negateState 3) 3 [] (by decide) (by decide) rfl
      (by decide)).1 (by decide)).1 (-7) exampleSys rfl
    exact ⟨_, _, _, h, rfl, rfl, rfl, rfl, rfl⟩
  · have h := ((C33_negate Env.negating (negateState 5) 5 [] (by decide) (by decide) rfl
      (by decide)).2 (by decide)).1 0x8000000000000000 exampleSys rfl
    exact ⟨_, _, _, h, rfl, rfl, rfl, rfl, rfl⟩

theorem step_lookupswitch_reject (env : Env) (s : VMState) (v : Nat) (rest : List Nat)
    (hip : s.instructionPointer < s.code.length)
    (hop : byteAt s.code s.instructionPointer = 0x1b)
    (hstack : s.context.stack = v :: rest)
    (ht : s.sys.hasType v T_INTEGER = false) :
    step env s = Res.throw ASError.AssertionException
      { code := s.code
        instructionPointer := s.instructionPointer + 1
        context := { s.context with exec_pos := s.instructionPointer, stack := rest }
        sys := s.sys } := by
  rw [step_eq env s hip, hop, execOpcode_1b]
  simp [op_lookupswitch, uints, runtime_stack_pop, hstack, getSys, assert_and_throw, ht]

/-- C34: lookupswitch (0x1B) on a stack whose top is an object with a type tag
other than Integer (a UInteger, a Number, a Boolean, ...) pops that value and
throws at its `assert_and_throw`: the iteration, and so the run whatever the
fuel, ends with an AssertionException in a state whose operand stack is the
rest of the stack, whose objects are untouched and whose instruction pointer
is still just past the opcode byte, so at no case target and not at the
default target. -/
theorem C34_lookupswitch_rejects (env : Env) (s : VMState) (v : Nat) (rest : List Nat)
    (o : ASObject) (fuel : Nat)
    (hip : s.instructionPointer < s.code.length)
    (hop : byteAt s.code s.instructionPointer = 0x1b)
    (hstack : s.context.stack = v :: rest)
    (hd : s.sys.deref v = some o) (ht : o.type ≠ T_INTEGER) :
    ∃ s1, step env s = Res.throw ASError.AssertionException s1
      ∧ loop env (fuel + 1) s = some (Res.throw ASError.AssertionException s1)
      ∧ s1.context.stack = rest
      ∧ s1.instructionPointer = s.instructionPointer + 1
      ∧ s1.context.locals = s.context.locals
      ∧ s1.sys = s.sys
      ∧ s1.code = s.code := by
  have hty : s.sys.hasType v T_INTEGER = false := by
    unfold SystemState.hasType
    rw [hd]
    exact decide_eq_false ht
  have h := step_lookupswitch_reject env s v rest hip hop hstack hty
  exact ⟨_, h, loop_step_throw env fuel s _ _ h, rfl, rfl, rfl, rfl, rfl⟩

theorem C34_lookupswitch_rejects_witness :
    (∃ s1, loop Env.failing 5 (switchState 8) = some (Res.throw ASError.AssertionException s1)
      ∧ s1.context.stack = [] ∧ s1.instructionPointer = 1)
    ∧ (∃ s1, loop Env.failing 5 (switchState 9) = some (Res.throw ASError.AssertionException s1)
      ∧ s1.context.stack = [] ∧ s1.instructionPointer = 1) := by
  constructor
  · obtain ⟨s1, _, h2, h3, h4, _⟩ :=
      C34_lookupswitch_rejects Env.failing (switchState 8) 8 [] (exampleUInteger 0) 4
        (by decide) (by decide) rfl rfl (by decide)
    exact ⟨s1, h2, h3, h4⟩
  · obtain ⟨s1, _, h2, h3, h4, _⟩ :=
      C34_lookupswitch_rejects Env.failing (switchState 9) 9 []
        { type := T_NUMBER, ref_count := 1, val := 0, ival := 0, dval := 0, isfloat := false } 4
        (by decide) (by decide) rfl rfl (by decide)
    exact ⟨s1, h2, h3, h4⟩

end Lightspark
